import Mathlib

/-!
# Polaron sequencer control engine

A shallow embedding of `Software/Polaron/Sequencer.cpp` (the sequencer controller of the
Polaron drum machine) together with the properties of its clock source, MIDI input,
function-mode classification and sound triggering.

Conventions of the embedding

* Member variables of `Sequencer` are fields of the structure `Sequencer`; a member function
  `void f()` is a function `Sequencer → Sequencer`, a member function returning a value returns
  a pair of the value and the new state.
* `millis()` and `analogRead(pin)` are reads of the environment: the functions that call them
  take the value read as an argument.
* The debounced buttons (`Bounce`) are refreshed by the scanning loop outside `Sequencer.cpp`;
  the embedding stores the three readings `rose()`, `read()`, `fell()` of every button.
* Calls on the voice endpoints and mixers are recorded, in order, in the field `log`;
  `doStep` and `doTriggerSounds` additionally record their own invocation.
* Arrays are lists indexed by natural numbers; a read outside the list yields the default
  element and a write outside the list is dropped (in C++ both are undefined behaviour).
* `Software/Polaron/ProjectPersistence.cpp` is embedded next to it. The indices of `load` come
  from the file that is read, so there an index outside an array is not passed over: the call
  then has no outcome (`none`).
-/

namespace Polaron

/-! ## Input surface -/

/-- Readings of one debounced button: `rose()` (pressed down since the last scan), `read()`
(currently down) and `fell()` (released since the last scan). -/
structure Bounce where
  rose : Bool := false
  read : Bool := false
  fell : Bool := false
deriving DecidableEq, Repr, Inhabited

/-- The array `functionButtons`, addressed by the constants `BUTTON_STARTSTOP`,
`BUTTON_TOGGLE_PLOCK`, `BUTTON_TOGGLE_MUTE`, `BUTTON_SET_TRACKLENGTH`, `BUTTON_SET_PATTERN`,
`BUTTON_SET_PARAMSET_1`, `BUTTON_SET_PARAMSET_2`, `BUTTON_SET_PARAMSET_3`. The numeric values of
the constants are declared in `Sequencer.h`; the embedding addresses the cells by name. -/
structure FunctionButtons where
  BUTTON_STARTSTOP : Bounce := {}
  BUTTON_TOGGLE_PLOCK : Bounce := {}
  BUTTON_TOGGLE_MUTE : Bounce := {}
  BUTTON_SET_TRACKLENGTH : Bounce := {}
  BUTTON_SET_PATTERN : Bounce := {}
  BUTTON_SET_PARAMSET_1 : Bounce := {}
  BUTTON_SET_PARAMSET_2 : Bounce := {}
  BUTTON_SET_PARAMSET_3 : Bounce := {}
deriving DecidableEq, Repr, Inhabited

/-- Modelled from the spec: the analog controller class behind `input1` and `input2` (its source
is not part of `Sequencer.cpp`). It holds the last raw read, the last published value and an
activity latch; `deadband` is the constant DEADBAND of the spec, whose value the spec leaves
open. -/
structure AnalogController where
  lastRaw : Nat := 0
  value : Nat := 0
  active : Bool := false
  deadband : Nat := 0
deriving DecidableEq, Repr, Inhabited

namespace AnalogController

/-- Modelled from the spec: `update(raw)` publishes `raw` and sets the activity latch when
`|raw − lastPublished| > DEADBAND`. -/
def update (c : AnalogController) (raw : Nat) : AnalogController :=
  if c.deadband < (if raw ≤ c.value then c.value - raw else raw - c.value) then
    { c with lastRaw := raw, value := raw, active := true }
  else
    { c with lastRaw := raw }

/-- Modelled from the spec: `deactivate()` clears the activity latch. -/
def deactivate (c : AnalogController) : AnalogController :=
  { c with active := false }

/-- Modelled from the spec: `isActive()` returns the latch. -/
def isActive (c : AnalogController) : Bool := c.active

/-- Modelled from the spec: `getValue()` returns the last published raw value. -/
def getValue (c : AnalogController) : Nat := c.value

end AnalogController

/-! ## Step, pattern, track -/

/-- Modelled from the spec: a step (class `SequencerStep`, declared outside `Sequencer.cpp`).
`state` is the two-bit field (bit 0 = trigger on, bit 1 = parameter-lock record on), followed by
the trigger mask and the six parameter values. -/
structure SequencerStep where
  state : Nat := 0
  triggerMask : Nat := 63
  parameter1 : Nat := 0
  parameter2 : Nat := 0
  parameter3 : Nat := 0
  parameter4 : Nat := 0
  parameter5 : Nat := 0
  parameter6 : Nat := 0
deriving DecidableEq, Repr

instance : Inhabited SequencerStep := ⟨{}⟩

namespace SequencerStep

/-- Modelled from the spec: `isTriggerOn()` is bit 0 of `state`. -/
def isTriggerOn (st : SequencerStep) : Bool := st.state.testBit 0

/-- Modelled from the spec: `isParameterLockOn()` is bit 1 of `state`. -/
def isParameterLockOn (st : SequencerStep) : Bool := st.state.testBit 1

/-- Modelled from the spec: `toggleTriggerState()` flips bit 0. -/
def toggleTriggerState (st : SequencerStep) : SequencerStep :=
  { st with state := st.state ^^^ 1 }

/-- Modelled from the spec: `toggleParameterLockRecord()` flips bit 1. -/
def toggleParameterLockRecord (st : SequencerStep) : SequencerStep :=
  { st with state := st.state ^^^ 2 }

/-- Modelled from the spec: `copyValuesFrom(source)` duplicates the state and all six
parameters of the source. -/
def copyValuesFrom (st source : SequencerStep) : SequencerStep :=
  { st with
    state := source.state
    parameter1 := source.parameter1
    parameter2 := source.parameter2
    parameter3 := source.parameter3
    parameter4 := source.parameter4
    parameter5 := source.parameter5
    parameter6 := source.parameter6 }

/-- The value of `parameter1` .. `parameter6`, by number (0 for any other number). -/
def parameter (st : SequencerStep) : Nat → Nat
  | 1 => st.parameter1
  | 2 => st.parameter2
  | 3 => st.parameter3
  | 4 => st.parameter4
  | 5 => st.parameter5
  | 6 => st.parameter6
  | _ => 0

end SequencerStep

/-- Modelled from the spec: a pattern (class `SequencerPattern`, declared outside
`Sequencer.cpp`): sixteen steps, the loop length, the rotation offset, the cursor and the
persisted scratch fields. -/
structure SequencerPattern where
  steps : List SequencerStep := List.replicate 16 {}
  trackLength : Nat := 16
  offset : Nat := 0
  currentStep : Nat := 0
  autoMutate : Bool := false
  triggerState : Nat := 0
  pLockArmState : Nat := 0
deriving DecidableEq, Repr

instance : Inhabited SequencerPattern := ⟨{}⟩

namespace SequencerPattern

/-- Modelled from the spec: `getStep(i)`. -/
def getStep (p : SequencerPattern) (i : Nat) : SequencerStep := p.steps.getD i default

/-- Write-back through the reference returned by `getStep(i)`. -/
def setStep (p : SequencerPattern) (i : Nat) (st : SequencerStep) : SequencerPattern :=
  { p with steps := p.steps.set i st }

/-- Modelled from the spec: the index of the step that is read for the cursor,
`(currentStep + offset) mod 16`. -/
def activeIndex (p : SequencerPattern) : Nat := (p.currentStep + p.offset) % 16

/-- Modelled from the spec: `togglePLockMode()` flips the plock-record bit on all steps whose
trigger bit is set. -/
def togglePLockMode (p : SequencerPattern) : SequencerPattern :=
  { p with steps := p.steps.map fun st =>
      if st.isTriggerOn then st.toggleParameterLockRecord else st }

/-- Modelled from the spec: `turnOffPLockMode()` clears the plock bit on every step. -/
def turnOffPLockMode (p : SequencerPattern) : SequencerPattern :=
  { p with steps := p.steps.map fun st =>
      if st.isParameterLockOn then st.toggleParameterLockRecord else st }

/-- Modelled from the spec: `isInPLockMode()` holds when at least one step has the plock-record
bit set. -/
def isInPLockMode (p : SequencerPattern) : Bool := p.steps.any fun st => st.isParameterLockOn

/-- Modelled from the spec: `copyValuesFrom` on patterns duplicates the steps (state and
parameters of each) of the source pattern. -/
def copyValuesFrom (p source : SequencerPattern) : SequencerPattern :=
  { p with steps := (List.range p.steps.length).map fun i =>
      (p.getStep i).copyValuesFrom (source.getStep i) }

end SequencerPattern

/-- Modelled from the spec: a track (class `SequencerTrack`, declared outside `Sequencer.cpp`).
The process-wide flag "any track has pattern-ops armed" is the disjunction of the per-track
flags and is computed from them (see `Sequencer.anyPatternOpsArmed`). -/
structure SequencerTrack where
  trackNum : Nat := 0
  patterns : List SequencerPattern := List.replicate 8 {}
  currentPatternIndex : Nat := 0
  queuedPatternIndex : Int := -1
  muted : Bool := false
  muteArmed : Bool := false
  patternOpsArmed : Bool := false
deriving DecidableEq, Repr

instance : Inhabited SequencerTrack := ⟨{}⟩

namespace SequencerTrack

/-- Modelled from the spec: `getCurrentPatternIndex()`. -/
def getCurrentPatternIndex (t : SequencerTrack) : Nat := t.currentPatternIndex

/-- Modelled from the spec: `getCurrentPattern()`. -/
def getCurrentPattern (t : SequencerTrack) : SequencerPattern :=
  t.patterns.getD t.currentPatternIndex default

/-- Write-back through the reference returned by `getCurrentPattern()`. -/
def setCurrentPattern (t : SequencerTrack) (p : SequencerPattern) : SequencerTrack :=
  { t with patterns := t.patterns.set t.currentPatternIndex p }

/-- Modelled from the spec: `getCurrentStep()`, the step of the current pattern at the active
index. -/
def getCurrentStep (t : SequencerTrack) : SequencerStep :=
  t.getCurrentPattern.getStep t.getCurrentPattern.activeIndex

/-- Write-back through the reference returned by `getCurrentStep()`. -/
def setCurrentStep (t : SequencerTrack) (st : SequencerStep) : SequencerTrack :=
  t.setCurrentPattern (t.getCurrentPattern.setStep t.getCurrentPattern.activeIndex st)

/-- Modelled from the spec: `isMuted()`. -/
def isMuted (t : SequencerTrack) : Bool := t.muted

/-- Modelled from the spec: `isArmed()`, the mute-arm flag. -/
def isArmed (t : SequencerTrack) : Bool := t.muteArmed

/-- Modelled from the spec: `isPatternOpsArmed()`. -/
def isPatternOpsArmed (t : SequencerTrack) : Bool := t.patternOpsArmed

/-- Modelled from the spec: `toggleMuteArm()`. -/
def toggleMuteArm (t : SequencerTrack) : SequencerTrack := { t with muteArmed := !t.muteArmed }

/-- Modelled from the spec: `activateMuteArms()` flips `muted` when the track is mute-armed and
clears the arm. -/
def activateMuteArms (t : SequencerTrack) : SequencerTrack :=
  if t.muteArmed then { t with muted := !t.muted, muteArmed := false } else t

/-- Modelled from the spec: `unMute()`. -/
def unMute (t : SequencerTrack) : SequencerTrack := { t with muted := false }

/-- Modelled from the spec: `togglePatternOpsArm()`. -/
def togglePatternOpsArm (t : SequencerTrack) : SequencerTrack :=
  { t with patternOpsArmed := !t.patternOpsArmed }

/-- Modelled from the spec: `switchToPattern(i)` records a queued pattern, which takes effect
when the cursor of the current pattern wraps. -/
def switchToPattern (t : SequencerTrack) (i : Int) : SequencerTrack :=
  { t with queuedPatternIndex := i }

/-- Modelled from the spec: `doStep()` advances the cursor by one modulo `trackLength`; at the
wrap it commits the queued pattern when there is one and then applies a pending mute-arm.
(A `trackLength` of 0 is a division by zero in C++; here the cursor then just advances.) -/
def doStep (t : SequencerTrack) : SequencerTrack :=
  let p := t.getCurrentPattern
  let c := (p.currentStep + 1) % p.trackLength
  let t1 := t.setCurrentPattern { p with currentStep := c }
  if c = 0 then
    let t2 : SequencerTrack :=
      if 0 ≤ t1.queuedPatternIndex then
        { t1 with currentPatternIndex := t1.queuedPatternIndex.toNat, queuedPatternIndex := -1 }
      else t1
    t2.activateMuteArms
  else t1

/-- Modelled from the spec: `onStop()` resets the cursor of the current pattern (the spec
names `trackLength - 1` as the value). -/
def onStop (t : SequencerTrack) : SequencerTrack :=
  let p := t.getCurrentPattern
  t.setCurrentPattern { p with currentStep := p.trackLength - 1 }

end SequencerTrack

/-! ## LEDs and voice endpoints -/

/-- The colours of `CRGB` that the sequencer writes; `nscale8 c k` is the colour `c` after
`c.nscale8(k)` (the scaling is done by the LED library). -/
inductive CRGB where
  | Black | Red | Green | CornflowerBlue | DarkOrange | Yellow
  | nscale8 (c : CRGB) (scale : Nat)
deriving DecidableEq, Repr, Inhabited

/-- The cells addressed by `functionLED(BUTTON_...)`, by name of the button. -/
structure FunctionLeds where
  BUTTON_STARTSTOP : CRGB := .Black
  BUTTON_TOGGLE_PLOCK : CRGB := .Black
  BUTTON_TOGGLE_MUTE : CRGB := .Black
  BUTTON_SET_TRACKLENGTH : CRGB := .Black
  BUTTON_SET_PATTERN : CRGB := .Black
  BUTTON_SET_PARAMSET_1 : CRGB := .Black
  BUTTON_SET_PARAMSET_2 : CRGB := .Black
  BUTTON_SET_PARAMSET_3 : CRGB := .Black
deriving DecidableEq, Repr, Inhabited

/-- One observable action of the sequencer: the marker of an invocation of `doStep` or
`doTriggerSounds`, a call on voice endpoint `audioChannels[ch]`, or a call on a mixer
(`mixerL->gain(ch, audioChannels[ch]->getOutput1Gain())` and its right counterpart). -/
inductive Call where
  | doStep
  | doTriggerSounds
  | setParam (ch : Nat) (n : Nat) (value : Nat)
  | trigger (ch : Nat)
  | setVolume (ch : Nat) (value : Nat)
  | setPan (ch : Nat) (value : Nat)
  | mixerLGain (ch : Nat)
  | mixerRGain (ch : Nat)
deriving DecidableEq, Repr, Inhabited

/-! ## The sequencer -/

inductive PLockParamSet where
  | SET1 | SET2 | SET3
deriving DecidableEq, Repr, Inhabited

/-- The number `k` of the parameter set `SETk`. -/
def PLockParamSet.number : PLockParamSet → Nat
  | PLockParamSet.SET1 => 1
  | PLockParamSet.SET2 => 2
  | PLockParamSet.SET3 => 3

inductive FunctionMode where
  | START_STOP
  | SET_TRACK_LENGTH
  | TOGGLE_PLOCKS
  | LEAVE_TOGGLE_PLOCKS
  | TOGGLE_MUTES
  | LEAVE_TOGGLE_MUTES
  | PATTERN_OPS
  | LEAVE_PATTERN_OPS
  | DEFAULT_MODE
deriving DecidableEq, Repr, Inhabited

/-- The number of instrument tracks (`NUMBER_OF_INSTRUMENTTRACKS`; six in the spec). -/
def NUMBER_OF_INSTRUMENTTRACKS : Nat := 6

/-- The number of step buttons (`NUMBER_OF_STEPBUTTONS`; sixteen, one per step). -/
def NUMBER_OF_STEPBUTTONS : Nat := 16

/-- The member variables of class `Sequencer` (declared in `Sequencer.h`). The time stamps and
counters are unbounded naturals: the header that fixes their widths is not part of the
sources, and the timing properties below are stated in exact arithmetic. -/
structure Sequencer where
  functionButtons : FunctionButtons := {}
  trackButtons : List Bounce := List.replicate 6 {}
  stepButtons : List Bounce := List.replicate 16 {}
  functionLeds : FunctionLeds := {}
  trackLeds : List CRGB := List.replicate 6 .Black
  stepLeds : List CRGB := List.replicate 16 .Black
  tracks : List SequencerTrack := List.replicate 6 {}
  input1 : AnalogController := {}
  input2 : AnalogController := {}
  pLockParamSet : PLockParamSet := .SET1
  selectedTrack : Nat := 0
  stepLength : Nat := 125
  nextStepTime : Nat := 0
  lastStepTime : Nat := 0
  pulseCount : Nat := 0
  stepCount : Nat := 0
  sourceStepIndex : Int := -1
  stepCopy : Bool := false
  sourcePatternIndex : Int := -1
  patternCopy : Bool := false
  nextPatternIndex : Int := -1
  trackOrStepButtonPressed : Bool := false
  running : Bool := false
  triggerSounds : Bool := false
  isSyncingToMidiClock : Bool := false
  midiClockReceived : Bool := false
  hasActivePLockReceivers : Bool := false
  ledFader : Nat := 0
  log : List Call := []
deriving DecidableEq, Repr

instance : Inhabited Sequencer := ⟨{}⟩

/-- The counting loop `for (int i = 0; i < n; i++) body`, run on the state `s`. -/
def forLoop {σ : Type} : Nat → (Nat → σ → σ) → σ → σ
  | 0, _, s => s
  | n + 1, body, s => body n (forLoop n body s)

namespace Sequencer

/-- `Sequencer::calculateFunctionMode` (Sequencer.cpp 203-247). -/
def calculateFunctionMode (s : Sequencer) : FunctionMode := Id.run do
  -- START STOP
  if s.functionButtons.BUTTON_STARTSTOP.rose then
    return FunctionMode.START_STOP
  -- PLOCKS
  if s.functionButtons.BUTTON_TOGGLE_PLOCK.read then
    return FunctionMode.TOGGLE_PLOCKS
  if s.functionButtons.BUTTON_TOGGLE_PLOCK.fell && !s.trackOrStepButtonPressed then
    return FunctionMode.LEAVE_TOGGLE_PLOCKS
  -- MUTES
  if s.functionButtons.BUTTON_TOGGLE_MUTE.read then
    return FunctionMode.TOGGLE_MUTES
  if s.functionButtons.BUTTON_TOGGLE_MUTE.fell then
    return FunctionMode.LEAVE_TOGGLE_MUTES
  -- SET TRACK LENGTH
  if s.functionButtons.BUTTON_SET_TRACKLENGTH.read then
    return FunctionMode.SET_TRACK_LENGTH
  -- SWITCH PATTERN
  if s.functionButtons.BUTTON_SET_PATTERN.read then
    return FunctionMode.PATTERN_OPS
  if s.functionButtons.BUTTON_SET_PATTERN.fell then
    return FunctionMode.LEAVE_PATTERN_OPS
  return FunctionMode.DEFAULT_MODE

/-- The track `tracks[i]`. -/
def track (s : Sequencer) (i : Nat) : SequencerTrack := s.tracks.getD i default

/-- Write-back to `tracks[i]`. -/
def setTrack (s : Sequencer) (i : Nat) (t : SequencerTrack) : Sequencer :=
  { s with tracks := s.tracks.set i t }

/-- The step `tracks[selectedTrack].getCurrentPattern().getStep(i)`. -/
def selectedStep (s : Sequencer) (i : Nat) : SequencerStep :=
  (s.track s.selectedTrack).getCurrentPattern.getStep i

/-- Write-back to `tracks[selectedTrack].getCurrentPattern().getStep(i)`. -/
def setSelectedStep (s : Sequencer) (i : Nat) (st : SequencerStep) : Sequencer :=
  s.setTrack s.selectedTrack
    ((s.track s.selectedTrack).setCurrentPattern
      ((s.track s.selectedTrack).getCurrentPattern.setStep i st))

/-- Assignment `stepLED(i) = c`; a negative index is dropped. -/
def setStepLED (s : Sequencer) (i : Int) (c : CRGB) : Sequencer :=
  if 0 ≤ i then { s with stepLeds := s.stepLeds.set i.toNat c } else s

/-- The cell `stepLED(i)`. -/
def stepLED (s : Sequencer) (i : Int) : CRGB :=
  if 0 ≤ i then s.stepLeds.getD i.toNat default else default

/-- Assignment `trackLED(i) = c`. -/
def setTrackLED (s : Sequencer) (i : Nat) (c : CRGB) : Sequencer :=
  { s with trackLeds := s.trackLeds.set i c }

/-- The cell `trackLED(i)`. -/
def trackLED (s : Sequencer) (i : Nat) : CRGB := s.trackLeds.getD i default

/-- Modelled from the spec: `deactivateSensors()` (defined outside `Sequencer.cpp`) deactivates
both analog controllers. -/
def deactivateSensors (s : Sequencer) : Sequencer :=
  { s with input1 := s.input1.deactivate, input2 := s.input2.deactivate }

/-- Modelled from the spec: the static `SequencerTrack::anyPatternOpsArmed()`, the disjunction
of the pattern-ops-arm flags of all tracks. -/
def anyPatternOpsArmed (s : Sequencer) : Bool := s.tracks.any fun t => t.isPatternOpsArmed

/-- Modelled from the spec: the static `SequencerTrack::deactivateAllPatternOpsArms()`. -/
def deactivateAllPatternOpsArms (s : Sequencer) : Sequencer :=
  { s with tracks := s.tracks.map fun t => { t with patternOpsArmed := false } }

/-- `Sequencer::colorForStepState` (Sequencer.cpp 565-580). -/
def colorForStepState (state : Nat) : CRGB :=
  match state with
  | 1 => CRGB.CornflowerBlue
  | 2 => CRGB.Green
  | 3 => CRGB.DarkOrange
  | _ => CRGB.Black

/-- The parameter-lock recording of `doTriggerSounds` (the `switch (pLockParamSet)`,
Sequencer.cpp 58-86) on the step `step`. -/
def recordPLock (s : Sequencer) (step : SequencerStep) : SequencerStep :=
  match s.pLockParamSet with
  | PLockParamSet.SET1 =>
    let step := if s.input1.isActive then { step with parameter1 := s.input1.getValue } else step
    if s.input2.isActive then { step with parameter2 := s.input2.getValue } else step
  | PLockParamSet.SET2 =>
    let step := if s.input1.isActive then { step with parameter3 := s.input1.getValue } else step
    if s.input2.isActive then { step with parameter4 := s.input2.getValue } else step
  | PLockParamSet.SET3 =>
    let step := if s.input1.isActive then { step with parameter5 := s.input1.getValue } else step
    if s.input2.isActive then { step with parameter6 := s.input2.getValue } else step

/-- The calls `setParam1 .. setParam6`, `trigger` on `audioChannels[i]` (Sequencer.cpp 89-95). -/
def triggerCalls (i : Nat) (step : SequencerStep) : List Call :=
  [Call.setParam i 1 step.parameter1, Call.setParam i 2 step.parameter2,
   Call.setParam i 3 step.parameter3, Call.setParam i 4 step.parameter4,
   Call.setParam i 5 step.parameter5, Call.setParam i 6 step.parameter6,
   Call.trigger i]

/-- The body of the loop over the tracks in `doTriggerSounds` (Sequencer.cpp 56-96). -/
def doTriggerSoundsTrack (i : Nat) (s : Sequencer) : Sequencer :=
  let step := (s.track i).getCurrentStep
  let s :=
    if step.isParameterLockOn then
      s.setTrack i ((s.track i).setCurrentStep (s.recordPLock step))
    else s
  -- `step` is a reference: it is read again after the recording
  let step := (s.track i).getCurrentStep
  if !(s.track i).isMuted && step.isTriggerOn then
    { s with log := s.log ++ triggerCalls i step }
  else s

/-- What the loop body of `doTriggerSounds` makes of the track `t`: the current step takes the
recorded parameter locks when its plock bit is set. -/
def recordedTrack (s : Sequencer) (t : SequencerTrack) : SequencerTrack :=
  if t.getCurrentStep.isParameterLockOn then
    t.setCurrentStep (s.recordPLock t.getCurrentStep)
  else t

/-- The endpoint calls that the loop body of `doTriggerSounds` makes for track `i`, given the
track after the recording. -/
def voiceCalls (i : Nat) (t : SequencerTrack) : List Call :=
  if !t.isMuted && t.getCurrentStep.isTriggerOn then triggerCalls i t.getCurrentStep else []

/-- `Sequencer::doTriggerSounds` (Sequencer.cpp 52-100); `poti1`, `poti2` are the values of
`analogRead(POTI_PIN_1)` and `analogRead(POTI_PIN_2)`. -/
def doTriggerSounds (s : Sequencer) (poti1 poti2 : Nat) : Sequencer :=
  let s := { s with log := s.log ++ [Call.doTriggerSounds] }
  let s := { s with input1 := s.input1.update (poti1 % 65536) }
  let s := { s with input2 := s.input2.update (poti2 % 65536) }
  let s := forLoop NUMBER_OF_INSTRUMENTTRACKS doTriggerSoundsTrack s
  { s with triggerSounds := false }

/-- The body of the loop in `doStep`: `tracks[i].doStep()`. -/
def doStepTrack (i : Nat) (s : Sequencer) : Sequencer := s.setTrack i (s.track i).doStep

/-- `Sequencer::doStep` (Sequencer.cpp 105-111). -/
def doStep (s : Sequencer) : Sequencer :=
  let s := { s with log := s.log ++ [Call.doStep] }
  let s := forLoop NUMBER_OF_INSTRUMENTTRACKS doStepTrack s
  { s with triggerSounds := true, stepCount := s.stepCount + 1 }

/-- The body of the loop in `doStartStop`: `tracks[i].onStop()`. -/
def onStopTrack (i : Nat) (s : Sequencer) : Sequencer := s.setTrack i (s.track i).onStop

/-- `Sequencer::doStartStop` (Sequencer.cpp 335-347); `millis` is the value of `millis()`. -/
def doStartStop (s : Sequencer) (millis : Nat) : Sequencer :=
  let s := { s with running := !s.running }
  if !s.running then
    let s := forLoop NUMBER_OF_INSTRUMENTTRACKS onStopTrack s
    { s with pulseCount := 0, stepCount := 0 }
  else
    { s with triggerSounds := true, nextStepTime := millis + s.stepLength }

/-- `Sequencer::start` (Sequencer.cpp 113-117). -/
def start (s : Sequencer) (millis : Nat) : Sequencer :=
  if !s.running then s.doStartStop millis else s

/-- `Sequencer::stop` (Sequencer.cpp 119-123). -/
def stop (s : Sequencer) (millis : Nat) : Sequencer :=
  if s.running then s.doStartStop millis else s

/-- `Sequencer::setDefaultTrackLight` (Sequencer.cpp 485-496); MUTE_DIM_FACTOR is 20. -/
def setDefaultTrackLight (s : Sequencer) (trackNum : Nat) : Sequencer :=
  let s :=
    if (s.track trackNum).getCurrentPattern.isInPLockMode then
      let s := { s with hasActivePLockReceivers := true }
      s.setTrackLED trackNum
        (if trackNum = s.selectedTrack then CRGB.DarkOrange else CRGB.Yellow)
    else
      s.setTrackLED trackNum
        (if trackNum = s.selectedTrack then CRGB.Green else CRGB.CornflowerBlue)
  if (s.track trackNum).isMuted then
    s.setTrackLED trackNum (CRGB.nscale8 (s.trackLED trackNum) 20)
  else s

/-- `Sequencer::setFunctionButtonLights` (Sequencer.cpp 498-506). -/
def setFunctionButtonLights (s : Sequencer) : Sequencer :=
  let s := { s with functionLeds := { s.functionLeds with
    BUTTON_STARTSTOP := if s.running then CRGB.Green else CRGB.Black } }
  let s :=
    if (s.hasActivePLockReceivers && s.stepCount % 2 == 0) ||
        (s.hasActivePLockReceivers && (s.input1.isActive || s.input2.isActive)) then
      { s with functionLeds := { s.functionLeds with BUTTON_TOGGLE_PLOCK := CRGB.DarkOrange } }
    else s
  { s with functionLeds := { s.functionLeds with
    BUTTON_SET_PARAMSET_1 :=
      if s.pLockParamSet = PLockParamSet.SET1 then CRGB.Green else CRGB.CornflowerBlue
    BUTTON_SET_PARAMSET_2 :=
      if s.pLockParamSet = PLockParamSet.SET2 then CRGB.Green else CRGB.CornflowerBlue
    BUTTON_SET_PARAMSET_3 :=
      if s.pLockParamSet = PLockParamSet.SET3 then CRGB.Green else CRGB.CornflowerBlue } }

/-- The reading of `stepButtons[i]`. -/
def stepButton (s : Sequencer) (i : Nat) : Bounce := s.stepButtons.getD i default

/-- The reading of `trackButtons[i]`. -/
def trackButton (s : Sequencer) (i : Nat) : Bounce := s.trackButtons.getD i default

/-- The body of the loop over the step buttons in `doSetTriggers` (Sequencer.cpp 261-281); the
second component is the local `aButtonIsPressed`. -/
def doSetTriggersStep (i : Nat) (acc : Sequencer × Bool) : Sequencer × Bool :=
  let s := acc.1
  let aButtonIsPressed := acc.2
  let r : Sequencer × Bool :=
    if (s.stepButton i).read then
      if s.sourceStepIndex = -1 then
        ({ s with sourceStepIndex := (i : Int) }, true)
      else if (i : Int) ≠ s.sourceStepIndex then
        let s := s.setSelectedStep i
          ((s.selectedStep i).copyValuesFrom (s.selectedStep s.sourceStepIndex.toNat))
        ({ s with stepCopy := true }, true)
      else (s, true)
    else (s, aButtonIsPressed)
  let s := r.1
  let aButtonIsPressed := r.2
  let s :=
    if (s.stepButton i).fell && !s.stepCopy then
      s.setSelectedStep i (s.selectedStep i).toggleTriggerState
    else s
  (s.setStepLED i (colorForStepState (s.selectedStep i).state), aButtonIsPressed)

/-- `Sequencer::doSetTriggers` (Sequencer.cpp 256-289). -/
def doSetTriggers (s : Sequencer) : Sequencer :=
  let r := forLoop NUMBER_OF_STEPBUTTONS doSetTriggersStep (s, false)
  let s := r.1
  let aButtonIsPressed := r.2
  if !aButtonIsPressed then
    { s with sourceStepIndex := -1, stepCopy := false }
  else s

/-- A stand-in for the library function `map(x, in_min, in_max, out_min, out_max)` of the
core, which is not part of the sources: the integer form of the Arduino reference,
`(x - in_min) * (out_max - out_min) / (in_max - in_min) + out_min`, the division truncating
toward zero. The cores differ in how they round, so the properties below use `map` as a symbol
and none of them rests on a value of this function. -/
def map (x in_min in_max out_min out_max : Int) : Int :=
  Int.tdiv ((x - in_min) * (out_max - out_min)) (in_max - in_min) + out_min

/-- The body of the loop over the step buttons in `doSetTrackLength`
(Sequencer.cpp 297-300). -/
def doSetTrackLengthStep (i : Nat) (s : Sequencer) : Sequencer :=
  let s :=
    if (s.stepButton i).fell then
      let t := s.track s.selectedTrack
      s.setTrack s.selectedTrack
        (t.setCurrentPattern { t.getCurrentPattern with trackLength := i + 1 })
    else s
  s.setStepLED i (colorForStepState (s.selectedStep i).state)

/-- `Sequencer::doSetTrackLength` (Sequencer.cpp 294-310). -/
def doSetTrackLength (s : Sequencer) : Sequencer :=
  let s := { s with functionLeds :=
    { s.functionLeds with BUTTON_SET_TRACKLENGTH := CRGB.CornflowerBlue } }
  let s := forLoop NUMBER_OF_STEPBUTTONS doSetTrackLengthStep s
  let s := s.setStepLED ((s.track s.selectedTrack).getCurrentPattern.trackLength - 1 : Int)
    CRGB.Red
  let s :=
    if s.input1.isActive then
      let s := { s with stepLength := (map s.input1.getValue 0 1024 512 32).toNat }
      { s with nextStepTime := s.lastStepTime + s.stepLength }
    else s
  if s.input2.isActive then
    let t := s.track s.selectedTrack
    s.setTrack s.selectedTrack
      (t.setCurrentPattern { t.getCurrentPattern with offset := 16 - s.input2.getValue / 64 })
  else s

/-- The body of the loop over the track buttons in `doSetTrackPLock`
(Sequencer.cpp 318-321). -/
def doSetTrackPLockTrack (i : Nat) (s : Sequencer) : Sequencer :=
  if (s.trackButton i).fell then
    let s := s.setTrack i
      ((s.track i).setCurrentPattern (s.track i).getCurrentPattern.togglePLockMode)
    { s with trackOrStepButtonPressed := true }
  else s

/-- The body of the loop over the step buttons in `doSetTrackPLock`
(Sequencer.cpp 324-328). -/
def doSetTrackPLockStep (i : Nat) (s : Sequencer) : Sequencer :=
  let s :=
    if (s.stepButton i).fell then
      let s := s.setSelectedStep i (s.selectedStep i).toggleParameterLockRecord
      { s with trackOrStepButtonPressed := true }
    else s
  s.setStepLED i (colorForStepState (s.selectedStep i).state)

/-- `Sequencer::doSetTrackPLock` (Sequencer.cpp 315-333). -/
def doSetTrackPLock (s : Sequencer) : Sequencer :=
  let s := { s with functionLeds :=
    { s.functionLeds with BUTTON_TOGGLE_PLOCK := CRGB.DarkOrange } }
  let s := forLoop NUMBER_OF_INSTRUMENTTRACKS doSetTrackPLockTrack s
  let s := forLoop NUMBER_OF_STEPBUTTONS doSetTrackPLockStep s
  if s.functionButtons.BUTTON_TOGGLE_PLOCK.rose then
    { s with trackOrStepButtonPressed := false }
  else s

/-- The statements `ledFader++; if (ledFader > 200) ledFader = 10;`. -/
def advanceLedFader (s : Sequencer) : Sequencer :=
  let s := { s with ledFader := s.ledFader + 1 }
  if s.ledFader > 200 then { s with ledFader := 10 } else s

/-- The body of the first loop in `doToggleTrackMuteArm` (Sequencer.cpp 352-354). -/
def doToggleTrackMuteArmTrack (i : Nat) (s : Sequencer) : Sequencer :=
  if (s.trackButton i).fell then s.setTrack i (s.track i).toggleMuteArm else s

/-- The body of the second loop in `doToggleTrackMuteArm` (Sequencer.cpp 359-367). -/
def doToggleTrackMuteArmLight (i : Nat) (s : Sequencer) : Sequencer :=
  if !(s.track i).isMuted && (s.track i).isArmed then
    s.setTrackLED i (CRGB.nscale8 CRGB.CornflowerBlue (255 - s.ledFader))
  else if (s.track i).isMuted && (s.track i).isArmed then
    s.setTrackLED i (CRGB.nscale8 CRGB.CornflowerBlue s.ledFader)
  else s.setDefaultTrackLight i

/-- `Sequencer::doToggleTrackMuteArm` (Sequencer.cpp 349-369). -/
def doToggleTrackMuteArm (s : Sequencer) : Sequencer :=
  let s := { s with functionLeds :=
    { s.functionLeds with BUTTON_TOGGLE_MUTE := CRGB.CornflowerBlue } }
  let s := forLoop NUMBER_OF_INSTRUMENTTRACKS doToggleTrackMuteArmTrack s
  let s := s.advanceLedFader
  forLoop NUMBER_OF_INSTRUMENTTRACKS doToggleTrackMuteArmLight s

/-- The body of the loop over the tracks that copies pattern `sourcePatternIndex` onto pattern
`i` in `doPatternOps` (Sequencer.cpp 403-408). -/
def doPatternOpsCopy (i : Nat) (k : Nat) (s : Sequencer) : Sequencer :=
  if !s.anyPatternOpsArmed || (s.track k).isPatternOpsArmed then
    let t := s.track k
    let copied := (t.patterns.getD i default).copyValuesFrom
      (t.patterns.getD s.sourcePatternIndex.toNat default)
    let s := s.setTrack k { t with patterns := t.patterns.set i copied }
    s.setStepLED i CRGB.Red
  else s

/-- The body of the loop over the step buttons in `doPatternOps` (Sequencer.cpp 393-415); the
second component is the local `aButtonIsPressed`. -/
def doPatternOpsStep (currentPatternIndex : Nat) (i : Nat) (acc : Sequencer × Bool) :
    Sequencer × Bool :=
  let s := acc.1
  let aButtonIsPressed := acc.2
  let r : Sequencer × Bool :=
    if (s.stepButton i).read then
      if s.sourcePatternIndex = -1 then
        ({ s with sourcePatternIndex := (i : Int) }, true)
      else if (i : Int) ≠ s.sourcePatternIndex then
        let s := forLoop NUMBER_OF_INSTRUMENTTRACKS (doPatternOpsCopy i) s
        ({ s with patternCopy := true }, true)
      else (s, true)
    else (s, aButtonIsPressed)
  let s := r.1
  let aButtonIsPressed := r.2
  let s :=
    if (s.stepButton i).fell && !s.patternCopy then
      { s with nextPatternIndex := (i : Int) }
    else s
  (s.setStepLED i (if i = currentPatternIndex then CRGB.Red else CRGB.Black), aButtonIsPressed)

/-- The body of the loop over the tracks in `doPatternOps` (Sequencer.cpp 379-387). -/
def doPatternOpsTrack (i : Nat) (s : Sequencer) : Sequencer :=
  let s :=
    if (s.trackButton i).fell then s.setTrack i (s.track i).togglePatternOpsArm else s
  if (s.track i).isPatternOpsArmed then
    s.setTrackLED i (CRGB.nscale8 CRGB.CornflowerBlue (255 - s.ledFader))
  else s.setDefaultTrackLight i

/-- `Sequencer::doPatternOps` (Sequencer.cpp 374-427). -/
def doPatternOps (s : Sequencer) : Sequencer :=
  let s := { s with functionLeds :=
    { s.functionLeds with BUTTON_SET_PATTERN := CRGB.CornflowerBlue } }
  let s := s.advanceLedFader
  let s := forLoop NUMBER_OF_INSTRUMENTTRACKS doPatternOpsTrack s
  let currentPatternIndex := (s.track s.selectedTrack).getCurrentPatternIndex
  let r := forLoop NUMBER_OF_STEPBUTTONS (doPatternOpsStep currentPatternIndex) (s, false)
  let s := r.1
  let aButtonIsPressed := r.2
  let s :=
    if !aButtonIsPressed then
      { s with sourcePatternIndex := -1, patternCopy := false }
    else s
  if s.nextPatternIndex ≥ 0 then
    let s := s.setStepLED s.nextPatternIndex CRGB.Red
    s.setStepLED s.nextPatternIndex
      (CRGB.nscale8 (s.stepLED s.nextPatternIndex) (255 - s.ledFader))
  else s

/-- The body of the loop over the tracks in `doLeavePatternOps` (Sequencer.cpp 434-442). -/
def doLeavePatternOpsTrack (k : Nat) (s : Sequencer) : Sequencer :=
  if s.nextPatternIndex ≥ 0 then
    if !s.anyPatternOpsArmed then
      s.setTrack k ((s.track k).unMute.switchToPattern s.nextPatternIndex)
    else if (s.track k).isPatternOpsArmed then
      s.setTrack k ((s.track k).switchToPattern s.nextPatternIndex)
    else s
  else s

/-- `Sequencer::doLeavePatternOps` (Sequencer.cpp 432-446). -/
def doLeavePatternOps (s : Sequencer) : Sequencer :=
  let s := forLoop NUMBER_OF_INSTRUMENTTRACKS doLeavePatternOpsTrack s
  let s := s.deactivateAllPatternOpsArms
  { s with nextPatternIndex := -1 }

/-- The body of the loop over the tracks in `doSetTrackSelection` (Sequencer.cpp 451-468). -/
def doSetTrackSelectionTrack (i : Nat) (s : Sequencer) : Sequencer :=
  let s :=
    if (s.trackButton i).read then
      let s :=
        if s.input1.isActive then
          { s with log := s.log ++
              [Call.setVolume i s.input1.getValue, Call.mixerLGain i, Call.mixerRGain i] }
        else s
      if s.input2.isActive then
        { s with log := s.log ++
            [Call.setPan i s.input2.getValue, Call.mixerLGain i, Call.mixerRGain i] }
      else s
    else s
  let s :=
    if (s.trackButton i).fell then
      let s := s.deactivateSensors
      { s with selectedTrack := i }
    else s
  s.setDefaultTrackLight i

/-- `Sequencer::doSetTrackSelection` (Sequencer.cpp 448-470). -/
def doSetTrackSelection (s : Sequencer) : Sequencer :=
  forLoop NUMBER_OF_INSTRUMENTTRACKS doSetTrackSelectionTrack s

/-- The body of the loop in `doUpdateMutes`: `tracks[i].activateMuteArms()`. -/
def doUpdateMutesTrack (i : Nat) (s : Sequencer) : Sequencer :=
  s.setTrack i (s.track i).activateMuteArms

/-- `Sequencer::doUpdateMutes` (Sequencer.cpp 472-476). -/
def doUpdateMutes (s : Sequencer) : Sequencer :=
  forLoop NUMBER_OF_INSTRUMENTTRACKS doUpdateMutesTrack s

/-- The body of the loop in `doTurnOffPlockMode`:
`tracks[i].getCurrentPattern().turnOffPLockMode()`. -/
def doTurnOffPlockModeTrack (i : Nat) (s : Sequencer) : Sequencer :=
  s.setTrack i ((s.track i).setCurrentPattern (s.track i).getCurrentPattern.turnOffPLockMode)

/-- `Sequencer::doTurnOffPlockMode` (Sequencer.cpp 478-483). -/
def doTurnOffPlockMode (s : Sequencer) : Sequencer :=
  let s := forLoop NUMBER_OF_INSTRUMENTTRACKS doTurnOffPlockModeTrack s
  s.deactivateSensors

/-- `Sequencer::onMidiInput` (Sequencer.cpp 508-528); `millis` is the value of `millis()` read
by `doStartStop` when the byte starts the sequencer. -/
def onMidiInput (s : Sequencer) (rtb : Nat) (millis : Nat) : Sequencer :=
  match rtb with
  | 0xF8 => { s with midiClockReceived := true }
  | 0xFA => start { s with isSyncingToMidiClock := true } millis
  | 0xFC => stop { s with isSyncingToMidiClock := false } millis
  | _ => s

/-- `Sequencer::shouldStepMidiClock` (Sequencer.cpp 533-540): the returned value and the new
state. The comparison reads `pulseCount` before the increment. -/
def shouldStepMidiClock (s : Sequencer) : Bool × Sequencer :=
  let old := s.pulseCount
  let s := { s with pulseCount := s.pulseCount + 1 }
  if old ≥ 5 then (true, { s with pulseCount := 0 }) else (false, s)

/-- `Sequencer::shouldStepInternalClock` (Sequencer.cpp 542-550). -/
def shouldStepInternalClock (s : Sequencer) (millis : Nat) : Bool × Sequencer :=
  if millis ≥ s.nextStepTime then
    let s := { s with lastStepTime := s.nextStepTime }
    (true, { s with nextStepTime := s.nextStepTime + s.stepLength })
  else (false, s)

/-- `Sequencer::shouldStep` (Sequencer.cpp 556-563). -/
def shouldStep (s : Sequencer) (millis : Nat) : Bool × Sequencer :=
  if s.isSyncingToMidiClock && s.midiClockReceived then
    shouldStepMidiClock { s with midiClockReceived := false }
  else if !s.isSyncingToMidiClock then
    s.shouldStepInternalClock millis
  else (false, s)

/-- The selection of the parameter set at the start of `updateState`
(Sequencer.cpp 128-137). -/
def selectParamSet (s : Sequencer) : Sequencer :=
  if s.functionButtons.BUTTON_SET_PARAMSET_1.rose then
    deactivateSensors { s with pLockParamSet := PLockParamSet.SET1 }
  else if s.functionButtons.BUTTON_SET_PARAMSET_2.rose then
    deactivateSensors { s with pLockParamSet := PLockParamSet.SET2 }
  else if s.functionButtons.BUTTON_SET_PARAMSET_3.rose then
    deactivateSensors { s with pLockParamSet := PLockParamSet.SET3 }
  else s

/-- The button `functionButtons[BUTTON_SET_PARAMSET_k]` that selects the parameter set
`SETk`. -/
def paramSetButton (s : Sequencer) : PLockParamSet → Bounce
  | PLockParamSet.SET1 => s.functionButtons.BUTTON_SET_PARAMSET_1
  | PLockParamSet.SET2 => s.functionButtons.BUTTON_SET_PARAMSET_2
  | PLockParamSet.SET3 => s.functionButtons.BUTTON_SET_PARAMSET_3

/-- The dispatch on the function mode in `updateState` (Sequencer.cpp 140-179): the mode
handler, then the track-button handler and the step-button handler where the mode allows. -/
def runHandlers (s : Sequencer) (functionMode : FunctionMode) (millis : Nat) : Sequencer :=
  let s :=
    match functionMode with
    | FunctionMode.START_STOP => s.doStartStop millis
    | FunctionMode.SET_TRACK_LENGTH => s.doSetTrackLength
    | FunctionMode.TOGGLE_PLOCKS => s.doSetTrackPLock
    | FunctionMode.LEAVE_TOGGLE_PLOCKS => s.doTurnOffPlockMode
    | FunctionMode.TOGGLE_MUTES => s.doToggleTrackMuteArm
    | FunctionMode.LEAVE_TOGGLE_MUTES => s.doUpdateMutes
    | FunctionMode.PATTERN_OPS => s.doPatternOps
    | FunctionMode.LEAVE_PATTERN_OPS => s.doLeavePatternOps
    | FunctionMode.DEFAULT_MODE => s
  let s :=
    if functionMode ≠ FunctionMode.TOGGLE_MUTES ∧ functionMode ≠ FunctionMode.PATTERN_OPS then
      s.doSetTrackSelection
    else s
  if functionMode ≠ FunctionMode.SET_TRACK_LENGTH ∧ functionMode ≠ FunctionMode.TOGGLE_PLOCKS ∧
      functionMode ≠ FunctionMode.PATTERN_OPS then
    s.doSetTriggers
  else s

/-- The check of the clock in `updateState` (Sequencer.cpp 185-187):
`if (shouldStep()) doStep();`. -/
def stepIfDue (s : Sequencer) (millis : Nat) : Sequencer :=
  let r := s.shouldStep millis
  if r.1 then r.2.doStep else r.2

/-- The sound phase of `updateState` (Sequencer.cpp 192-194):
`if (triggerSounds) doTriggerSounds();`. -/
def triggerIfPending (s : Sequencer) (poti1 poti2 : Nat) : Sequencer :=
  if s.triggerSounds then s.doTriggerSounds poti1 poti2 else s

/-- The clock and sound phase of `updateState` (Sequencer.cpp 183-200). -/
def runClock (s : Sequencer) (millis poti1 poti2 : Nat) : Sequencer :=
  let s :=
    if s.running then (s.stepIfDue millis).triggerIfPending poti1 poti2
    else s
  if s.running then
    s.setStepLED (s.track s.selectedTrack).getCurrentPattern.currentStep CRGB.Red
  else s

/-- The part of `updateState` that precedes the clock phase (Sequencer.cpp 126-181): the
parameter-set selection, the function mode and its handlers, the function-button lights. -/
def updateStateHandlers (s : Sequencer) (millis : Nat) : Sequencer :=
  let s := { s with hasActivePLockReceivers := false }
  let s := s.selectParamSet
  let functionMode := s.calculateFunctionMode
  let s := s.runHandlers functionMode millis
  s.setFunctionButtonLights

/-- `Sequencer::updateState` (Sequencer.cpp 125-201). One value of `millis()` is used for the
whole call; `poti1`, `poti2` are the analog reads of `doTriggerSounds`. -/
def updateState (s : Sequencer) (millis poti1 poti2 : Nat) : Sequencer :=
  (s.updateStateHandlers millis).runClock millis poti1 poti2

end Sequencer

/-! ## The environment -/

/-- What the scanning loop hands to one tick: the readings of all buttons, the millisecond
clock and the two analog reads. -/
structure Scan where
  functionButtons : FunctionButtons := {}
  trackButtons : List Bounce := List.replicate 6 {}
  stepButtons : List Bounce := List.replicate 16 {}
  millis : Nat := 0
  poti1 : Nat := 0
  poti2 : Nat := 0
deriving DecidableEq, Repr

/-- One thing that happens to the sequencer: a tick of the main loop (the buttons are
refreshed, then `updateState` runs) or a MIDI real-time byte arriving at time `millis`. -/
inductive Event where
  | tick (scan : Scan)
  | midi (rtb : Nat) (millis : Nat)
deriving DecidableEq, Repr

namespace Sequencer

/-- The buttons take the readings of the scan. -/
def refreshButtons (s : Sequencer) (scan : Scan) : Sequencer :=
  { s with
    functionButtons := scan.functionButtons
    trackButtons := scan.trackButtons
    stepButtons := scan.stepButtons }

/-- The effect of one event. -/
def handle (s : Sequencer) : Event → Sequencer
  | Event.tick scan => (s.refreshButtons scan).updateState scan.millis scan.poti1 scan.poti2
  | Event.midi rtb millis => s.onMidiInput rtb millis

/-- The effect of a sequence of events, in order. -/
def run (s : Sequencer) (events : List Event) : Sequencer := events.foldl handle s

/-- A series of calls of `shouldStep`, one per element of `times` (the value of `millis()` at
the call): the values returned, in order, and the final state. -/
def shouldStepCalls (s : Sequencer) : List Nat → List Bool × Sequencer
  | [] => ([], s)
  | t :: ts =>
    let r := s.shouldStep t
    let rest := shouldStepCalls r.2 ts
    (r.1 :: rest.1, rest.2)

/-- A series of calls of `shouldStep` each of which finds `midiClockReceived` set: before every
call a clock byte `0xF8` arrives. -/
def midiClockCalls (s : Sequencer) : List Nat → List Bool × Sequencer
  | [] => ([], s)
  | t :: ts =>
    let r := (s.onMidiInput 0xF8 t).shouldStep t
    let rest := midiClockCalls r.2 ts
    (r.1 :: rest.1, rest.2)

/-- The number of invocations of `doStep` recorded in the log. -/
def doStepCount (s : Sequencer) : Nat := s.log.count Call.doStep

/-- The number of invocations of `doTriggerSounds` recorded in the log. -/
def doTriggerSoundsCount (s : Sequencer) : Nat := s.log.count Call.doTriggerSounds

/-- The part of the state that the clock and sound phase works on: the run flag, the three
MIDI clock fields, `triggerSounds`, and the numbers of invocations of `doStep` and
`doTriggerSounds` so far. -/
def clockView (s : Sequencer) : (Bool × Bool × Bool × Nat) × (Bool × Nat × Nat) :=
  ((s.running, s.isSyncingToMidiClock, s.midiClockReceived, s.pulseCount),
   (s.triggerSounds, s.doStepCount, s.doTriggerSoundsCount))

end Sequencer

/-- The priority list of section 4.4 of the specification, as a function of the readings of
the function buttons and of the latch `trackOrStepButtonPressed`: the first rule that matches
decides. -/
def functionModePriorityList (fb : FunctionButtons) (trackOrStepButtonPressed : Bool) :
    FunctionMode :=
  match fb.BUTTON_STARTSTOP.rose,
        fb.BUTTON_TOGGLE_PLOCK.read,
        fb.BUTTON_TOGGLE_PLOCK.fell, trackOrStepButtonPressed,
        fb.BUTTON_TOGGLE_MUTE.read,
        fb.BUTTON_TOGGLE_MUTE.fell,
        fb.BUTTON_SET_TRACKLENGTH.read,
        fb.BUTTON_SET_PATTERN.read,
        fb.BUTTON_SET_PATTERN.fell with
  | true, _, _, _, _, _, _, _, _ => .START_STOP
  | false, true, _, _, _, _, _, _, _ => .TOGGLE_PLOCKS
  | false, false, true, false, _, _, _, _, _ => .LEAVE_TOGGLE_PLOCKS
  | false, false, _, _, true, _, _, _, _ => .TOGGLE_MUTES
  | false, false, _, _, false, true, _, _, _ => .LEAVE_TOGGLE_MUTES
  | false, false, _, _, false, false, true, _, _ => .SET_TRACK_LENGTH
  | false, false, _, _, false, false, false, true, _ => .PATTERN_OPS
  | false, false, _, _, false, false, false, false, true => .LEAVE_PATTERN_OPS
  | false, false, _, _, false, false, false, false, false => .DEFAULT_MODE

/-- A sequencer (parameter set SET3 selected, controller 1 active) in the tick in which the
buttons SET_PARAMSET_1 and SET_PARAMSET_2 are pressed down together. -/
def paramSetButtonsOneAndTwoRose : Sequencer :=
  { functionButtons :=
      { BUTTON_SET_PARAMSET_1 := { rose := true, read := true }
        BUTTON_SET_PARAMSET_2 := { rose := true, read := true } }
    pLockParamSet := PLockParamSet.SET3
    input1 := { value := 700, active := true } }

/-- The plock-record scenario of the specification: the sequencer is running with parameter
set SET2; on track 0 the cursor stands on step 3, whose trigger and plock bits are set and whose
parameter 1 is 11; both controllers are at rest at value 0. -/
def plockRecordScenario : Sequencer :=
  { tracks :=
      { patterns :=
          { steps := List.replicate 3 {} ++ [{ state := 3, parameter1 := 11 }] ++
              List.replicate 12 {}
            currentStep := 3 } :: List.replicate 7 {} } :: List.replicate 5 {}
    pLockParamSet := PLockParamSet.SET2
    running := true
    triggerSounds := true }

/-- The number of taps of track button `i` in the scans of a hold; the handlers react to the
release of a button, so a tap is counted in the tick in which the button `fell`. -/
def tapCount (scans : List (List Bounce)) (i : Nat) : Nat :=
  scans.countP fun trackButtons => (trackButtons.getD i default).fell

/-- The track-button scans of scenario 5 of the specification: track button 1 is pressed and
released, then track button 3 is pressed and released. -/
def tapTracksOneAndThree : List (List Bounce) :=
  [ (List.replicate 6 {}).set 1 { rose := true, read := true },
    (List.replicate 6 {}).set 1 { fell := true },
    (List.replicate 6 {}).set 3 { rose := true, read := true },
    (List.replicate 6 {}).set 3 { fell := true } ]

namespace Sequencer

/-- The pattern `tracks[t].patterns[p]`. -/
def pattern (s : Sequencer) (t p : Nat) : SequencerPattern :=
  (s.track t).patterns.getD p default

/-- The pattern `tracks[selectedTrack].getCurrentPattern()`, on which the step buttons act. -/
def selectedPattern (s : Sequencer) : SequencerPattern :=
  (s.track s.selectedTrack).getCurrentPattern

/-- Write-back to `tracks[selectedTrack].getCurrentPattern()`. -/
def setSelectedPattern (s : Sequencer) (p : SequencerPattern) : Sequencer :=
  s.setTrack s.selectedTrack ((s.track s.selectedTrack).setCurrentPattern p)

/-- The indices `selectedTrack` and `currentPatternIndex` of the selected track lie inside the
arrays `tracks` and `patterns` (in the program they are array indices that are never out of
bounds). -/
def SelectedInRange (s : Sequencer) : Prop :=
  s.selectedTrack < s.tracks.length ∧
  (s.track s.selectedTrack).currentPatternIndex < (s.track s.selectedTrack).patterns.length

instance (s : Sequencer) : Decidable s.SelectedInRange := by
  unfold SelectedInRange
  exact inferInstance

end Sequencer

/-- The part of the state on which the pattern under the step buttons depends: the tracks and
the index of the selected track. -/
def Sequencer.trackView (s : Sequencer) : List SequencerTrack × Nat :=
  (s.tracks, s.selectedTrack)

/-- A sequencer at rest whose controller 2 is active at the raw value `v`. -/
def offsetScenario (v : Nat) : Sequencer :=
  { input2 := { value := v, active := true } }

/-- The variables on which the loop of `doSetTriggers` works: the steps of the pattern under the
step buttons, the members `sourceStepIndex` and `stepCopy`, and the local `aButtonIsPressed`. -/
structure TriggerEdit where
  steps : List SequencerStep
  sourceStepIndex : Int
  stepCopy : Bool
  aButtonIsPressed : Bool

/-- One pass of the loop of `doSetTriggers` (Sequencer.cpp 261-281) on these variables, for the
reading `b` of step button `i`; the LED assignment is left out. -/
def TriggerEdit.pass (b : Bounce) (i : Nat) (e : TriggerEdit) : TriggerEdit :=
  let e1 : TriggerEdit :=
    if b.read then
      if e.sourceStepIndex = -1 then
        { e with sourceStepIndex := (i : Int), aButtonIsPressed := true }
      else if (i : Int) ≠ e.sourceStepIndex then
        { e with
          steps := e.steps.set i
            ((e.steps.getD i default).copyValuesFrom
              (e.steps.getD e.sourceStepIndex.toNat default))
          stepCopy := true
          aButtonIsPressed := true }
      else { e with aButtonIsPressed := true }
    else e
  if b.fell && !e1.stepCopy then
    { e1 with steps := e1.steps.set i (e1.steps.getD i default).toggleTriggerState }
  else e1

/-- The variables of the loop of `doSetTriggers` in a state of the sequencer (with the local
flag `aButtonIsPressed` given). -/
def Sequencer.triggerEdit (s : Sequencer) (aButtonIsPressed : Bool) : TriggerEdit :=
  { steps := s.selectedPattern.steps
    sourceStepIndex := s.sourceStepIndex
    stepCopy := s.stepCopy
    aButtonIsPressed := aButtonIsPressed }

/-- The first `n` passes of the loop of `doSetTriggers` on its variables, for the step buttons
of `s`. -/
def Sequencer.triggerPasses (s : Sequencer) (n : Nat) : TriggerEdit :=
  forLoop n (fun i e => TriggerEdit.pass (s.stepButton i) i e) (s.triggerEdit false)

/-- The sequencer at the next scan of the step buttons: the readings are replaced. -/
def Sequencer.withStepButtons (s : Sequencer) (stepButtons : List Bounce) : Sequencer :=
  { s with stepButtons := stepButtons }

/-- The step-copy scenario: step button 2 is held and is the recorded source, its step has the
trigger bit set and parameter 1 at 77; step button 5 is pressed in this tick. -/
def stepCopyScenario : Sequencer :=
  { tracks :=
      { patterns :=
          { steps := List.replicate 2 {} ++ [{ state := 1, parameter1 := 77 }] ++
              List.replicate 13 {} } :: List.replicate 7 {} } :: List.replicate 5 {}
    stepButtons :=
      ((List.replicate 16 {}).set 2 { read := true }).set 5 { rose := true, read := true }
    sourceStepIndex := 2 }

/-- The bookkeeping variables on which the loop over the step buttons in `doPatternOps` works:
the members `sourcePatternIndex`, `patternCopy`, `nextPatternIndex` and the local
`aButtonIsPressed`. -/
structure PatternEdit where
  sourcePatternIndex : Int
  patternCopy : Bool
  nextPatternIndex : Int
  aButtonIsPressed : Bool

/-- One pass of the loop over the step buttons in `doPatternOps` (Sequencer.cpp 393-415) on
these variables, for the reading `b` of step button `i`; the copy of the patterns and the LED
assignments are left out. -/
def PatternEdit.pass (b : Bounce) (i : Nat) (e : PatternEdit) : PatternEdit :=
  let e1 : PatternEdit :=
    if b.read then
      if e.sourcePatternIndex = -1 then
        { e with sourcePatternIndex := (i : Int), aButtonIsPressed := true }
      else if (i : Int) ≠ e.sourcePatternIndex then
        { e with patternCopy := true, aButtonIsPressed := true }
      else { e with aButtonIsPressed := true }
    else e
  if b.fell && !e1.patternCopy then { e1 with nextPatternIndex := (i : Int) } else e1

/-- The bookkeeping variables of `doPatternOps` in a state of the sequencer (with the local flag
`aButtonIsPressed` given). -/
def Sequencer.patternEdit (s : Sequencer) (aButtonIsPressed : Bool) : PatternEdit :=
  { sourcePatternIndex := s.sourcePatternIndex
    patternCopy := s.patternCopy
    nextPatternIndex := s.nextPatternIndex
    aButtonIsPressed := aButtonIsPressed }

/-- The first `n` passes of the loop over the step buttons in `doPatternOps` on the bookkeeping
variables, for the step buttons of `s`. -/
def Sequencer.patternPasses (s : Sequencer) (n : Nat) : PatternEdit :=
  forLoop n (fun i e => PatternEdit.pass (s.stepButton i) i e) (s.patternEdit false)

/-- The PATTERN_OPS handler run once per tick while the pattern button is held: `scans` lists
the button readings of the successive ticks. -/
def Sequencer.holdPatternOps (s : Sequencer) (scans : List Scan) : Sequencer :=
  scans.foldl (fun x scan => (x.refreshButtons scan).doPatternOps) s

/-- The pattern-copy scenario: pattern 0 of every track has the trigger of step 2 set with
parameter 1 at 77; step button 0 is held and is the recorded source pattern, step button 5 is
pressed in this tick; no track is pattern-ops-armed. -/
def patternCopyScenario : Sequencer :=
  { tracks := List.replicate 6
      { patterns :=
          { steps := List.replicate 2 {} ++ [{ state := 1, parameter1 := 77 }] ++
              List.replicate 13 {} } :: List.replicate 7 {} }
    stepButtons :=
      ((List.replicate 16 {}).set 0 { read := true }).set 5 { rose := true, read := true }
    sourcePatternIndex := 0 }

/-- The statement `patterns[i].copyValuesFrom(patterns[source])` on a track. -/
def SequencerTrack.copyPattern (t : SequencerTrack) (source i : Nat) : SequencerTrack :=
  let copied := (t.patterns.getD i default).copyValuesFrom (t.patterns.getD source default)
  { t with patterns := t.patterns.set i copied }

/-- The passes of the loop over the step buttons in `doPatternOps` on one track that takes part
in the copy, for the source pattern `a`: every held step button other than `a` makes its pattern
a copy of pattern `a`. -/
def Sequencer.copyPasses (s : Sequencer) (a n : Nat) (t : SequencerTrack) : SequencerTrack :=
  forLoop n (fun i t => if (s.stepButton i).read = true ∧ i ≠ a then t.copyPattern a i else t) t

/-- The readings that decide the function mode around a hold of TOGGLE_PLOCK: the three groups
of buttons and the latch `trackOrStepButtonPressed`. -/
def Sequencer.latchView (s : Sequencer) : FunctionButtons × List Bounce × List Bounce × Bool :=
  (s.functionButtons, s.trackButtons, s.stepButtons, s.trackOrStepButtonPressed)

/-- A scan taken while TOGGLE_PLOCK is held and no other button event happens: the button reads
pressed, START/STOP did not rise, and no track button and no step button was released. -/
def Scan.plockHeld (scan : Scan) : Prop :=
  scan.functionButtons.BUTTON_TOGGLE_PLOCK.read = true ∧
  scan.functionButtons.BUTTON_STARTSTOP.rose = false ∧
  (∀ i, i < 6 → (scan.trackButtons.getD i default).fell = false) ∧
  (∀ i, i < 16 → (scan.stepButtons.getD i default).fell = false)

instance (scan : Scan) : Decidable scan.plockHeld := by
  unfold Scan.plockHeld
  infer_instance

/-- The scan in which TOGGLE_PLOCK is released: the button fell and reads released, START/STOP
did not rise, and the step buttons are at rest. -/
def Scan.plockReleased (scan : Scan) : Prop :=
  scan.functionButtons.BUTTON_TOGGLE_PLOCK.fell = true ∧
  scan.functionButtons.BUTTON_TOGGLE_PLOCK.read = false ∧
  scan.functionButtons.BUTTON_STARTSTOP.rose = false ∧
  (∀ i, i < 16 → (scan.stepButtons.getD i default).read = false) ∧
  (∀ i, i < 16 → (scan.stepButtons.getD i default).fell = false)

instance (scan : Scan) : Decidable scan.plockReleased := by
  unfold Scan.plockReleased
  infer_instance

/-- What `doTurnOffPlockMode` does to one track: the current pattern goes through
`turnOffPLockMode`. -/
def SequencerTrack.turnOffPLockMode (t : SequencerTrack) : SequencerTrack :=
  t.setCurrentPattern t.getCurrentPattern.turnOffPLockMode

/-- The step `patterns[p].getStep(j)` of the track. -/
def SequencerTrack.stepAt (t : SequencerTrack) (p j : Nat) : SequencerStep :=
  (t.patterns.getD p default).getStep j

/-- The cancel-tap scenario: the plock-record scenario (track 0 has a step with the plock bit
set) with the latch `trackOrStepButtonPressed` left set by an earlier hold. -/
def plockTapScenario : Sequencer :=
  { plockRecordScenario with trackOrStepButtonPressed := true }

/-- The scan in which TOGGLE_PLOCK goes down, all other buttons at rest. -/
def plockTapPress : Scan :=
  { functionButtons := { BUTTON_TOGGLE_PLOCK := { rose := true, read := true } }, millis := 10 }

/-- A scan with TOGGLE_PLOCK held, all other buttons at rest. -/
def plockTapHold : Scan :=
  { functionButtons := { BUTTON_TOGGLE_PLOCK := { read := true } }, millis := 20 }

/-- The scan in which TOGGLE_PLOCK is released, all other buttons at rest. -/
def plockTapRelease : Scan :=
  { functionButtons := { BUTTON_TOGGLE_PLOCK := { fell := true } }, millis := 30 }

/-- The bounds on the cursor and on the loop length of a pattern: `currentStep` is one of the
sixteen step positions and `trackLength` is in 1..16. -/
def SequencerPattern.cursorInRange (p : SequencerPattern) : Prop :=
  p.currentStep < 16 ∧ 1 ≤ p.trackLength ∧ p.trackLength ≤ 16

instance (p : SequencerPattern) : Decidable p.cursorInRange := by
  unfold SequencerPattern.cursorInRange
  infer_instance

/-- Every pattern of the track has its cursor and its loop length within bounds. -/
def SequencerTrack.cursorsInRange (t : SequencerTrack) : Prop :=
  ∀ p, p ∈ t.patterns → p.cursorInRange

instance (t : SequencerTrack) : Decidable t.cursorsInRange := by
  unfold SequencerTrack.cursorsInRange
  infer_instance

/-- Every pattern of every track in the list has its cursor and its loop length within
bounds. -/
def tracksInRange (l : List SequencerTrack) : Prop := ∀ t, t ∈ l → t.cursorsInRange

instance (l : List SequencerTrack) : Decidable (tracksInRange l) := by
  unfold tracksInRange
  infer_instance

/-- Every pattern of every track of the sequencer has its cursor and its loop length within
bounds. -/
def Sequencer.cursorsInRange (s : Sequencer) : Prop := tracksInRange s.tracks

instance (s : Sequencer) : Decidable s.cursorsInRange := by
  unfold Sequencer.cursorsInRange
  infer_instance

/-- The state in which `updateState` writes the LED of the running cursor: the clock and sound
phase has run (Sequencer.cpp 183-195) and the write
`stepLED(tracks[selectedTrack].getCurrentPattern().currentStep) = CRGB::Red` (197-200) comes
next. -/
def Sequencer.beforeCursorLED (s : Sequencer) (millis poti1 poti2 : Nat) : Sequencer :=
  if s.running then (s.stepIfDue millis).triggerIfPending poti1 poti2 else s

/-- A run from power-on: START/STOP is pressed at time 0, one step is taken at the default
step length of 125 ms, and at time 130, with SET_TRACKLENGTH held, step button 0 is released
(track length 1). -/
def trackLengthCutEvents : List Event :=
  [Event.tick { functionButtons := { BUTTON_STARTSTOP := { rose := true, read := true } } },
   Event.tick { millis := 125 },
   Event.tick
     { functionButtons := { BUTTON_SET_TRACKLENGTH := { read := true } }
       stepButtons := (List.replicate 16 {}).set 0 { fell := true }
       millis := 130 }]

/-- The calls with which `doSetTrackSelection` pushes a volume or a pan to a voice and the
gains of the voice to the two mixers. -/
def Call.isMix : Call → Bool
  | Call.setVolume _ _ => true
  | Call.setPan _ _ => true
  | Call.mixerLGain _ => true
  | Call.mixerRGain _ => true
  | _ => false

/-- What the track-button handler `doSetTrackSelection` decides: the selected track and the
volume, pan and mixer calls made so far. -/
def Sequencer.selectionView (s : Sequencer) : Nat × List Call :=
  (s.selectedTrack, s.log.filter Call.isMix)

/-- What the step-button handler `doSetTriggers` decides on a step: the trigger bit, the
trigger mask and the six parameters (a step copy writes them all; the plock bit is left out). -/
def SequencerStep.triggerView (st : SequencerStep) : Bool × Nat × List Nat :=
  (st.isTriggerOn, st.triggerMask,
   [st.parameter1, st.parameter2, st.parameter3, st.parameter4, st.parameter5, st.parameter6])

/-- Two lists of tracks agree, step by step on every pattern of every track, on what the view
`v` shows of a step. -/
def sameSteps {β : Type} (v : SequencerStep → β) (l l2 : List SequencerTrack) : Prop :=
  ∀ i p j, v ((l.getD i default).stepAt p j) = v ((l2.getD i default).stepAt p j)

/-- What the plock indicator is computed from when the function-button lights are set: the step
count, the two controllers, the flag `hasActivePLockReceivers`, and the LED cell itself;
together with the track buttons, whose release deactivates the controllers. -/
def Sequencer.lightView (s : Sequencer) :
    Nat × AnalogController × AnalogController × Bool × CRGB × List Bounce :=
  (s.stepCount, s.input1, s.input2, s.hasActivePLockReceivers,
   s.functionLeds.BUTTON_TOGGLE_PLOCK, s.trackButtons)

/-- Two lists of tracks agree, track by track, on what the view `w` shows of a track. -/
def sameTracks {β : Type} (w : SequencerTrack → β) (l l2 : List SequencerTrack) : Prop :=
  ∀ i, w (l.getD i default) = w (l2.getD i default)

/-- Whether `setDefaultTrackLight` sees the track as a receiver of parameter locks: its current
pattern is in plock mode. -/
def SequencerTrack.isPLockReceiver (t : SequencerTrack) : Bool :=
  t.getCurrentPattern.isInPLockMode

/-- The mute button is held with the sequencer stopped at an even step count; track 0 is
mute-armed and its current pattern has a step with the plock bit set; the LED of TOGGLE_PLOCK is
dark. -/
def plockIndicatorScenario : Sequencer :=
  { functionButtons := { BUTTON_TOGGLE_MUTE := { read := true } }
    tracks :=
      { patterns :=
          { steps := List.replicate 3 {} ++ [{ state := 3, parameter1 := 11 }] ++
              List.replicate 12 {} } :: List.replicate 7 {}
        muteArmed := true } :: List.replicate 5 {} }

/-! ## Project persistence (`ProjectPersistence.cpp`) -/

/-- The number of patterns of a track (`NUMBER_OF_PATTERNS`; the tracks of the model hold
eight). -/
def NUMBER_OF_PATTERNS : Nat := 8

/-- The number of steps of a pattern (`NUMBER_OF_STEPS_PER_PATTERN`). -/
def NUMBER_OF_STEPS_PER_PATTERN : Nat := 16

/-- The number of project slots (`PROJECTSLOTS`). -/
def PROJECTSLOTS : Nat := 16

/-- A `float` gain, held as its IEEE-754 single-precision bit pattern: the persistence code
only reads, stores and hands on gains. -/
structure Gain where
  bits : Nat
deriving DecidableEq, Repr

/-- The literal `0.5`. -/
def Gain.half : Gain := ⟨0x3F000000⟩

instance : Inhabited Gain := ⟨Gain.half⟩

/-! `ProjectPersistence.cpp` is written against class declarations that are not those of
`Sequencer.cpp`: a step has the members `triggerMask` and `params` (a `ParameterSet`), a pattern
the members `triggerState` and `pLockArmState`, the sequencer the members `clock` and
`audioChannels` and the method `setChannelGain`. The namespace `Project` holds these classes,
with the members that `save` and `load` reach and no others. -/

namespace Project

/-- Modelled from the spec: `ParameterSet`, the six parameter values of a step
(`ProjectPersistence.cpp` 82-88, 165-171). -/
structure ParameterSet where
  parameter1 : Nat := 0
  parameter2 : Nat := 0
  parameter3 : Nat := 0
  parameter4 : Nat := 0
  parameter5 : Nat := 0
  parameter6 : Nat := 0
deriving DecidableEq, Repr

/-- Modelled from the spec: a step, with the members `triggerMask` and `params`
(`ProjectPersistence.cpp` 79-88, 162-171). -/
structure SequencerStep where
  triggerMask : Nat := 0b00111111
  params : ParameterSet := {}
deriving DecidableEq, Repr

instance : Inhabited SequencerStep := ⟨{}⟩

/-- Modelled from the spec: a pattern, with the members `triggerState`, `pLockArmState`,
`offset`, `trackLength`, `autoMutate` and the array `steps`
(`ProjectPersistence.cpp` 70-79, 150-162). -/
structure SequencerPattern where
  triggerState : Nat := 0
  pLockArmState : Nat := 0
  offset : Nat := 0
  trackLength : Nat := 16
  autoMutate : Bool := false
  steps : List SequencerStep := List.replicate NUMBER_OF_STEPS_PER_PATTERN {}
deriving DecidableEq, Repr

instance : Inhabited SequencerPattern := ⟨{}⟩

/-- Modelled from the spec (section 8: the state bits of a step are recoverable from the pair
`triggerState`, `pLockArmState`): the trigger bit of step `s`, bit `s` of `triggerState`. -/
def SequencerPattern.isTriggerOn (p : SequencerPattern) (s : Nat) : Bool :=
  p.triggerState.testBit s

/-- Modelled from the spec (section 8): the plock bit of step `s`, bit `s` of
`pLockArmState`. -/
def SequencerPattern.isParameterLockOn (p : SequencerPattern) (s : Nat) : Bool :=
  p.pLockArmState.testBit s

/-- Modelled from the spec: a track, with the array `patterns`
(`ProjectPersistence.cpp` 70, 150). -/
structure SequencerTrack where
  patterns : List SequencerPattern := List.replicate NUMBER_OF_PATTERNS {}
deriving DecidableEq, Repr

instance : Inhabited SequencerTrack := ⟨{}⟩

/-- Modelled from the spec: the member `clock` of the sequencer, with the values behind
`getStepLength`, `setStepLength`, `getSwing` and `setSwing`
(`ProjectPersistence.cpp` 53-54, 122-123). -/
structure Clock where
  stepLength : Nat := 125
  swing : Nat := 0
deriving DecidableEq, Repr

/-- Modelled from the spec: a voice endpoint, with the values behind `getOutput1Gain` and
`getOutput2Gain` (`ProjectPersistence.cpp` 65-66). -/
structure AudioChannel where
  output1Gain : Gain := Gain.half
  output2Gain : Gain := Gain.half
deriving DecidableEq, Repr

instance : Inhabited AudioChannel := ⟨{}⟩

/-- Modelled from the spec: the sequencer, with the members `clock`, `tracks` and
`audioChannels`. -/
structure Sequencer where
  clock : Clock := {}
  tracks : List SequencerTrack := List.replicate NUMBER_OF_INSTRUMENTTRACKS {}
  audioChannels : List AudioChannel := List.replicate NUMBER_OF_INSTRUMENTTRACKS {}
deriving DecidableEq, Repr

instance : Inhabited Sequencer := ⟨{}⟩

namespace Sequencer

/-- The expression `sequencer->tracks[t].patterns[p]`, read. -/
def pattern (m : Sequencer) (t p : Nat) : SequencerPattern :=
  (m.tracks.getD t default).patterns.getD p default

/-- The expression `sequencer->tracks[t].patterns[p]`, written. -/
def setPattern (m : Sequencer) (t p : Nat) (q : SequencerPattern) : Sequencer :=
  { m with
    tracks := m.tracks.set t
      { m.tracks.getD t default with
        patterns := (m.tracks.getD t default).patterns.set p q } }

/-- Modelled from the spec: `Sequencer::setChannelGain`, the setter of the two output gains of
`audioChannels[channel]`; `none` when the index is not one of the array. -/
def setChannelGain (m : Sequencer) (channel : Nat) (gain1 gain2 : Gain) : Option Sequencer :=
  if channel < m.audioChannels.length then
    some { m with
      audioChannels := m.audioChannels.set channel { output1Gain := gain1, output2Gain := gain2 } }
  else none

end Sequencer

end Project

/-- The JSON object of a step: the members `triggerMask` and `params`, as far as present. -/
structure StepRecord where
  triggerMask : Option Nat := none
  params : List Nat := []
deriving DecidableEq, Repr

/-- The JSON object of a pattern. -/
structure PatternRecord where
  triggerState : Option Nat := none
  pLockArmState : Option Nat := none
  offset : Option Nat := none
  trackLength : Option Nat := none
  autoMutate : Option Bool := none
  steps : List StepRecord := []
deriving DecidableEq, Repr

/-- The JSON object of a track (one `trackDoc`). -/
structure TrackRecord where
  output1Gain : Option Gain := none
  output2Gain : Option Gain := none
  patterns : List PatternRecord := []
deriving DecidableEq, Repr

/-- The JSON object after the key `"global"` (the `clockDoc`). -/
structure GlobalRecord where
  stepLength : Option Nat := none
  swing : Option Nat := none
deriving DecidableEq, Repr

/-- A project file as `load` meets it. `global` is `none` when `file.find("\"global\":")` fails,
`some none` when `deserializeJson` reports an error on the block, and the parsed object
otherwise. `tracks` lists the blocks after `"tracks":[` that are separated by commas, `none`
standing for a block on which `deserializeJson` reports an error (an empty list: there is no
block to parse). -/
structure ProjectFile where
  global : Option (Option GlobalRecord) := none
  tracks : List (Option TrackRecord) := []
deriving DecidableEq, Repr

/-- The SD card: whether the library reaches it, and the file `/p_<n>.txt` of each project
number `n`, if there is one. -/
structure SdCard where
  available : Bool := true
  files : Nat → Option ProjectFile := fun _ => none

/-- The members of `ProjectPersistence`. -/
structure ProjectPersistence where
  sdCardInitialized : Bool := false
  existingProjects : Nat := 0
  activeProject : Nat := 0
deriving DecidableEq, Repr

/-- The statement `SD.open(filename, FILE_READ)`: the file, if the card is reached and the file
exists. -/
def SdCard.openRead (sd : SdCard) (projectNum : Nat) : Option ProjectFile :=
  if sd.available then sd.files projectNum else none

/-- The loop `for (x : array)` with a running index that starts at `i`. The body answers `none`
when it indexes an array past its end, which is undefined behaviour in the source; the loop
then has no defined outcome either. -/
def forEachIdx {α σ : Type} : List α → Nat → (Nat → α → σ → Option σ) → σ → Option σ
  | [], _, _, x => some x
  | a :: rest, i, f, x => (f i a x).bind (forEachIdx rest (i + 1) f)

namespace ProjectPersistence

/-- `ProjectPersistence::updateProjectList` (ProjectPersistence.cpp 25-34). -/
def updateProjectList (pp : ProjectPersistence) (sd : SdCard) : ProjectPersistence :=
  let found := forLoop PROJECTSLOTS
    (fun i e => if (sd.openRead i).isSome then e ||| (1 <<< i) else e) 0
  { pp with existingProjects := found }

/-- The JSON object written for a step (ProjectPersistence.cpp 78-88). -/
def saveStep (st : Project.SequencerStep) : StepRecord :=
  { triggerMask := some st.triggerMask
    params := [st.params.parameter1, st.params.parameter2, st.params.parameter3,
      st.params.parameter4, st.params.parameter5, st.params.parameter6] }

/-- The JSON object written for a pattern (ProjectPersistence.cpp 69-89). -/
def savePattern (p : Project.SequencerPattern) : PatternRecord :=
  { triggerState := some p.triggerState
    pLockArmState := some p.pLockArmState
    offset := some p.offset
    trackLength := some p.trackLength
    autoMutate := some p.autoMutate
    steps := (List.range NUMBER_OF_STEPS_PER_PATTERN).map fun s =>
      saveStep (p.steps.getD s default) }

/-- The `trackDoc` written for track `t` (ProjectPersistence.cpp 63-90). -/
def saveTrack (m : Project.Sequencer) (t : Nat) : TrackRecord :=
  { output1Gain := some (m.audioChannels.getD t default).output1Gain
    output2Gain := some (m.audioChannels.getD t default).output2Gain
    patterns := (List.range NUMBER_OF_PATTERNS).map fun p => savePattern (m.pattern t p) }

/-- The file that `save` writes when every write succeeds (ProjectPersistence.cpp 50-98). -/
def saveDocument (m : Project.Sequencer) : ProjectFile :=
  { global := some (some { stepLength := some m.clock.stepLength, swing := some m.clock.swing })
    tracks := (List.range NUMBER_OF_INSTRUMENTTRACKS).map fun t => some (saveTrack m t) }

/-- `ProjectPersistence::save` (ProjectPersistence.cpp 36-103): the file is removed, and when
it can be opened for writing the document is written and the project list is refreshed. -/
def save (pp : ProjectPersistence) (sd : SdCard) (projectNum : Nat) (m : Project.Sequencer) :
    ProjectPersistence × SdCard :=
  if sd.available then
    let sd : SdCard :=
      { sd with files := fun n => if n = projectNum then some (saveDocument m) else sd.files n }
    (pp.updateProjectList sd, sd)
  else (pp, sd)

/-- The assignments to a step in `load` (ProjectPersistence.cpp 163-171). -/
def loadStep (d : StepRecord) (st : Project.SequencerStep) : Project.SequencerStep :=
  { st with
    triggerMask := d.triggerMask.getD 0b00111111
    params :=
      { st.params with
        parameter1 := d.params.getD 0 0
        parameter2 := d.params.getD 1 0
        parameter3 := d.params.getD 2 0
        parameter4 := d.params.getD 3 0
        parameter5 := d.params.getD 4 0
        parameter6 := d.params.getD 5 0 } }

/-- The loop over the steps of a pattern object in `load` (ProjectPersistence.cpp 157-173):
pass `s` writes `sequencerPattern.steps[s]`, which is no step of the pattern when `s` is not
below the size of the array. -/
def loadSteps (ds : List StepRecord) (steps : List Project.SequencerStep) :
    Option (List Project.SequencerStep) :=
  forEachIdx ds 0
    (fun s d steps =>
      if s < steps.length then some (steps.set s (loadStep d (steps.getD s default)))
      else none)
    steps

/-- The assignments to a pattern in `load` (ProjectPersistence.cpp 151-173). -/
def loadPattern (d : PatternRecord) (p : Project.SequencerPattern) :
    Option Project.SequencerPattern :=
  let p : Project.SequencerPattern :=
    { p with
      triggerState := d.triggerState.getD 0
      pLockArmState := d.pLockArmState.getD 0
      offset := d.offset.getD 0
      trackLength := d.trackLength.getD 16
      autoMutate := d.autoMutate.getD false }
  (loadSteps d.steps p.steps).map fun steps => { p with steps := steps }

/-- The loop over the patterns of a track object in `load` (ProjectPersistence.cpp 146-175):
pass `p` writes `sequencer->tracks[t].patterns[p]`, which is no pattern of the sequencer when
`t` or `p` is not below the size of its array. -/
def loadPatterns (t : Nat) (ds : List PatternRecord) (m : Project.Sequencer) :
    Option Project.Sequencer :=
  forEachIdx ds 0
    (fun p d m =>
      if t < m.tracks.length ∧ p < (m.tracks.getD t default).patterns.length then
        (loadPattern d (m.pattern t p)).map fun q => m.setPattern t p q
      else none)
    m

/-- One pass of the `do` loop of `load` on a parsed `trackDoc`
(ProjectPersistence.cpp 141-176). -/
def loadTrack (t : Nat) (d : TrackRecord) (m : Project.Sequencer) : Option Project.Sequencer :=
  (m.setChannelGain t (d.output1Gain.getD Gain.half) (d.output2Gain.getD Gain.half)).bind
    (loadPatterns t d.patterns)

/-- The `do ... while (file.findUntil(",", "]"))` loop of `load`, from track index `t`
(ProjectPersistence.cpp 132-177): the sequencer it leaves, and whether it ran to its end (false:
it returned on a deserialization error). -/
def loadTracks : Nat → List (Option TrackRecord) → Project.Sequencer →
    Option (Project.Sequencer × Bool)
  | _, [], m => some (m, false)
  | _, none :: _, m => some (m, false)
  | t, some d :: rest, m =>
    match rest with
    | [] => (loadTrack t d m).map fun m => (m, true)
    | _ :: _ => (loadTrack t d m).bind (loadTracks (t + 1) rest)

/-- The global block of `load` (ProjectPersistence.cpp 122-123) on a parsed `clockDoc`. -/
def loadGlobal (g : GlobalRecord) (m : Project.Sequencer) : Project.Sequencer :=
  { m with clock := { m.clock with stepLength := g.stepLength.getD 0, swing := g.swing.getD 0 } }

/-- The branch `if (file.find("\"global\":")) ... else file.seek(0)` of `load` when no error
is reported (ProjectPersistence.cpp 114-126): a parsed block is applied, a missing one is
skipped. -/
def loadGlobalBlock (g : Option (Option GlobalRecord)) (m : Project.Sequencer) :
    Project.Sequencer :=
  match g with
  | some (some clockDoc) => loadGlobal clockDoc m
  | _ => m

/-- `ProjectPersistence::load` (ProjectPersistence.cpp 105-183); `none` when the call indexes
an array past its end. -/
def load (pp : ProjectPersistence) (sd : SdCard) (projectNum : Nat) (m : Project.Sequencer) :
    Option (ProjectPersistence × Project.Sequencer) :=
  match sd.openRead projectNum with
  | none => some (pp, m)
  | some file =>
    if file.global = some none then some (pp, m)
    else
      (loadTracks 0 file.tracks (loadGlobalBlock file.global m)).map fun r =>
        if r.2 then ({ pp with activeProject := 0 ||| (1 <<< projectNum) }, r.1)
        else (pp, r.1)

/-- Whether `load` runs to its end (it then sets `activeProject`): the file opens, no
deserialization error is reported on the global block or on a track block; `none` when the call
indexes an array past its end. -/
def loadCompletes (sd : SdCard) (projectNum : Nat) (m : Project.Sequencer) : Option Bool :=
  match sd.openRead projectNum with
  | none => some false
  | some file =>
    if file.global = some none then some false
    else (loadTracks 0 file.tracks (loadGlobalBlock file.global m)).map fun r => r.2

/-- `ProjectPersistence::isActive` (ProjectPersistence.cpp 189-191). -/
def isActive (pp : ProjectPersistence) (projectNum : Nat) : Bool :=
  pp.activeProject &&& (1 <<< projectNum) != 0

end ProjectPersistence

/-- The arrays of the sequencer have at least the sizes that `load` indexes for a complete
document: six tracks and six audio channels, `NUMBER_OF_PATTERNS` patterns in each of the six
tracks, sixteen steps in each of these patterns. -/
def Project.Sequencer.WellSized (m : Project.Sequencer) : Prop :=
  6 ≤ m.tracks.length ∧ 6 ≤ m.audioChannels.length ∧
  ∀ t, t < 6 → 8 ≤ (m.tracks.getD t default).patterns.length ∧
    ∀ p, p < 8 → 16 ≤ (m.pattern t p).steps.length

instance (m : Project.Sequencer) : Decidable m.WellSized := by
  unfold Project.Sequencer.WellSized
  infer_instance

/-- The gains that `load` hands to `setChannelGain` for a track object. -/
def TrackRecord.channel (d : TrackRecord) : Project.AudioChannel :=
  { output1Gain := d.output1Gain.getD Gain.half, output2Gain := d.output2Gain.getD Gain.half }

/-- What the loop over the pattern objects of track `t` leaves alone. -/
def patternsFrame (t : Nat) (x y : Project.Sequencer) : Prop :=
  y.clock = x.clock ∧ y.audioChannels = x.audioChannels ∧
  y.tracks.length = x.tracks.length ∧
  (∀ t2, t2 ≠ t → y.tracks.getD t2 default = x.tracks.getD t2 default) ∧
  (y.tracks.getD t default).patterns.length = (x.tracks.getD t default).patterns.length

/-- What the passes of the `do` loop of `load` leave alone: the clock and the sizes of the
arrays of tracks and of audio channels. -/
def tracksFrame (x y : Project.Sequencer) : Prop :=
  y.clock = x.clock ∧ y.tracks.length = x.tracks.length ∧
  y.audioChannels.length = x.audioChannels.length

/-- A sequencer whose pattern 0 of track 0 has the trigger bit of step 0 set, a track length of
12 and parameter 1 of step 0 at 77, with a step length of 200 ms and a swing of 3. -/
def savedSequencer : Project.Sequencer :=
  { clock := { stepLength := 200, swing := 3 }
    tracks :=
      { patterns :=
          { triggerState := 1
            trackLength := 12
            steps := { params := { parameter1 := 77 } } :: List.replicate 15 {} } ::
            List.replicate 7 {} } :: List.replicate 5 {} }

/-- A card whose file of project 0 has a well-formed global block (step length 200, swing 3)
followed by a track block on which `deserializeJson` reports an error. -/
def brokenTrackCard : SdCard :=
  { files := fun n =>
      if n = 0 then
        some { global := some (some { stepLength := some 200, swing := some 3 })
               tracks := [none] }
      else none }

/-! ## The LED array -/

/-- The state `s` with the contents of the LED array replaced: the function cells by `f`, the
track cells by `t`, the step cells by `st`. Two states differ only in the contents of the LED
array when one is the other with its LED cells replaced. -/
def Sequencer.withLeds (s : Sequencer) (f : FunctionLeds) (t st : List CRGB) : Sequencer :=
  { s with functionLeds := f, trackLeds := t, stepLeds := st }

/-- Two rows of LED cells have the same number of cells and the same colour in each of the
first `n` cells. -/
def sameCells (n : Nat) (l l2 : List CRGB) : Prop :=
  l.length = l2.length ∧ ∀ k, k < n → l.getD k default = l2.getD k default

/-- The states `s` and `s2` differ at most in the contents of the LED array, and there they
have the same colours in the first `a` track cells and in the first `b` step cells. -/
def Sequencer.differInLeds (a b : Nat) (s s2 : Sequencer) : Prop :=
  s2 = s.withLeds s2.functionLeds s2.trackLeds s2.stepLeds ∧
  sameCells a s.trackLeds s2.trackLeds ∧ sameCells b s.stepLeds s2.stepLeds

/-- The power-on state with the LED of TOGGLE_MUTE lit, as a tick in mode TOGGLE_MUTES leaves
it. -/
def muteLedLit : Sequencer :=
  ({} : Sequencer).withLeds { BUTTON_TOGGLE_MUTE := CRGB.CornflowerBlue }
    (List.replicate 6 CRGB.Black) (List.replicate 16 CRGB.Black)

/-- The function cell that the handler of a mode assigns in its first statement
(`doSetTrackLength`, `doSetTrackPLock`, `doToggleTrackMuteArm`, `doPatternOps`: Sequencer.cpp 295,
316, 350, 375); the handlers of the other modes assign none. -/
def modeLeds (mode : FunctionMode) (f : FunctionLeds) : FunctionLeds :=
  match mode with
  | FunctionMode.SET_TRACK_LENGTH => { f with BUTTON_SET_TRACKLENGTH := CRGB.CornflowerBlue }
  | FunctionMode.TOGGLE_PLOCKS => { f with BUTTON_TOGGLE_PLOCK := CRGB.DarkOrange }
  | FunctionMode.TOGGLE_MUTES => { f with BUTTON_TOGGLE_MUTE := CRGB.CornflowerBlue }
  | FunctionMode.PATTERN_OPS => { f with BUTTON_SET_PATTERN := CRGB.CornflowerBlue }
  | _ => f

/-- The condition under which `setFunctionButtonLights` assigns the cell of TOGGLE_PLOCK
(Sequencer.cpp 500). -/
def Sequencer.plockLightDue (s : Sequencer) : Bool :=
  (s.hasActivePLockReceivers && s.stepCount % 2 == 0) ||
    (s.hasActivePLockReceivers && (s.input1.isActive || s.input2.isActive))

/-- The state that the handlers of a tick hand to `setFunctionButtonLights`
(Sequencer.cpp 126-179). -/
def Sequencer.afterHandlers (s : Sequencer) (millis : Nat) : Sequencer :=
  ({ s with hasActivePLockReceivers := false } : Sequencer).selectParamSet.runHandlers
    ({ s with hasActivePLockReceivers := false } : Sequencer).selectParamSet.calculateFunctionMode
    millis

/-- A running sequencer whose next step is due at 25 ms. On track 0 the cursor of pattern 0
stands on the last step of the loop and a switch to pattern 1 is queued; pattern 0 has a step
with the plock bit set, and so has pattern 1 (its step 0). -/
def plockQueuedScenario : Sequencer :=
  { tracks :=
      { patterns :=
          [ { steps := List.replicate 3 {} ++ [{ state := 3, parameter1 := 11 }] ++
                List.replicate 12 {}
              currentStep := 15 },
            { steps := { state := 2 } :: List.replicate 15 {} } ] ++ List.replicate 6 {}
        queuedPatternIndex := 1 } :: List.replicate 5 {}
    running := true
    nextStepTime := 25 }

/-- What the mute gesture works on in a track: the muted flag and the mute arm. -/
def SequencerTrack.muteView (t : SequencerTrack) : Bool × Bool := (t.muted, t.muteArmed)

/-- Two arrays of tracks have the same size and agree, track by track, on the muted flag and
the mute arm. -/
def sameMute (l l2 : List SequencerTrack) : Prop :=
  l.length = l2.length ∧ sameTracks SequencerTrack.muteView l l2

/-- A scan taken while TOGGLE_MUTE is held: the button reads pressed, START/STOP did not rise,
and TOGGLE_PLOCK is neither held nor released. -/
def Scan.muteHeld (scan : Scan) : Prop :=
  scan.functionButtons.BUTTON_TOGGLE_MUTE.read = true ∧
  scan.functionButtons.BUTTON_STARTSTOP.rose = false ∧
  scan.functionButtons.BUTTON_TOGGLE_PLOCK.read = false ∧
  scan.functionButtons.BUTTON_TOGGLE_PLOCK.fell = false

instance (scan : Scan) : Decidable scan.muteHeld := by
  unfold Scan.muteHeld
  infer_instance

/-- The scan in which TOGGLE_MUTE is released: the button fell and reads released, START/STOP
did not rise, and TOGGLE_PLOCK is neither held nor released. -/
def Scan.muteReleased (scan : Scan) : Prop :=
  scan.functionButtons.BUTTON_TOGGLE_MUTE.fell = true ∧
  scan.functionButtons.BUTTON_TOGGLE_MUTE.read = false ∧
  scan.functionButtons.BUTTON_STARTSTOP.rose = false ∧
  scan.functionButtons.BUTTON_TOGGLE_PLOCK.read = false ∧
  scan.functionButtons.BUTTON_TOGGLE_PLOCK.fell = false

instance (scan : Scan) : Decidable scan.muteReleased := by
  unfold Scan.muteReleased
  infer_instance

/-- The scans of scenario 5 of the specification with TOGGLE_MUTE held: track button 1 is
pressed and released, then track button 3 is pressed and released. -/
def muteHoldScans : List Scan :=
  tapTracksOneAndThree.map fun trackButtons =>
    { functionButtons := { BUTTON_TOGGLE_MUTE := { read := true } }
      trackButtons := trackButtons }

/-- The scan in which TOGGLE_MUTE is released, all other buttons at rest. -/
def muteReleaseScan : Scan :=
  { functionButtons := { BUTTON_TOGGLE_MUTE := { fell := true } } }

/-- A running sequencer whose next step is due at 25 ms; on track 0 the cursor of the current
pattern stands on the last step of the loop. No track is muted or armed. -/
def muteWrapScenario : Sequencer :=
  { tracks :=
      { patterns := { currentStep := 15 } :: List.replicate 7 {} } :: List.replicate 5 {}
    running := true
    nextStepTime := 25 }

/-- A scan at 10 ms with TOGGLE_MUTE held in which track button 0 is released. -/
def muteHoldTap : Scan :=
  { functionButtons := { BUTTON_TOGGLE_MUTE := { read := true } }
    trackButtons := (List.replicate 6 {}).set 0 { fell := true }
    millis := 10 }

/-- A scan at 30 ms with TOGGLE_MUTE held, all other buttons at rest. -/
def muteHoldIdle : Scan :=
  { functionButtons := { BUTTON_TOGGLE_MUTE := { read := true } }, millis := 30 }

/-! ## Properties -/

/-- C1: `calculateFunctionMode` is the first-match-wins decision list over the readings of the
function buttons, for every combination of readings and every value of
`trackOrStepButtonPressed`; it only computes a mode (no state is returned or changed). -/
theorem calculateFunctionMode_priority (s : Sequencer) :
    s.calculateFunctionMode =
      functionModePriorityList s.functionButtons s.trackOrStepButtonPressed := by
  unfold Sequencer.calculateFunctionMode functionModePriorityList
  cases s.functionButtons.BUTTON_STARTSTOP.rose <;>
  cases s.functionButtons.BUTTON_TOGGLE_PLOCK.read <;>
  cases s.functionButtons.BUTTON_TOGGLE_PLOCK.fell <;>
  cases s.trackOrStepButtonPressed <;>
  cases s.functionButtons.BUTTON_TOGGLE_MUTE.read <;>
  cases s.functionButtons.BUTTON_TOGGLE_MUTE.fell <;>
  cases s.functionButtons.BUTTON_SET_TRACKLENGTH.read <;>
  cases s.functionButtons.BUTTON_SET_PATTERN.read <;>
  cases s.functionButtons.BUTTON_SET_PATTERN.fell <;> rfl

/-! ### The clock source -/

/-- One call of `shouldStep` that finds the clock flag set while syncing: the flag is consumed,
the call returns true exactly when `pulseCount` was at least 5, and `pulseCount` is counted
modulo six. -/
theorem shouldStep_after_clock_byte (s : Sequencer) (t : Nat)
    (hs : s.isSyncingToMidiClock = true) :
    ((s.onMidiInput 0xF8 t).shouldStep t).1 = decide (5 ≤ s.pulseCount) ∧
    ((s.onMidiInput 0xF8 t).shouldStep t).2.pulseCount
      = (if 5 ≤ s.pulseCount then 0 else s.pulseCount + 1) ∧
    ((s.onMidiInput 0xF8 t).shouldStep t).2.midiClockReceived = false ∧
    ((s.onMidiInput 0xF8 t).shouldStep t).2.isSyncingToMidiClock = true := by
  by_cases h : 5 ≤ s.pulseCount <;>
    simp [Sequencer.onMidiInput, Sequencer.shouldStep, Sequencer.shouldStepMidiClock, hs, h]

theorem midiClockCalls_from (times : List Nat) :
    ∀ (s : Sequencer) (c : Nat), s.isSyncingToMidiClock = true → s.pulseCount = c → c < 6 →
      (s.midiClockCalls times).1
        = (List.range times.length).map (fun j => decide ((c + j + 1) % 6 = 0)) ∧
      (s.midiClockCalls times).2.pulseCount = (c + times.length) % 6 ∧
      (s.midiClockCalls times).2.isSyncingToMidiClock = true ∧
      (times ≠ [] → (s.midiClockCalls times).2.midiClockReceived = false) := by
  induction times with
  | nil =>
    intro s c hs hc hlt
    simp [Sequencer.midiClockCalls, hs, hc]
    omega
  | cons t ts ih =>
    intro s c hs hc hlt
    obtain ⟨h1, h2, h3, h4⟩ := shouldStep_after_clock_byte s t hs
    have hc' : ((s.onMidiInput 0xF8 t).shouldStep t).2.pulseCount = (c + 1) % 6 := by
      rw [h2, hc]; split <;> omega
    obtain ⟨i1, i2, i3, i4⟩ := ih _ ((c + 1) % 6) h4 hc' (Nat.mod_lt _ (by decide))
    refine ⟨?_, ?_, ?_, ?_⟩
    · simp only [Sequencer.midiClockCalls, List.length_cons, List.range_succ_eq_map,
        List.map_cons, List.map_map]
      rw [h1, i1, hc]
      congr 1
      · simp; omega
      · apply List.map_congr_left
        intro j _
        simp only [Function.comp]
        congr 1
        apply propext
        omega
    · simp only [Sequencer.midiClockCalls, List.length_cons]
      rw [i2]; omega
    · simpa [Sequencer.midiClockCalls] using i3
    · intro _
      by_cases hts : ts = []
      · subst hts
        simpa [Sequencer.midiClockCalls] using h3
      · simpa [Sequencer.midiClockCalls] using i4 hts

/-- C2: while syncing to the MIDI clock and starting from `pulseCount = 0`, in every series of
calls of `shouldStep` that each find `midiClockReceived` set, the call number `j + 1` returns
true exactly when `j + 1` is a multiple of six; the flag is cleared by the calls, and after `n`
calls `pulseCount` is `n mod 6` (0 after each call that returned true, never above 5). -/
theorem shouldStep_midi_clock_every_sixth (s : Sequencer) (times : List Nat)
    (hs : s.isSyncingToMidiClock = true) (hp : s.pulseCount = 0) :
    (s.midiClockCalls times).1
      = (List.range times.length).map (fun j => decide ((j + 1) % 6 = 0)) ∧
    (s.midiClockCalls times).2.pulseCount = times.length % 6 ∧
    (s.midiClockCalls times).2.pulseCount ≤ 5 ∧
    (times ≠ [] → (s.midiClockCalls times).2.midiClockReceived = false) := by
  obtain ⟨h1, h2, _, h4⟩ := midiClockCalls_from times s 0 hs hp (by decide)
  refine ⟨?_, ?_, ?_, h4⟩
  · simpa using h1
  · simpa using h2
  · rw [h2]; omega

/-- Witness of C2: thirteen clock pulses on a freshly synced sequencer step on the sixth and
on the twelfth. -/
theorem shouldStep_midi_clock_every_sixth_witness :
    (Sequencer.midiClockCalls { isSyncingToMidiClock := true }
        [0, 1, 2, 3, 4, 5, 6, 7, 8, 9, 10, 11, 12]).1
      = [false, false, false, false, false, true,
         false, false, false, false, false, true, false] :=
  (shouldStep_midi_clock_every_sixth { isSyncingToMidiClock := true }
    [0, 1, 2, 3, 4, 5, 6, 7, 8, 9, 10, 11, 12] rfl rfl).1.trans (by decide)

/-- C4: while `isSyncingToMidiClock` holds, `shouldStep` performs no internal-clock step,
whatever the millisecond clock reads: `nextStepTime` and `lastStepTime` keep their values, and
without a received clock byte the call returns false and changes nothing (in particular not
`pulseCount`), also when `millis ≥ nextStepTime`. -/
theorem shouldStep_syncing_no_internal_step (s : Sequencer) (millis : Nat)
    (hs : s.isSyncingToMidiClock = true) :
    (s.shouldStep millis).2.nextStepTime = s.nextStepTime ∧
    (s.shouldStep millis).2.lastStepTime = s.lastStepTime ∧
    (s.midiClockReceived = false →
      (s.shouldStep millis).1 = false ∧
      (s.shouldStep millis).2.pulseCount = s.pulseCount ∧
      (s.shouldStep millis).2 = s) := by
  cases hm : s.midiClockReceived <;> by_cases h : 5 ≤ s.pulseCount <;>
    simp [Sequencer.shouldStep, Sequencer.shouldStepMidiClock, hs, hm, h]

/-- Witness of C4: a syncing sequencer whose next internal step has long been due. -/
theorem shouldStep_syncing_no_internal_step_witness :
    (Sequencer.shouldStep { isSyncingToMidiClock := true, nextStepTime := 10 } 1000).1 = false ∧
    (Sequencer.shouldStep { isSyncingToMidiClock := true, nextStepTime := 10 } 1000).2.nextStepTime
      = 10 :=
  ⟨((shouldStep_syncing_no_internal_step
      { isSyncingToMidiClock := true, nextStepTime := 10 } 1000 rfl).2.2 rfl).1,
   (shouldStep_syncing_no_internal_step
      { isSyncingToMidiClock := true, nextStepTime := 10 } 1000 rfl).1⟩

/-- One call of `shouldStep` on the internal clock (not syncing): it steps exactly when
`millis ≥ nextStepTime`, then moves `lastStepTime` to the old `nextStepTime` and `nextStepTime`
one step length further; otherwise it changes nothing. -/
theorem shouldStep_internal (s : Sequencer) (millis : Nat)
    (hs : s.isSyncingToMidiClock = false) :
    (s.shouldStep millis).1 = decide (s.nextStepTime ≤ millis) ∧
    (s.shouldStep millis).2.isSyncingToMidiClock = false ∧
    (s.shouldStep millis).2.stepLength = s.stepLength ∧
    (s.shouldStep millis).2.nextStepTime
      = (if s.nextStepTime ≤ millis then s.nextStepTime + s.stepLength else s.nextStepTime) ∧
    (s.shouldStep millis).2.lastStepTime
      = (if s.nextStepTime ≤ millis then s.nextStepTime else s.lastStepTime) ∧
    (millis < s.nextStepTime → (s.shouldStep millis).2 = s) := by
  by_cases h : s.nextStepTime ≤ millis
  · simp [Sequencer.shouldStep, Sequencer.shouldStepInternalClock, hs, h]
  · simp [Sequencer.shouldStep, Sequencer.shouldStepInternalClock, hs, h]

theorem shouldStepCalls_schedule (times : List Nat) :
    ∀ (s : Sequencer), s.isSyncingToMidiClock = false →
      (s.shouldStepCalls times).2.nextStepTime
        = s.nextStepTime + (s.shouldStepCalls times).1.count true * s.stepLength ∧
      (s.shouldStepCalls times).2.stepLength = s.stepLength ∧
      (0 < (s.shouldStepCalls times).1.count true →
        (s.shouldStepCalls times).2.lastStepTime + s.stepLength
          = (s.shouldStepCalls times).2.nextStepTime) ∧
      ((s.shouldStepCalls times).1.count true = 0 →
        (s.shouldStepCalls times).2.lastStepTime = s.lastStepTime) := by
  induction times with
  | nil => intro s _; simp [Sequencer.shouldStepCalls]
  | cons t ts ih =>
    intro s hs
    obtain ⟨h1, h2, h3, h4, h5, _⟩ := shouldStep_internal s t hs
    obtain ⟨i1, i2, i3, i4⟩ := ih _ h2
    rw [h3] at i1 i2 i3
    rw [h4] at i1
    rw [h5] at i4
    by_cases h : s.nextStepTime ≤ t
    · simp only [Sequencer.shouldStepCalls, h1, h, decide_True, List.count_cons_self]
      simp only [h, if_true] at i1 i4
      refine ⟨?_, i2, ?_, ?_⟩
      · rw [i1]; ring
      · intro _
        by_cases hk : 0 < List.count true ((s.shouldStep t).2.shouldStepCalls ts).1
        · exact i3 hk
        · have hk0 := Nat.eq_zero_of_not_pos hk
          rw [i4 hk0, i1, hk0]; simp
      · intro hk; omega
    · have hne : (false == true) = false := rfl
      simp only [Sequencer.shouldStepCalls, h1, h, decide_False, List.count_cons, hne]
      simp only [h, if_false] at i1 i4
      exact ⟨i1, i2, i3, i4⟩

theorem shouldStepCalls_every_millisecond (n : Nat) :
    ∀ (a : Nat) (s : Sequencer), s.isSyncingToMidiClock = false → s.stepLength = 125 →
      s.nextStepTime = 125 * (a / 125) + 125 →
      (s.shouldStepCalls (List.range' (a + 1) n)).1
        = (List.range' (a + 1) n).map (fun t => decide (t % 125 = 0)) := by
  induction n with
  | zero => intro a s _ _ _; simp [Sequencer.shouldStepCalls]
  | succ n ih =>
    intro a s hs hL hn
    obtain ⟨h1, h2, h3, h4, _, _⟩ := shouldStep_internal s (a + 1) hs
    simp only [List.range', Sequencer.shouldStepCalls, List.map_cons]
    congr 1
    · rw [h1]
      congr 1
      apply propext
      omega
    · apply ih (a + 1) _ h2 (h3.trans hL)
      rw [h4, hL]
      split <;> omega

/-- The state right after `start()` on a stopped sequencer. -/
theorem start_of_stopped (s : Sequencer) (t0 : Nat) (hr : s.running = false) :
    s.start t0 =
      { s with running := true, triggerSounds := true, nextStepTime := t0 + s.stepLength } := by
  simp [Sequencer.start, Sequencer.doStartStop, hr]

/-- C5: the internal clock is drift-free (exact arithmetic). After `start()` at time `t0` on a
stopped sequencer that is not syncing, with step length `L`: a call of `shouldStep` steps
exactly when `millis ≥ nextStepTime` and a call with `millis < nextStepTime` changes nothing;
after any series of calls of which `k` stepped, `nextStepTime = t0 + (k + 1) * L`, and
`lastStepTime = t0 + k * L` once `k > 0`, however late the calls came; and with `L = 125`,
`t0 = 0` and one call per millisecond the steps are exactly those at the multiples of 125. -/
theorem internal_clock_drift_free (s : Sequencer) (t0 : Nat)
    (hr : s.running = false) (hs : s.isSyncingToMidiClock = false) :
    (∀ (s1 : Sequencer) (millis : Nat), s1.isSyncingToMidiClock = false →
      ((s1.shouldStep millis).1 = true ↔ s1.nextStepTime ≤ millis) ∧
      (millis < s1.nextStepTime →
        (s1.shouldStep millis).2.nextStepTime = s1.nextStepTime ∧
        (s1.shouldStep millis).2.lastStepTime = s1.lastStepTime)) ∧
    (s.start t0).nextStepTime = t0 + s.stepLength ∧
    (∀ times : List Nat,
      ((s.start t0).shouldStepCalls times).2.nextStepTime
        = t0 + (((s.start t0).shouldStepCalls times).1.count true + 1) * s.stepLength ∧
      (0 < ((s.start t0).shouldStepCalls times).1.count true →
        ((s.start t0).shouldStepCalls times).2.lastStepTime
          = t0 + ((s.start t0).shouldStepCalls times).1.count true * s.stepLength)) ∧
    (s.stepLength = 125 → ∀ n : Nat,
      ((s.start 0).shouldStepCalls (List.range' 1 n)).1
        = (List.range' 1 n).map (fun t => decide (t % 125 = 0))) := by
  refine ⟨?_, ?_, ?_, ?_⟩
  · intro s1 millis h1
    obtain ⟨a, _, _, _, _, c⟩ := shouldStep_internal s1 millis h1
    refine ⟨by rw [a]; simp, fun hlt => ?_⟩
    rw [c hlt]; exact ⟨rfl, rfl⟩
  · rw [start_of_stopped s t0 hr]
  · intro times
    have hs' : (s.start t0).isSyncingToMidiClock = false := by
      rw [start_of_stopped s t0 hr]; exact hs
    obtain ⟨i1, _, i3, _⟩ := shouldStepCalls_schedule times (s.start t0) hs'
    have e1 : (s.start t0).nextStepTime = t0 + s.stepLength := by
      rw [start_of_stopped s t0 hr]
    have e2 : (s.start t0).stepLength = s.stepLength := by
      rw [start_of_stopped s t0 hr]
    rw [e1, e2] at i1
    rw [e2] at i3
    refine ⟨by rw [i1]; ring, fun hk => ?_⟩
    have := i3 hk
    rw [i1] at this
    have e3 : t0 + s.stepLength
        + ((s.start t0).shouldStepCalls times).1.count true * s.stepLength
        = (t0 + ((s.start t0).shouldStepCalls times).1.count true * s.stepLength)
          + s.stepLength := by ring
    rw [e3] at this
    exact Nat.add_right_cancel this
  · intro hL n
    apply shouldStepCalls_every_millisecond n 0
    · rw [start_of_stopped s 0 hr]; exact hs
    · rw [start_of_stopped s 0 hr]; exact hL
    · rw [start_of_stopped s 0 hr]; simp [hL]

/-- Witness of C5: the default sequencer (step length 125) started at time 0; three late calls
at 130, 260 and 380 all step and leave the schedule on the grid. -/
theorem internal_clock_drift_free_witness :
    ((Sequencer.start {} 0).shouldStepCalls [130, 260, 380]).2.nextStepTime = 500 ∧
    ((Sequencer.start {} 0).shouldStepCalls [130, 260, 380]).2.lastStepTime = 375 :=
  ⟨((internal_clock_drift_free {} 0 rfl rfl).2.2.1 [130, 260, 380]).1.trans (by decide),
   (((internal_clock_drift_free {} 0 rfl rfl).2.2.1 [130, 260, 380]).2 (by decide)).trans
     (by decide)⟩

/-! ### MIDI input -/

/-- C9: a byte other than `0xF8`, `0xFA` and `0xFC` leaves the whole sequencer state as it
is. -/
theorem onMidiInput_other_byte (s : Sequencer) (b millis : Nat)
    (h1 : b ≠ 0xF8) (h2 : b ≠ 0xFA) (h3 : b ≠ 0xFC) :
    s.onMidiInput b millis = s := by
  unfold Sequencer.onMidiInput
  split <;> simp_all

/-- Witness of C9: the byte `0xFB` (continue) on a running, syncing sequencer. -/
theorem onMidiInput_other_byte_witness :
    Sequencer.onMidiInput { running := true, isSyncingToMidiClock := true, pulseCount := 3 }
        0xFB 17
      = { running := true, isSyncingToMidiClock := true, pulseCount := 3 } :=
  onMidiInput_other_byte _ 0xFB 17 (by decide) (by decide) (by decide)

/-! ### Parameter-set selection -/

/-- Counterexample to C10 as stated: SET_PARAMSET_2 rose in the tick, together with
SET_PARAMSET_1, and after the selection the parameter set is SET1, not SET2. -/
theorem selectParamSet_second_button_loses :
    ¬ (paramSetButtonsOneAndTwoRose.functionButtons.BUTTON_SET_PARAMSET_2.rose = true →
        paramSetButtonsOneAndTwoRose.selectParamSet.pLockParamSet = PLockParamSet.SET2) := by
  decide

/-- C10 (amended): if SET_PARAMSET_k rose in the tick and no SET_PARAMSET button with a
smaller number rose in it, then right after the selection at the start of `updateState`
`pLockParamSet = SETk` and both analog controllers are inactive; if none of the three buttons
rose the selection changes nothing (the parameter set stays, no controller is deactivated). -/
theorem selectParamSet_lowest_risen (s : Sequencer) :
    (∀ k : PLockParamSet, (s.paramSetButton k).rose = true →
      (∀ j : PLockParamSet, j.number < k.number → (s.paramSetButton j).rose = false) →
      s.selectParamSet.pLockParamSet = k ∧
      s.selectParamSet.input1.isActive = false ∧
      s.selectParamSet.input2.isActive = false) ∧
    ((∀ k : PLockParamSet, (s.paramSetButton k).rose = false) → s.selectParamSet = s) := by
  constructor
  · intro k hk hlow
    cases k
    · simp only [Sequencer.paramSetButton] at hk
      simp [Sequencer.selectParamSet, hk, Sequencer.deactivateSensors,
        AnalogController.deactivate, AnalogController.isActive]
    · have h1 := hlow PLockParamSet.SET1 (by decide)
      simp only [Sequencer.paramSetButton] at hk h1
      simp [Sequencer.selectParamSet, hk, h1, Sequencer.deactivateSensors,
        AnalogController.deactivate, AnalogController.isActive]
    · have h1 := hlow PLockParamSet.SET1 (by decide)
      have h2 := hlow PLockParamSet.SET2 (by decide)
      simp only [Sequencer.paramSetButton] at hk h1 h2
      simp [Sequencer.selectParamSet, hk, h1, h2, Sequencer.deactivateSensors,
        AnalogController.deactivate, AnalogController.isActive]
  · intro h
    have h1 := h PLockParamSet.SET1
    have h2 := h PLockParamSet.SET2
    have h3 := h PLockParamSet.SET3
    simp only [Sequencer.paramSetButton] at h1 h2 h3
    simp [Sequencer.selectParamSet, h1, h2, h3]

/-- Witness of C10 (amended): with the buttons 1 and 2 pressed together the selection is SET1
and the active controller 1 is deactivated. -/
theorem selectParamSet_lowest_risen_witness :
    paramSetButtonsOneAndTwoRose.selectParamSet.pLockParamSet = PLockParamSet.SET1 ∧
    paramSetButtonsOneAndTwoRose.selectParamSet.input1.isActive = false ∧
    paramSetButtonsOneAndTwoRose.selectParamSet.input2.isActive = false :=
  (selectParamSet_lowest_risen paramSetButtonsOneAndTwoRose).1 PLockParamSet.SET1 (by decide)
    (fun j hj => by cases j <;> simp [PLockParamSet.number] at hj)

/-! ### Lists as arrays -/

theorem list_set_getD_self {α : Type} (l : List α) (j : Nat) (d : α) :
    l.set j (l.getD j d) = l := by
  induction l generalizing j with
  | nil => simp
  | cons a l ih =>
    cases j with
    | zero => simp
    | succ j => simpa using ih j

theorem list_getD_set {α : Type} (l : List α) (i j : Nat) (x d : α) :
    (l.set j x).getD i d = if i = j ∧ j < l.length then x else l.getD i d := by
  induction l generalizing i j with
  | nil => simp
  | cons a l ih =>
    cases j with
    | zero => cases i <;> simp
    | succ j =>
      cases i with
      | zero => simp
      | succ i => simpa using ih i j

theorem list_getD_of_length_le {α : Type} (l : List α) (i : Nat) (d : α) (h : l.length ≤ i) :
    l.getD i d = d := by
  induction l generalizing i with
  | nil => simp
  | cons a l ih =>
    cases i with
    | zero => simp at h
    | succ i => simpa using ih i (by simpa using h)

/-- Writing `g (l[j])` to cell `j`, for a `g` that fixes the default element, and reading
cell `i` afterwards. -/
theorem list_getD_set_apply {α : Type} (l : List α) (i j : Nat) (d : α) (g : α → α)
    (hg : g d = d) :
    (l.set j (g (l.getD j d))).getD i d = if i = j then g (l.getD j d) else l.getD i d := by
  rw [list_getD_set]
  by_cases hij : i = j
  · subst hij
    by_cases hl : i < l.length
    · rw [if_pos ⟨rfl, hl⟩, if_pos rfl]
    · rw [if_neg (fun h => hl h.2), if_pos rfl,
        list_getD_of_length_le l i d (Nat.le_of_not_lt hl), hg]
  · rw [if_neg (fun h => hij h.1), if_neg hij]

/-! ### Steps, patterns and tracks -/

theorem default_getCurrentStep_plock :
    (default : SequencerTrack).getCurrentStep.isParameterLockOn = false := by decide

theorem recordPLock_state (s : Sequencer) (st : SequencerStep) :
    (s.recordPLock st).state = st.state ∧ (s.recordPLock st).triggerMask = st.triggerMask := by
  unfold Sequencer.recordPLock
  cases s.pLockParamSet <;> cases s.input1.isActive <;> cases s.input2.isActive <;> simp

theorem recordedTrack_default (s : Sequencer) : s.recordedTrack default = default := by
  simp [Sequencer.recordedTrack, default_getCurrentStep_plock]

theorem getCurrentPattern_setCurrentPattern (t : SequencerTrack) (p : SequencerPattern) :
    (t.setCurrentPattern p).getCurrentPattern
      = if t.currentPatternIndex < t.patterns.length then p else t.getCurrentPattern := by
  unfold SequencerTrack.setCurrentPattern SequencerTrack.getCurrentPattern
  show (t.patterns.set t.currentPatternIndex p).getD t.currentPatternIndex default = _
  rw [list_getD_set]
  by_cases h : t.currentPatternIndex < t.patterns.length
  · rw [if_pos ⟨rfl, h⟩, if_pos h]
  · rw [if_neg (fun c => h c.2), if_neg h]

theorem getCurrentPattern_of_length_le (t : SequencerTrack)
    (h : ¬ t.currentPatternIndex < t.patterns.length) : t.getCurrentPattern = default :=
  list_getD_of_length_le _ _ _ (Nat.le_of_not_lt h)

/-- Reading the current step after a write through `getCurrentStep()`: the written step when
the reference is inside the arrays, the default step otherwise. -/
theorem getCurrentStep_setCurrentStep (t : SequencerTrack) (st : SequencerStep) :
    (t.setCurrentStep st).getCurrentStep = st ∨
    ((t.setCurrentStep st).getCurrentStep = default ∧ t.getCurrentStep = default) := by
  unfold SequencerTrack.setCurrentStep SequencerTrack.getCurrentStep
  rw [getCurrentPattern_setCurrentPattern]
  by_cases h1 : t.currentPatternIndex < t.patterns.length
  · rw [if_pos h1]
    have e : (t.getCurrentPattern.setStep t.getCurrentPattern.activeIndex st).getStep
        (t.getCurrentPattern.setStep t.getCurrentPattern.activeIndex st).activeIndex
        = if t.getCurrentPattern.activeIndex < t.getCurrentPattern.steps.length then st
          else t.getCurrentPattern.getStep t.getCurrentPattern.activeIndex := by
      show (t.getCurrentPattern.steps.set t.getCurrentPattern.activeIndex st).getD
        t.getCurrentPattern.activeIndex default = _
      rw [list_getD_set]
      by_cases h2 : t.getCurrentPattern.activeIndex < t.getCurrentPattern.steps.length
      · rw [if_pos ⟨rfl, h2⟩, if_pos h2]
      · rw [if_neg (fun c => h2 c.2), if_neg h2]; rfl
    rw [e]
    by_cases h2 : t.getCurrentPattern.activeIndex < t.getCurrentPattern.steps.length
    · left; rw [if_pos h2]
    · right
      rw [if_neg h2]
      exact ⟨list_getD_of_length_le _ _ _ (Nat.le_of_not_lt h2),
        list_getD_of_length_le _ _ _ (Nat.le_of_not_lt h2)⟩
  · right
    rw [if_neg h1, getCurrentPattern_of_length_le t h1]
    exact ⟨rfl, rfl⟩

/-! ### The loop of `doTriggerSounds` -/

theorem recordedTrack_congr (s1 s : Sequencer) (t : SequencerTrack)
    (h : { s1 with tracks := s.tracks, log := s.log } = s) :
    s1.recordedTrack t = s.recordedTrack t := by
  have e1 : s1.input1 = s.input1 := by
    have := congrArg Sequencer.input1 h; exact this
  have e2 : s1.input2 = s.input2 := by
    have := congrArg Sequencer.input2 h; exact this
  have e3 : s1.pLockParamSet = s.pLockParamSet := by
    have := congrArg Sequencer.pLockParamSet h; exact this
  simp only [Sequencer.recordedTrack, Sequencer.recordPLock, e1, e2, e3]

theorem track_set (s : Sequencer) (i j : Nat) (g : SequencerTrack → SequencerTrack)
    (hg : g default = default) :
    (s.tracks.set j (g (s.track j))).getD i default
      = if i = j then g (s.track j) else s.track i :=
  list_getD_set_apply s.tracks i j default g hg

/-- One pass of the loop body of `doTriggerSounds`: only `tracks[j]` and the log change. -/
theorem doTriggerSoundsTrack_spec (j : Nat) (s : Sequencer) :
    { Sequencer.doTriggerSoundsTrack j s with tracks := s.tracks, log := s.log } = s ∧
    (Sequencer.doTriggerSoundsTrack j s).tracks = s.tracks.set j (s.recordedTrack (s.track j)) ∧
    (Sequencer.doTriggerSoundsTrack j s).log
      = s.log ++ Sequencer.voiceCalls j (s.recordedTrack (s.track j)) := by
  have hset : ∀ x : SequencerTrack, (s.setTrack j x).tracks = s.tracks.set j x := fun _ => rfl
  have hread : (s.tracks.set j (s.recordedTrack (s.track j))).getD j default
      = s.recordedTrack (s.track j) := by
    rw [track_set s j j _ (recordedTrack_default s), if_pos rfl]
  cases hp : (s.track j).getCurrentStep.isParameterLockOn
  · have hr : s.recordedTrack (s.track j) = s.track j := by
      simp only [Sequencer.recordedTrack, hp, Bool.false_eq_true, if_false]
    have hl : s.tracks.set j (s.track j) = s.tracks := list_set_getD_self _ _ _
    rw [hr, hl]
    cases hc : (!(s.track j).isMuted && (s.track j).getCurrentStep.isTriggerOn)
    · have e : Sequencer.doTriggerSoundsTrack j s = s := by
        simp only [Sequencer.doTriggerSoundsTrack, hp, Bool.false_eq_true, if_false, hc]
      rw [e]
      exact ⟨rfl, rfl, by simp [Sequencer.voiceCalls, hc]⟩
    · have e : Sequencer.doTriggerSoundsTrack j s
          = { s with log := s.log ++ Sequencer.triggerCalls j (s.track j).getCurrentStep } := by
        simp only [Sequencer.doTriggerSoundsTrack, hp, Bool.false_eq_true, if_false, if_true, hc]
      rw [e]
      exact ⟨rfl, rfl, by simp [Sequencer.voiceCalls, hc]⟩
  · have hr : s.recordedTrack (s.track j)
        = (s.track j).setCurrentStep (s.recordPLock (s.track j).getCurrentStep) := by
      simp only [Sequencer.recordedTrack, hp, if_true]
    rw [hr] at hread ⊢
    have ht : (Sequencer.track (s.setTrack j
        ((s.track j).setCurrentStep (s.recordPLock (s.track j).getCurrentStep))) j)
        = (s.track j).setCurrentStep (s.recordPLock (s.track j).getCurrentStep) := hread
    cases hc : (!((s.track j).setCurrentStep (s.recordPLock (s.track j).getCurrentStep)).isMuted &&
        ((s.track j).setCurrentStep
          (s.recordPLock (s.track j).getCurrentStep)).getCurrentStep.isTriggerOn)
    · have e : Sequencer.doTriggerSoundsTrack j s
          = s.setTrack j
              ((s.track j).setCurrentStep (s.recordPLock (s.track j).getCurrentStep)) := by
        simp only [Sequencer.doTriggerSoundsTrack, hp, if_true, ht, hc, Bool.false_eq_true,
          if_false]
      rw [e]
      exact ⟨rfl, rfl, by simp [Sequencer.voiceCalls, hc, Sequencer.setTrack]⟩
    · have e : Sequencer.doTriggerSoundsTrack j s
          = { s.setTrack j
                ((s.track j).setCurrentStep (s.recordPLock (s.track j).getCurrentStep)) with
              log := s.log ++ Sequencer.triggerCalls j
                ((s.track j).setCurrentStep
                  (s.recordPLock (s.track j).getCurrentStep)).getCurrentStep } := by
        simp only [Sequencer.doTriggerSoundsTrack, hp, if_true, ht, hc]
        rfl
      rw [e]
      exact ⟨rfl, rfl, by simp [Sequencer.voiceCalls, hc]⟩

/-- The loop of `doTriggerSounds` over the first `n` tracks: track `i < n` has become
`recordedTrack s (tracks[i])`, the calls of the tracks are appended to the log in order,
nothing else changes. -/
theorem doTriggerSounds_loop (n : Nat) (s : Sequencer) :
    { forLoop n Sequencer.doTriggerSoundsTrack s with tracks := s.tracks, log := s.log } = s ∧
    (∀ i, (forLoop n Sequencer.doTriggerSoundsTrack s).track i
      = if i < n then s.recordedTrack (s.track i) else s.track i) ∧
    (forLoop n Sequencer.doTriggerSoundsTrack s).log
      = s.log ++ (List.range n).flatMap
          (fun j => Sequencer.voiceCalls j (s.recordedTrack (s.track j))) := by
  induction n with
  | zero => exact ⟨rfl, fun i => by simp [forLoop], by simp [forLoop]⟩
  | succ n ih =>
    obtain ⟨ih1, ih2, ih3⟩ := ih
    obtain ⟨b1, b2, b3⟩ := doTriggerSoundsTrack_spec n (forLoop n Sequencer.doTriggerSoundsTrack s)
    have hn : (forLoop n Sequencer.doTriggerSoundsTrack s).track n = s.track n := by
      rw [ih2 n, if_neg (Nat.lt_irrefl n)]
    have hrec : (forLoop n Sequencer.doTriggerSoundsTrack s).recordedTrack (s.track n)
        = s.recordedTrack (s.track n) := recordedTrack_congr _ _ _ ih1
    rw [hn, hrec] at b2 b3
    refine ⟨?_, ?_, ?_⟩
    · show { Sequencer.doTriggerSoundsTrack n (forLoop n Sequencer.doTriggerSoundsTrack s)
        with tracks := s.tracks, log := s.log } = s
      have h1 : ({ Sequencer.doTriggerSoundsTrack n (forLoop n Sequencer.doTriggerSoundsTrack s)
          with tracks := s.tracks, log := s.log } : Sequencer)
          = { forLoop n Sequencer.doTriggerSoundsTrack s with
              tracks := s.tracks, log := s.log } :=
        congrArg (fun x : Sequencer => { x with tracks := s.tracks, log := s.log }) b1
      exact h1.trans ih1
    · intro i
      show (Sequencer.doTriggerSoundsTrack n (forLoop n Sequencer.doTriggerSoundsTrack s)).tracks.getD
        i default = _
      rw [b2, ← hn, track_set _ i n _ (recordedTrack_default s), hn]
      by_cases hin : i = n
      · subst hin; simp
      · rw [if_neg hin, ih2 i]
        by_cases hlt : i < n
        · rw [if_pos hlt, if_pos (Nat.lt_succ_of_lt hlt)]
        · rw [if_neg hlt, if_neg (by omega)]
    · show (Sequencer.doTriggerSoundsTrack n (forLoop n Sequencer.doTriggerSoundsTrack s)).log = _
      rw [b3, ih3, List.range_succ, List.flatMap_append]
      simp

/-- What `doTriggerSounds` does: the controllers take the analog reads, every one of the six
tracks takes the recorded parameter locks, the calls of the tracks go to the log after the
marker, `triggerSounds` is cleared, nothing else changes. -/
theorem doTriggerSounds_spec (s : Sequencer) (poti1 poti2 : Nat) :
    (s.doTriggerSounds poti1 poti2).input1 = s.input1.update (poti1 % 65536) ∧
    (s.doTriggerSounds poti1 poti2).input2 = s.input2.update (poti2 % 65536) ∧
    (s.doTriggerSounds poti1 poti2).triggerSounds = false ∧
    { s.doTriggerSounds poti1 poti2 with
        tracks := s.tracks, log := s.log, input1 := s.input1, input2 := s.input2,
        triggerSounds := s.triggerSounds } = s ∧
    (∀ i, (s.doTriggerSounds poti1 poti2).track i
      = if i < 6 then (s.doTriggerSounds poti1 poti2).recordedTrack (s.track i)
        else s.track i) ∧
    (s.doTriggerSounds poti1 poti2).log
      = s.log ++ Call.doTriggerSounds :: (List.range 6).flatMap
          (fun j => Sequencer.voiceCalls j
            ((s.doTriggerSounds poti1 poti2).recordedTrack (s.track j))) := by
  obtain ⟨l1, l2, l3⟩ := doTriggerSounds_loop 6
    { s with log := s.log ++ [Call.doTriggerSounds],
             input1 := s.input1.update (poti1 % 65536),
             input2 := s.input2.update (poti2 % 65536) }
  have e1 : (s.doTriggerSounds poti1 poti2).input1 = s.input1.update (poti1 % 65536) := by
    have := congrArg Sequencer.input1 l1; exact this
  have e2 : (s.doTriggerSounds poti1 poti2).input2 = s.input2.update (poti2 % 65536) := by
    have := congrArg Sequencer.input2 l1; exact this
  have e3 : (s.doTriggerSounds poti1 poti2).pLockParamSet = s.pLockParamSet := by
    have := congrArg Sequencer.pLockParamSet l1; exact this
  have hrec : ∀ t, (s.doTriggerSounds poti1 poti2).recordedTrack t
      = Sequencer.recordedTrack
          { s with
            log := s.log ++ [Call.doTriggerSounds]
            input1 := s.input1.update (poti1 % 65536)
            input2 := s.input2.update (poti2 % 65536) } t := by
    intro t
    simp only [Sequencer.recordedTrack, Sequencer.recordPLock, e1, e2, e3]
  refine ⟨e1, e2, rfl, ?_, ?_, ?_⟩
  · have := congrArg (fun x : Sequencer => { x with
        tracks := s.tracks, log := s.log, input1 := s.input1, input2 := s.input2,
        triggerSounds := s.triggerSounds }) l1
    exact this
  · intro i
    rw [hrec]
    exact l2 i
  · simp only [hrec]
    show (forLoop 6 Sequencer.doTriggerSoundsTrack _).log = _
    rw [l3]
    simp only [List.append_assoc, List.singleton_append]
    rfl

theorem recordPLock_parameter (s : Sequencer) (st : SequencerStep) (n : Nat)
    (h1 : 1 ≤ n) (h6 : n ≤ 6) :
    (s.recordPLock st).parameter n =
      if n = 2 * s.pLockParamSet.number - 1 ∧ s.input1.isActive = true then s.input1.getValue
      else if n = 2 * s.pLockParamSet.number ∧ s.input2.isActive = true then s.input2.getValue
      else st.parameter n := by
  unfold Sequencer.recordPLock
  interval_cases n <;> cases s.pLockParamSet <;> cases s.input1.isActive <;>
    cases s.input2.isActive <;> simp [SequencerStep.parameter, PLockParamSet.number]

/-- A step of a track after a write through `getCurrentStep()`. -/
theorem setCurrentStep_getStep (t : SequencerTrack) (x : SequencerStep) (p j : Nat) :
    ((t.setCurrentStep x).patterns.getD p default).getStep j
      = (t.patterns.getD p default).getStep j ∨
    (t.patterns.getD p default).getStep j = t.getCurrentStep := by
  unfold SequencerTrack.setCurrentStep SequencerTrack.setCurrentPattern
  show ((t.patterns.set t.currentPatternIndex _).getD p default).getStep j = _ ∨ _
  rw [list_getD_set]
  by_cases hp : p = t.currentPatternIndex ∧ t.currentPatternIndex < t.patterns.length
  · rw [if_pos hp]
    show (t.getCurrentPattern.steps.set t.getCurrentPattern.activeIndex x).getD j default = _ ∨ _
    rw [list_getD_set]
    by_cases hj : j = t.getCurrentPattern.activeIndex ∧
        t.getCurrentPattern.activeIndex < t.getCurrentPattern.steps.length
    · right
      rw [hp.1, hj.1]
      rfl
    · left
      rw [if_neg hj, hp.1]
      rfl
  · left
    rw [if_neg hp]

theorem recordedTrack_facts (s : Sequencer) (t : SequencerTrack) :
    (s.recordedTrack t).isMuted = t.isMuted ∧
    (s.recordedTrack t).getCurrentStep.state = t.getCurrentStep.state ∧
    (s.recordedTrack t).getCurrentStep.triggerMask = t.getCurrentStep.triggerMask ∧
    (t.getCurrentStep.isParameterLockOn = true →
      (s.recordedTrack t).getCurrentStep = s.recordPLock t.getCurrentStep) ∧
    (t.getCurrentStep.isParameterLockOn = false → s.recordedTrack t = t) := by
  cases hp : t.getCurrentStep.isParameterLockOn
  · have e : s.recordedTrack t = t := by
      simp only [Sequencer.recordedTrack, hp, Bool.false_eq_true, if_false]
    rw [e]
    exact ⟨rfl, rfl, rfl, fun h => by simp at h, fun _ => rfl⟩
  · have e : s.recordedTrack t = t.setCurrentStep (s.recordPLock t.getCurrentStep) := by
      simp only [Sequencer.recordedTrack, hp, if_true]
    rw [e]
    have hcur : (t.setCurrentStep (s.recordPLock t.getCurrentStep)).getCurrentStep
        = s.recordPLock t.getCurrentStep := by
      rcases getCurrentStep_setCurrentStep t (s.recordPLock t.getCurrentStep) with h | ⟨_, h⟩
      · exact h
      · rw [h] at hp
        exact absurd hp (by decide)
    rw [hcur]
    exact ⟨rfl, (recordPLock_state s _).1, (recordPLock_state s _).2, fun _ => rfl,
      fun h => by simp at h⟩

/-! ### Sound triggering -/

/-- C7: parameter-lock recording in `doTriggerSounds`. For every track `i` of the six whose
current step has the plock bit set, with `pLockParamSet = SETk`: parameter `2k - 1` of that
step becomes the value of controller 1 if controller 1 is active and keeps its value if not,
parameter `2k` likewise for controller 2, the other four parameters, the state bits and the
trigger mask keep their values; and no step of the track whose plock bit is clear changes.
The controllers are the ones updated with the analog reads at the start of the call. -/
theorem doTriggerSounds_parameter_locks (s : Sequencer) (poti1 poti2 i : Nat) (hi : i < 6) :
    ((s.track i).getCurrentStep.isParameterLockOn = true →
      (∀ n, 1 ≤ n → n ≤ 6 →
        ((s.doTriggerSounds poti1 poti2).track i).getCurrentStep.parameter n =
          if n = 2 * s.pLockParamSet.number - 1 ∧
              (s.doTriggerSounds poti1 poti2).input1.isActive = true then
            (s.doTriggerSounds poti1 poti2).input1.getValue
          else if n = 2 * s.pLockParamSet.number ∧
              (s.doTriggerSounds poti1 poti2).input2.isActive = true then
            (s.doTriggerSounds poti1 poti2).input2.getValue
          else (s.track i).getCurrentStep.parameter n) ∧
      ((s.doTriggerSounds poti1 poti2).track i).getCurrentStep.state
        = (s.track i).getCurrentStep.state ∧
      ((s.doTriggerSounds poti1 poti2).track i).getCurrentStep.triggerMask
        = (s.track i).getCurrentStep.triggerMask) ∧
    (∀ p j, (((s.track i).patterns.getD p default).getStep j).isParameterLockOn = false →
      (((s.doTriggerSounds poti1 poti2).track i).patterns.getD p default).getStep j
        = ((s.track i).patterns.getD p default).getStep j) ∧
    (s.doTriggerSounds poti1 poti2).input1 = s.input1.update (poti1 % 65536) ∧
    (s.doTriggerSounds poti1 poti2).input2 = s.input2.update (poti2 % 65536) ∧
    (s.doTriggerSounds poti1 poti2).pLockParamSet = s.pLockParamSet := by
  obtain ⟨e1, e2, _, e4, e5, _⟩ := doTriggerSounds_spec s poti1 poti2
  have e3 : (s.doTriggerSounds poti1 poti2).pLockParamSet = s.pLockParamSet := by
    have := congrArg Sequencer.pLockParamSet e4; exact this
  have ht := e5 i
  rw [if_pos hi] at ht
  obtain ⟨_, f2, f3, f4, f5⟩ :=
    recordedTrack_facts (s.doTriggerSounds poti1 poti2) (s.track i)
  refine ⟨fun hp => ⟨fun n h1 h6 => ?_, ?_, ?_⟩, fun p j hclear => ?_, e1, e2, e3⟩
  · rw [ht, f4 hp, recordPLock_parameter _ _ n h1 h6, e3]
  · rw [ht, f2]
  · rw [ht, f3]
  · rw [ht]
    cases hp : (s.track i).getCurrentStep.isParameterLockOn
    · rw [f5 hp]
    · have e : (s.doTriggerSounds poti1 poti2).recordedTrack (s.track i)
          = (s.track i).setCurrentStep
              ((s.doTriggerSounds poti1 poti2).recordPLock (s.track i).getCurrentStep) := by
        simp only [Sequencer.recordedTrack, hp, if_true]
      rw [e]
      rcases setCurrentStep_getStep (s.track i)
        ((s.doTriggerSounds poti1 poti2).recordPLock (s.track i).getCurrentStep) p j with h | h
      · exact h
      · rw [h, hp] at hclear
        exact absurd hclear (by decide)

set_option maxRecDepth 100000 in
/-- Witness of C7 (the scenario of the specification): SET2, the cursor of track 0 on a step
with the plock bit set, controller 1 pushed to 700, controller 2 at rest: `parameter3` of the
step becomes 700 and `parameter1` keeps its value 11. -/
theorem doTriggerSounds_parameter_locks_witness :
    ((plockRecordScenario.doTriggerSounds 700 0).track 0).getCurrentStep.parameter 3 = 700 ∧
    ((plockRecordScenario.doTriggerSounds 700 0).track 0).getCurrentStep.parameter 1 = 11 :=
  ⟨((doTriggerSounds_parameter_locks plockRecordScenario 700 0 0 (by decide)).1 (by decide)).1
      3 (by decide) (by decide) |>.trans rfl,
   ((doTriggerSounds_parameter_locks plockRecordScenario 700 0 0 (by decide)).1 (by decide)).1
      1 (by decide) (by decide) |>.trans rfl⟩

/-- C8: trigger emission in `doTriggerSounds`. After the marker of the invocation, the log
gains, for the tracks 0 to 5 in order, the calls `setParam1 .. setParam6` and `trigger` on
voice endpoint `i` exactly when track `i` is not muted and its current step has the trigger
bit set, with the six parameters of that step as they stand after the plock recording of the
same call, and nothing else; `triggerSounds` is false afterwards. -/
theorem doTriggerSounds_endpoint_calls (s : Sequencer) (poti1 poti2 : Nat) :
    (s.doTriggerSounds poti1 poti2).log
      = s.log ++ Call.doTriggerSounds :: (List.range 6).flatMap (fun i =>
          if (s.track i).isMuted = false ∧ (s.track i).getCurrentStep.isTriggerOn = true then
            [Call.setParam i 1 ((s.doTriggerSounds poti1 poti2).track i).getCurrentStep.parameter1,
             Call.setParam i 2 ((s.doTriggerSounds poti1 poti2).track i).getCurrentStep.parameter2,
             Call.setParam i 3 ((s.doTriggerSounds poti1 poti2).track i).getCurrentStep.parameter3,
             Call.setParam i 4 ((s.doTriggerSounds poti1 poti2).track i).getCurrentStep.parameter4,
             Call.setParam i 5 ((s.doTriggerSounds poti1 poti2).track i).getCurrentStep.parameter5,
             Call.setParam i 6 ((s.doTriggerSounds poti1 poti2).track i).getCurrentStep.parameter6,
             Call.trigger i]
          else []) ∧
    (s.doTriggerSounds poti1 poti2).triggerSounds = false := by
  obtain ⟨_, _, e3, _, e5, e6⟩ := doTriggerSounds_spec s poti1 poti2
  refine ⟨?_, e3⟩
  rw [e6]
  congr 2
  apply List.flatMap_congr
  intro i hi
  have ht := e5 i
  rw [if_pos (List.mem_range.mp hi)] at ht
  obtain ⟨f1, f2, _, _, _⟩ := recordedTrack_facts (s.doTriggerSounds poti1 poti2) (s.track i)
  have g1 : ((s.doTriggerSounds poti1 poti2).recordedTrack (s.track i)).getCurrentStep.isTriggerOn
      = (s.track i).getCurrentStep.isTriggerOn := by
    simp only [SequencerStep.isTriggerOn, f2]
  rw [ht]
  simp only [Sequencer.voiceCalls, f1, g1, Sequencer.triggerCalls]
  cases (s.track i).isMuted <;> cases (s.track i).getCurrentStep.isTriggerOn <;> simp

set_option maxRecDepth 100000 in
/-- An instance of C8 on the plock-record scenario: track 0 is triggered with parameter 3
already at the recorded value 700, the other tracks are silent. -/
theorem doTriggerSounds_endpoint_calls_witness :
    (plockRecordScenario.doTriggerSounds 700 0).log
      = [Call.doTriggerSounds, Call.setParam 0 1 11, Call.setParam 0 2 0, Call.setParam 0 3 700,
         Call.setParam 0 4 0, Call.setParam 0 5 0, Call.setParam 0 6 0, Call.trigger 0] :=
  (doTriggerSounds_endpoint_calls plockRecordScenario 700 0).1.trans rfl

/-! ### What the mode handlers leave alone -/

theorem forLoop_keeps {σ β : Type} (v : σ → β) (body : Nat → σ → σ) (n : Nat) (x : σ)
    (h : ∀ i y, v (body i y) = v y) : v (forLoop n body x) = v x := by
  induction n with
  | zero => rfl
  | succ n ih => exact (h n _).trans ih

/-- The fields of the clock view, one by one, after a loop whose body keeps the view. -/
theorem forLoop_keeps_fields (body : Nat → Sequencer → Sequencer)
    (h : ∀ i y, (body i y).clockView = y.clockView) (n : Nat) (x : Sequencer) :
    (forLoop n body x).running = x.running ∧
    (forLoop n body x).isSyncingToMidiClock = x.isSyncingToMidiClock ∧
    (forLoop n body x).midiClockReceived = x.midiClockReceived ∧
    (forLoop n body x).pulseCount = x.pulseCount ∧
    (forLoop n body x).triggerSounds = x.triggerSounds ∧
    List.count Call.doStep (forLoop n body x).log = List.count Call.doStep x.log ∧
    List.count Call.doTriggerSounds (forLoop n body x).log
      = List.count Call.doTriggerSounds x.log := by
  have hk := forLoop_keeps Sequencer.clockView body n x h
  simpa only [Sequencer.clockView, Sequencer.doStepCount, Sequencer.doTriggerSoundsCount,
    Prod.mk.injEq, and_assoc] using hk

/-- The same for a loop that carries a local flag along with the sequencer. -/
theorem forLoop_keeps_fields_fst (body : Nat → Sequencer × Bool → Sequencer × Bool)
    (h : ∀ i y, (body i y).1.clockView = y.1.clockView) (n : Nat) (x : Sequencer × Bool) :
    (forLoop n body x).1.running = x.1.running ∧
    (forLoop n body x).1.isSyncingToMidiClock = x.1.isSyncingToMidiClock ∧
    (forLoop n body x).1.midiClockReceived = x.1.midiClockReceived ∧
    (forLoop n body x).1.pulseCount = x.1.pulseCount ∧
    (forLoop n body x).1.triggerSounds = x.1.triggerSounds ∧
    List.count Call.doStep (forLoop n body x).1.log = List.count Call.doStep x.1.log ∧
    List.count Call.doTriggerSounds (forLoop n body x).1.log
      = List.count Call.doTriggerSounds x.1.log := by
  have hk := forLoop_keeps (fun acc : Sequencer × Bool => acc.1.clockView) body n x h
  simpa only [Sequencer.clockView, Sequencer.doStepCount, Sequencer.doTriggerSoundsCount,
    Prod.mk.injEq, and_assoc] using hk

section HandlerFrames

attribute [local irreducible] forLoop

theorem clockView_setStepLED (s : Sequencer) (i : Int) (c : CRGB) :
    (s.setStepLED i c).clockView = s.clockView := by
  unfold Sequencer.setStepLED
  split <;> rfl

theorem clockView_doSetTrackLengthStep (i : Nat) (s : Sequencer) :
    (Sequencer.doSetTrackLengthStep i s).clockView = s.clockView := by
  simp only [Sequencer.doSetTrackLengthStep, Sequencer.clockView, Sequencer.doStepCount,
    Sequencer.doTriggerSoundsCount, Sequencer.setTrack, Sequencer.setSelectedStep,
    Sequencer.setStepLED, Sequencer.setTrackLED, Sequencer.deactivateSensors,
    Sequencer.setDefaultTrackLight, Sequencer.advanceLedFader,
    apply_ite Sequencer.running, apply_ite Sequencer.isSyncingToMidiClock,
    apply_ite Sequencer.midiClockReceived, apply_ite Sequencer.pulseCount,
    apply_ite Sequencer.triggerSounds, apply_ite Sequencer.log,
    apply_ite (Prod.fst : Sequencer × Bool → Sequencer),
    apply_ite (List.count Call.doStep), apply_ite (List.count Call.doTriggerSounds), ite_self]

theorem clockView_doSetTrackPLockTrack (i : Nat) (s : Sequencer) :
    (Sequencer.doSetTrackPLockTrack i s).clockView = s.clockView := by
  simp only [Sequencer.doSetTrackPLockTrack, Sequencer.clockView, Sequencer.doStepCount,
    Sequencer.doTriggerSoundsCount, Sequencer.setTrack, Sequencer.setSelectedStep,
    Sequencer.setStepLED, Sequencer.setTrackLED, Sequencer.deactivateSensors,
    Sequencer.setDefaultTrackLight, Sequencer.advanceLedFader,
    apply_ite Sequencer.running, apply_ite Sequencer.isSyncingToMidiClock,
    apply_ite Sequencer.midiClockReceived, apply_ite Sequencer.pulseCount,
    apply_ite Sequencer.triggerSounds, apply_ite Sequencer.log,
    apply_ite (Prod.fst : Sequencer × Bool → Sequencer),
    apply_ite (List.count Call.doStep), apply_ite (List.count Call.doTriggerSounds), ite_self]

theorem clockView_doSetTrackPLockStep (i : Nat) (s : Sequencer) :
    (Sequencer.doSetTrackPLockStep i s).clockView = s.clockView := by
  simp only [Sequencer.doSetTrackPLockStep, Sequencer.clockView, Sequencer.doStepCount,
    Sequencer.doTriggerSoundsCount, Sequencer.setTrack, Sequencer.setSelectedStep,
    Sequencer.setStepLED, Sequencer.setTrackLED, Sequencer.deactivateSensors,
    Sequencer.setDefaultTrackLight, Sequencer.advanceLedFader,
    apply_ite Sequencer.running, apply_ite Sequencer.isSyncingToMidiClock,
    apply_ite Sequencer.midiClockReceived, apply_ite Sequencer.pulseCount,
    apply_ite Sequencer.triggerSounds, apply_ite Sequencer.log,
    apply_ite (Prod.fst : Sequencer × Bool → Sequencer),
    apply_ite (List.count Call.doStep), apply_ite (List.count Call.doTriggerSounds), ite_self]

theorem clockView_doToggleTrackMuteArmTrack (i : Nat) (s : Sequencer) :
    (Sequencer.doToggleTrackMuteArmTrack i s).clockView = s.clockView := by
  simp only [Sequencer.doToggleTrackMuteArmTrack, Sequencer.clockView, Sequencer.doStepCount,
    Sequencer.doTriggerSoundsCount, Sequencer.setTrack, Sequencer.setSelectedStep,
    Sequencer.setStepLED, Sequencer.setTrackLED, Sequencer.deactivateSensors,
    Sequencer.setDefaultTrackLight, Sequencer.advanceLedFader,
    apply_ite Sequencer.running, apply_ite Sequencer.isSyncingToMidiClock,
    apply_ite Sequencer.midiClockReceived, apply_ite Sequencer.pulseCount,
    apply_ite Sequencer.triggerSounds, apply_ite Sequencer.log,
    apply_ite (Prod.fst : Sequencer × Bool → Sequencer),
    apply_ite (List.count Call.doStep), apply_ite (List.count Call.doTriggerSounds), ite_self]

theorem clockView_doToggleTrackMuteArmLight (i : Nat) (s : Sequencer) :
    (Sequencer.doToggleTrackMuteArmLight i s).clockView = s.clockView := by
  simp only [Sequencer.doToggleTrackMuteArmLight, Sequencer.clockView, Sequencer.doStepCount,
    Sequencer.doTriggerSoundsCount, Sequencer.setTrack, Sequencer.setSelectedStep,
    Sequencer.setStepLED, Sequencer.setTrackLED, Sequencer.deactivateSensors,
    Sequencer.setDefaultTrackLight, Sequencer.advanceLedFader,
    apply_ite Sequencer.running, apply_ite Sequencer.isSyncingToMidiClock,
    apply_ite Sequencer.midiClockReceived, apply_ite Sequencer.pulseCount,
    apply_ite Sequencer.triggerSounds, apply_ite Sequencer.log,
    apply_ite (Prod.fst : Sequencer × Bool → Sequencer),
    apply_ite (List.count Call.doStep), apply_ite (List.count Call.doTriggerSounds), ite_self]

theorem clockView_doPatternOpsTrack (i : Nat) (s : Sequencer) :
    (Sequencer.doPatternOpsTrack i s).clockView = s.clockView := by
  simp only [Sequencer.doPatternOpsTrack, Sequencer.clockView, Sequencer.doStepCount,
    Sequencer.doTriggerSoundsCount, Sequencer.setTrack, Sequencer.setSelectedStep,
    Sequencer.setStepLED, Sequencer.setTrackLED, Sequencer.deactivateSensors,
    Sequencer.setDefaultTrackLight, Sequencer.advanceLedFader,
    apply_ite Sequencer.running, apply_ite Sequencer.isSyncingToMidiClock,
    apply_ite Sequencer.midiClockReceived, apply_ite Sequencer.pulseCount,
    apply_ite Sequencer.triggerSounds, apply_ite Sequencer.log,
    apply_ite (Prod.fst : Sequencer × Bool → Sequencer),
    apply_ite (List.count Call.doStep), apply_ite (List.count Call.doTriggerSounds), ite_self]

theorem clockView_doLeavePatternOpsTrack (i : Nat) (s : Sequencer) :
    (Sequencer.doLeavePatternOpsTrack i s).clockView = s.clockView := by
  simp only [Sequencer.doLeavePatternOpsTrack, Sequencer.clockView, Sequencer.doStepCount,
    Sequencer.doTriggerSoundsCount, Sequencer.setTrack, Sequencer.setSelectedStep,
    Sequencer.setStepLED, Sequencer.setTrackLED, Sequencer.deactivateSensors,
    Sequencer.setDefaultTrackLight, Sequencer.advanceLedFader,
    apply_ite Sequencer.running, apply_ite Sequencer.isSyncingToMidiClock,
    apply_ite Sequencer.midiClockReceived, apply_ite Sequencer.pulseCount,
    apply_ite Sequencer.triggerSounds, apply_ite Sequencer.log,
    apply_ite (Prod.fst : Sequencer × Bool → Sequencer),
    apply_ite (List.count Call.doStep), apply_ite (List.count Call.doTriggerSounds), ite_self]

theorem clockView_doUpdateMutesTrack (i : Nat) (s : Sequencer) :
    (Sequencer.doUpdateMutesTrack i s).clockView = s.clockView := by
  simp only [Sequencer.doUpdateMutesTrack, Sequencer.clockView, Sequencer.doStepCount,
    Sequencer.doTriggerSoundsCount, Sequencer.setTrack, Sequencer.setSelectedStep,
    Sequencer.setStepLED, Sequencer.setTrackLED, Sequencer.deactivateSensors,
    Sequencer.setDefaultTrackLight, Sequencer.advanceLedFader,
    apply_ite Sequencer.running, apply_ite Sequencer.isSyncingToMidiClock,
    apply_ite Sequencer.midiClockReceived, apply_ite Sequencer.pulseCount,
    apply_ite Sequencer.triggerSounds, apply_ite Sequencer.log,
    apply_ite (Prod.fst : Sequencer × Bool → Sequencer),
    apply_ite (List.count Call.doStep), apply_ite (List.count Call.doTriggerSounds), ite_self]

theorem clockView_doTurnOffPlockModeTrack (i : Nat) (s : Sequencer) :
    (Sequencer.doTurnOffPlockModeTrack i s).clockView = s.clockView := by
  simp only [Sequencer.doTurnOffPlockModeTrack, Sequencer.clockView, Sequencer.doStepCount,
    Sequencer.doTriggerSoundsCount, Sequencer.setTrack, Sequencer.setSelectedStep,
    Sequencer.setStepLED, Sequencer.setTrackLED, Sequencer.deactivateSensors,
    Sequencer.setDefaultTrackLight, Sequencer.advanceLedFader,
    apply_ite Sequencer.running, apply_ite Sequencer.isSyncingToMidiClock,
    apply_ite Sequencer.midiClockReceived, apply_ite Sequencer.pulseCount,
    apply_ite Sequencer.triggerSounds, apply_ite Sequencer.log,
    apply_ite (Prod.fst : Sequencer × Bool → Sequencer),
    apply_ite (List.count Call.doStep), apply_ite (List.count Call.doTriggerSounds), ite_self]

theorem clockView_doStepTrack (i : Nat) (s : Sequencer) :
    (Sequencer.doStepTrack i s).clockView = s.clockView := by
  simp only [Sequencer.doStepTrack, Sequencer.clockView, Sequencer.doStepCount,
    Sequencer.doTriggerSoundsCount, Sequencer.setTrack, Sequencer.setSelectedStep,
    Sequencer.setStepLED, Sequencer.setTrackLED, Sequencer.deactivateSensors,
    Sequencer.setDefaultTrackLight, Sequencer.advanceLedFader,
    apply_ite Sequencer.running, apply_ite Sequencer.isSyncingToMidiClock,
    apply_ite Sequencer.midiClockReceived, apply_ite Sequencer.pulseCount,
    apply_ite Sequencer.triggerSounds, apply_ite Sequencer.log,
    apply_ite (Prod.fst : Sequencer × Bool → Sequencer),
    apply_ite (List.count Call.doStep), apply_ite (List.count Call.doTriggerSounds), ite_self]

theorem clockView_onStopTrack (i : Nat) (s : Sequencer) :
    (Sequencer.onStopTrack i s).clockView = s.clockView := by
  simp only [Sequencer.onStopTrack, Sequencer.clockView, Sequencer.doStepCount,
    Sequencer.doTriggerSoundsCount, Sequencer.setTrack, Sequencer.setSelectedStep,
    Sequencer.setStepLED, Sequencer.setTrackLED, Sequencer.deactivateSensors,
    Sequencer.setDefaultTrackLight, Sequencer.advanceLedFader,
    apply_ite Sequencer.running, apply_ite Sequencer.isSyncingToMidiClock,
    apply_ite Sequencer.midiClockReceived, apply_ite Sequencer.pulseCount,
    apply_ite Sequencer.triggerSounds, apply_ite Sequencer.log,
    apply_ite (Prod.fst : Sequencer × Bool → Sequencer),
    apply_ite (List.count Call.doStep), apply_ite (List.count Call.doTriggerSounds), ite_self]

theorem clockView_doPatternOpsCopy (i k : Nat) (s : Sequencer) :
    (Sequencer.doPatternOpsCopy i k s).clockView = s.clockView := by
  simp only [Sequencer.doPatternOpsCopy, Sequencer.clockView, Sequencer.doStepCount,
    Sequencer.doTriggerSoundsCount, Sequencer.setTrack, Sequencer.setSelectedStep,
    Sequencer.setStepLED, Sequencer.setTrackLED, Sequencer.deactivateSensors,
    Sequencer.setDefaultTrackLight, Sequencer.advanceLedFader,
    apply_ite Sequencer.running, apply_ite Sequencer.isSyncingToMidiClock,
    apply_ite Sequencer.midiClockReceived, apply_ite Sequencer.pulseCount,
    apply_ite Sequencer.triggerSounds, apply_ite Sequencer.log,
    apply_ite (Prod.fst : Sequencer × Bool → Sequencer),
    apply_ite (List.count Call.doStep), apply_ite (List.count Call.doTriggerSounds), ite_self]

theorem clockView_setDefaultTrackLight (s : Sequencer) (i : Nat) :
    (s.setDefaultTrackLight i).clockView = s.clockView := by
  simp only [Sequencer.clockView, Sequencer.doStepCount,
    Sequencer.doTriggerSoundsCount, Sequencer.setTrack, Sequencer.setSelectedStep,
    Sequencer.setStepLED, Sequencer.setTrackLED, Sequencer.deactivateSensors,
    Sequencer.setDefaultTrackLight, Sequencer.advanceLedFader,
    apply_ite Sequencer.running, apply_ite Sequencer.isSyncingToMidiClock,
    apply_ite Sequencer.midiClockReceived, apply_ite Sequencer.pulseCount,
    apply_ite Sequencer.triggerSounds, apply_ite Sequencer.log,
    apply_ite (Prod.fst : Sequencer × Bool → Sequencer),
    apply_ite (List.count Call.doStep), apply_ite (List.count Call.doTriggerSounds), ite_self]

theorem clockView_doSetTrackSelectionTrack (i : Nat) (s : Sequencer) :
    (Sequencer.doSetTrackSelectionTrack i s).clockView = s.clockView := by
  unfold Sequencer.doSetTrackSelectionTrack
  simp only
  rw [clockView_setDefaultTrackLight]
  split_ifs <;>
    simp [Sequencer.clockView, Sequencer.doStepCount, Sequencer.doTriggerSoundsCount,
      Sequencer.deactivateSensors]

theorem clockView_doSetTriggersStep (i : Nat) (acc : Sequencer × Bool) :
    (Sequencer.doSetTriggersStep i acc).1.clockView = acc.1.clockView := by
  simp only [Sequencer.doSetTriggersStep, Sequencer.clockView, Sequencer.doStepCount,
    Sequencer.doTriggerSoundsCount, Sequencer.setTrack, Sequencer.setSelectedStep,
    Sequencer.setStepLED, Sequencer.setTrackLED, Sequencer.deactivateSensors,
    Sequencer.setDefaultTrackLight, Sequencer.advanceLedFader,
    apply_ite Sequencer.running, apply_ite Sequencer.isSyncingToMidiClock,
    apply_ite Sequencer.midiClockReceived, apply_ite Sequencer.pulseCount,
    apply_ite Sequencer.triggerSounds, apply_ite Sequencer.log,
    apply_ite (Prod.fst : Sequencer × Bool → Sequencer),
    apply_ite (List.count Call.doStep), apply_ite (List.count Call.doTriggerSounds), ite_self]

theorem clockView_doPatternOpsStep (c i : Nat) (acc : Sequencer × Bool) :
    (Sequencer.doPatternOpsStep c i acc).1.clockView = acc.1.clockView := by
  simp only [Sequencer.doPatternOpsStep, Sequencer.clockView, Sequencer.doStepCount,
    Sequencer.doTriggerSoundsCount, Sequencer.setTrack, Sequencer.setSelectedStep,
    Sequencer.setStepLED, Sequencer.setTrackLED, Sequencer.deactivateSensors,
    Sequencer.setDefaultTrackLight, Sequencer.advanceLedFader,
    apply_ite Sequencer.running, apply_ite Sequencer.isSyncingToMidiClock,
    apply_ite Sequencer.midiClockReceived, apply_ite Sequencer.pulseCount,
    apply_ite Sequencer.triggerSounds, apply_ite Sequencer.log,
    apply_ite (Prod.fst : Sequencer × Bool → Sequencer),
    apply_ite (List.count Call.doStep), apply_ite (List.count Call.doTriggerSounds), ite_self,
    forLoop_keeps_fields _ (clockView_doPatternOpsCopy i)]

theorem clockView_doSetTriggers (s : Sequencer) :
    (Sequencer.doSetTriggers s).clockView = s.clockView := by
  simp only [Sequencer.doSetTriggers, Sequencer.clockView, Sequencer.doStepCount,
    Sequencer.doTriggerSoundsCount, Sequencer.setTrack, Sequencer.setSelectedStep,
    Sequencer.setStepLED, Sequencer.setTrackLED, Sequencer.deactivateSensors,
    Sequencer.setDefaultTrackLight, Sequencer.advanceLedFader,
    apply_ite Sequencer.running, apply_ite Sequencer.isSyncingToMidiClock,
    apply_ite Sequencer.midiClockReceived, apply_ite Sequencer.pulseCount,
    apply_ite Sequencer.triggerSounds, apply_ite Sequencer.log,
    apply_ite (Prod.fst : Sequencer × Bool → Sequencer),
    apply_ite (List.count Call.doStep), apply_ite (List.count Call.doTriggerSounds), ite_self,
    forLoop_keeps_fields_fst _ clockView_doSetTriggersStep]

theorem clockView_doSetTrackLength (s : Sequencer) :
    (Sequencer.doSetTrackLength s).clockView = s.clockView := by
  simp only [Sequencer.doSetTrackLength, Sequencer.clockView, Sequencer.doStepCount,
    Sequencer.doTriggerSoundsCount, Sequencer.setTrack, Sequencer.setSelectedStep,
    Sequencer.setStepLED, Sequencer.setTrackLED, Sequencer.deactivateSensors,
    Sequencer.setDefaultTrackLight, Sequencer.advanceLedFader,
    apply_ite Sequencer.running, apply_ite Sequencer.isSyncingToMidiClock,
    apply_ite Sequencer.midiClockReceived, apply_ite Sequencer.pulseCount,
    apply_ite Sequencer.triggerSounds, apply_ite Sequencer.log,
    apply_ite (Prod.fst : Sequencer × Bool → Sequencer),
    apply_ite (List.count Call.doStep), apply_ite (List.count Call.doTriggerSounds), ite_self,
    forLoop_keeps_fields _ clockView_doSetTrackLengthStep]

theorem clockView_doSetTrackPLock (s : Sequencer) :
    (Sequencer.doSetTrackPLock s).clockView = s.clockView := by
  simp only [Sequencer.doSetTrackPLock, Sequencer.clockView, Sequencer.doStepCount,
    Sequencer.doTriggerSoundsCount, Sequencer.setTrack, Sequencer.setSelectedStep,
    Sequencer.setStepLED, Sequencer.setTrackLED, Sequencer.deactivateSensors,
    Sequencer.setDefaultTrackLight, Sequencer.advanceLedFader,
    apply_ite Sequencer.running, apply_ite Sequencer.isSyncingToMidiClock,
    apply_ite Sequencer.midiClockReceived, apply_ite Sequencer.pulseCount,
    apply_ite Sequencer.triggerSounds, apply_ite Sequencer.log,
    apply_ite (Prod.fst : Sequencer × Bool → Sequencer),
    apply_ite (List.count Call.doStep), apply_ite (List.count Call.doTriggerSounds), ite_self,
    forLoop_keeps_fields _ clockView_doSetTrackPLockTrack,
    forLoop_keeps_fields _ clockView_doSetTrackPLockStep]

theorem clockView_doToggleTrackMuteArm (s : Sequencer) :
    (Sequencer.doToggleTrackMuteArm s).clockView = s.clockView := by
  simp only [Sequencer.doToggleTrackMuteArm, Sequencer.clockView, Sequencer.doStepCount,
    Sequencer.doTriggerSoundsCount, Sequencer.setTrack, Sequencer.setSelectedStep,
    Sequencer.setStepLED, Sequencer.setTrackLED, Sequencer.deactivateSensors,
    Sequencer.setDefaultTrackLight, Sequencer.advanceLedFader,
    apply_ite Sequencer.running, apply_ite Sequencer.isSyncingToMidiClock,
    apply_ite Sequencer.midiClockReceived, apply_ite Sequencer.pulseCount,
    apply_ite Sequencer.triggerSounds, apply_ite Sequencer.log,
    apply_ite (Prod.fst : Sequencer × Bool → Sequencer),
    apply_ite (List.count Call.doStep), apply_ite (List.count Call.doTriggerSounds), ite_self,
    forLoop_keeps_fields _ clockView_doToggleTrackMuteArmTrack,
    forLoop_keeps_fields _ clockView_doToggleTrackMuteArmLight]

theorem clockView_doPatternOps (s : Sequencer) :
    (Sequencer.doPatternOps s).clockView = s.clockView := by
  simp only [Sequencer.doPatternOps, Sequencer.clockView, Sequencer.doStepCount,
    Sequencer.doTriggerSoundsCount, Sequencer.setTrack, Sequencer.setSelectedStep,
    Sequencer.setStepLED, Sequencer.setTrackLED, Sequencer.deactivateSensors,
    Sequencer.setDefaultTrackLight, Sequencer.advanceLedFader,
    apply_ite Sequencer.running, apply_ite Sequencer.isSyncingToMidiClock,
    apply_ite Sequencer.midiClockReceived, apply_ite Sequencer.pulseCount,
    apply_ite Sequencer.triggerSounds, apply_ite Sequencer.log,
    apply_ite (Prod.fst : Sequencer × Bool → Sequencer),
    apply_ite (List.count Call.doStep), apply_ite (List.count Call.doTriggerSounds), ite_self,
    forLoop_keeps_fields _ clockView_doPatternOpsTrack,
    forLoop_keeps_fields_fst _ (clockView_doPatternOpsStep _)]

theorem clockView_doLeavePatternOps (s : Sequencer) :
    (Sequencer.doLeavePatternOps s).clockView = s.clockView := by
  simp only [Sequencer.doLeavePatternOps, Sequencer.clockView, Sequencer.doStepCount,
    Sequencer.doTriggerSoundsCount, Sequencer.setTrack, Sequencer.setSelectedStep,
    Sequencer.setStepLED, Sequencer.setTrackLED, Sequencer.deactivateSensors,
    Sequencer.setDefaultTrackLight, Sequencer.advanceLedFader,
    apply_ite Sequencer.running, apply_ite Sequencer.isSyncingToMidiClock,
    apply_ite Sequencer.midiClockReceived, apply_ite Sequencer.pulseCount,
    apply_ite Sequencer.triggerSounds, apply_ite Sequencer.log,
    apply_ite (Prod.fst : Sequencer × Bool → Sequencer),
    apply_ite (List.count Call.doStep), apply_ite (List.count Call.doTriggerSounds), ite_self,
    forLoop_keeps_fields _ clockView_doLeavePatternOpsTrack,
    Sequencer.deactivateAllPatternOpsArms]

theorem clockView_doSetTrackSelection (s : Sequencer) :
    (Sequencer.doSetTrackSelection s).clockView = s.clockView := by
  simp only [Sequencer.doSetTrackSelection, Sequencer.clockView, Sequencer.doStepCount,
    Sequencer.doTriggerSoundsCount, Sequencer.setTrack, Sequencer.setSelectedStep,
    Sequencer.setStepLED, Sequencer.setTrackLED, Sequencer.deactivateSensors,
    Sequencer.setDefaultTrackLight, Sequencer.advanceLedFader,
    apply_ite Sequencer.running, apply_ite Sequencer.isSyncingToMidiClock,
    apply_ite Sequencer.midiClockReceived, apply_ite Sequencer.pulseCount,
    apply_ite Sequencer.triggerSounds, apply_ite Sequencer.log,
    apply_ite (Prod.fst : Sequencer × Bool → Sequencer),
    apply_ite (List.count Call.doStep), apply_ite (List.count Call.doTriggerSounds), ite_self,
    forLoop_keeps_fields _ clockView_doSetTrackSelectionTrack]

theorem clockView_doUpdateMutes (s : Sequencer) :
    (Sequencer.doUpdateMutes s).clockView = s.clockView := by
  simp only [Sequencer.doUpdateMutes, Sequencer.clockView, Sequencer.doStepCount,
    Sequencer.doTriggerSoundsCount, Sequencer.setTrack, Sequencer.setSelectedStep,
    Sequencer.setStepLED, Sequencer.setTrackLED, Sequencer.deactivateSensors,
    Sequencer.setDefaultTrackLight, Sequencer.advanceLedFader,
    apply_ite Sequencer.running, apply_ite Sequencer.isSyncingToMidiClock,
    apply_ite Sequencer.midiClockReceived, apply_ite Sequencer.pulseCount,
    apply_ite Sequencer.triggerSounds, apply_ite Sequencer.log,
    apply_ite (Prod.fst : Sequencer × Bool → Sequencer),
    apply_ite (List.count Call.doStep), apply_ite (List.count Call.doTriggerSounds), ite_self,
    forLoop_keeps_fields _ clockView_doUpdateMutesTrack]

theorem clockView_doTurnOffPlockMode (s : Sequencer) :
    (Sequencer.doTurnOffPlockMode s).clockView = s.clockView := by
  simp only [Sequencer.doTurnOffPlockMode, Sequencer.clockView, Sequencer.doStepCount,
    Sequencer.doTriggerSoundsCount, Sequencer.setTrack, Sequencer.setSelectedStep,
    Sequencer.setStepLED, Sequencer.setTrackLED, Sequencer.deactivateSensors,
    Sequencer.setDefaultTrackLight, Sequencer.advanceLedFader,
    apply_ite Sequencer.running, apply_ite Sequencer.isSyncingToMidiClock,
    apply_ite Sequencer.midiClockReceived, apply_ite Sequencer.pulseCount,
    apply_ite Sequencer.triggerSounds, apply_ite Sequencer.log,
    apply_ite (Prod.fst : Sequencer × Bool → Sequencer),
    apply_ite (List.count Call.doStep), apply_ite (List.count Call.doTriggerSounds), ite_self,
    forLoop_keeps_fields _ clockView_doTurnOffPlockModeTrack]

theorem clockView_selectParamSet (s : Sequencer) :
    (Sequencer.selectParamSet s).clockView = s.clockView := by
  simp only [Sequencer.selectParamSet, Sequencer.clockView, Sequencer.doStepCount,
    Sequencer.doTriggerSoundsCount, Sequencer.setTrack, Sequencer.setSelectedStep,
    Sequencer.setStepLED, Sequencer.setTrackLED, Sequencer.deactivateSensors,
    Sequencer.setDefaultTrackLight, Sequencer.advanceLedFader,
    apply_ite Sequencer.running, apply_ite Sequencer.isSyncingToMidiClock,
    apply_ite Sequencer.midiClockReceived, apply_ite Sequencer.pulseCount,
    apply_ite Sequencer.triggerSounds, apply_ite Sequencer.log,
    apply_ite (Prod.fst : Sequencer × Bool → Sequencer),
    apply_ite (List.count Call.doStep), apply_ite (List.count Call.doTriggerSounds), ite_self]

theorem clockView_setFunctionButtonLights (s : Sequencer) :
    (Sequencer.setFunctionButtonLights s).clockView = s.clockView := by
  simp only [Sequencer.setFunctionButtonLights, Sequencer.clockView, Sequencer.doStepCount,
    Sequencer.doTriggerSoundsCount, Sequencer.setTrack, Sequencer.setSelectedStep,
    Sequencer.setStepLED, Sequencer.setTrackLED, Sequencer.deactivateSensors,
    Sequencer.setDefaultTrackLight, Sequencer.advanceLedFader,
    apply_ite Sequencer.running, apply_ite Sequencer.isSyncingToMidiClock,
    apply_ite Sequencer.midiClockReceived, apply_ite Sequencer.pulseCount,
    apply_ite Sequencer.triggerSounds, apply_ite Sequencer.log,
    apply_ite (Prod.fst : Sequencer × Bool → Sequencer),
    apply_ite (List.count Call.doStep), apply_ite (List.count Call.doTriggerSounds), ite_self]

end HandlerFrames

section ClockPhase

attribute [local irreducible] forLoop

/-- The mode handlers of a tick whose mode is not START_STOP keep the clock view. -/
theorem clockView_runHandlers (s : Sequencer) (m : FunctionMode) (millis : Nat)
    (hm : m ≠ FunctionMode.START_STOP) :
    (s.runHandlers m millis).clockView = s.clockView := by
  cases m <;>
    simp [Sequencer.runHandlers, clockView_doSetTrackLength, clockView_doSetTrackPLock,
      clockView_doTurnOffPlockMode, clockView_doToggleTrackMuteArm, clockView_doUpdateMutes,
      clockView_doPatternOps, clockView_doLeavePatternOps, clockView_doSetTrackSelection,
      clockView_doSetTriggers] at hm ⊢

theorem calculateFunctionMode_ne_start (s : Sequencer)
    (h : s.functionButtons.BUTTON_STARTSTOP.rose = false) :
    s.calculateFunctionMode ≠ FunctionMode.START_STOP := by
  unfold Sequencer.calculateFunctionMode
  rw [h]
  cases s.functionButtons.BUTTON_TOGGLE_PLOCK.read <;>
  cases s.functionButtons.BUTTON_TOGGLE_PLOCK.fell <;>
  cases s.trackOrStepButtonPressed <;>
  cases s.functionButtons.BUTTON_TOGGLE_MUTE.read <;>
  cases s.functionButtons.BUTTON_TOGGLE_MUTE.fell <;>
  cases s.functionButtons.BUTTON_SET_TRACKLENGTH.read <;>
  cases s.functionButtons.BUTTON_SET_PATTERN.read <;>
  cases s.functionButtons.BUTTON_SET_PATTERN.fell <;> decide

theorem selectParamSet_functionButtons (s : Sequencer) :
    s.selectParamSet.functionButtons = s.functionButtons := by
  unfold Sequencer.selectParamSet
  split_ifs <;> rfl

/-- The handler part of a tick in which STARTSTOP did not rise keeps the clock view. -/
theorem clockView_updateStateHandlers (s : Sequencer) (millis : Nat)
    (h : s.functionButtons.BUTTON_STARTSTOP.rose = false) :
    (s.updateStateHandlers millis).clockView = s.clockView := by
  unfold Sequencer.updateStateHandlers
  simp only
  rw [clockView_setFunctionButtonLights, clockView_runHandlers, clockView_selectParamSet]
  · rfl
  · apply calculateFunctionMode_ne_start
    rw [selectParamSet_functionButtons]
    exact h

theorem clockView_doTriggerSoundsTrack (i : Nat) (s : Sequencer) :
    (Sequencer.doTriggerSoundsTrack i s).clockView = s.clockView := by
  simp only [Sequencer.doTriggerSoundsTrack, Sequencer.triggerCalls, Sequencer.clockView, Sequencer.doStepCount,
    Sequencer.doTriggerSoundsCount, Sequencer.setTrack, Sequencer.setSelectedStep,
    Sequencer.setStepLED, Sequencer.setTrackLED, Sequencer.deactivateSensors,
    Sequencer.setDefaultTrackLight, Sequencer.advanceLedFader,
    apply_ite Sequencer.running, apply_ite Sequencer.isSyncingToMidiClock,
    apply_ite Sequencer.midiClockReceived, apply_ite Sequencer.pulseCount,
    apply_ite Sequencer.triggerSounds, apply_ite Sequencer.log,
    apply_ite (Prod.fst : Sequencer × Bool → Sequencer),
    apply_ite (List.count Call.doStep), apply_ite (List.count Call.doTriggerSounds), ite_self,
    List.count_append]
  simp

/-- The clock view after `doStep`: one more invocation, `triggerSounds` set. -/
theorem doStep_fields (s : Sequencer) :
    s.doStep.running = s.running ∧
    s.doStep.isSyncingToMidiClock = s.isSyncingToMidiClock ∧
    s.doStep.midiClockReceived = s.midiClockReceived ∧
    s.doStep.pulseCount = s.pulseCount ∧
    s.doStep.triggerSounds = true ∧
    s.doStep.doStepCount = s.doStepCount + 1 ∧
    s.doStep.doTriggerSoundsCount = s.doTriggerSoundsCount := by
  simp only [Sequencer.doStep, Sequencer.clockView, Sequencer.doStepCount,
    Sequencer.doTriggerSoundsCount, Sequencer.setTrack, Sequencer.setSelectedStep,
    Sequencer.setStepLED, Sequencer.setTrackLED, Sequencer.deactivateSensors,
    Sequencer.setDefaultTrackLight, Sequencer.advanceLedFader,
    apply_ite Sequencer.running, apply_ite Sequencer.isSyncingToMidiClock,
    apply_ite Sequencer.midiClockReceived, apply_ite Sequencer.pulseCount,
    apply_ite Sequencer.triggerSounds, apply_ite Sequencer.log,
    apply_ite (Prod.fst : Sequencer × Bool → Sequencer),
    apply_ite (List.count Call.doStep), apply_ite (List.count Call.doTriggerSounds), ite_self,
    forLoop_keeps_fields _ clockView_doStepTrack, List.count_append]
  simp

/-- The clock view after `doTriggerSounds`: one more invocation, `triggerSounds` cleared. -/
theorem doTriggerSounds_fields (s : Sequencer) (poti1 poti2 : Nat) :
    (s.doTriggerSounds poti1 poti2).running = s.running ∧
    (s.doTriggerSounds poti1 poti2).isSyncingToMidiClock = s.isSyncingToMidiClock ∧
    (s.doTriggerSounds poti1 poti2).midiClockReceived = s.midiClockReceived ∧
    (s.doTriggerSounds poti1 poti2).pulseCount = s.pulseCount ∧
    (s.doTriggerSounds poti1 poti2).triggerSounds = false ∧
    (s.doTriggerSounds poti1 poti2).doStepCount = s.doStepCount ∧
    (s.doTriggerSounds poti1 poti2).doTriggerSoundsCount = s.doTriggerSoundsCount + 1 := by
  simp only [Sequencer.doTriggerSounds, Sequencer.clockView, Sequencer.doStepCount,
    Sequencer.doTriggerSoundsCount, Sequencer.setTrack, Sequencer.setSelectedStep,
    Sequencer.setStepLED, Sequencer.setTrackLED, Sequencer.deactivateSensors,
    Sequencer.setDefaultTrackLight, Sequencer.advanceLedFader,
    apply_ite Sequencer.running, apply_ite Sequencer.isSyncingToMidiClock,
    apply_ite Sequencer.midiClockReceived, apply_ite Sequencer.pulseCount,
    apply_ite Sequencer.triggerSounds, apply_ite Sequencer.log,
    apply_ite (Prod.fst : Sequencer × Bool → Sequencer),
    apply_ite (List.count Call.doStep), apply_ite (List.count Call.doTriggerSounds), ite_self,
    forLoop_keeps_fields _ clockView_doTriggerSoundsTrack, List.count_append]
  simp

theorem setStepLED_fields (s : Sequencer) (i : Int) (c : CRGB) :
    (s.setStepLED i c).running = s.running ∧
    (s.setStepLED i c).isSyncingToMidiClock = s.isSyncingToMidiClock ∧
    (s.setStepLED i c).midiClockReceived = s.midiClockReceived ∧
    (s.setStepLED i c).pulseCount = s.pulseCount ∧
    (s.setStepLED i c).triggerSounds = s.triggerSounds ∧
    (s.setStepLED i c).doStepCount = s.doStepCount ∧
    (s.setStepLED i c).doTriggerSoundsCount = s.doTriggerSoundsCount := by
  unfold Sequencer.setStepLED
  split <;> exact ⟨rfl, rfl, rfl, rfl, rfl, rfl, rfl⟩

/-- What `shouldStep` never touches. -/
theorem shouldStep_fields (s : Sequencer) (millis : Nat) :
    (s.shouldStep millis).2.running = s.running ∧
    (s.shouldStep millis).2.isSyncingToMidiClock = s.isSyncingToMidiClock ∧
    (s.shouldStep millis).2.triggerSounds = s.triggerSounds ∧
    (s.shouldStep millis).2.log = s.log := by
  simp only [Sequencer.shouldStep, Sequencer.shouldStepMidiClock,
    Sequencer.shouldStepInternalClock,
    apply_ite (Prod.snd : Bool × Sequencer → Sequencer), apply_ite Sequencer.running,
    apply_ite Sequencer.isSyncingToMidiClock, apply_ite Sequencer.triggerSounds,
    apply_ite Sequencer.log, ite_self, and_self]

end ClockPhase

/-! ### One tick, seen through the clock view -/

/-- The fields of the clock view after the check of the clock: `doStep` is invoked exactly
when `shouldStep` returns true. -/
theorem stepIfDue_fields (s : Sequencer) (millis : Nat) :
    (s.stepIfDue millis).running = s.running ∧
    (s.stepIfDue millis).isSyncingToMidiClock = s.isSyncingToMidiClock ∧
    (s.stepIfDue millis).midiClockReceived = (s.shouldStep millis).2.midiClockReceived ∧
    (s.stepIfDue millis).pulseCount = (s.shouldStep millis).2.pulseCount ∧
    (s.stepIfDue millis).triggerSounds = ((s.shouldStep millis).1 || s.triggerSounds) ∧
    (s.stepIfDue millis).doStepCount
      = s.doStepCount + (if (s.shouldStep millis).1 then 1 else 0) ∧
    (s.stepIfDue millis).doTriggerSoundsCount = s.doTriggerSoundsCount := by
  obtain ⟨f1, f2, f3, f4⟩ := shouldStep_fields s millis
  obtain ⟨h1, h2, h3, h4, h5, h6, h7⟩ := doStep_fields (s.shouldStep millis).2
  have hc1 : (s.shouldStep millis).2.doStepCount = s.doStepCount := by
    simp only [Sequencer.doStepCount, f4]
  have hc2 : (s.shouldStep millis).2.doTriggerSoundsCount = s.doTriggerSoundsCount := by
    simp only [Sequencer.doTriggerSoundsCount, f4]
  cases hc : (s.shouldStep millis).1
  · have e : s.stepIfDue millis = (s.shouldStep millis).2 := by
      simp only [Sequencer.stepIfDue, hc, Bool.false_eq_true, if_false]
    rw [e]
    exact ⟨f1, f2, rfl, rfl, by rw [f3]; rfl, by rw [hc1]; rfl, hc2⟩
  · have e : s.stepIfDue millis = (s.shouldStep millis).2.doStep := by
      simp only [Sequencer.stepIfDue, hc, if_true]
    rw [e]
    exact ⟨h1.trans f1, h2.trans f2, h3, h4, h5, h6.trans (by rw [hc1]; rfl), h7.trans hc2⟩

/-- The fields of the clock view after the sound phase: `doTriggerSounds` is invoked exactly
when `triggerSounds` is set, and the flag is clear afterwards. -/
theorem triggerIfPending_fields (s : Sequencer) (poti1 poti2 : Nat) :
    (s.triggerIfPending poti1 poti2).running = s.running ∧
    (s.triggerIfPending poti1 poti2).isSyncingToMidiClock = s.isSyncingToMidiClock ∧
    (s.triggerIfPending poti1 poti2).midiClockReceived = s.midiClockReceived ∧
    (s.triggerIfPending poti1 poti2).pulseCount = s.pulseCount ∧
    (s.triggerIfPending poti1 poti2).triggerSounds = false ∧
    (s.triggerIfPending poti1 poti2).doStepCount = s.doStepCount ∧
    (s.triggerIfPending poti1 poti2).doTriggerSoundsCount
      = s.doTriggerSoundsCount + (if s.triggerSounds then 1 else 0) := by
  obtain ⟨h1, h2, h3, h4, h5, h6, h7⟩ := doTriggerSounds_fields s poti1 poti2
  cases ht : s.triggerSounds
  · have e : s.triggerIfPending poti1 poti2 = s := by
      simp only [Sequencer.triggerIfPending, ht, Bool.false_eq_true, if_false]
    rw [e]
    exact ⟨rfl, rfl, rfl, rfl, ht, rfl, rfl⟩
  · have e : s.triggerIfPending poti1 poti2 = s.doTriggerSounds poti1 poti2 := by
      simp only [Sequencer.triggerIfPending, ht, if_true]
    rw [e]
    exact ⟨h1, h2, h3, h4, h5, h6, h7⟩

/-- The clock phase of a running sequencer: the number of `doStep` invocations grows by one
exactly when `shouldStep` returns true, `doTriggerSounds` runs exactly when a step was made or
`triggerSounds` was pending, and `triggerSounds` is false afterwards. -/
theorem runClock_running (s : Sequencer) (millis poti1 poti2 : Nat) (hr : s.running = true) :
    (s.runClock millis poti1 poti2).running = true ∧
    (s.runClock millis poti1 poti2).isSyncingToMidiClock = s.isSyncingToMidiClock ∧
    (s.runClock millis poti1 poti2).midiClockReceived
      = (s.shouldStep millis).2.midiClockReceived ∧
    (s.runClock millis poti1 poti2).pulseCount = (s.shouldStep millis).2.pulseCount ∧
    (s.runClock millis poti1 poti2).triggerSounds = false ∧
    (s.runClock millis poti1 poti2).doStepCount
      = s.doStepCount + (if (s.shouldStep millis).1 then 1 else 0) ∧
    (s.runClock millis poti1 poti2).doTriggerSoundsCount
      = s.doTriggerSoundsCount
        + (if ((s.shouldStep millis).1 || s.triggerSounds) then 1 else 0) := by
  obtain ⟨a1, a2, a3, a4, a5, a6, a7⟩ := stepIfDue_fields s millis
  obtain ⟨b1, b2, b3, b4, b5, b6, b7⟩ := triggerIfPending_fields (s.stepIfDue millis) poti1 poti2
  have hrun : ((s.stepIfDue millis).triggerIfPending poti1 poti2).running = true := by
    rw [b1, a1, hr]
  simp only [Sequencer.runClock, hr, if_true, hrun, setStepLED_fields, b2, b3, b4, b5, b6, b7,
    a2, a3, a4, a5, a6, a7, and_self]

theorem runClock_stopped (s : Sequencer) (millis poti1 poti2 : Nat) (hr : s.running = false) :
    s.runClock millis poti1 poti2 = s := by
  simp [Sequencer.runClock, hr]

/-- The handler part of a tick in which STARTSTOP did not rise keeps the clock view of the
state before the tick. -/
theorem clockView_tick_handlers (s : Sequencer) (scan : Scan)
    (h : scan.functionButtons.BUTTON_STARTSTOP.rose = false) :
    ((s.refreshButtons scan).updateStateHandlers scan.millis).clockView = s.clockView :=
  clockView_updateStateHandlers (s.refreshButtons scan) scan.millis h

/-- The fields of the clock view, from an equation between clock views. -/
theorem clockView_fields (a b : Sequencer) (h : a.clockView = b.clockView) :
    a.running = b.running ∧
    a.isSyncingToMidiClock = b.isSyncingToMidiClock ∧
    a.midiClockReceived = b.midiClockReceived ∧
    a.pulseCount = b.pulseCount ∧
    a.triggerSounds = b.triggerSounds ∧
    a.doStepCount = b.doStepCount ∧
    a.doTriggerSoundsCount = b.doTriggerSoundsCount := by
  simpa only [Sequencer.clockView, Prod.mk.injEq, and_assoc] using h

/-- C6: on a stopped sequencer `start()` sets `running` and `triggerSounds` and leaves every
track (so every cursor) as it is; and the next tick in which STARTSTOP does not rise (so in
particular a tick without any function button event) and in which `shouldStep` returns false
invokes `doTriggerSounds` exactly once, does not invoke `doStep`, and leaves `triggerSounds`
false. -/
theorem start_triggers_without_step (s : Sequencer) (t0 : Nat) (scan : Scan)
    (hr : s.running = false)
    (hrose : scan.functionButtons.BUTTON_STARTSTOP.rose = false)
    (hno : ((((s.start t0).refreshButtons scan).updateStateHandlers scan.millis).shouldStep
      scan.millis).1 = false) :
    (s.start t0).running = true ∧
    (s.start t0).triggerSounds = true ∧
    (s.start t0).tracks = s.tracks ∧
    ((s.start t0).handle (Event.tick scan)).doTriggerSoundsCount
      = (s.start t0).doTriggerSoundsCount + 1 ∧
    ((s.start t0).handle (Event.tick scan)).doStepCount = (s.start t0).doStepCount ∧
    ((s.start t0).handle (Event.tick scan)).triggerSounds = false := by
  have e := start_of_stopped s t0 hr
  have h1 : (s.start t0).running = true := by rw [e]
  have h2 : (s.start t0).triggerSounds = true := by rw [e]
  have h3 : (s.start t0).tracks = s.tracks := by rw [e]
  obtain ⟨v1, _, _, _, v5, v6, v7⟩ := clockView_fields _ _
    (clockView_tick_handlers (s.start t0) scan hrose)
  obtain ⟨_, _, _, _, r5, r6, r7⟩ := runClock_running
    (((s.start t0).refreshButtons scan).updateStateHandlers scan.millis)
    scan.millis scan.poti1 scan.poti2 (v1.trans h1)
  refine ⟨h1, h2, h3, ?_, ?_, ?_⟩
  · show (Sequencer.runClock _ _ _ _).doTriggerSoundsCount = _
    rw [r7, hno, v5, h2, v7]
    rfl
  · show (Sequencer.runClock _ _ _ _).doStepCount = _
    rw [r6, hno, v6]
    rfl
  · exact r5

set_option maxRecDepth 100000 in
/-- Witness of C6: the default sequencer (step length 125 ms) is started at time 0 and ticked
at time 1 with no button touched. -/
theorem start_triggers_without_step_witness :
    ((Sequencer.start {} 0).handle (Event.tick { millis := 1 })).doTriggerSoundsCount = 1 ∧
    ((Sequencer.start {} 0).handle (Event.tick { millis := 1 })).doStepCount = 0 ∧
    ((Sequencer.start {} 0).handle (Event.tick { millis := 1 })).triggerSounds = false :=
  (start_triggers_without_step {} 0 { millis := 1 } rfl rfl rfl).2.2.2

/-! ### MIDI clock: sixty pulses -/

/-- One call of `shouldStep` while syncing: a pending clock pulse is consumed and counted,
and the call returns true when it was the sixth. -/
theorem shouldStep_sync (s : Sequencer) (millis : Nat) (hs : s.isSyncingToMidiClock = true) :
    (s.shouldStep millis).1 = (s.midiClockReceived && decide (5 ≤ s.pulseCount)) ∧
    (s.shouldStep millis).2.midiClockReceived = false ∧
    (s.shouldStep millis).2.pulseCount
      = (if s.midiClockReceived then (if 5 ≤ s.pulseCount then 0 else s.pulseCount + 1)
         else s.pulseCount) := by
  cases hm : s.midiClockReceived <;> by_cases h : 5 ≤ s.pulseCount <;>
    simp [Sequencer.shouldStep, Sequencer.shouldStepMidiClock, hs, hm, h]

/-- A tick, in which STARTSTOP does not rise, of a running sequencer that syncs to the MIDI
clock: the pulses counted so far, `6 * doStepCount + pulseCount`, grow by one when a clock
byte was pending and not at all otherwise; the pending flag is clear afterwards. -/
theorem tick_consumes_pulse (x : Sequencer) (scan : Scan) (e : Nat)
    (hrose : scan.functionButtons.BUTTON_STARTSTOP.rose = false)
    (hrun : x.running = true) (hsync : x.isSyncingToMidiClock = true)
    (hpc : x.pulseCount ≤ 5) (he : 6 * x.doStepCount + x.pulseCount = e) :
    (x.handle (Event.tick scan)).running = true ∧
    (x.handle (Event.tick scan)).isSyncingToMidiClock = true ∧
    (x.handle (Event.tick scan)).pulseCount ≤ 5 ∧
    6 * (x.handle (Event.tick scan)).doStepCount + (x.handle (Event.tick scan)).pulseCount
      = e + (if x.midiClockReceived then 1 else 0) ∧
    (x.handle (Event.tick scan)).midiClockReceived = false := by
  obtain ⟨v1, v2, v3, v4, _, v6, _⟩ := clockView_fields _ _ (clockView_tick_handlers x scan hrose)
  obtain ⟨r1, r2, r3, r4, _, r6, _⟩ := runClock_running
    ((x.refreshButtons scan).updateStateHandlers scan.millis)
    scan.millis scan.poti1 scan.poti2 (v1.trans hrun)
  obtain ⟨s1, s2, s3⟩ := shouldStep_sync
    ((x.refreshButtons scan).updateStateHandlers scan.millis) scan.millis (v2.trans hsync)
  rw [s2] at r3
  rw [s3, v3, v4] at r4
  rw [s1, v3, v4, v6] at r6
  have hh : x.handle (Event.tick scan)
      = Sequencer.runClock ((x.refreshButtons scan).updateStateHandlers scan.millis)
          scan.millis scan.poti1 scan.poti2 := rfl
  rw [hh]
  refine ⟨r1, r2.trans (v2.trans hsync), ?_, ?_, r3⟩
  · rw [r4]; split_ifs <;> omega
  · rw [r4, r6]
    cases x.midiClockReceived <;> by_cases h5 : 5 ≤ x.pulseCount <;> simp [h5] <;> omega

/-- A series of such ticks: at most one pulse is counted, and exactly the pending one when
there is at least one tick. -/
theorem ticks_consume_pulse (scans : List Scan) :
    ∀ (x : Sequencer) (e : Nat),
      (∀ scan ∈ scans, scan.functionButtons.BUTTON_STARTSTOP.rose = false) →
      x.running = true → x.isSyncingToMidiClock = true → x.pulseCount ≤ 5 →
      6 * x.doStepCount + x.pulseCount = e →
      (x.run (scans.map Event.tick)).running = true ∧
      (x.run (scans.map Event.tick)).isSyncingToMidiClock = true ∧
      (x.run (scans.map Event.tick)).pulseCount ≤ 5 ∧
      e ≤ 6 * (x.run (scans.map Event.tick)).doStepCount
            + (x.run (scans.map Event.tick)).pulseCount ∧
      6 * (x.run (scans.map Event.tick)).doStepCount
            + (x.run (scans.map Event.tick)).pulseCount ≤ e + 1 ∧
      (scans ≠ [] →
        6 * (x.run (scans.map Event.tick)).doStepCount
            + (x.run (scans.map Event.tick)).pulseCount
          = e + (if x.midiClockReceived then 1 else 0) ∧
        (x.run (scans.map Event.tick)).midiClockReceived = false) := by
  induction scans with
  | nil =>
    intro x e _ hrun hsync hpc he
    simp only [List.map_nil, Sequencer.run, List.foldl_nil]
    exact ⟨hrun, hsync, hpc, by omega, by omega, fun h => absurd rfl h⟩
  | cons scan scans ih =>
    intro x e hall hrun hsync hpc he
    obtain ⟨t1, t2, t3, t4, t5⟩ := tick_consumes_pulse x scan e
      (hall scan (List.mem_cons_self _ _)) hrun hsync hpc he
    obtain ⟨i1, i2, i3, i4, i5, i6⟩ := ih (x.handle (Event.tick scan)) _
      (fun sc hsc => hall sc (List.mem_cons_of_mem _ hsc)) t1 t2 t3 t4
    have hrun' : x.run ((scan :: scans).map Event.tick)
        = (x.handle (Event.tick scan)).run (scans.map Event.tick) := rfl
    rw [hrun']
    rw [t5] at i6
    simp only [Bool.false_eq_true, if_false, Nat.add_zero] at i6
    by_cases hnil : scans = []
    · subst hnil
      simp only [List.map_nil, Sequencer.run, List.foldl_nil]
      refine ⟨t1, t2, t3, ?_, ?_, fun _ => ⟨t4, t5⟩⟩
      · rw [t4]; omega
      · rw [t4]; split_ifs <;> omega
    · obtain ⟨j1, j2⟩ := i6 hnil
      refine ⟨i1, i2, i3, ?_, ?_, fun _ => ⟨j1, j2⟩⟩
      · rw [j1]; omega
      · rw [j1]; split_ifs <;> omega

theorem run_append (x : Sequencer) (a b : List Event) : x.run (a ++ b) = (x.run a).run b := by
  simp [Sequencer.run, List.foldl_append]

/-- A clock byte followed by at least one tick: exactly one more pulse is counted. -/
theorem byte_then_ticks (x : Sequencer) (t : Nat) (scans : List Scan) (e : Nat)
    (hne : scans ≠ [])
    (hall : ∀ scan ∈ scans, scan.functionButtons.BUTTON_STARTSTOP.rose = false)
    (hrun : x.running = true) (hsync : x.isSyncingToMidiClock = true)
    (hpc : x.pulseCount ≤ 5) (he : 6 * x.doStepCount + x.pulseCount = e) :
    (x.run (Event.midi 0xF8 t :: scans.map Event.tick)).running = true ∧
    (x.run (Event.midi 0xF8 t :: scans.map Event.tick)).isSyncingToMidiClock = true ∧
    (x.run (Event.midi 0xF8 t :: scans.map Event.tick)).pulseCount ≤ 5 ∧
    6 * (x.run (Event.midi 0xF8 t :: scans.map Event.tick)).doStepCount
        + (x.run (Event.midi 0xF8 t :: scans.map Event.tick)).pulseCount = e + 1 := by
  have hb : x.run (Event.midi 0xF8 t :: scans.map Event.tick)
      = Sequencer.run { x with midiClockReceived := true } (scans.map Event.tick) := rfl
  rw [hb]
  obtain ⟨i1, i2, i3, _, _, i6⟩ := ticks_consume_pulse scans
    { x with midiClockReceived := true } e hall hrun hsync hpc he
  obtain ⟨j1, _⟩ := i6 hne
  exact ⟨i1, i2, i3, j1⟩

/-- A series of clock bytes, each followed by at least one tick: one pulse is counted per
byte. -/
theorem bytes_then_ticks (batches : List (Nat × List Scan)) :
    ∀ (x : Sequencer) (e : Nat),
      (∀ b ∈ batches, b.2 ≠ [] ∧
        ∀ scan ∈ b.2, scan.functionButtons.BUTTON_STARTSTOP.rose = false) →
      x.running = true → x.isSyncingToMidiClock = true → x.pulseCount ≤ 5 →
      6 * x.doStepCount + x.pulseCount = e →
      (x.run (batches.flatMap fun b => Event.midi 0xF8 b.1 :: b.2.map Event.tick)).pulseCount
        ≤ 5 ∧
      6 * (x.run (batches.flatMap
              fun b => Event.midi 0xF8 b.1 :: b.2.map Event.tick)).doStepCount
          + (x.run (batches.flatMap
              fun b => Event.midi 0xF8 b.1 :: b.2.map Event.tick)).pulseCount
        = e + batches.length := by
  induction batches with
  | nil =>
    intro x e _ _ _ hpc he
    simp only [List.flatMap_nil, Sequencer.run, List.foldl_nil, List.length_nil]
    exact ⟨hpc, he⟩
  | cons b bs ih =>
    intro x e hall hrun hsync hpc he
    obtain ⟨hne, hb⟩ := hall b (List.mem_cons_self _ _)
    obtain ⟨t1, t2, t3, t4⟩ := byte_then_ticks x b.1 b.2 e hne hb hrun hsync hpc he
    obtain ⟨i1, i2⟩ := ih _ (e + 1) (fun c hc => hall c (List.mem_cons_of_mem _ hc)) t1 t2 t3 t4
    rw [List.flatMap_cons, run_append]
    refine ⟨i1, ?_⟩
    rw [i2, List.length_cons]
    omega

set_option maxRecDepth 1000000 in
/-- Counterexample to C3 as stated: on the default sequencer (stopped, not syncing,
`pulseCount = 0`) the byte `0xFA` and sixty bytes `0xF8` arrive with no tick in between, then
two ticks follow without any button event: `doStep` has not been invoked ten times (it has
not been invoked at all, the flag `midiClockReceived` holding one pulse only). -/
theorem midi_pulses_between_ticks_lost :
    ¬ ((Sequencer.run {}
          (Event.midi 0xFA 0 :: List.replicate 60 (Event.midi 0xF8 0) ++
            [Event.tick { millis := 1 }, Event.tick { millis := 2 }])).doStepCount = 10) := by
  decide

/-- C3 (amended): from a stopped sequencer with `pulseCount = 0` (syncing or not), the byte
`0xFA`, then any ticks, then sixty bytes `0xF8` each followed by at least one tick (so that at
least one tick lies between two consecutive clock bytes and after the last one), STARTSTOP
rising in none of the ticks: `doStep` is invoked exactly ten times. -/
theorem midi_start_sixty_pulses (s : Sequencer) (t0 : Nat) (between : List Scan)
    (batches : List (Nat × List Scan))
    (hr : s.running = false) (hp : s.pulseCount = 0)
    (hbetween : ∀ scan ∈ between, scan.functionButtons.BUTTON_STARTSTOP.rose = false)
    (hbatches : ∀ b ∈ batches, b.2 ≠ [] ∧
      ∀ scan ∈ b.2, scan.functionButtons.BUTTON_STARTSTOP.rose = false)
    (hlen : batches.length = 60) :
    (s.run (Event.midi 0xFA t0 :: (between.map Event.tick ++
        batches.flatMap fun b => Event.midi 0xF8 b.1 :: b.2.map Event.tick))).doStepCount
      = s.doStepCount + 10 := by
  have hstart : s.run (Event.midi 0xFA t0 :: (between.map Event.tick ++
        batches.flatMap fun b => Event.midi 0xF8 b.1 :: b.2.map Event.tick))
      = ((Sequencer.start { s with isSyncingToMidiClock := true } t0).run
          (between.map Event.tick)).run
          (batches.flatMap fun b => Event.midi 0xF8 b.1 :: b.2.map Event.tick) := by
    rw [← run_append]
    rfl
  rw [hstart]
  have e0 := start_of_stopped { s with isSyncingToMidiClock := true } t0 hr
  have h1 : (Sequencer.start { s with isSyncingToMidiClock := true } t0).running = true := by
    rw [e0]
  have h2 : (Sequencer.start { s with isSyncingToMidiClock := true } t0).isSyncingToMidiClock
      = true := by rw [e0]
  have h3 : (Sequencer.start { s with isSyncingToMidiClock := true } t0).pulseCount = 0 := by
    rw [e0]; exact hp
  have h4 : (Sequencer.start { s with isSyncingToMidiClock := true } t0).doStepCount
      = s.doStepCount := by rw [e0]; rfl
  obtain ⟨i1, i2, i3, i4, i5, _⟩ := ticks_consume_pulse between
    (Sequencer.start { s with isSyncingToMidiClock := true } t0) (6 * s.doStepCount)
    hbetween h1 h2 (by rw [h3]; omega) (by rw [h3, h4]; omega)
  obtain ⟨j1, j2⟩ := bytes_then_ticks batches _ _ hbatches i1 i2 i3 rfl
  rw [hlen] at j2
  omega

set_option maxRecDepth 100000 in
/-- Witness of C3 (amended): the default sequencer, `0xFA`, then sixty times a clock byte
followed by one tick. -/
theorem midi_start_sixty_pulses_witness :
    (Sequencer.run {} (Event.midi 0xFA 0 :: (([] : List Scan).map Event.tick ++
        (List.replicate 60 ((0 : Nat), [({} : Scan)])).flatMap
          fun b => Event.midi 0xF8 b.1 :: b.2.map Event.tick))).doStepCount = 0 + 10 :=
  midi_start_sixty_pulses {} 0 [] (List.replicate 60 (0, [{}])) rfl rfl
    (fun _ h => absurd h (List.not_mem_nil _))
    (fun b hb => by
      rw [List.eq_of_mem_replicate hb]
      exact ⟨by simp, fun scan hscan => by
        rw [List.mem_singleton.mp hscan]⟩)
    (List.length_replicate _ _)

/-! ## Handler properties -/

/-! ### Loops over the tracks -/

theorem track_setTrack (s : Sequencer) (i j : Nat) (t : SequencerTrack) :
    (s.setTrack j t).track i = if i = j ∧ j < s.tracks.length then t else s.track i :=
  list_getD_set s.tracks i j t default

/-- A loop whose body rewrites `tracks[j]` by a function of that track alone: the result, track
by track; the other fields are kept. -/
theorem forLoop_setTrack (body : Nat → Sequencer → Sequencer)
    (g : Nat → SequencerTrack → SequencerTrack) (I : Sequencer → Prop)
    (hI : ∀ j x, I x → I (body j x))
    (h : ∀ j x, I x → body j x = x.setTrack j (g j (x.track j)))
    (n : Nat) (s : Sequencer) (hs : I s) :
    I (forLoop n body s) ∧
    { forLoop n body s with tracks := s.tracks } = s ∧
    (forLoop n body s).tracks.length = s.tracks.length ∧
    ∀ i, (forLoop n body s).track i
      = if i < n ∧ i < s.tracks.length then g i (s.track i) else s.track i := by
  induction n with
  | zero => exact ⟨hs, rfl, rfl, fun i => by rw [if_neg (fun c => Nat.not_lt_zero _ c.1)]; rfl⟩
  | succ n ih =>
    obtain ⟨h1, h2, h3, h4⟩ := ih
    have e : forLoop (n + 1) body s
        = (forLoop n body s).setTrack n (g n ((forLoop n body s).track n)) := h n _ h1
    refine ⟨hI n _ h1, ?_, ?_, ?_⟩
    · rw [e]; exact h2
    · rw [e]; simp [Sequencer.setTrack, h3]
    · intro i
      rw [e, track_setTrack, h3, h4 i, h4 n]
      by_cases hin : i = n
      · subst hin
        by_cases hl : i < s.tracks.length
        · simp [hl]
        · simp [hl]
      · have : (i < n + 1) = (i < n) := by
          apply propext; omega
        simp [hin, this]

theorem list_any_set {α : Type} (l : List α) (k : Nat) (x d : α) (f : α → Bool)
    (hf : f x = f (l.getD k d)) : (l.set k x).any f = l.any f := by
  induction l generalizing k with
  | nil => rfl
  | cons a l ih =>
    cases k with
    | zero =>
      have : f x = f a := hf
      simp [this]
    | succ k =>
      have : f x = f (l.getD k d) := hf
      simp [ih k this]

theorem anyPatternOpsArmed_setTrack (s : Sequencer) (k : Nat) (t : SequencerTrack)
    (ht : t.patternOpsArmed = (s.track k).patternOpsArmed) :
    (s.setTrack k t).anyPatternOpsArmed = s.anyPatternOpsArmed :=
  list_any_set s.tracks k t default _ ht

theorem setTrack_track_self (s : Sequencer) (k : Nat) : s.setTrack k (s.track k) = s := by
  unfold Sequencer.setTrack Sequencer.track
  rw [list_set_getD_self]

/-- The track function of the loop of `doLeavePatternOps`, for the values of `nextPatternIndex`
and `anyPatternOpsArmed()` at the entry of the loop. -/
theorem doLeavePatternOps_loop (s : Sequencer) (n : Nat) :
    (forLoop n Sequencer.doLeavePatternOpsTrack s).nextPatternIndex = s.nextPatternIndex ∧
    { forLoop n Sequencer.doLeavePatternOpsTrack s with tracks := s.tracks } = s ∧
    (forLoop n Sequencer.doLeavePatternOpsTrack s).tracks.length = s.tracks.length ∧
    ∀ i, (forLoop n Sequencer.doLeavePatternOpsTrack s).track i
      = if i < n ∧ i < s.tracks.length then
          (if s.nextPatternIndex ≥ 0 then
            if !s.anyPatternOpsArmed then (s.track i).unMute.switchToPattern s.nextPatternIndex
            else if (s.track i).isPatternOpsArmed then
              (s.track i).switchToPattern s.nextPatternIndex
            else s.track i
          else s.track i)
        else s.track i := by
  have key := forLoop_setTrack Sequencer.doLeavePatternOpsTrack
    (fun _ t =>
      if s.nextPatternIndex ≥ 0 then
        if !s.anyPatternOpsArmed then t.unMute.switchToPattern s.nextPatternIndex
        else if t.isPatternOpsArmed then t.switchToPattern s.nextPatternIndex
        else t
      else t)
    (fun x => x.nextPatternIndex = s.nextPatternIndex ∧
      x.anyPatternOpsArmed = s.anyPatternOpsArmed)
    ?_ ?_ n s ⟨rfl, rfl⟩
  · exact ⟨key.1.1, key.2.1, key.2.2.1, key.2.2.2⟩
  · intro j x hx
    unfold Sequencer.doLeavePatternOpsTrack
    split_ifs
    · exact ⟨hx.1, (anyPatternOpsArmed_setTrack x j
        ((x.track j).unMute.switchToPattern x.nextPatternIndex) rfl).trans hx.2⟩
    · exact ⟨hx.1, (anyPatternOpsArmed_setTrack x j
        ((x.track j).switchToPattern x.nextPatternIndex) rfl).trans hx.2⟩
    · exact hx
    · exact hx
  · intro j x hx
    unfold Sequencer.doLeavePatternOpsTrack
    simp only [hx.1, hx.2]
    split_ifs
    · rfl
    · rfl
    · exact (setTrack_track_self x j).symm
    · exact (setTrack_track_self x j).symm

theorem list_getD_map {α β : Type} (l : List α) (f : α → β) (i : Nat) (d : α) :
    (l.map f).getD i (f d) = f (l.getD i d) := by
  induction l generalizing i with
  | nil => rfl
  | cons a l ih =>
    cases i with
    | zero => rfl
    | succ i => exact ih i

theorem list_any_getD {α : Type} (l : List α) (f : α → Bool) (i : Nat) (d : α)
    (hd : f d = false) (h : l.any f = false) : f (l.getD i d) = false := by
  induction l generalizing i with
  | nil => simpa using hd
  | cons a l ih =>
    simp only [List.any_cons, Bool.or_eq_false_iff] at h
    cases i with
    | zero => simpa using h.1
    | succ i => simpa using ih i h.2

theorem deactivateAllPatternOpsArms_track (s : Sequencer) (k : Nat) :
    s.deactivateAllPatternOpsArms.track k = { s.track k with patternOpsArmed := false } := by
  have h := list_getD_map s.tracks
    (fun t : SequencerTrack => { t with patternOpsArmed := false }) k default
  exact h

theorem track_clear_arm (t : SequencerTrack) (h : t.patternOpsArmed = false) :
    { t with patternOpsArmed := false } = t := by
  cases t
  simp_all

theorem deactivateAllPatternOpsArms_any (s : Sequencer) :
    s.deactivateAllPatternOpsArms.anyPatternOpsArmed = false := by
  unfold Sequencer.deactivateAllPatternOpsArms Sequencer.anyPatternOpsArmed
  simp [SequencerTrack.isPatternOpsArmed]

/-! ### Leaving the pattern mode -/

/-- C20: `doLeavePatternOps` on the six tracks. With `nextPatternIndex ≥ 0` and no track armed,
every track is unmuted and gets `switchToPattern(nextPatternIndex)`; with `nextPatternIndex ≥ 0`
and some track armed, exactly the armed tracks get `switchToPattern(nextPatternIndex)` and no
muted flag changes; with `nextPatternIndex < 0` no track is switched or unmuted. In all three
cases no track is armed afterwards and `nextPatternIndex` is -1. -/
theorem doLeavePatternOps_cases (s : Sequencer) (hlen : s.tracks.length = 6) :
    (0 ≤ s.nextPatternIndex → s.anyPatternOpsArmed = false → ∀ k, k < 6 →
      s.doLeavePatternOps.track k = (s.track k).unMute.switchToPattern s.nextPatternIndex ∧
      (s.doLeavePatternOps.track k).isMuted = false) ∧
    (0 ≤ s.nextPatternIndex → s.anyPatternOpsArmed = true → ∀ k, k < 6 →
      s.doLeavePatternOps.track k
        = (if (s.track k).isPatternOpsArmed then
            { (s.track k).switchToPattern s.nextPatternIndex with patternOpsArmed := false }
          else s.track k) ∧
      (s.doLeavePatternOps.track k).isMuted = (s.track k).isMuted) ∧
    (s.nextPatternIndex < 0 → ∀ k,
      s.doLeavePatternOps.track k = { s.track k with patternOpsArmed := false }) ∧
    (∀ k, (s.doLeavePatternOps.track k).isPatternOpsArmed = false) ∧
    s.doLeavePatternOps.anyPatternOpsArmed = false ∧
    s.doLeavePatternOps.nextPatternIndex = -1 := by
  obtain ⟨-, -, -, h4⟩ := doLeavePatternOps_loop s 6
  have ht : ∀ k, s.doLeavePatternOps.track k
      = { (forLoop 6 Sequencer.doLeavePatternOpsTrack s).track k with
          patternOpsArmed := false } := fun k =>
    deactivateAllPatternOpsArms_track (forLoop 6 Sequencer.doLeavePatternOpsTrack s) k
  refine ⟨?_, ?_, ?_, ?_, ?_, rfl⟩
  · intro hn ha k hk
    have hk2 : k < s.tracks.length := by omega
    have harm : (s.track k).patternOpsArmed = false :=
      list_any_getD s.tracks _ k default rfl ha
    have e : s.doLeavePatternOps.track k
        = (s.track k).unMute.switchToPattern s.nextPatternIndex := by
      rw [ht k, h4 k, if_pos ⟨hk, hk2⟩, if_pos hn, ha]
      exact track_clear_arm _ harm
    rw [e]
    exact ⟨rfl, rfl⟩
  · intro hn ha k hk
    have hk2 : k < s.tracks.length := by omega
    have e : s.doLeavePatternOps.track k
        = (if (s.track k).isPatternOpsArmed then
            { (s.track k).switchToPattern s.nextPatternIndex with patternOpsArmed := false }
          else s.track k) := by
      rw [ht k, h4 k, if_pos ⟨hk, hk2⟩, if_pos hn, ha]
      cases harm : (s.track k).isPatternOpsArmed
      · simpa using track_clear_arm _ harm
      · simp
    rw [e]
    refine ⟨rfl, ?_⟩
    split_ifs <;> rfl
  · intro hn k
    have hneg : ¬ (s.nextPatternIndex ≥ 0) := by omega
    rw [ht k, h4 k]
    simp only [hneg, if_false, ite_self]
  · intro k
    rw [ht k]
    rfl
  · exact deactivateAllPatternOpsArms_any _

theorem doLeavePatternOps_cases_witness :
    (({ nextPatternIndex := 3 } : Sequencer).doLeavePatternOps.track 2).queuedPatternIndex = 3 ∧
    (({ nextPatternIndex := 3 } : Sequencer).doLeavePatternOps.track 2).isMuted = false :=
  ⟨congrArg SequencerTrack.queuedPatternIndex
      (((doLeavePatternOps_cases { nextPatternIndex := 3 } rfl).1 (by decide) rfl 2
        (by decide)).1),
    ((doLeavePatternOps_cases { nextPatternIndex := 3 } rfl).1 (by decide) rfl 2
      (by decide)).2⟩


/-! ### Mute arming -/

section MuteArm

attribute [local irreducible] forLoop

theorem doToggleTrackMuteArmLight_tracks (i : Nat) (s : Sequencer) :
    (Sequencer.doToggleTrackMuteArmLight i s).tracks = s.tracks := by
  simp only [Sequencer.doToggleTrackMuteArmLight, Sequencer.setTrackLED,
    Sequencer.setDefaultTrackLight, apply_ite Sequencer.tracks, ite_self]

theorem advanceLedFader_tracks (s : Sequencer) : s.advanceLedFader.tracks = s.tracks := by
  simp only [Sequencer.advanceLedFader, apply_ite Sequencer.tracks, ite_self]

/-- The tracks after `doToggleTrackMuteArm`: the mute arm of track `i` is toggled when track
button `i` fell, and nothing else changes in the tracks. -/
theorem doToggleTrackMuteArm_track (s : Sequencer) :
    s.doToggleTrackMuteArm.tracks.length = s.tracks.length ∧
    ∀ i, s.doToggleTrackMuteArm.track i
      = if i < 6 ∧ i < s.tracks.length then
          (if (s.trackButton i).fell then (s.track i).toggleMuteArm else s.track i)
        else s.track i := by
  have key := forLoop_setTrack Sequencer.doToggleTrackMuteArmTrack
    (fun j t => if (s.trackButton j).fell then t.toggleMuteArm else t)
    (fun x => x.trackButtons = s.trackButtons) ?_ ?_ 6
    { s with functionLeds :=
        { s.functionLeds with BUTTON_TOGGLE_MUTE := CRGB.CornflowerBlue } } rfl
  · have e : s.doToggleTrackMuteArm.tracks
        = (forLoop 6 Sequencer.doToggleTrackMuteArmTrack
            { s with functionLeds :=
                { s.functionLeds with BUTTON_TOGGLE_MUTE := CRGB.CornflowerBlue } }).tracks := by
      unfold Sequencer.doToggleTrackMuteArm
      exact (forLoop_keeps Sequencer.tracks _ _ _ doToggleTrackMuteArmLight_tracks).trans
        (advanceLedFader_tracks _)
    refine ⟨by rw [e]; exact key.2.2.1, fun i => ?_⟩
    have := key.2.2.2 i
    unfold Sequencer.track at this ⊢
    rw [e]
    exact this
  · intro j x hx
    unfold Sequencer.doToggleTrackMuteArmTrack
    split_ifs
    · exact hx
    · exact hx
  · intro j x hx
    unfold Sequencer.doToggleTrackMuteArmTrack Sequencer.trackButton
    rw [hx]
    by_cases hf : (s.trackButtons.getD j default).fell = true
    · simp only [hf, if_true]
    · simp only [hf, if_false]
      exact (setTrack_track_self x j).symm

theorem doUpdateMutes_track (s : Sequencer) :
    s.doUpdateMutes.tracks.length = s.tracks.length ∧
    ∀ i, s.doUpdateMutes.track i
      = if i < 6 ∧ i < s.tracks.length then (s.track i).activateMuteArms else s.track i := by
  have key := forLoop_setTrack Sequencer.doUpdateMutesTrack
    (fun _ t => t.activateMuteArms) (fun _ => True) (fun _ _ _ => trivial)
    (fun _ _ _ => rfl) 6 s trivial
  exact ⟨key.2.2.1, key.2.2.2⟩

theorem list_getD_replicate_self {α : Type} (n i : Nat) (a : α) :
    (List.replicate n a).getD i a = a := by
  induction n generalizing i with
  | zero => rfl
  | succ n ih =>
    cases i with
    | zero => rfl
    | succ i => exact ih i

theorem default_track (i : Nat) : ({} : Sequencer).track i = {} :=
  list_getD_replicate_self 6 i _

theorem tapCount_cons (tb : List Bounce) (scans : List (List Bounce)) (i : Nat) :
    tapCount (tb :: scans) i = tapCount scans i + if (tb.getD i default).fell then 1 else 0 := by
  unfold tapCount
  rw [List.countP_cons]

end MuteArm


/-! ### The pattern under the step buttons -/

theorem setCurrentPattern_getCurrentPattern (t : SequencerTrack) :
    t.setCurrentPattern t.getCurrentPattern = t := by
  unfold SequencerTrack.setCurrentPattern SequencerTrack.getCurrentPattern
  rw [list_set_getD_self]

theorem setCurrentPattern_twice (t : SequencerTrack) (p q : SequencerPattern) :
    (t.setCurrentPattern p).setCurrentPattern q = t.setCurrentPattern q := by
  unfold SequencerTrack.setCurrentPattern
  simp [List.set_set]

theorem setSelectedPattern_self (s : Sequencer) : s.setSelectedPattern s.selectedPattern = s := by
  unfold Sequencer.setSelectedPattern Sequencer.selectedPattern
  rw [setCurrentPattern_getCurrentPattern, setTrack_track_self]

theorem setSelectedPattern_track (s : Sequencer) (p : SequencerPattern) (t : Nat) :
    (s.setSelectedPattern p).track t
      = if t = s.selectedTrack ∧ s.selectedTrack < s.tracks.length then
          (s.track s.selectedTrack).setCurrentPattern p
        else s.track t :=
  track_setTrack s t s.selectedTrack _

theorem setSelectedPattern_selected (s : Sequencer) (p : SequencerPattern)
    (h : s.SelectedInRange) :
    (s.setSelectedPattern p).track s.selectedTrack
      = (s.track s.selectedTrack).setCurrentPattern p := by
  rw [setSelectedPattern_track, if_pos ⟨rfl, h.1⟩]

theorem setSelectedPattern_inRange (s : Sequencer) (p : SequencerPattern)
    (h : s.SelectedInRange) : (s.setSelectedPattern p).SelectedInRange := by
  unfold Sequencer.SelectedInRange
  have e : (s.setSelectedPattern p).selectedTrack = s.selectedTrack := rfl
  rw [e, setSelectedPattern_selected s p h]
  refine ⟨?_, ?_⟩
  · simpa [Sequencer.setSelectedPattern, Sequencer.setTrack] using h.1
  · simpa [SequencerTrack.setCurrentPattern] using h.2

theorem selectedPattern_setSelectedPattern (s : Sequencer) (p : SequencerPattern)
    (h : s.SelectedInRange) : (s.setSelectedPattern p).selectedPattern = p := by
  unfold Sequencer.selectedPattern
  have e : (s.setSelectedPattern p).selectedTrack = s.selectedTrack := rfl
  rw [e, setSelectedPattern_selected s p h, getCurrentPattern_setCurrentPattern, if_pos h.2]

theorem setSelectedPattern_twice (s : Sequencer) (p q : SequencerPattern)
    (h : s.SelectedInRange) :
    (s.setSelectedPattern p).setSelectedPattern q = s.setSelectedPattern q := by
  have e : (s.setSelectedPattern p).setSelectedPattern q
      = (s.setSelectedPattern p).setTrack s.selectedTrack
          (((s.setSelectedPattern p).track s.selectedTrack).setCurrentPattern q) := rfl
  rw [e, setSelectedPattern_selected s p h, setCurrentPattern_twice]
  unfold Sequencer.setSelectedPattern Sequencer.setTrack
  simp [List.set_set]

/-- Reading any pattern after a write to the selected one. -/
theorem setSelectedPattern_pattern (s : Sequencer) (q : SequencerPattern) (t p : Nat)
    (h : s.SelectedInRange) :
    (s.setSelectedPattern q).pattern t p
      = if t = s.selectedTrack ∧ p = (s.track s.selectedTrack).currentPatternIndex then q
        else s.pattern t p := by
  unfold Sequencer.pattern
  rw [setSelectedPattern_track]
  by_cases ht : t = s.selectedTrack
  · subst ht
    rw [if_pos ⟨rfl, h.1⟩]
    show ((s.track s.selectedTrack).patterns.set _ q).getD p default = _
    rw [list_getD_set]
    by_cases hp : p = (s.track s.selectedTrack).currentPatternIndex
    · rw [if_pos ⟨hp, h.2⟩, if_pos ⟨rfl, hp⟩]
    · rw [if_neg (fun c => hp c.1), if_neg (fun c => hp c.2)]
  · rw [if_neg (fun c => ht c.1), if_neg (fun c => ht c.1)]

theorem forLoop_zero {σ : Type} (body : Nat → σ → σ) (x : σ) : forLoop 0 body x = x := rfl

theorem forLoop_succ {σ : Type} (n : Nat) (body : Nat → σ → σ) (x : σ) :
    forLoop (n + 1) body x = body n (forLoop n body x) := rfl

theorem trackView_tracks {x y : Sequencer} (h : x.trackView = y.trackView) :
    x.tracks = y.tracks := congrArg Prod.fst h

theorem trackView_selectedTrack {x y : Sequencer} (h : x.trackView = y.trackView) :
    x.selectedTrack = y.selectedTrack := congrArg Prod.snd h

theorem trackView_track {x y : Sequencer} (h : x.trackView = y.trackView) (t : Nat) :
    x.track t = y.track t := by
  unfold Sequencer.track
  rw [trackView_tracks h]

theorem trackView_pattern {x y : Sequencer} (h : x.trackView = y.trackView) (t p : Nat) :
    x.pattern t p = y.pattern t p := by
  unfold Sequencer.pattern
  rw [trackView_track h]

theorem trackView_selectedPattern {x y : Sequencer} (h : x.trackView = y.trackView) :
    x.selectedPattern = y.selectedPattern := by
  unfold Sequencer.selectedPattern
  rw [trackView_track h, trackView_selectedTrack h]

theorem trackView_inRange {x y : Sequencer} (h : x.trackView = y.trackView)
    (hy : y.SelectedInRange) : x.SelectedInRange := by
  unfold Sequencer.SelectedInRange at hy ⊢
  rw [trackView_track h, trackView_selectedTrack h, trackView_tracks h]
  exact hy

theorem trackView_setSelectedPattern {x y : Sequencer} (h : x.trackView = y.trackView)
    (q : SequencerPattern) : (x.setSelectedPattern q).trackView = (y.setSelectedPattern q).trackView := by
  unfold Sequencer.setSelectedPattern Sequencer.setTrack Sequencer.trackView
  simp only [trackView_track h, trackView_selectedTrack h, trackView_tracks h]

theorem trackView_setStepLED (x : Sequencer) (i : Int) (c : CRGB) :
    (x.setStepLED i c).trackView = x.trackView := by
  unfold Sequencer.setStepLED
  split <;> rfl

theorem stepButtons_setStepLED (x : Sequencer) (i : Int) (c : CRGB) :
    (x.setStepLED i c).stepButtons = x.stepButtons := by
  unfold Sequencer.setStepLED
  split <;> rfl

/-! ### Setting the track length -/

section TrackLength

attribute [local irreducible] forLoop

/-- The loop of `doSetTrackLength`: the last released step button decides the new track length
of the selected pattern; nothing else changes in the tracks. -/
theorem doSetTrackLength_loop (s : Sequencer) (h : s.SelectedInRange) (n : Nat) :
    (forLoop n Sequencer.doSetTrackLengthStep s).trackView
      = (s.setSelectedPattern { s.selectedPattern with
            trackLength := forLoop n (fun i l => if (s.stepButton i).fell then i + 1 else l)
              s.selectedPattern.trackLength }).trackView ∧
    (forLoop n Sequencer.doSetTrackLengthStep s).stepButtons = s.stepButtons := by
  induction n with
  | zero =>
    rw [forLoop_zero, forLoop_zero]
    exact ⟨(congrArg Sequencer.trackView (setSelectedPattern_self s)).symm, rfl⟩
  | succ n ih =>
    obtain ⟨hv, hb⟩ := ih
    rw [forLoop_succ, forLoop_succ]
    generalize forLoop n (fun i l => if (s.stepButton i).fell then i + 1 else l)
      s.selectedPattern.trackLength = L at hv ⊢
    generalize forLoop n Sequencer.doSetTrackLengthStep s = x at hv hb ⊢
    have hbn : x.stepButton n = s.stepButton n := by
      unfold Sequencer.stepButton
      rw [hb]
    unfold Sequencer.doSetTrackLengthStep
    simp only [trackView_setStepLED, stepButtons_setStepLED]
    rw [hbn]
    cases hf : (s.stepButton n).fell
    · exact ⟨hv, hb⟩
    · refine ⟨?_, hb⟩
      simp only [if_true]
      have e1 : x.selectedPattern = { s.selectedPattern with trackLength := L } :=
        (trackView_selectedPattern hv).trans (selectedPattern_setSelectedPattern s _ h)
      have e2 := trackView_setSelectedPattern hv
        { ({ s.selectedPattern with trackLength := L } : SequencerPattern) with
          trackLength := n + 1 }
      rw [setSelectedPattern_twice s _ _ h] at e2
      show (x.setSelectedPattern { x.selectedPattern with trackLength := n + 1 }).trackView = _
      rw [e1]
      exact e2

end TrackLength

section TrackLengthHandler

attribute [local irreducible] forLoop

theorem doSetTrackLengthStep_inputs (i : Nat) (x : Sequencer) :
    (fun y : Sequencer => (y.input1, y.input2, y.lastStepTime, y.stepLength, y.nextStepTime))
        (Sequencer.doSetTrackLengthStep i x)
      = (fun y : Sequencer => (y.input1, y.input2, y.lastStepTime, y.stepLength, y.nextStepTime))
        x := by
  simp only [Sequencer.doSetTrackLengthStep, Sequencer.setTrack, Sequencer.setStepLED,
    apply_ite Sequencer.input1, apply_ite Sequencer.input2, apply_ite Sequencer.lastStepTime,
    apply_ite Sequencer.stepLength, apply_ite Sequencer.nextStepTime, ite_self]

theorem doSetTrackLength_loop_inputs (s : Sequencer) (n : Nat) :
    (forLoop n Sequencer.doSetTrackLengthStep s).input1 = s.input1 ∧
    (forLoop n Sequencer.doSetTrackLengthStep s).input2 = s.input2 ∧
    (forLoop n Sequencer.doSetTrackLengthStep s).lastStepTime = s.lastStepTime ∧
    (forLoop n Sequencer.doSetTrackLengthStep s).stepLength = s.stepLength ∧
    (forLoop n Sequencer.doSetTrackLengthStep s).nextStepTime = s.nextStepTime := by
  have hk := forLoop_keeps
    (fun y : Sequencer => (y.input1, y.input2, y.lastStepTime, y.stepLength, y.nextStepTime))
    Sequencer.doSetTrackLengthStep n s doSetTrackLengthStep_inputs
  simpa only [Prod.mk.injEq] using hk

/-- The tempo after `doSetTrackLength`: `stepLength` follows controller 1 when it is active, and
`nextStepTime` is re-based on `lastStepTime`. -/
theorem doSetTrackLength_tempo (s : Sequencer) :
    s.doSetTrackLength.stepLength
      = (if s.input1.isActive then (Sequencer.map s.input1.getValue 0 1024 512 32).toNat
        else s.stepLength) ∧
    s.doSetTrackLength.nextStepTime
      = (if s.input1.isActive then
          s.lastStepTime + (Sequencer.map s.input1.getValue 0 1024 512 32).toNat
        else s.nextStepTime) := by
  obtain ⟨h1, h2, h3, h4, h5⟩ := doSetTrackLength_loop_inputs
    { s with functionLeds :=
        { s.functionLeds with BUTTON_SET_TRACKLENGTH := CRGB.CornflowerBlue } } 16
  simp only [Sequencer.doSetTrackLength, NUMBER_OF_STEPBUTTONS, Sequencer.setTrack,
    Sequencer.setStepLED,
    apply_ite Sequencer.input1, apply_ite Sequencer.input2, apply_ite Sequencer.lastStepTime,
    apply_ite Sequencer.stepLength, apply_ite Sequencer.nextStepTime, ite_self, h1, h2, h3, h4, h5,
    and_self]

/-- The tracks after `doSetTrackLength`, in terms of the state after the loop over the step
buttons. -/
theorem doSetTrackLength_tail (s : Sequencer) :
    s.doSetTrackLength.trackView
      = (if (forLoop 16 Sequencer.doSetTrackLengthStep
              { s with functionLeds :=
                { s.functionLeds with BUTTON_SET_TRACKLENGTH := CRGB.CornflowerBlue } }).input2.isActive
        then
          (forLoop 16 Sequencer.doSetTrackLengthStep
              { s with functionLeds :=
                { s.functionLeds with BUTTON_SET_TRACKLENGTH := CRGB.CornflowerBlue } }).setSelectedPattern
            { (forLoop 16 Sequencer.doSetTrackLengthStep
                { s with functionLeds :=
                  { s.functionLeds with
                    BUTTON_SET_TRACKLENGTH := CRGB.CornflowerBlue } }).selectedPattern with
              offset := 16 - (forLoop 16 Sequencer.doSetTrackLengthStep
                { s with functionLeds :=
                  { s.functionLeds with
                    BUTTON_SET_TRACKLENGTH := CRGB.CornflowerBlue } }).input2.getValue / 64 }
        else
          forLoop 16 Sequencer.doSetTrackLengthStep
            { s with functionLeds :=
              { s.functionLeds with BUTTON_SET_TRACKLENGTH := CRGB.CornflowerBlue } }).trackView := by
  generalize hx : forLoop 16 Sequencer.doSetTrackLengthStep
    { s with functionLeds :=
      { s.functionLeds with BUTTON_SET_TRACKLENGTH := CRGB.CornflowerBlue } } = x
  simp only [Sequencer.doSetTrackLength, NUMBER_OF_STEPBUTTONS, hx, Sequencer.trackView,
    Sequencer.setSelectedPattern, Sequencer.selectedPattern, Sequencer.setTrack,
    Sequencer.setStepLED, Sequencer.track,
    apply_ite Sequencer.input1, apply_ite Sequencer.input2, apply_ite Sequencer.tracks,
    apply_ite Sequencer.selectedTrack, ite_self]

/-- The tracks after `doSetTrackLength` on a sequencer whose selected pattern is inside the
arrays: the selected pattern gets the track length decided by the released step buttons and,
when controller 2 is active, the offset `16 - value / 64`; no other pattern changes. -/
theorem doSetTrackLength_view (s : Sequencer) (h : s.SelectedInRange) :
    s.doSetTrackLength.trackView
      = (s.setSelectedPattern { s.selectedPattern with
          trackLength := forLoop 16 (fun i l => if (s.stepButton i).fell then i + 1 else l)
            s.selectedPattern.trackLength
          offset :=
            if s.input2.isActive then 16 - s.input2.getValue / 64
            else s.selectedPattern.offset }).trackView := by
  rw [doSetTrackLength_tail]
  have hv : (forLoop 16 Sequencer.doSetTrackLengthStep
      { s with functionLeds :=
        { s.functionLeds with BUTTON_SET_TRACKLENGTH := CRGB.CornflowerBlue } }).trackView
      = (s.setSelectedPattern { s.selectedPattern with
          trackLength := forLoop 16 (fun i l => if (s.stepButton i).fell then i + 1 else l)
            s.selectedPattern.trackLength }).trackView :=
    (doSetTrackLength_loop
      { s with functionLeds :=
        { s.functionLeds with BUTTON_SET_TRACKLENGTH := CRGB.CornflowerBlue } } h 16).1
  have hi : (forLoop 16 Sequencer.doSetTrackLengthStep
      { s with functionLeds :=
        { s.functionLeds with BUTTON_SET_TRACKLENGTH := CRGB.CornflowerBlue } }).input2
      = s.input2 :=
    (doSetTrackLength_loop_inputs _ 16).2.1
  generalize forLoop 16 Sequencer.doSetTrackLengthStep
    { s with functionLeds :=
      { s.functionLeds with BUTTON_SET_TRACKLENGTH := CRGB.CornflowerBlue } } = x at hv hi ⊢
  generalize forLoop 16 (fun i l => if (s.stepButton i).fell then i + 1 else l)
    s.selectedPattern.trackLength = L at hv ⊢
  rw [hi]
  cases s.input2.isActive
  · exact hv
  · simp only [if_true]
    have e1 : x.selectedPattern = { s.selectedPattern with trackLength := L } :=
      (trackView_selectedPattern hv).trans (selectedPattern_setSelectedPattern s _ h)
    have e2 := trackView_setSelectedPattern hv
      { ({ s.selectedPattern with trackLength := L } : SequencerPattern) with
        offset := 16 - s.input2.getValue / 64 }
    rw [setSelectedPattern_twice s _ _ h] at e2
    rw [e1]
    exact e2

end TrackLengthHandler

/-- The track length chosen by the loop when step button `i` is the only one released. -/
theorem lastReleased_only (fell : Nat → Bool) (i : Nat) (l0 : Nat) (hi : fell i = true)
    (n : Nat) (ho : ∀ j, j < n → j ≠ i → fell j = false) :
    forLoop n (fun j l => if fell j then j + 1 else l) l0 = if i < n then i + 1 else l0 := by
  induction n with
  | zero => rfl
  | succ n ih =>
    rw [forLoop_succ, ih (fun j hj => ho j (Nat.lt_succ_of_lt hj))]
    by_cases hin : n = i
    · subst hin
      simp [hi]
    · have hf := ho n (Nat.lt_succ_self n) hin
      have e : (i < n + 1) = (i < n) := by
        apply propext
        omega
      simp only [hf, Bool.false_eq_true, if_false, e]

theorem lastReleased_none (fell : Nat → Bool) (l0 : Nat)
    (n : Nat) (ho : ∀ j, j < n → fell j = false) :
    forLoop n (fun j l => if fell j then j + 1 else l) l0 = l0 := by
  induction n with
  | zero => rfl
  | succ n ih =>
    rw [forLoop_succ, ih (fun j hj => ho j (Nat.lt_succ_of_lt hj))]
    simp [ho n (Nat.lt_succ_self n)]

/-- C13: in SET_TRACK_LENGTH mode, if step button `i` (one of the 16) is the only step button
that fell in this tick, then after `doSetTrackLength` the current pattern of the selected track
has `trackLength = i + 1` and the `trackLength` of every other pattern of every track is
unchanged; if no step button fell, no `trackLength` changes. -/
theorem doSetTrackLength_trackLength (s : Sequencer) (h : s.SelectedInRange) :
    (∀ i, i < 16 → (s.stepButton i).fell = true →
      (∀ j, j < 16 → j ≠ i → (s.stepButton j).fell = false) →
      ∀ t p, (s.doSetTrackLength.pattern t p).trackLength
        = if t = s.selectedTrack ∧ p = (s.track s.selectedTrack).currentPatternIndex then i + 1
          else (s.pattern t p).trackLength) ∧
    ((∀ j, j < 16 → (s.stepButton j).fell = false) →
      ∀ t p, (s.doSetTrackLength.pattern t p).trackLength = (s.pattern t p).trackLength) := by
  have hv := doSetTrackLength_view s h
  have hp : ∀ t p, s.doSetTrackLength.pattern t p
      = if t = s.selectedTrack ∧ p = (s.track s.selectedTrack).currentPatternIndex then
          { s.selectedPattern with
            trackLength := forLoop 16 (fun i l => if (s.stepButton i).fell then i + 1 else l)
              s.selectedPattern.trackLength
            offset :=
              if s.input2.isActive then 16 - s.input2.getValue / 64
              else s.selectedPattern.offset }
        else s.pattern t p := fun t p =>
    (trackView_pattern hv t p).trans (setSelectedPattern_pattern s _ t p h)
  refine ⟨fun i hi hf ho t p => ?_, fun ho t p => ?_⟩
  · rw [hp t p, lastReleased_only (fun j => (s.stepButton j).fell) i _ hf 16 ho, if_pos hi]
    by_cases hc : t = s.selectedTrack ∧ p = (s.track s.selectedTrack).currentPatternIndex
    · rw [if_pos hc, if_pos hc]
    · rw [if_neg hc, if_neg hc]
  · rw [hp t p, lastReleased_none (fun j => (s.stepButton j).fell) _ 16 ho]
    by_cases hc : t = s.selectedTrack ∧ p = (s.track s.selectedTrack).currentPatternIndex
    · rw [if_pos hc]
      obtain ⟨rfl, rfl⟩ := hc
      rfl
    · rw [if_neg hc]

set_option maxRecDepth 100000 in
theorem doSetTrackLength_trackLength_witness :
    ((({ stepButtons := (List.replicate 16 {}).set 4 { fell := true } } :
      Sequencer).doSetTrackLength).pattern 0 0).trackLength = 5 :=
  ((doSetTrackLength_trackLength
    { stepButtons := (List.replicate 16 {}).set 4 { fell := true } } (by decide)).1 4
    (by decide) (by decide) (by decide) 0 0).trans (by decide)

/-! ### The offset -/

/-- The offset written by `doSetTrackLength` when controller 2 is active. -/
theorem doSetTrackLength_offset_eq (s : Sequencer) (h : s.SelectedInRange)
    (hact : s.input2.isActive = true) :
    (s.doSetTrackLength.pattern s.selectedTrack
      (s.track s.selectedTrack).currentPatternIndex).offset = 16 - s.input2.getValue / 64 := by
  rw [trackView_pattern (doSetTrackLength_view s h), setSelectedPattern_pattern s _ _ _ h,
    if_pos ⟨rfl, rfl⟩]
  show (if s.input2.isActive = true then 16 - s.input2.getValue / 64
    else s.selectedPattern.offset) = _
  rw [if_pos hact]

theorem offsetScenario_inRange (v : Nat) : (offsetScenario v).SelectedInRange := by
  show (0 : Nat) < 6 ∧ (0 : Nat) < 8
  decide

/-- C15, counterexample: no raw value of controller 2 in 0..1023 makes `doSetTrackLength` write
the offset 0 (the smallest offset written is `16 - 1023 / 64 = 1`). -/
theorem offset_zero_not_attained :
    ¬ ∃ v, v ≤ 1023 ∧ ((offsetScenario v).doSetTrackLength.pattern 0 0).offset = 0 := by
  rintro ⟨v, hv, h0⟩
  have e := doSetTrackLength_offset_eq (offsetScenario v) (offsetScenario_inRange v) rfl
  have e2 : ((offsetScenario v).doSetTrackLength.pattern 0 0).offset = 16 - v / 64 := e
  omega

/-- C15, amended: with controller 2 active at a raw value `v` in 0..1023, `doSetTrackLength`
sets the offset of the selected track's current pattern to `16 - v / 64`; the values lie in
[1, 16], every value of 1..16 is attained (the value `k` at `v = 64 * (16 - k)`), 16 exactly for
`v < 64` and 1 exactly for `v ≥ 960`; the offset 0 is not written. -/
theorem doSetTrackLength_offset (s : Sequencer) (h : s.SelectedInRange)
    (hact : s.input2.isActive = true) (hv : s.input2.getValue ≤ 1023) :
    (s.doSetTrackLength.pattern s.selectedTrack
      (s.track s.selectedTrack).currentPatternIndex).offset = 16 - s.input2.getValue / 64 ∧
    1 ≤ (s.doSetTrackLength.pattern s.selectedTrack
      (s.track s.selectedTrack).currentPatternIndex).offset ∧
    (s.doSetTrackLength.pattern s.selectedTrack
      (s.track s.selectedTrack).currentPatternIndex).offset ≤ 16 ∧
    (∀ k, 1 ≤ k → k ≤ 16 → s.input2.getValue = 64 * (16 - k) →
      (s.doSetTrackLength.pattern s.selectedTrack
        (s.track s.selectedTrack).currentPatternIndex).offset = k) ∧
    ((s.doSetTrackLength.pattern s.selectedTrack
      (s.track s.selectedTrack).currentPatternIndex).offset = 16 ↔ s.input2.getValue < 64) ∧
    ((s.doSetTrackLength.pattern s.selectedTrack
      (s.track s.selectedTrack).currentPatternIndex).offset = 1 ↔ 960 ≤ s.input2.getValue) := by
  have e := doSetTrackLength_offset_eq s h hact
  refine ⟨e, by omega, by omega, fun k h1 h2 hk => by omega, by omega, by omega⟩

theorem doSetTrackLength_offset_witness :
    ((offsetScenario 0).doSetTrackLength.pattern 0 0).offset = 16 ∧
    ((offsetScenario 1023).doSetTrackLength.pattern 0 0).offset = 1 :=
  ⟨(doSetTrackLength_offset (offsetScenario 0) (offsetScenario_inRange 0) rfl
      (by decide)).2.2.2.2.1.mpr (by decide),
   (doSetTrackLength_offset (offsetScenario 1023) (offsetScenario_inRange 1023) rfl
      (by decide)).2.2.2.2.2.mpr (by decide)⟩


/-! ### The loop of `doSetTriggers` -/

section Triggers

attribute [local irreducible] forLoop

theorem trackView_setSelectedPattern_steps_self (x : Sequencer) :
    (x.setSelectedPattern { x.selectedPattern with steps := x.selectedPattern.steps }).trackView
      = x.trackView :=
  congrArg Sequencer.trackView (setSelectedPattern_self x)

theorem sourceStepIndex_setStepLED (x : Sequencer) (i : Int) (c : CRGB) :
    (x.setStepLED i c).sourceStepIndex = x.sourceStepIndex := by
  unfold Sequencer.setStepLED
  split <;> rfl

theorem stepCopy_setStepLED (x : Sequencer) (i : Int) (c : CRGB) :
    (x.setStepLED i c).stepCopy = x.stepCopy := by
  unfold Sequencer.setStepLED
  split <;> rfl

/-- One pass of the loop of `doSetTriggers`, seen on the variables of the loop: the pass acts on
the steps of the pattern under the step buttons, on `sourceStepIndex`, `stepCopy` and
`aButtonIsPressed` as `TriggerEdit.pass` says, and leaves the rest of the tracks alone. -/
theorem doSetTriggersStep_pass (i : Nat) (x : Sequencer × Bool) :
    (Sequencer.doSetTriggersStep i x).1.trackView
      = (x.1.setSelectedPattern { x.1.selectedPattern with
          steps := (TriggerEdit.pass (x.1.stepButton i) i (x.1.triggerEdit x.2)).steps }).trackView ∧
    (Sequencer.doSetTriggersStep i x).1.sourceStepIndex
      = (TriggerEdit.pass (x.1.stepButton i) i (x.1.triggerEdit x.2)).sourceStepIndex ∧
    (Sequencer.doSetTriggersStep i x).1.stepCopy
      = (TriggerEdit.pass (x.1.stepButton i) i (x.1.triggerEdit x.2)).stepCopy ∧
    (Sequencer.doSetTriggersStep i x).2
      = (TriggerEdit.pass (x.1.stepButton i) i (x.1.triggerEdit x.2)).aButtonIsPressed ∧
    (Sequencer.doSetTriggersStep i x).1.stepButtons = x.1.stepButtons := by
  unfold Sequencer.doSetTriggersStep TriggerEdit.pass Sequencer.triggerEdit
  simp only [trackView_setStepLED, stepButtons_setStepLED, sourceStepIndex_setStepLED,
    stepCopy_setStepLED, Sequencer.stepButton]
  have hs : (x.1.sourceStepIndex = -1) = True ∨ (x.1.sourceStepIndex = -1) = False := by
    by_cases h : x.1.sourceStepIndex = -1
    · exact Or.inl (eq_true h)
    · exact Or.inr (eq_false h)
  have hi : ((i : Int) = x.1.sourceStepIndex) = True ∨ ((i : Int) = x.1.sourceStepIndex) = False := by
    by_cases h : (i : Int) = x.1.sourceStepIndex
    · exact Or.inl (eq_true h)
    · exact Or.inr (eq_false h)
  cases hr : (x.1.stepButtons.getD i default).read <;>
    cases hf : (x.1.stepButtons.getD i default).fell <;>
    cases hc : x.1.stepCopy <;>
    rcases hs with hs | hs <;>
    rcases hi with hi | hi <;>
    simp only [hr, hf, hc, hs, hi, if_true, if_false,
      Bool.false_eq_true, Bool.and_true,
      Bool.and_false, Bool.not_true, Bool.not_false, Bool.true_and, Bool.false_and, ne_eq,
      not_true_eq_false, not_false_eq_true, and_true] <;>
    (repeat' apply And.intro) <;>
    first
      | exact (trackView_setSelectedPattern_steps_self _).symm
      | rfl
      | trivial

theorem triggerPasses_zero (s : Sequencer) : s.triggerPasses 0 = s.triggerEdit false := by
  unfold Sequencer.triggerPasses
  rw [forLoop_zero]

theorem triggerPasses_succ (s : Sequencer) (n : Nat) :
    s.triggerPasses (n + 1) = TriggerEdit.pass (s.stepButton n) n (s.triggerPasses n) := by
  unfold Sequencer.triggerPasses
  rw [forLoop_succ]

/-- The loop of `doSetTriggers` after `n` passes, on a sequencer whose selected pattern is
inside the arrays: the steps of the selected pattern, `sourceStepIndex`, `stepCopy` and
`aButtonIsPressed` are those of `triggerPasses`; nothing else changes in the tracks. -/
theorem doSetTriggers_loop (s : Sequencer) (h : s.SelectedInRange) (n : Nat) :
    (forLoop n Sequencer.doSetTriggersStep (s, false)).1.trackView
      = (s.setSelectedPattern { s.selectedPattern with
          steps := (s.triggerPasses n).steps }).trackView ∧
    (forLoop n Sequencer.doSetTriggersStep (s, false)).1.sourceStepIndex
      = (s.triggerPasses n).sourceStepIndex ∧
    (forLoop n Sequencer.doSetTriggersStep (s, false)).1.stepCopy
      = (s.triggerPasses n).stepCopy ∧
    (forLoop n Sequencer.doSetTriggersStep (s, false)).2
      = (s.triggerPasses n).aButtonIsPressed ∧
    (forLoop n Sequencer.doSetTriggersStep (s, false)).1.stepButtons = s.stepButtons := by
  induction n with
  | zero =>
    rw [forLoop_zero, triggerPasses_zero]
    exact ⟨(trackView_setSelectedPattern_steps_self s).symm, rfl, rfl, rfl, rfl⟩
  | succ n ih =>
    obtain ⟨hv, h1, h2, h3, h4⟩ := ih
    rw [forLoop_succ, triggerPasses_succ]
    generalize forLoop n Sequencer.doSetTriggersStep (s, false) = x at hv h1 h2 h3 h4 ⊢
    obtain ⟨gv, g1, g2, g3, g4⟩ := doSetTriggersStep_pass n x
    have hsp : x.1.selectedPattern = { s.selectedPattern with steps := (s.triggerPasses n).steps } :=
      (trackView_selectedPattern hv).trans (selectedPattern_setSelectedPattern s _ h)
    have he : x.1.triggerEdit x.2 = s.triggerPasses n := by
      unfold Sequencer.triggerEdit
      rw [hsp, h1, h2, h3]
    have hb : x.1.stepButton n = s.stepButton n := by
      unfold Sequencer.stepButton
      rw [h4]
    rw [he, hb] at gv g1 g2 g3
    refine ⟨?_, g1, g2, g3, g4.trans h4⟩
    rw [gv, hsp]
    have e2 := trackView_setSelectedPattern hv
      { ({ s.selectedPattern with steps := (s.triggerPasses n).steps } : SequencerPattern) with
        steps := (TriggerEdit.pass (s.stepButton n) n (s.triggerPasses n)).steps }
    rw [setSelectedPattern_twice s _ _ h] at e2
    exact e2

end Triggers

/-! ### What one pass of the loop of `doSetTriggers` does -/

/-- One pass, read off field by field: the step button `i` with reading `b` is a copy target
when it is held while a different step is the recorded source. -/
theorem pass_facts (b : Bounce) (i : Nat) (e : TriggerEdit) :
    (TriggerEdit.pass b i e).sourceStepIndex
      = (if b.read = true ∧ e.sourceStepIndex = -1 then (i : Int) else e.sourceStepIndex) ∧
    (TriggerEdit.pass b i e).stepCopy
      = (if b.read = true ∧ e.sourceStepIndex ≠ -1 ∧ (i : Int) ≠ e.sourceStepIndex then true
        else e.stepCopy) ∧
    (TriggerEdit.pass b i e).aButtonIsPressed = (if b.read = true then true else e.aButtonIsPressed) ∧
    (TriggerEdit.pass b i e).steps
      = (if b.read = true ∧ e.sourceStepIndex ≠ -1 ∧ (i : Int) ≠ e.sourceStepIndex then
          e.steps.set i ((e.steps.getD i default).copyValuesFrom
            (e.steps.getD e.sourceStepIndex.toNat default))
        else if b.fell = true ∧ e.stepCopy = false then
          e.steps.set i (e.steps.getD i default).toggleTriggerState
        else e.steps) := by
  unfold TriggerEdit.pass
  have hs : (e.sourceStepIndex = -1) = True ∨ (e.sourceStepIndex = -1) = False := by
    by_cases h : e.sourceStepIndex = -1
    · exact Or.inl (eq_true h)
    · exact Or.inr (eq_false h)
  have hi : ((i : Int) = e.sourceStepIndex) = True ∨ ((i : Int) = e.sourceStepIndex) = False := by
    by_cases h : (i : Int) = e.sourceStepIndex
    · exact Or.inl (eq_true h)
    · exact Or.inr (eq_false h)
  cases hr : b.read <;> cases hf : b.fell <;> cases hc : e.stepCopy <;>
    rcases hs with hs | hs <;> rcases hi with hi | hi <;>
    simp only [hc, hs, hi, if_true, if_false, Bool.false_eq_true, Bool.and_true,
      Bool.and_false, Bool.not_true, Bool.not_false, Bool.true_and, Bool.false_and, ne_eq,
      not_true_eq_false, not_false_eq_true, and_true, true_and, and_false, false_and,
      and_self] <;>
    trivial

/-- The local flag `aButtonIsPressed` after `n` passes: some step button among the first `n` is
held. -/
theorem triggerPasses_pressed (s : Sequencer) (n : Nat) :
    (s.triggerPasses n).aButtonIsPressed = true ↔ ∃ j, j < n ∧ (s.stepButton j).read = true := by
  induction n with
  | zero =>
    rw [triggerPasses_zero]
    constructor
    · intro h
      exact absurd h (by simp [Sequencer.triggerEdit])
    · rintro ⟨j, hj, -⟩
      exact absurd hj (Nat.not_lt_zero j)
  | succ n ih =>
    rw [triggerPasses_succ, (pass_facts _ _ _).2.2.1]
    by_cases hr : (s.stepButton n).read = true
    · rw [if_pos hr]
      exact ⟨fun _ => ⟨n, Nat.lt_succ_self n, hr⟩, fun _ => rfl⟩
    · rw [if_neg hr, ih]
      constructor
      · rintro ⟨j, hj, hjr⟩
        exact ⟨j, Nat.lt_succ_of_lt hj, hjr⟩
      · rintro ⟨j, hj, hjr⟩
        have : j ≠ n := fun c => hr (c ▸ hjr)
        exact ⟨j, by omega, hjr⟩

/-- A tick in which no copy can start: at most one step button is held, and it is the recorded
source or becomes it. Then `stepCopy` keeps its value and the trigger bit of step `i` is
toggled exactly when button `i` fell and `stepCopy` is false. -/
theorem triggerPasses_single (s : Sequencer) (n : Nat)
    (hn : ∀ j, j < n → (s.stepButton j).read = true →
      (s.sourceStepIndex = -1 ∨ s.sourceStepIndex = (j : Int)) ∧
      ∀ k, k < n → (s.stepButton k).read = true → k = j) :
    (s.triggerPasses n).stepCopy = s.stepCopy ∧
    (s.triggerPasses n).steps.length = s.selectedPattern.steps.length ∧
    (∀ i, (s.triggerPasses n).steps.getD i default
      = if i < n ∧ i < s.selectedPattern.steps.length ∧ (s.stepButton i).fell = true ∧
            s.stepCopy = false then
          (s.selectedPattern.steps.getD i default).toggleTriggerState
        else s.selectedPattern.steps.getD i default) ∧
    ((∀ j, j < n → (s.stepButton j).read = false) →
      (s.triggerPasses n).sourceStepIndex = s.sourceStepIndex) ∧
    (∀ j, j < n → (s.stepButton j).read = true →
      (s.triggerPasses n).sourceStepIndex = (j : Int)) := by
  induction n with
  | zero =>
    rw [triggerPasses_zero]
    refine ⟨rfl, rfl, fun i => ?_, fun _ => rfl, fun j hj => absurd hj (Nat.not_lt_zero j)⟩
    rw [if_neg (fun c => Nat.not_lt_zero i c.1)]
    rfl
  | succ n ih =>
    obtain ⟨ih1, ih2, ih3, ih4, ih5⟩ := ih (fun j hj hr =>
      ⟨(hn j (Nat.lt_succ_of_lt hj) hr).1,
        fun k hk hkr => (hn j (Nat.lt_succ_of_lt hj) hr).2 k (Nat.lt_succ_of_lt hk) hkr⟩)
    obtain ⟨p1, p2, -, p4⟩ := pass_facts (s.stepButton n) n (s.triggerPasses n)
    rw [triggerPasses_succ]
    -- the pass `n` is not a copy
    have hnt : ¬ ((s.stepButton n).read = true ∧ (s.triggerPasses n).sourceStepIndex ≠ -1 ∧
        (n : Int) ≠ (s.triggerPasses n).sourceStepIndex) := by
      rintro ⟨hr, hs1, hs2⟩
      obtain ⟨hsrc, huniq⟩ := hn n (Nat.lt_succ_self n) hr
      have hun : ∀ j, j < n → (s.stepButton j).read = false := by
        intro j hj
        cases hjr : (s.stepButton j).read
        · rfl
        · have := huniq j (Nat.lt_succ_of_lt hj) hjr
          omega
      rw [ih4 hun] at hs1 hs2
      rcases hsrc with h | h
      · exact hs1 h
      · exact hs2 h.symm
    rw [if_neg hnt] at p2 p4
    refine ⟨p2.trans ih1, ?_, ?_, ?_, ?_⟩
    · rw [p4]
      split_ifs
      · rw [List.length_set, ih2]
      · exact ih2
    · intro i
      have hn0 : (s.triggerPasses n).steps.getD n default
          = s.selectedPattern.steps.getD n default := by
        rw [ih3 n, if_neg (fun c => Nat.lt_irrefl n c.1)]
      rw [p4, ih1]
      by_cases hf : (s.stepButton n).fell = true ∧ s.stepCopy = false
      · rw [if_pos hf, list_getD_set, ih2, hn0]
        by_cases hin : i = n
        · rw [hin]
          by_cases hl : n < s.selectedPattern.steps.length
          · rw [if_pos ⟨rfl, hl⟩, if_pos ⟨Nat.lt_succ_self n, hl, hf.1, hf.2⟩]
          · rw [if_neg (fun c => hl c.2), hn0, if_neg (fun c => hl c.2.1)]
        · rw [if_neg (fun c => hin c.1), ih3 i]
          have e : (i < n + 1) = (i < n) := by
            apply propext
            omega
          simp only [e]
      · rw [if_neg hf, ih3 i]
        by_cases hin : i = n
        · rw [hin, if_neg (fun c => Nat.lt_irrefl n c.1),
            if_neg (fun c => hf ⟨c.2.2.1, c.2.2.2⟩)]
        · have e : (i < n + 1) = (i < n) := by
            apply propext
            omega
          simp only [e]
    · intro hun
      rw [p1, if_neg (fun c => by
        have := hun n (Nat.lt_succ_self n)
        rw [c.1] at this
        exact Bool.noConfusion this)]
      exact ih4 (fun j hj => hun j (Nat.lt_succ_of_lt hj))
    · intro j hj hjr
      rw [p1]
      by_cases hr : (s.stepButton n).read = true
      · obtain ⟨hsrc, huniq⟩ := hn n (Nat.lt_succ_self n) hr
        have hjn : j = n := huniq j hj hjr
        subst hjn
        have hun : ∀ k, k < j → (s.stepButton k).read = false := by
          intro k hk
          cases hkr : (s.stepButton k).read
          · rfl
          · have := huniq k (Nat.lt_succ_of_lt hk) hkr
            omega
        rw [ih4 hun]
        rcases hsrc with h | h
        · rw [if_pos ⟨hr, h⟩]
        · rw [if_neg (fun c => by rw [h] at c; have := c.2; omega), h]
      · have hjn : j ≠ n := fun c => hr (c ▸ hjr)
        rw [if_neg (fun c => hr c.1)]
        exact ih5 j (by omega) hjr

/-- A tick entered with the copy latched: `stepCopy` stays true, so no trigger bit is toggled;
the step of a button that is not held is unchanged. -/
theorem triggerPasses_latched (s : Sequencer) (hc : s.stepCopy = true) (n : Nat) :
    (s.triggerPasses n).stepCopy = true ∧
    (s.triggerPasses n).steps.length = s.selectedPattern.steps.length ∧
    ∀ i, (s.stepButton i).read = false →
      (s.triggerPasses n).steps.getD i default = s.selectedPattern.steps.getD i default := by
  induction n with
  | zero =>
    rw [triggerPasses_zero]
    exact ⟨hc, rfl, fun _ _ => rfl⟩
  | succ n ih =>
    obtain ⟨ih1, ih2, ih3⟩ := ih
    obtain ⟨-, p2, -, p4⟩ := pass_facts (s.stepButton n) n (s.triggerPasses n)
    rw [triggerPasses_succ]
    have hnf : ¬ ((s.stepButton n).fell = true ∧ (s.triggerPasses n).stepCopy = false) := by
      rw [ih1]
      exact fun c => Bool.noConfusion c.2
    rw [if_neg hnf] at p4
    refine ⟨?_, ?_, ?_⟩
    · rw [p2, ih1, ite_self]
    · rw [p4]
      split_ifs
      · rw [List.length_set, ih2]
      · exact ih2
    · intro i hi
      rw [p4]
      split_ifs with ht
      · have hin : i ≠ n := by
          intro c
          rw [c, ht.1] at hi
          exact Bool.noConfusion hi
        rw [list_getD_set, if_neg (fun c => hin c.1)]
        exact ih3 i hi
      · exact ih3 i hi

/-- The copy tick: step `a` is the recorded source and its button is not released. Then every
other held step button among the first `n` receives a copy of step `a`, the latch `stepCopy` is
set by the first of them, step `a` is unchanged and so is every step whose button is neither
held nor released. -/
theorem triggerPasses_copy (s : Sequencer) (a : Nat) (hsrc : s.sourceStepIndex = (a : Int))
    (hfa : (s.stepButton a).fell = false) (n : Nat) :
    (s.triggerPasses n).sourceStepIndex = (a : Int) ∧
    (s.triggerPasses n).steps.length = s.selectedPattern.steps.length ∧
    (s.triggerPasses n).steps.getD a default = s.selectedPattern.steps.getD a default ∧
    (∀ i, n ≤ i →
      (s.triggerPasses n).steps.getD i default = s.selectedPattern.steps.getD i default) ∧
    (∀ i, (s.stepButton i).read = false → (s.stepButton i).fell = false →
      (s.triggerPasses n).steps.getD i default = s.selectedPattern.steps.getD i default) ∧
    (∀ i, i < n → i < s.selectedPattern.steps.length → (s.stepButton i).read = true → i ≠ a →
      (s.triggerPasses n).steps.getD i default
        = (s.selectedPattern.steps.getD i default).copyValuesFrom
            (s.selectedPattern.steps.getD a default)) ∧
    (∀ i, i < n → (s.stepButton i).read = true → i ≠ a →
      (s.triggerPasses n).stepCopy = true) := by
  induction n with
  | zero =>
    rw [triggerPasses_zero]
    exact ⟨hsrc, rfl, rfl, fun _ _ => rfl, fun _ _ _ => rfl,
      fun i hi => absurd hi (Nat.not_lt_zero i), fun i hi => absurd hi (Nat.not_lt_zero i)⟩
  | succ n ih =>
    obtain ⟨ih1, ih2, ih3, ih4, ih5, ih6, ih7⟩ := ih
    obtain ⟨p1, p2, -, p4⟩ := pass_facts (s.stepButton n) n (s.triggerPasses n)
    rw [triggerPasses_succ]
    have hne : (s.triggerPasses n).sourceStepIndex ≠ -1 := by
      rw [ih1]
      omega
    have hn0 : (s.triggerPasses n).steps.getD n default
        = s.selectedPattern.steps.getD n default := ih4 n (Nat.le_refl n)
    have htn : (s.triggerPasses n).sourceStepIndex.toNat = a := by
      rw [ih1]
      exact Int.toNat_ofNat a
    rw [htn, hn0, ih3] at p4
    by_cases ht : (s.stepButton n).read = true ∧ (s.triggerPasses n).sourceStepIndex ≠ -1 ∧
        (n : Int) ≠ (s.triggerPasses n).sourceStepIndex
    · -- pass `n` copies step `a` onto step `n`
      have hna : n ≠ a := by
        intro c
        apply ht.2.2
        rw [ih1, c]
      rw [if_pos ht] at p2 p4
      refine ⟨?_, ?_, ?_, ?_, ?_, ?_, ?_⟩
      · rw [p1, if_neg (fun c => hne c.2)]
        exact ih1
      · rw [p4, List.length_set, ih2]
      · rw [p4, list_getD_set, if_neg (fun c => hna c.1.symm)]
        exact ih3
      · intro i hi
        rw [p4, list_getD_set, if_neg (fun c => by omega)]
        exact ih4 i (by omega)
      · intro i hir hif
        have hin : i ≠ n := by
          intro c
          rw [c, ht.1] at hir
          exact Bool.noConfusion hir
        rw [p4, list_getD_set, if_neg (fun c => hin c.1)]
        exact ih5 i hir hif
      · intro i hi hil hir hia
        rw [p4, list_getD_set, ih2]
        by_cases hin : i = n
        · rw [hin] at hil ⊢
          rw [if_pos ⟨rfl, hil⟩]
        · rw [if_neg (fun c => hin c.1)]
          exact ih6 i (by omega) hil hir hia
      · intro i _ _ _
        exact p2
    · -- pass `n` copies nothing
      rw [if_neg ht] at p2 p4
      have hcase : (s.stepButton n).read = false ∨ n = a := by
        cases hr : (s.stepButton n).read
        · exact Or.inl rfl
        · right
          by_contra hna
          apply ht
          refine ⟨hr, hne, ?_⟩
          rw [ih1]
          omega
      refine ⟨?_, ?_, ?_, ?_, ?_, ?_, ?_⟩
      · rw [p1, if_neg (fun c => hne c.2)]
        exact ih1
      · rw [p4]
        split_ifs
        · rw [List.length_set, ih2]
        · exact ih2
      · rw [p4]
        split_ifs with hf
        · have hna : a ≠ n := by
            intro c
            rw [← c, hfa] at hf
            exact Bool.noConfusion hf.1
          rw [list_getD_set, if_neg (fun c => hna c.1)]
          exact ih3
        · exact ih3
      · intro i hi
        rw [p4]
        split_ifs
        · rw [list_getD_set, if_neg (fun c => by omega)]
          exact ih4 i (by omega)
        · exact ih4 i (by omega)
      · intro i hir hif
        rw [p4]
        split_ifs with hf
        · have hin : i ≠ n := by
            intro c
            rw [c, hf.1] at hif
            exact Bool.noConfusion hif
          rw [list_getD_set, if_neg (fun c => hin c.1)]
          exact ih5 i hir hif
        · exact ih5 i hir hif
      · intro i hi hil hir hia
        have hin : i ≠ n := by
          intro c
          rcases hcase with h | h
          · rw [c, h] at hir
            exact Bool.noConfusion hir
          · exact hia (c.trans h)
        have hc7 := ih7 i (by omega) hir hia
        rw [p4, if_neg (fun c => by rw [hc7] at c; exact Bool.noConfusion c.2)]
        exact ih6 i (by omega) hil hir hia
      · intro i hi hir hia
        have hin : i ≠ n := by
          intro c
          rcases hcase with h | h
          · rw [c, h] at hir
            exact Bool.noConfusion hir
          · exact hia (c.trans h)
        rw [p2]
        exact ih7 i (by omega) hir hia

section TriggersHandler

attribute [local irreducible] forLoop

/-- The whole of `doSetTriggers` on a sequencer whose selected pattern is inside the arrays: the
steps of the selected pattern are those left by the 16 passes, and the copy bookkeeping is
reset when no step button is held. -/
theorem doSetTriggers_view (s : Sequencer) (h : s.SelectedInRange) :
    s.doSetTriggers.trackView
      = (s.setSelectedPattern { s.selectedPattern with
          steps := (s.triggerPasses 16).steps }).trackView ∧
    s.doSetTriggers.sourceStepIndex
      = (if (s.triggerPasses 16).aButtonIsPressed then (s.triggerPasses 16).sourceStepIndex
        else -1) ∧
    s.doSetTriggers.stepCopy
      = (if (s.triggerPasses 16).aButtonIsPressed then (s.triggerPasses 16).stepCopy
        else false) ∧
    s.doSetTriggers.stepButtons = s.stepButtons := by
  obtain ⟨hv, h1, h2, h3, h4⟩ := doSetTriggers_loop s h 16
  unfold Sequencer.doSetTriggers
  simp only [NUMBER_OF_STEPBUTTONS, h3]
  cases (s.triggerPasses 16).aButtonIsPressed
  · exact ⟨hv, rfl, rfl, h4⟩
  · exact ⟨hv, h1, h2, h4⟩

/-- Reading the steps of the selected pattern after `doSetTriggers`. -/
theorem doSetTriggers_selectedStep (s : Sequencer) (h : s.SelectedInRange) (i : Nat) :
    s.doSetTriggers.selectedStep i = (s.triggerPasses 16).steps.getD i default := by
  have e : s.doSetTriggers.selectedPattern
      = { s.selectedPattern with steps := (s.triggerPasses 16).steps } :=
    (trackView_selectedPattern (doSetTriggers_view s h).1).trans
      (selectedPattern_setSelectedPattern s _ h)
  show s.doSetTriggers.selectedPattern.getStep i = _
  rw [e]
  rfl

theorem doSetTriggers_steps_length (s : Sequencer) (h : s.SelectedInRange) :
    s.doSetTriggers.selectedPattern.steps.length = (s.triggerPasses 16).steps.length := by
  have e : s.doSetTriggers.selectedPattern
      = { s.selectedPattern with steps := (s.triggerPasses 16).steps } :=
    (trackView_selectedPattern (doSetTriggers_view s h).1).trans
      (selectedPattern_setSelectedPattern s _ h)
  rw [e]

/-- The patterns other than the selected one are not touched by `doSetTriggers`, and the
selected one keeps everything but its steps. -/
theorem doSetTriggers_pattern (s : Sequencer) (h : s.SelectedInRange) (t p : Nat) :
    s.doSetTriggers.pattern t p
      = if t = s.selectedTrack ∧ p = (s.track s.selectedTrack).currentPatternIndex then
          { s.selectedPattern with steps := (s.triggerPasses 16).steps }
        else s.pattern t p :=
  (trackView_pattern (doSetTriggers_view s h).1 t p).trans
    (setSelectedPattern_pattern s _ t p h)

theorem doSetTriggers_inRange (s : Sequencer) (h : s.SelectedInRange) :
    s.doSetTriggers.SelectedInRange :=
  trackView_inRange (doSetTriggers_view s h).1 (setSelectedPattern_inRange s _ h)

end TriggersHandler

/-! ### Step copy -/

/-- C12: step copy in `doSetTriggers`. The recorded source is step `a` (`sourceStepIndex = a`),
whose button is still held (it did not fall in this tick), and step button `b ≠ a` is held in
this tick. Then after `doSetTriggers` step `b` of the selected pattern is
`copyValuesFrom(step a)`: it has the state bits and the six parameters of step `a`; step `a` is
unchanged, `stepCopy` is true, and every step whose button is neither held nor released in this
tick is unchanged. -/
theorem doSetTriggers_step_copy (s : Sequencer) (h : s.SelectedInRange) (a b : Nat)
    (hsrc : s.sourceStepIndex = (a : Int)) (hfa : (s.stepButton a).fell = false)
    (hb : (s.stepButton b).read = true) (hab : a ≠ b) (hb16 : b < 16)
    (hbl : b < s.selectedPattern.steps.length) :
    s.doSetTriggers.selectedStep b = (s.selectedStep b).copyValuesFrom (s.selectedStep a) ∧
    (s.doSetTriggers.selectedStep b).state = (s.selectedStep a).state ∧
    (∀ k, (s.doSetTriggers.selectedStep b).parameter k = (s.selectedStep a).parameter k) ∧
    s.doSetTriggers.selectedStep a = s.selectedStep a ∧
    s.doSetTriggers.stepCopy = true ∧
    (∀ i, (s.stepButton i).read = false → (s.stepButton i).fell = false →
      s.doSetTriggers.selectedStep i = s.selectedStep i) := by
  obtain ⟨-, -, c3, -, c5, c6, c7⟩ := triggerPasses_copy s a hsrc hfa 16
  have e : s.doSetTriggers.selectedStep b
      = (s.selectedStep b).copyValuesFrom (s.selectedStep a) := by
    rw [doSetTriggers_selectedStep s h]
    exact c6 b hb16 hbl hb (fun c => hab c.symm)
  have hp : (s.triggerPasses 16).aButtonIsPressed = true :=
    (triggerPasses_pressed s 16).mpr ⟨b, hb16, hb⟩
  refine ⟨e, ?_, ?_, ?_, ?_, ?_⟩
  · rw [e]
    rfl
  · intro k
    rw [e]
    unfold SequencerStep.parameter
    split <;> rfl
  · rw [doSetTriggers_selectedStep s h]
    exact c3
  · rw [(doSetTriggers_view s h).2.2.1, hp, if_pos rfl]
    exact c7 b hb16 hb (fun c => hab c.symm)
  · intro i hir hif
    rw [doSetTriggers_selectedStep s h]
    exact c5 i hir hif

set_option maxRecDepth 100000 in
theorem doSetTriggers_step_copy_witness :
    (stepCopyScenario.doSetTriggers.selectedStep 5).state = 1 ∧
    (stepCopyScenario.doSetTriggers.selectedStep 5).parameter 1 = 77 ∧
    stepCopyScenario.doSetTriggers.stepCopy = true :=
  have w := doSetTriggers_step_copy stepCopyScenario (by decide) 2 5 rfl (by decide)
    (by decide) (by decide) (by decide) (by decide)
  ⟨w.2.1.trans (by decide), (w.2.2.1 1).trans (by decide), w.2.2.2.2.1⟩

/-! ### Trigger toggling -/

theorem toggleTriggerState_bits (st : SequencerStep) :
    st.toggleTriggerState.isTriggerOn = !st.isTriggerOn ∧
    st.toggleTriggerState.isParameterLockOn = st.isParameterLockOn ∧
    (∀ k, st.toggleTriggerState.parameter k = st.parameter k) ∧
    st.toggleTriggerState.triggerMask = st.triggerMask := by
  refine ⟨?_, ?_, fun k => ?_, rfl⟩
  · show (st.state ^^^ 1).testBit 0 = !st.state.testBit 0
    rw [Nat.testBit_xor]
    cases st.state.testBit 0 <;> rfl
  · show (st.state ^^^ 1).testBit 1 = st.state.testBit 1
    rw [Nat.testBit_xor]
    cases st.state.testBit 1 <;> rfl
  · unfold SequencerStep.parameter
    split <;> rfl

theorem withStepButtons_inRange (s : Sequencer) (sb : List Bounce) (h : s.SelectedInRange) :
    (s.withStepButtons sb).SelectedInRange := h

theorem withStepButtons_selectedStep (s : Sequencer) (sb : List Bounce) (m : Nat) :
    (s.withStepButtons sb).selectedStep m = s.selectedStep m := rfl

theorem withStepButtons_selectedPattern (s : Sequencer) (sb : List Bounce) :
    (s.withStepButtons sb).selectedPattern = s.selectedPattern := rfl

theorem withStepButtons_stepCopy (s : Sequencer) (sb : List Bounce) :
    (s.withStepButtons sb).stepCopy = s.stepCopy := rfl

theorem withStepButtons_sourceStepIndex (s : Sequencer) (sb : List Bounce) :
    (s.withStepButtons sb).sourceStepIndex = s.sourceStepIndex := rfl

theorem withStepButtons_stepButton (s : Sequencer) (sb : List Bounce) (j : Nat) :
    (s.withStepButtons sb).stepButton j = sb.getD j default := rfl

section TriggerToggle

attribute [local irreducible] forLoop

/-- C11: trigger toggling in `doSetTriggers`. `toggleTriggerState` flips the trigger bit and
leaves the plock bit and the six parameters alone. In a tick in which no copy can start (at
most one step button is held, and it is the recorded source or becomes it), the step `i` of the
selected track's current pattern is toggled exactly when step button `i` fell and `stepCopy` is
false, and every other step is unchanged. In a tick entered with the copy latched no step is
toggled: the step of every button that is not held (released ones included) is unchanged, and
the latch stays as long as a step button is held. When no step button is held the call ends
with `sourceStepIndex = -1` and `stepCopy = false`. Consequently a plain tap of step button `i`
(held alone in one tick, released in the next) toggles step `i` and changes no other step. -/
theorem doSetTriggers_toggle (s : Sequencer) (h : s.SelectedInRange)
    (hlen : s.selectedPattern.steps.length = 16) :
    (∀ st : SequencerStep,
      st.toggleTriggerState.isTriggerOn = (!st.isTriggerOn) ∧
      st.toggleTriggerState.isParameterLockOn = st.isParameterLockOn ∧
      ∀ k, st.toggleTriggerState.parameter k = st.parameter k) ∧
    ((∀ j, j < 16 → (s.stepButton j).read = true →
        (s.sourceStepIndex = -1 ∨ s.sourceStepIndex = (j : Int)) ∧
        ∀ k, k < 16 → (s.stepButton k).read = true → k = j) →
      (∀ i, s.doSetTriggers.selectedStep i
        = if i < 16 ∧ (s.stepButton i).fell = true ∧ s.stepCopy = false then
            (s.selectedStep i).toggleTriggerState
          else s.selectedStep i)) ∧
    (s.stepCopy = true →
      (∀ i, (s.stepButton i).read = false → s.doSetTriggers.selectedStep i = s.selectedStep i) ∧
      ((∃ j, j < 16 ∧ (s.stepButton j).read = true) → s.doSetTriggers.stepCopy = true)) ∧
    ((∀ j, j < 16 → (s.stepButton j).read = false) →
      s.doSetTriggers.sourceStepIndex = -1 ∧ s.doSetTriggers.stepCopy = false) ∧
    (∀ (i : Nat) (pressed released : List Bounce), i < 16 →
      s.sourceStepIndex = -1 → s.stepCopy = false →
      (∀ j, (pressed.getD j default).fell = false ∧
        ((pressed.getD j default).read = true ↔ j = i)) →
      (∀ j, (released.getD j default).read = false ∧
        ((released.getD j default).fell = true ↔ j = i)) →
      (∀ k, (((s.withStepButtons pressed).doSetTriggers.withStepButtons
            released).doSetTriggers).selectedStep k
          = if k = i then (s.selectedStep i).toggleTriggerState else s.selectedStep k) ∧
      (((s.withStepButtons pressed).doSetTriggers.withStepButtons
          released).doSetTriggers).sourceStepIndex = -1 ∧
      (((s.withStepButtons pressed).doSetTriggers.withStepButtons
          released).doSetTriggers).stepCopy = false) := by
  have hreset : ∀ x : Sequencer, x.SelectedInRange →
      (∀ j, j < 16 → (x.stepButton j).read = false) →
      x.doSetTriggers.sourceStepIndex = -1 ∧ x.doSetTriggers.stepCopy = false := by
    intro x hx hun
    have hp : (x.triggerPasses 16).aButtonIsPressed = false := by
      cases hpp : (x.triggerPasses 16).aButtonIsPressed
      · rfl
      · obtain ⟨j, hj, hjr⟩ := (triggerPasses_pressed x 16).mp hpp
        rw [hun j hj] at hjr
        exact Bool.noConfusion hjr
    rw [(doSetTriggers_view x hx).2.1, (doSetTriggers_view x hx).2.2.1, hp]
    exact ⟨rfl, rfl⟩
  have hsingle : ∀ x : Sequencer, x.SelectedInRange → x.selectedPattern.steps.length = 16 →
      (∀ j, j < 16 → (x.stepButton j).read = true →
        (x.sourceStepIndex = -1 ∨ x.sourceStepIndex = (j : Int)) ∧
        ∀ k, k < 16 → (x.stepButton k).read = true → k = j) →
      ∀ i, x.doSetTriggers.selectedStep i
        = if i < 16 ∧ (x.stepButton i).fell = true ∧ x.stepCopy = false then
            (x.selectedStep i).toggleTriggerState
          else x.selectedStep i := by
    intro x hx hxl hyp i
    rw [doSetTriggers_selectedStep x hx, (triggerPasses_single x 16 hyp).2.2.1 i, hxl]
    by_cases hi : i < 16
    · simp only [hi, true_and]
      rfl
    · simp only [hi, false_and]
      rfl
  refine ⟨fun st => ⟨(toggleTriggerState_bits st).1, (toggleTriggerState_bits st).2.1,
    (toggleTriggerState_bits st).2.2.1⟩, hsingle s h hlen, ?_, hreset s h, ?_⟩
  · intro hc
    obtain ⟨l1, -, l3⟩ := triggerPasses_latched s hc 16
    refine ⟨fun i hi => ?_, fun hex => ?_⟩
    · rw [doSetTriggers_selectedStep s h]
      exact l3 i hi
    · rw [(doSetTriggers_view s h).2.2.1, (triggerPasses_pressed s 16).mpr hex, if_pos rfl]
      exact l1
  · intro i pressed released hi hsrc hcopy hp hr
    -- the tick of the press
    have h1 : (s.withStepButtons pressed).SelectedInRange := withStepButtons_inRange s _ h
    have hyp1 : ∀ j, j < 16 → ((s.withStepButtons pressed).stepButton j).read = true →
        ((s.withStepButtons pressed).sourceStepIndex = -1 ∨
          (s.withStepButtons pressed).sourceStepIndex = (j : Int)) ∧
        ∀ k, k < 16 → ((s.withStepButtons pressed).stepButton k).read = true → k = j := by
      intro j _ hjr
      rw [withStepButtons_stepButton] at hjr
      refine ⟨Or.inl hsrc, fun k _ hkr => ?_⟩
      rw [withStepButtons_stepButton] at hkr
      exact ((hp k).2.mp hkr).trans ((hp j).2.mp hjr).symm
    have e1 : ∀ k, (s.withStepButtons pressed).doSetTriggers.selectedStep k = s.selectedStep k := by
      intro k
      rw [hsingle _ h1 hlen hyp1 k, withStepButtons_stepButton, (hp k).1]
      simp only [Bool.false_eq_true, false_and, and_false, if_false]
      rfl
    have c1 : (s.withStepButtons pressed).doSetTriggers.stepCopy = false := by
      rw [(doSetTriggers_view _ h1).2.2.1, (triggerPasses_single _ 16 hyp1).1,
        withStepButtons_stepCopy, hcopy, ite_self]
    have l1 : (s.withStepButtons pressed).doSetTriggers.selectedPattern.steps.length = 16 := by
      rw [doSetTriggers_steps_length _ h1, (triggerPasses_single _ 16 hyp1).2.1]
      exact hlen
    -- the tick of the release
    generalize hx : (s.withStepButtons pressed).doSetTriggers = x at e1 c1 l1
    have hx2 : x.SelectedInRange := by
      rw [← hx]
      exact doSetTriggers_inRange _ h1
    clear hx
    have h2 : (x.withStepButtons released).SelectedInRange :=
      withStepButtons_inRange x _ hx2
    have hun : ∀ j, j < 16 → ((x.withStepButtons released).stepButton j).read = false :=
      fun j _ => (hr j).1
    have hyp2 : ∀ j, j < 16 → ((x.withStepButtons released).stepButton j).read = true →
        ((x.withStepButtons released).sourceStepIndex = -1 ∨
          (x.withStepButtons released).sourceStepIndex = (j : Int)) ∧
        ∀ k, k < 16 → ((x.withStepButtons released).stepButton k).read = true → k = j := by
      intro j hj hjr
      rw [hun j hj] at hjr
      exact Bool.noConfusion hjr
    refine ⟨fun k => ?_, hreset _ h2 hun⟩
    rw [hsingle _ h2 l1 hyp2 k, withStepButtons_selectedStep, withStepButtons_stepCopy,
      withStepButtons_stepButton, e1 k, c1]
    by_cases hk : k = i
    · have hf : (released.getD k default).fell = true := (hr k).2.mpr hk
      rw [if_pos ⟨by omega, hf, rfl⟩, if_pos hk, hk]
    · have hf : ¬ (released.getD k default).fell = true := fun c => hk ((hr k).2.mp c)
      rw [if_neg (fun c => hf c.2.1), if_neg hk]

end TriggerToggle

theorem tapScan_pressed (j : Nat) :
    ((((List.replicate 16 ({} : Bounce)).set 3 { rose := true, read := true }).getD j
        default).fell = false) ∧
    ((((List.replicate 16 ({} : Bounce)).set 3 { rose := true, read := true }).getD j
        default).read = true ↔ j = 3) := by
  rw [list_getD_set]
  by_cases hj : j = 3
  · subst hj
    decide
  · have e : ¬ (j = 3 ∧ 3 < (List.replicate 16 ({} : Bounce)).length) := fun c => hj c.1
    have e2 : (List.replicate 16 ({} : Bounce)).getD j default = {} :=
      list_getD_replicate_self 16 j _
    rw [if_neg e, e2]
    exact ⟨rfl, ⟨fun c => Bool.noConfusion c, fun c => absurd c hj⟩⟩

theorem tapScan_released (j : Nat) :
    ((((List.replicate 16 ({} : Bounce)).set 3 { fell := true }).getD j default).read = false) ∧
    ((((List.replicate 16 ({} : Bounce)).set 3 { fell := true }).getD j default).fell = true ↔
      j = 3) := by
  rw [list_getD_set]
  by_cases hj : j = 3
  · subst hj
    decide
  · have e : ¬ (j = 3 ∧ 3 < (List.replicate 16 ({} : Bounce)).length) := fun c => hj c.1
    have e2 : (List.replicate 16 ({} : Bounce)).getD j default = {} :=
      list_getD_replicate_self 16 j _
    rw [if_neg e, e2]
    exact ⟨rfl, ⟨fun c => Bool.noConfusion c, fun c => absurd c hj⟩⟩

set_option maxRecDepth 100000 in
theorem doSetTriggers_toggle_witness :
    ((((({} : Sequencer).withStepButtons
        ((List.replicate 16 {}).set 3 { rose := true, read := true })).doSetTriggers.withStepButtons
        ((List.replicate 16 {}).set 3 { fell := true })).doSetTriggers).selectedStep 3).state = 1 := by
  have w := (doSetTriggers_toggle {} (by decide) (by decide)).2.2.2.2 3
      ((List.replicate 16 {}).set 3 { rose := true, read := true })
      ((List.replicate 16 {}).set 3 { fell := true }) (by decide) rfl rfl
      tapScan_pressed tapScan_released
  rw [w.1 3]
  decide


/-! ### The pattern mode -/

/-- A loop whose body rewrites `tracks[j]` by a function of that track alone and may change
other fields: the tracks after the loop. -/
theorem forLoop_tracks (body : Nat → Sequencer → Sequencer)
    (g : Nat → SequencerTrack → SequencerTrack) (I : Sequencer → Prop)
    (hI : ∀ j x, I x → I (body j x))
    (h : ∀ j x, I x → (body j x).tracks = x.tracks.set j (g j (x.track j)))
    (n : Nat) (s : Sequencer) (hs : I s) :
    I (forLoop n body s) ∧
    (forLoop n body s).tracks.length = s.tracks.length ∧
    ∀ i, (forLoop n body s).track i
      = if i < n ∧ i < s.tracks.length then g i (s.track i) else s.track i := by
  induction n with
  | zero => exact ⟨hs, rfl, fun i => by rw [if_neg (fun c => Nat.not_lt_zero _ c.1)]; rfl⟩
  | succ n ih =>
    obtain ⟨h1, h3, h4⟩ := ih
    have e : (forLoop (n + 1) body s).tracks
        = (forLoop n body s).tracks.set n (g n ((forLoop n body s).track n)) := h n _ h1
    refine ⟨hI n _ h1, ?_, ?_⟩
    · rw [e, List.length_set, h3]
    · intro i
      show (forLoop (n + 1) body s).tracks.getD i default = _
      rw [e, list_getD_set, h3]
      show (if i = n ∧ n < s.tracks.length then g n ((forLoop n body s).track n)
        else (forLoop n body s).track i) = _
      rw [h4 i, h4 n]
      by_cases hin : i = n
      · subst hin
        by_cases hl : i < s.tracks.length
        · simp [hl]
        · simp [hl]
      · have : (i < n + 1) = (i < n) := by
          apply propext; omega
        simp [hin, this]

section PatternOps

attribute [local irreducible] forLoop

theorem doPatternOpsCopy_eq (i k : Nat) (x : Sequencer) :
    Sequencer.doPatternOpsCopy i k x
      = if !x.anyPatternOpsArmed || (x.track k).isPatternOpsArmed then
          (x.setTrack k ((x.track k).copyPattern x.sourcePatternIndex.toNat i)).setStepLED i
            CRGB.Red
        else x := rfl

theorem doPatternOpsCopy_flags (i k : Nat) (x : Sequencer) :
    (fun y : Sequencer => (y.sourcePatternIndex, y.patternCopy, y.nextPatternIndex,
        y.stepButtons, y.selectedTrack))
        (Sequencer.doPatternOpsCopy i k x)
      = (fun y : Sequencer => (y.sourcePatternIndex, y.patternCopy, y.nextPatternIndex,
        y.stepButtons, y.selectedTrack)) x := by
  simp only [Sequencer.doPatternOpsCopy, Sequencer.setTrack, Sequencer.setStepLED,
    apply_ite Sequencer.sourcePatternIndex, apply_ite Sequencer.patternCopy,
    apply_ite Sequencer.nextPatternIndex, apply_ite Sequencer.stepButtons,
    apply_ite Sequencer.selectedTrack, ite_self]

theorem doPatternOpsCopy_loop_flags (i n : Nat) (x : Sequencer) :
    (forLoop n (Sequencer.doPatternOpsCopy i) x).sourcePatternIndex = x.sourcePatternIndex ∧
    (forLoop n (Sequencer.doPatternOpsCopy i) x).patternCopy = x.patternCopy ∧
    (forLoop n (Sequencer.doPatternOpsCopy i) x).nextPatternIndex = x.nextPatternIndex ∧
    (forLoop n (Sequencer.doPatternOpsCopy i) x).stepButtons = x.stepButtons ∧
    (forLoop n (Sequencer.doPatternOpsCopy i) x).selectedTrack = x.selectedTrack := by
  have hk := forLoop_keeps
    (fun y : Sequencer => (y.sourcePatternIndex, y.patternCopy, y.nextPatternIndex,
        y.stepButtons, y.selectedTrack))
    (Sequencer.doPatternOpsCopy i) n x (doPatternOpsCopy_flags i)
  simpa only [Prod.mk.injEq] using hk

theorem sourcePatternIndex_setStepLED (x : Sequencer) (i : Int) (c : CRGB) :
    (x.setStepLED i c).sourcePatternIndex = x.sourcePatternIndex := by
  unfold Sequencer.setStepLED
  split <;> rfl

theorem tracks_setStepLED (x : Sequencer) (i : Int) (c : CRGB) :
    (x.setStepLED i c).tracks = x.tracks := by
  unfold Sequencer.setStepLED
  split <;> rfl

/-- The loop over the tracks that copies pattern `sourcePatternIndex` onto pattern `i`: the
copy is made on every track when no track is armed, and on the armed tracks otherwise. -/
theorem doPatternOpsCopy_loop (i n : Nat) (x : Sequencer) :
    (forLoop n (Sequencer.doPatternOpsCopy i) x).anyPatternOpsArmed = x.anyPatternOpsArmed ∧
    (forLoop n (Sequencer.doPatternOpsCopy i) x).tracks.length = x.tracks.length ∧
    ∀ k, (forLoop n (Sequencer.doPatternOpsCopy i) x).track k
      = if k < n ∧ k < x.tracks.length then
          (if !x.anyPatternOpsArmed || (x.track k).isPatternOpsArmed then
            (x.track k).copyPattern x.sourcePatternIndex.toNat i
          else x.track k)
        else x.track k := by
  have key := forLoop_tracks (Sequencer.doPatternOpsCopy i)
    (fun _ t => if !x.anyPatternOpsArmed || t.isPatternOpsArmed then
        t.copyPattern x.sourcePatternIndex.toNat i else t)
    (fun y => y.anyPatternOpsArmed = x.anyPatternOpsArmed ∧
      y.sourcePatternIndex = x.sourcePatternIndex) ?_ ?_ n x ⟨rfl, rfl⟩
  · exact ⟨key.1.1, key.2.1, key.2.2⟩
  · intro j y hy
    rw [doPatternOpsCopy_eq]
    split_ifs
    · refine ⟨?_, ?_⟩
      · have e1 : ((y.setTrack j ((y.track j).copyPattern y.sourcePatternIndex.toNat
            i)).setStepLED i CRGB.Red).anyPatternOpsArmed
            = (y.setTrack j ((y.track j).copyPattern y.sourcePatternIndex.toNat
              i)).anyPatternOpsArmed := by
          unfold Sequencer.anyPatternOpsArmed
          rw [tracks_setStepLED]
        rw [e1, anyPatternOpsArmed_setTrack y j
          ((y.track j).copyPattern y.sourcePatternIndex.toNat i) rfl]
        exact hy.1
      · rw [sourcePatternIndex_setStepLED]
        exact hy.2
    · exact hy
  · intro j y hy
    rw [doPatternOpsCopy_eq, hy.1, hy.2]
    by_cases hc : (!x.anyPatternOpsArmed || (y.track j).isPatternOpsArmed) = true
    · simp only [hc, if_true]
      rw [tracks_setStepLED]
      rfl
    · simp only [hc, if_false]
      exact (congrArg Sequencer.tracks (setTrack_track_self y j)).symm

theorem patternCopy_setStepLED (x : Sequencer) (i : Int) (c : CRGB) :
    (x.setStepLED i c).patternCopy = x.patternCopy := by
  unfold Sequencer.setStepLED
  split <;> rfl

theorem nextPatternIndex_setStepLED (x : Sequencer) (i : Int) (c : CRGB) :
    (x.setStepLED i c).nextPatternIndex = x.nextPatternIndex := by
  unfold Sequencer.setStepLED
  split <;> rfl

/-- One pass of the loop over the step buttons in `doPatternOps`: the bookkeeping variables
change as `PatternEdit.pass` says, and the tracks change only in a pass that copies. -/
theorem doPatternOpsStep_pass (c i : Nat) (x : Sequencer × Bool) :
    (Sequencer.doPatternOpsStep c i x).1.patternEdit (Sequencer.doPatternOpsStep c i x).2
      = PatternEdit.pass (x.1.stepButton i) i (x.1.patternEdit x.2) ∧
    (Sequencer.doPatternOpsStep c i x).1.stepButtons = x.1.stepButtons ∧
    (Sequencer.doPatternOpsStep c i x).1.tracks
      = (if (x.1.stepButton i).read = true ∧ x.1.sourcePatternIndex ≠ -1 ∧
            (i : Int) ≠ x.1.sourcePatternIndex then
          (forLoop 6 (Sequencer.doPatternOpsCopy i) x.1).tracks
        else x.1.tracks) := by
  obtain ⟨f1, f2, f3, f4, -⟩ := doPatternOpsCopy_loop_flags i 6 x.1
  unfold Sequencer.doPatternOpsStep PatternEdit.pass Sequencer.patternEdit
  simp only [stepButtons_setStepLED, sourcePatternIndex_setStepLED, patternCopy_setStepLED,
    nextPatternIndex_setStepLED, tracks_setStepLED, Sequencer.stepButton,
    NUMBER_OF_INSTRUMENTTRACKS]
  have hr := Bool.eq_false_or_eq_true (x.1.stepButtons.getD i default).read
  have hf := Bool.eq_false_or_eq_true (x.1.stepButtons.getD i default).fell
  have hc := Bool.eq_false_or_eq_true x.1.patternCopy
  have hs : (x.1.sourcePatternIndex = -1) = True ∨ (x.1.sourcePatternIndex = -1) = False := by
    by_cases h : x.1.sourcePatternIndex = -1
    · exact Or.inl (eq_true h)
    · exact Or.inr (eq_false h)
  have hi : ((i : Int) = x.1.sourcePatternIndex) = True ∨
      ((i : Int) = x.1.sourcePatternIndex) = False := by
    by_cases h : (i : Int) = x.1.sourcePatternIndex
    · exact Or.inl (eq_true h)
    · exact Or.inr (eq_false h)
  rcases hr with hr | hr <;> rcases hf with hf | hf <;> rcases hc with hc | hc <;>
    rcases hs with hs | hs <;>
    rcases hi with hi | hi <;>
    simp only [hr, hf, hc, hs, hi, f1, f2, f3, f4, if_true, if_false,
      Bool.false_eq_true, Bool.and_true,
      Bool.and_false, Bool.not_true, Bool.not_false, Bool.true_and, Bool.false_and, ne_eq,
      not_true_eq_false, not_false_eq_true, and_true, true_and, and_false, false_and,
      and_self]

end PatternOps

/-- One pass on the bookkeeping variables of `doPatternOps`, read off field by field. -/
theorem patternPass_facts (b : Bounce) (i : Nat) (e : PatternEdit) :
    (PatternEdit.pass b i e).sourcePatternIndex
      = (if b.read = true ∧ e.sourcePatternIndex = -1 then (i : Int)
        else e.sourcePatternIndex) ∧
    (PatternEdit.pass b i e).patternCopy
      = (if b.read = true ∧ e.sourcePatternIndex ≠ -1 ∧ (i : Int) ≠ e.sourcePatternIndex then
          true
        else e.patternCopy) ∧
    (PatternEdit.pass b i e).aButtonIsPressed
      = (if b.read = true then true else e.aButtonIsPressed) ∧
    (PatternEdit.pass b i e).nextPatternIndex
      = (if b.fell = true ∧ (PatternEdit.pass b i e).patternCopy = false then (i : Int)
        else e.nextPatternIndex) := by
  unfold PatternEdit.pass
  have hs : (e.sourcePatternIndex = -1) = True ∨ (e.sourcePatternIndex = -1) = False := by
    by_cases h : e.sourcePatternIndex = -1
    · exact Or.inl (eq_true h)
    · exact Or.inr (eq_false h)
  have hi : ((i : Int) = e.sourcePatternIndex) = True ∨
      ((i : Int) = e.sourcePatternIndex) = False := by
    by_cases h : (i : Int) = e.sourcePatternIndex
    · exact Or.inl (eq_true h)
    · exact Or.inr (eq_false h)
  cases hr : b.read <;> cases hf : b.fell <;> cases hc : e.patternCopy <;>
    rcases hs with hs | hs <;> rcases hi with hi | hi <;>
    simp only [hc, hs, hi, if_true, if_false, Bool.false_eq_true, Bool.true_eq_false,
      Bool.and_true,
      Bool.and_false, Bool.not_true, Bool.not_false, Bool.true_and, Bool.false_and, ne_eq,
      not_true_eq_false, not_false_eq_true, and_true, true_and, and_false, false_and,
      and_self]

theorem patternPasses_zero (s : Sequencer) : s.patternPasses 0 = s.patternEdit false := by
  unfold Sequencer.patternPasses
  rw [forLoop_zero]

theorem patternPasses_succ (s : Sequencer) (n : Nat) :
    s.patternPasses (n + 1) = PatternEdit.pass (s.stepButton n) n (s.patternPasses n) := by
  unfold Sequencer.patternPasses
  rw [forLoop_succ]

/-- The bookkeeping passes depend only on the step buttons and on the three members. -/
theorem patternPasses_congr (x s : Sequencer) (n : Nat) (hb : x.stepButtons = s.stepButtons)
    (h1 : x.sourcePatternIndex = s.sourcePatternIndex) (h2 : x.patternCopy = s.patternCopy)
    (h3 : x.nextPatternIndex = s.nextPatternIndex) : x.patternPasses n = s.patternPasses n := by
  unfold Sequencer.patternPasses Sequencer.patternEdit Sequencer.stepButton
  rw [hb, h1, h2, h3]

theorem patternPasses_pressed (s : Sequencer) (n : Nat) :
    (s.patternPasses n).aButtonIsPressed = true ↔ ∃ j, j < n ∧ (s.stepButton j).read = true := by
  induction n with
  | zero =>
    rw [patternPasses_zero]
    constructor
    · intro h
      exact absurd h (by simp [Sequencer.patternEdit])
    · rintro ⟨j, hj, -⟩
      exact absurd hj (Nat.not_lt_zero j)
  | succ n ih =>
    rw [patternPasses_succ, (patternPass_facts _ _ _).2.2.1]
    by_cases hr : (s.stepButton n).read = true
    · rw [if_pos hr]
      exact ⟨fun _ => ⟨n, Nat.lt_succ_self n, hr⟩, fun _ => rfl⟩
    · rw [if_neg hr, ih]
      constructor
      · rintro ⟨j, hj, hjr⟩
        exact ⟨j, Nat.lt_succ_of_lt hj, hjr⟩
      · rintro ⟨j, hj, hjr⟩
        have : j ≠ n := fun c => hr (c ▸ hjr)
        exact ⟨j, by omega, hjr⟩

/-- With the copy latched at the entry of the loop, no pass writes `nextPatternIndex`, and the
latch stays. -/
theorem patternPasses_latched (s : Sequencer) (hc : s.patternCopy = true) (n : Nat) :
    (s.patternPasses n).patternCopy = true ∧
    (s.patternPasses n).nextPatternIndex = s.nextPatternIndex := by
  induction n with
  | zero =>
    rw [patternPasses_zero]
    exact ⟨hc, rfl⟩
  | succ n ih =>
    obtain ⟨-, p2, -, p4⟩ := patternPass_facts (s.stepButton n) n (s.patternPasses n)
    rw [patternPasses_succ]
    have hcopy : (PatternEdit.pass (s.stepButton n) n (s.patternPasses n)).patternCopy = true := by
      rw [p2, ih.1, ite_self]
    refine ⟨hcopy, ?_⟩
    rw [p4, hcopy, if_neg (fun c => Bool.noConfusion c.2)]
    exact ih.2

/-- When no step button fell, no pass writes `nextPatternIndex`. -/
theorem patternPasses_no_release (s : Sequencer) (n : Nat)
    (hf : ∀ j, j < n → (s.stepButton j).fell = false) :
    (s.patternPasses n).nextPatternIndex = s.nextPatternIndex := by
  induction n with
  | zero =>
    rw [patternPasses_zero]
    rfl
  | succ n ih =>
    rw [patternPasses_succ, (patternPass_facts _ _ _).2.2.2,
      if_neg (fun c => by
        rw [hf n (Nat.lt_succ_self n)] at c
        exact Bool.noConfusion c.1)]
    exact ih (fun j hj => hf j (Nat.lt_succ_of_lt hj))

/-- The source of the copy and the latch over the passes: a recorded source stays; without one
the first held button becomes the source; two different held buttons set the latch. -/
theorem patternPasses_source (s : Sequencer) (n : Nat) :
    (s.sourcePatternIndex ≠ -1 → (s.patternPasses n).sourcePatternIndex = s.sourcePatternIndex) ∧
    ((∃ j, j < n ∧ (s.stepButton j).read = true) → (s.patternPasses n).sourcePatternIndex ≠ -1) ∧
    (s.sourcePatternIndex = -1 → (s.patternPasses n).sourcePatternIndex = -1 ∨
      ∃ j, j < n ∧ (s.patternPasses n).sourcePatternIndex = (j : Int)) ∧
    ((∃ j, j < n ∧ (s.stepButton j).read = true ∧ s.sourcePatternIndex ≠ -1 ∧
        (j : Int) ≠ s.sourcePatternIndex) → (s.patternPasses n).patternCopy = true) ∧
    ((∃ j k, j < k ∧ k < n ∧ (s.stepButton j).read = true ∧ (s.stepButton k).read = true) →
      (s.patternPasses n).patternCopy = true) := by
  induction n with
  | zero =>
    rw [patternPasses_zero]
    refine ⟨fun _ => rfl, ?_, fun h => Or.inl h, ?_, ?_⟩
    · rintro ⟨j, hj, -⟩
      exact absurd hj (Nat.not_lt_zero j)
    · rintro ⟨j, hj, -⟩
      exact absurd hj (Nat.not_lt_zero j)
    · rintro ⟨j, k, -, hk, -⟩
      exact absurd hk (Nat.not_lt_zero k)
  | succ n ih =>
    obtain ⟨i1, i2, i3, i4, i5⟩ := ih
    obtain ⟨p1, p2, -, -⟩ := patternPass_facts (s.stepButton n) n (s.patternPasses n)
    rw [patternPasses_succ]
    have hmono : (s.patternPasses n).patternCopy = true →
        (PatternEdit.pass (s.stepButton n) n (s.patternPasses n)).patternCopy = true := by
      intro h
      rw [p2, h, ite_self]
    refine ⟨?_, ?_, ?_, ?_, ?_⟩
    · intro hne
      rw [p1, i1 hne, if_neg (fun c => hne c.2)]
    · rintro ⟨j, hj, hjr⟩
      rw [p1]
      by_cases hc : (s.stepButton n).read = true ∧ (s.patternPasses n).sourcePatternIndex = -1
      · rw [if_pos hc]
        omega
      · rw [if_neg hc]
        by_cases hjn : j = n
        · intro c
          exact hc ⟨hjn ▸ hjr, c⟩
        · exact i2 ⟨j, by omega, hjr⟩
    · intro h0
      rw [p1]
      by_cases hc : (s.stepButton n).read = true ∧ (s.patternPasses n).sourcePatternIndex = -1
      · rw [if_pos hc]
        exact Or.inr ⟨n, Nat.lt_succ_self n, rfl⟩
      · rw [if_neg hc]
        rcases i3 h0 with h | ⟨j, hj, hjs⟩
        · exact Or.inl h
        · exact Or.inr ⟨j, Nat.lt_succ_of_lt hj, hjs⟩
    · rintro ⟨j, hj, hjr, hne, hjs⟩
      by_cases hjn : j = n
      · rw [p2, if_pos ⟨hjn ▸ hjr, by rw [i1 hne]; exact hne, by rw [i1 hne, ← hjn]; exact hjs⟩]
      · exact hmono (i4 ⟨j, by omega, hjr, hne, hjs⟩)
    · rintro ⟨j, k, hjk, hk, hjr, hkr⟩
      by_cases hkn : k = n
      · subst hkn
        have hsrc : (s.patternPasses k).sourcePatternIndex ≠ -1 := i2 ⟨j, hjk, hjr⟩
        by_cases hks : (k : Int) = (s.patternPasses k).sourcePatternIndex
        · -- the source is `k`, recorded before the loop: pass `j` has copied
          by_cases h0 : s.sourcePatternIndex = -1
          · rcases i3 h0 with h | ⟨m, hm, hms⟩
            · exact absurd h hsrc
            · rw [hms] at hks
              omega
          · apply hmono
            apply i4
            refine ⟨j, hjk, hjr, h0, ?_⟩
            rw [← i1 h0, ← hks]
            omega
        · rw [p2, if_pos ⟨hkr, hsrc, hks⟩]
      · exact hmono (i5 ⟨j, k, hjk, by omega, hjr, hkr⟩)

section PatternOpsHandler

attribute [local irreducible] forLoop

theorem doPatternOps_loop_flags (c : Nat) (s : Sequencer) (n : Nat) :
    (forLoop n (Sequencer.doPatternOpsStep c) (s, false)).1.patternEdit
        (forLoop n (Sequencer.doPatternOpsStep c) (s, false)).2 = s.patternPasses n ∧
    (forLoop n (Sequencer.doPatternOpsStep c) (s, false)).1.stepButtons = s.stepButtons := by
  induction n with
  | zero =>
    rw [forLoop_zero, patternPasses_zero]
    exact ⟨rfl, rfl⟩
  | succ n ih =>
    obtain ⟨h1, h2⟩ := ih
    rw [forLoop_succ, patternPasses_succ]
    generalize forLoop n (Sequencer.doPatternOpsStep c) (s, false) = x at h1 h2 ⊢
    obtain ⟨g1, g2, -⟩ := doPatternOpsStep_pass c n x
    have hb : x.1.stepButton n = s.stepButton n := by
      unfold Sequencer.stepButton
      rw [h2]
    rw [g1, h1, hb]
    exact ⟨rfl, g2.trans h2⟩

theorem doPatternOpsTrack_flags (i : Nat) (x : Sequencer) :
    (fun y : Sequencer => (y.sourcePatternIndex, y.patternCopy, y.nextPatternIndex,
        y.stepButtons, y.selectedTrack, y.trackButtons))
        (Sequencer.doPatternOpsTrack i x)
      = (fun y : Sequencer => (y.sourcePatternIndex, y.patternCopy, y.nextPatternIndex,
        y.stepButtons, y.selectedTrack, y.trackButtons)) x := by
  simp only [Sequencer.doPatternOpsTrack, Sequencer.setTrack, Sequencer.setTrackLED,
    Sequencer.setDefaultTrackLight,
    apply_ite Sequencer.sourcePatternIndex, apply_ite Sequencer.patternCopy,
    apply_ite Sequencer.nextPatternIndex, apply_ite Sequencer.stepButtons,
    apply_ite Sequencer.selectedTrack, apply_ite Sequencer.trackButtons, ite_self]

theorem doPatternOpsTrack_loop_flags (n : Nat) (x : Sequencer) :
    (forLoop n Sequencer.doPatternOpsTrack x).sourcePatternIndex = x.sourcePatternIndex ∧
    (forLoop n Sequencer.doPatternOpsTrack x).patternCopy = x.patternCopy ∧
    (forLoop n Sequencer.doPatternOpsTrack x).nextPatternIndex = x.nextPatternIndex ∧
    (forLoop n Sequencer.doPatternOpsTrack x).stepButtons = x.stepButtons ∧
    (forLoop n Sequencer.doPatternOpsTrack x).selectedTrack = x.selectedTrack ∧
    (forLoop n Sequencer.doPatternOpsTrack x).trackButtons = x.trackButtons := by
  have hk := forLoop_keeps
    (fun y : Sequencer => (y.sourcePatternIndex, y.patternCopy, y.nextPatternIndex,
        y.stepButtons, y.selectedTrack, y.trackButtons))
    Sequencer.doPatternOpsTrack n x doPatternOpsTrack_flags
  simpa only [Prod.mk.injEq] using hk

/-- The state in which `doPatternOps` enters its loop over the step buttons. -/
theorem doPatternOps_entry (s : Sequencer) :
    (forLoop 6 Sequencer.doPatternOpsTrack
      ({ s with functionLeds :=
        { s.functionLeds with BUTTON_SET_PATTERN := CRGB.CornflowerBlue } } :
          Sequencer).advanceLedFader).sourcePatternIndex = s.sourcePatternIndex ∧
    (forLoop 6 Sequencer.doPatternOpsTrack
      ({ s with functionLeds :=
        { s.functionLeds with BUTTON_SET_PATTERN := CRGB.CornflowerBlue } } :
          Sequencer).advanceLedFader).patternCopy = s.patternCopy ∧
    (forLoop 6 Sequencer.doPatternOpsTrack
      ({ s with functionLeds :=
        { s.functionLeds with BUTTON_SET_PATTERN := CRGB.CornflowerBlue } } :
          Sequencer).advanceLedFader).nextPatternIndex = s.nextPatternIndex ∧
    (forLoop 6 Sequencer.doPatternOpsTrack
      ({ s with functionLeds :=
        { s.functionLeds with BUTTON_SET_PATTERN := CRGB.CornflowerBlue } } :
          Sequencer).advanceLedFader).stepButtons = s.stepButtons := by
  obtain ⟨h1, h2, h3, h4, -, -⟩ := doPatternOpsTrack_loop_flags 6
    ({ s with functionLeds :=
      { s.functionLeds with BUTTON_SET_PATTERN := CRGB.CornflowerBlue } } :
        Sequencer).advanceLedFader
  rw [h1, h2, h3, h4]
  simp only [Sequencer.advanceLedFader, apply_ite Sequencer.sourcePatternIndex,
    apply_ite Sequencer.patternCopy, apply_ite Sequencer.nextPatternIndex,
    apply_ite Sequencer.stepButtons, ite_self, and_self]

/-- The bookkeeping variables after `doPatternOps`. -/
theorem doPatternOps_flags (s : Sequencer) :
    s.doPatternOps.nextPatternIndex = (s.patternPasses 16).nextPatternIndex ∧
    s.doPatternOps.patternCopy
      = (if (s.patternPasses 16).aButtonIsPressed then (s.patternPasses 16).patternCopy
        else false) ∧
    s.doPatternOps.sourcePatternIndex
      = (if (s.patternPasses 16).aButtonIsPressed then (s.patternPasses 16).sourcePatternIndex
        else -1) := by
  obtain ⟨e1, e2, e3, e4⟩ := doPatternOps_entry s
  have hp := patternPasses_congr _ s 16 e4 e1 e2 e3
  unfold Sequencer.doPatternOps
  simp only [NUMBER_OF_INSTRUMENTTRACKS, NUMBER_OF_STEPBUTTONS]
  generalize forLoop 6 Sequencer.doPatternOpsTrack
      ({ s with functionLeds :=
        { s.functionLeds with BUTTON_SET_PATTERN := CRGB.CornflowerBlue } } :
          Sequencer).advanceLedFader = x at hp ⊢
  obtain ⟨l1, -⟩ := doPatternOps_loop_flags (x.track x.selectedTrack).getCurrentPatternIndex x 16
  rw [hp] at l1
  generalize forLoop 16 (Sequencer.doPatternOpsStep
    (x.track x.selectedTrack).getCurrentPatternIndex) (x, false) = r at l1 ⊢
  have k1 : r.1.sourcePatternIndex = (s.patternPasses 16).sourcePatternIndex :=
    congrArg PatternEdit.sourcePatternIndex l1
  have k2 : r.1.patternCopy = (s.patternPasses 16).patternCopy :=
    congrArg PatternEdit.patternCopy l1
  have k3 : r.1.nextPatternIndex = (s.patternPasses 16).nextPatternIndex :=
    congrArg PatternEdit.nextPatternIndex l1
  have k4 : r.2 = (s.patternPasses 16).aButtonIsPressed :=
    congrArg PatternEdit.aButtonIsPressed l1
  simp only [apply_ite Sequencer.nextPatternIndex, apply_ite Sequencer.patternCopy,
    apply_ite Sequencer.sourcePatternIndex, nextPatternIndex_setStepLED,
    patternCopy_setStepLED, sourcePatternIndex_setStepLED, ite_self, k1, k2, k3, k4]
  cases (s.patternPasses 16).aButtonIsPressed <;> simp

end PatternOpsHandler

/-! ### The pattern copy on one track -/

theorem copyPasses_zero (s : Sequencer) (a : Nat) (t : SequencerTrack) :
    s.copyPasses a 0 t = t := by
  unfold Sequencer.copyPasses
  rw [forLoop_zero]

theorem copyPasses_succ (s : Sequencer) (a n : Nat) (t : SequencerTrack) :
    s.copyPasses a (n + 1) t
      = if (s.stepButton n).read = true ∧ n ≠ a then (s.copyPasses a n t).copyPattern a n
        else s.copyPasses a n t := by
  unfold Sequencer.copyPasses
  rw [forLoop_succ]

/-- The patterns of a track that takes part in the copy, after `n` passes: every held step
button other than the source `a` has made its pattern a copy of pattern `a`; pattern `a` and the
patterns of the buttons that are not held are unchanged, and so is the rest of the track. -/
theorem copyPasses_facts (s : Sequencer) (a n : Nat) (t : SequencerTrack) :
    (s.copyPasses a n t).patterns.length = t.patterns.length ∧
    { s.copyPasses a n t with patterns := t.patterns } = t ∧
    (s.copyPasses a n t).patterns.getD a default = t.patterns.getD a default ∧
    (∀ i, n ≤ i → (s.copyPasses a n t).patterns.getD i default = t.patterns.getD i default) ∧
    (∀ i, (s.stepButton i).read = false →
      (s.copyPasses a n t).patterns.getD i default = t.patterns.getD i default) ∧
    (∀ i, i < n → i < t.patterns.length → (s.stepButton i).read = true → i ≠ a →
      (s.copyPasses a n t).patterns.getD i default
        = (t.patterns.getD i default).copyValuesFrom (t.patterns.getD a default)) := by
  induction n with
  | zero =>
    rw [copyPasses_zero]
    exact ⟨rfl, rfl, rfl, fun _ _ => rfl, fun _ _ => rfl,
      fun i hi => absurd hi (Nat.not_lt_zero i)⟩
  | succ n ih =>
    obtain ⟨h1, h2, h3, h4, h5, h6⟩ := ih
    rw [copyPasses_succ]
    by_cases hc : (s.stepButton n).read = true ∧ n ≠ a
    · rw [if_pos hc]
      have hp : ((s.copyPasses a n t).copyPattern a n).patterns
          = (s.copyPasses a n t).patterns.set n
              ((t.patterns.getD n default).copyValuesFrom (t.patterns.getD a default)) := by
        show (s.copyPasses a n t).patterns.set n
          (((s.copyPasses a n t).patterns.getD n default).copyValuesFrom
            ((s.copyPasses a n t).patterns.getD a default)) = _
        rw [h3, h4 n (Nat.le_refl n)]
      refine ⟨?_, h2, ?_, ?_, ?_, ?_⟩
      · rw [hp, List.length_set, h1]
      · rw [hp, list_getD_set, if_neg (fun c => hc.2 c.1.symm)]
        exact h3
      · intro i hi
        rw [hp, list_getD_set, if_neg (fun c => by omega)]
        exact h4 i (by omega)
      · intro i hir
        have hin : i ≠ n := by
          intro c
          rw [c, hc.1] at hir
          exact Bool.noConfusion hir
        rw [hp, list_getD_set, if_neg (fun c => hin c.1)]
        exact h5 i hir
      · intro i hi hil hir hia
        rw [hp, list_getD_set, h1]
        by_cases hin : i = n
        · rw [hin] at hil ⊢
          rw [if_pos ⟨rfl, hil⟩]
        · rw [if_neg (fun c => hin c.1)]
          exact h6 i (by omega) hil hir hia
    · rw [if_neg hc]
      refine ⟨h1, h2, h3, fun i hi => h4 i (by omega), h5, ?_⟩
      intro i hi hil hir hia
      have hin : i ≠ n := by
        intro c
        exact hc ⟨c ▸ hir, c ▸ hia⟩
      exact h6 i (by omega) hil hir hia

theorem copyPasses_armed (s : Sequencer) (a n : Nat) (t : SequencerTrack) :
    (s.copyPasses a n t).isPatternOpsArmed = t.isPatternOpsArmed := by
  have h := congrArg SequencerTrack.isPatternOpsArmed (copyPasses_facts s a n t).2.1
  exact h

section PatternOpsTracks

attribute [local irreducible] forLoop

theorem anyPatternOpsArmed_congr {x y : Sequencer} (h : x.tracks = y.tracks) :
    x.anyPatternOpsArmed = y.anyPatternOpsArmed := by
  unfold Sequencer.anyPatternOpsArmed
  rw [h]

theorem track_congr {x y : Sequencer} (h : x.tracks = y.tracks) (k : Nat) :
    x.track k = y.track k := by
  unfold Sequencer.track
  rw [h]

/-- The tracks during the loop over the step buttons in `doPatternOps`, when pattern `a` is the
recorded source: the tracks that take part in the copy (all of them when no track is armed, the
armed ones otherwise) go through `copyPasses`; the others are unchanged. -/
theorem doPatternOps_loop_tracks (c : Nat) (s : Sequencer) (a : Nat)
    (hsrc : s.sourcePatternIndex = (a : Int)) (n : Nat) :
    (forLoop n (Sequencer.doPatternOpsStep c) (s, false)).1.sourcePatternIndex = (a : Int) ∧
    (forLoop n (Sequencer.doPatternOpsStep c) (s, false)).1.anyPatternOpsArmed
      = s.anyPatternOpsArmed ∧
    (forLoop n (Sequencer.doPatternOpsStep c) (s, false)).1.tracks.length = s.tracks.length ∧
    ∀ k, (forLoop n (Sequencer.doPatternOpsStep c) (s, false)).1.track k
      = if k < 6 ∧ k < s.tracks.length ∧
            (!s.anyPatternOpsArmed || (s.track k).isPatternOpsArmed) = true then
          s.copyPasses a n (s.track k)
        else s.track k := by
  induction n with
  | zero =>
    rw [forLoop_zero]
    refine ⟨hsrc, rfl, rfl, fun k => ?_⟩
    rw [copyPasses_zero, ite_self]
  | succ n ih =>
    obtain ⟨h1, h2, h3, h4⟩ := ih
    have hb := (doPatternOps_loop_flags c s n).2
    rw [forLoop_succ]
    generalize forLoop n (Sequencer.doPatternOpsStep c) (s, false) = x at h1 h2 h3 h4 hb ⊢
    obtain ⟨g1, -, g3⟩ := doPatternOpsStep_pass c n x
    obtain ⟨c1, c2, c3⟩ := doPatternOpsCopy_loop n 6 x.1
    have hbn : x.1.stepButton n = s.stepButton n := by
      unfold Sequencer.stepButton
      rw [hb]
    have hne : x.1.sourcePatternIndex ≠ -1 := by
      rw [h1]
      omega
    have htn : x.1.sourcePatternIndex.toNat = a := by
      rw [h1]
      exact Int.toNat_ofNat a
    have harm : ∀ k, (x.1.track k).isPatternOpsArmed = (s.track k).isPatternOpsArmed := by
      intro k
      rw [h4 k]
      split_ifs
      · exact copyPasses_armed s a n _
      · rfl
    have hsrc2 : (Sequencer.doPatternOpsStep c n x).1.sourcePatternIndex = (a : Int) := by
      have := congrArg PatternEdit.sourcePatternIndex g1
      rw [(patternPass_facts _ _ _).1] at this
      have e : (x.1.patternEdit x.2).sourcePatternIndex = x.1.sourcePatternIndex := rfl
      rw [e, if_neg (fun c => hne c.2)] at this
      exact this.trans h1
    rw [hbn] at g3
    by_cases ht : (s.stepButton n).read = true ∧ x.1.sourcePatternIndex ≠ -1 ∧
        (n : Int) ≠ x.1.sourcePatternIndex
    · rw [if_pos ht] at g3
      have hna : n ≠ a := by
        intro c
        apply ht.2.2
        rw [h1, c]
      refine ⟨hsrc2, ?_, ?_, ?_⟩
      · rw [anyPatternOpsArmed_congr g3, c1]
        exact h2
      · rw [g3, c2]
        exact h3
      · intro k
        have e1 := c3 k
        rw [h3, h2, harm k, htn, h4 k] at e1
        have e2 : s.copyPasses a (n + 1) (s.track k)
            = (s.copyPasses a n (s.track k)).copyPattern a n := by
          rw [copyPasses_succ, if_pos ⟨ht.1, hna⟩]
        rw [track_congr g3 k, e1, e2]
        by_cases hk : k < 6 ∧ k < s.tracks.length
        · by_cases hc : (!s.anyPatternOpsArmed || (s.track k).isPatternOpsArmed) = true
          · have hK : k < 6 ∧ k < s.tracks.length ∧
                (!s.anyPatternOpsArmed || (s.track k).isPatternOpsArmed) = true :=
              ⟨hk.1, hk.2, hc⟩
            simp only [if_pos hk, if_pos hc, if_pos hK]
          · have hK : ¬ (k < 6 ∧ k < s.tracks.length ∧
                (!s.anyPatternOpsArmed || (s.track k).isPatternOpsArmed) = true) :=
              fun c => hc c.2.2
            simp only [if_pos hk, if_neg hc, if_neg hK]
        · have hK : ¬ (k < 6 ∧ k < s.tracks.length ∧
              (!s.anyPatternOpsArmed || (s.track k).isPatternOpsArmed) = true) :=
            fun c => hk ⟨c.1, c.2.1⟩
          simp only [if_neg hk, if_neg hK]
    · rw [if_neg ht] at g3
      have hnt : ¬ ((s.stepButton n).read = true ∧ n ≠ a) := by
        intro c
        apply ht
        refine ⟨c.1, hne, ?_⟩
        rw [h1]
        omega
      refine ⟨hsrc2, ?_, ?_, ?_⟩
      · rw [anyPatternOpsArmed_congr g3]
        exact h2
      · rw [g3]
        exact h3
      · intro k
        rw [track_congr g3 k, copyPasses_succ, if_neg hnt]
        exact h4 k

end PatternOpsTracks

theorem list_ext_getD {α : Type} (l1 l2 : List α) (d : α) (hl : l1.length = l2.length)
    (h : ∀ i, l1.getD i d = l2.getD i d) : l1 = l2 := by
  induction l1 generalizing l2 with
  | nil =>
    cases l2 with
    | nil => rfl
    | cons b l2 => simp at hl
  | cons a l1 ih =>
    cases l2 with
    | nil => simp at hl
    | cons b l2 =>
      have h0 : a = b := h 0
      have ht : l1 = l2 := ih l2 (by simpa using hl) (fun i => h (i + 1))
      rw [h0, ht]

section PatternOpsCopy

attribute [local irreducible] forLoop

theorem doPatternOpsTrack_tracks (i : Nat) (y : Sequencer) :
    (Sequencer.doPatternOpsTrack i y).tracks
      = y.tracks.set i
          (if (y.trackButton i).fell then (y.track i).togglePatternOpsArm else y.track i) := by
  cases hf : (y.trackButton i).fell
  · simp only [Sequencer.doPatternOpsTrack, hf, Sequencer.setTrackLED,
      Sequencer.setDefaultTrackLight, apply_ite Sequencer.tracks, ite_self,
      Bool.false_eq_true, if_false]
    exact (congrArg Sequencer.tracks (setTrack_track_self y i)).symm
  · simp only [Sequencer.doPatternOpsTrack, hf, Sequencer.setTrackLED,
      Sequencer.setDefaultTrackLight, Sequencer.setTrack, apply_ite Sequencer.tracks, ite_self,
      if_true]

/-- The tracks in which `doPatternOps` enters its loop over the step buttons, when no track
button fell in this tick: they are the tracks of the entry state. -/
theorem doPatternOps_entry_tracks (s : Sequencer)
    (hnf : ∀ i, i < 6 → (s.trackButton i).fell = false) :
    (forLoop 6 Sequencer.doPatternOpsTrack
      ({ s with functionLeds :=
        { s.functionLeds with BUTTON_SET_PATTERN := CRGB.CornflowerBlue } } :
          Sequencer).advanceLedFader).tracks = s.tracks := by
  have hs0 : (({ s with functionLeds :=
      { s.functionLeds with BUTTON_SET_PATTERN := CRGB.CornflowerBlue } } :
        Sequencer).advanceLedFader).tracks = s.tracks := advanceLedFader_tracks _
  have hb0 : (({ s with functionLeds :=
      { s.functionLeds with BUTTON_SET_PATTERN := CRGB.CornflowerBlue } } :
        Sequencer).advanceLedFader).trackButtons = s.trackButtons := by
    simp only [Sequencer.advanceLedFader, apply_ite Sequencer.trackButtons, ite_self]
  generalize (({ s with functionLeds :=
      { s.functionLeds with BUTTON_SET_PATTERN := CRGB.CornflowerBlue } } :
        Sequencer).advanceLedFader) = s0 at hs0 hb0 ⊢
  have key := forLoop_tracks Sequencer.doPatternOpsTrack
    (fun j t => if (s.trackButton j).fell then t.togglePatternOpsArm else t)
    (fun y => y.trackButtons = s.trackButtons) ?_ ?_ 6 s0 hb0
  · obtain ⟨-, k2, k3⟩ := key
    rw [← hs0]
    apply list_ext_getD _ _ default k2
    intro i
    have := k3 i
    unfold Sequencer.track at this
    rw [this]
    by_cases hi : i < 6 ∧ i < s0.tracks.length
    · rw [if_pos hi]
      simp only [hnf i hi.1, Bool.false_eq_true, if_false]
    · rw [if_neg hi]
  · intro j y hy
    have e := doPatternOpsTrack_flags j y
    simp only [Prod.mk.injEq] at e
    exact e.2.2.2.2.2.trans hy
  · intro j y hy
    rw [doPatternOpsTrack_tracks]
    unfold Sequencer.trackButton
    rw [hy]

end PatternOpsCopy

section PatternOpsResult

attribute [local irreducible] forLoop

theorem copyPasses_congr (x s : Sequencer) (hb : x.stepButtons = s.stepButtons) (a n : Nat)
    (t : SequencerTrack) : x.copyPasses a n t = s.copyPasses a n t := by
  unfold Sequencer.copyPasses Sequencer.stepButton
  rw [hb]

/-- The tracks after `doPatternOps` in a tick in which pattern `a` is the recorded source and no
track button fell: the tracks that take part in the copy have gone through `copyPasses`, the
others are unchanged. -/
theorem doPatternOps_tracks (s : Sequencer) (a : Nat) (hsrc : s.sourcePatternIndex = (a : Int))
    (hnf : ∀ i, i < 6 → (s.trackButton i).fell = false) (k : Nat) :
    s.doPatternOps.track k
      = if k < 6 ∧ k < s.tracks.length ∧
            (!s.anyPatternOpsArmed || (s.track k).isPatternOpsArmed) = true then
          s.copyPasses a 16 (s.track k)
        else s.track k := by
  obtain ⟨e1, -, -, e4⟩ := doPatternOps_entry s
  have et := doPatternOps_entry_tracks s hnf
  have hfin : s.doPatternOps.tracks
      = (forLoop 16 (Sequencer.doPatternOpsStep
          ((forLoop 6 Sequencer.doPatternOpsTrack
            ({ s with functionLeds :=
              { s.functionLeds with BUTTON_SET_PATTERN := CRGB.CornflowerBlue } } :
                Sequencer).advanceLedFader).track
            (forLoop 6 Sequencer.doPatternOpsTrack
              ({ s with functionLeds :=
                { s.functionLeds with BUTTON_SET_PATTERN := CRGB.CornflowerBlue } } :
                  Sequencer).advanceLedFader).selectedTrack).getCurrentPatternIndex)
          (forLoop 6 Sequencer.doPatternOpsTrack
            ({ s with functionLeds :=
              { s.functionLeds with BUTTON_SET_PATTERN := CRGB.CornflowerBlue } } :
                Sequencer).advanceLedFader, false)).1.tracks := by
    unfold Sequencer.doPatternOps
    simp only [NUMBER_OF_INSTRUMENTTRACKS, NUMBER_OF_STEPBUTTONS, apply_ite Sequencer.tracks,
      tracks_setStepLED, ite_self]
  generalize forLoop 6 Sequencer.doPatternOpsTrack
      ({ s with functionLeds :=
        { s.functionLeds with BUTTON_SET_PATTERN := CRGB.CornflowerBlue } } :
          Sequencer).advanceLedFader = x at e1 e4 et hfin
  obtain ⟨-, -, -, l4⟩ := doPatternOps_loop_tracks
    (x.track x.selectedTrack).getCurrentPatternIndex x a (e1.trans hsrc) 16
  rw [track_congr hfin k, l4 k, anyPatternOpsArmed_congr et, track_congr et k, et,
    copyPasses_congr x s e4]

end PatternOpsResult

/-! ### The pattern-copy gesture -/

theorem list_getD_map_range {α : Type} (f : Nat → α) (n i : Nat) (d : α) (hi : i < n) :
    ((List.range n).map f).getD i d = f i := by
  rw [List.getD_eq_getElem _ _ (by simpa using hi)]
  simp

/-- A pattern after `copyValuesFrom(source)`: each of its steps has taken the values of the
step of the source at the same place. -/
theorem pattern_copyValuesFrom_getStep (p source : SequencerPattern) (i : Nat)
    (hi : i < p.steps.length) :
    (p.copyValuesFrom source).getStep i = (p.getStep i).copyValuesFrom (source.getStep i) :=
  list_getD_map_range _ _ i default hi

theorem holdPatternOps_cons (x : Sequencer) (scan : Scan) (rest : List Scan) :
    x.holdPatternOps (scan :: rest) = ((x.refreshButtons scan).doPatternOps).holdPatternOps rest := by
  simp only [Sequencer.holdPatternOps, List.foldl_cons]

theorem holdPatternOps_append (x : Sequencer) (a b : List Scan) :
    x.holdPatternOps (a ++ b) = (x.holdPatternOps a).holdPatternOps b := by
  simp only [Sequencer.holdPatternOps, List.foldl_append]

section PatternOpsGesture

attribute [local irreducible] forLoop

/-- A tick of the pattern mode in which no step button fell keeps `nextPatternIndex`. -/
theorem patternTick_no_release (x : Sequencer) (scan : Scan)
    (hf : ∀ j, j < 16 → (scan.stepButtons.getD j default).fell = false) :
    ((x.refreshButtons scan).doPatternOps).nextPatternIndex = x.nextPatternIndex := by
  rw [(doPatternOps_flags _).1]
  exact patternPasses_no_release (x.refreshButtons scan) 16 hf

/-- A tick of the pattern mode entered with the copy latched keeps `nextPatternIndex`, and
keeps the latch while a step button is held. -/
theorem patternTick_latched (x : Sequencer) (scan : Scan) (hc : x.patternCopy = true) :
    ((x.refreshButtons scan).doPatternOps).nextPatternIndex = x.nextPatternIndex ∧
    ((∃ j, j < 16 ∧ (scan.stepButtons.getD j default).read = true) →
      ((x.refreshButtons scan).doPatternOps).patternCopy = true) := by
  obtain ⟨l1, l2⟩ := patternPasses_latched (x.refreshButtons scan) hc 16
  refine ⟨?_, fun hex => ?_⟩
  · rw [(doPatternOps_flags _).1]
    exact l2
  · rw [(doPatternOps_flags _).2.1, (patternPasses_pressed (x.refreshButtons scan) 16).mpr hex,
      if_pos rfl]
    exact l1

/-- A tick of the pattern mode in which two step buttons are held sets the latch. -/
theorem patternTick_copy (x : Sequencer) (scan : Scan)
    (h2 : ∃ j k, j < k ∧ k < 16 ∧ (scan.stepButtons.getD j default).read = true ∧
      (scan.stepButtons.getD k default).read = true) :
    ((x.refreshButtons scan).doPatternOps).patternCopy = true := by
  obtain ⟨j, k, hjk, hk, hjr, hkr⟩ := h2
  rw [(doPatternOps_flags _).2.1,
    (patternPasses_pressed (x.refreshButtons scan) 16).mpr ⟨k, hk, hkr⟩, if_pos rfl]
  exact (patternPasses_source (x.refreshButtons scan) 16).2.2.2.2 ⟨j, k, hjk, hk, hjr, hkr⟩

theorem holdPatternOps_no_release (pre : List Scan) (x : Sequencer)
    (hf : ∀ scan, scan ∈ pre → ∀ j, j < 16 → (scan.stepButtons.getD j default).fell = false) :
    (x.holdPatternOps pre).nextPatternIndex = x.nextPatternIndex := by
  induction pre generalizing x with
  | nil => rfl
  | cons scan rest ih =>
    rw [holdPatternOps_cons, ih _ (fun sc hsc => hf sc (List.mem_cons_of_mem _ hsc))]
    exact patternTick_no_release x scan (hf scan (List.mem_cons_self _ _))

theorem holdPatternOps_latched (post : List Scan) (x : Sequencer) (hc : x.patternCopy = true)
    (hh : ∀ scan, scan ∈ post.dropLast →
      ∃ j, j < 16 ∧ (scan.stepButtons.getD j default).read = true) :
    (x.holdPatternOps post).nextPatternIndex = x.nextPatternIndex := by
  induction post generalizing x with
  | nil => rfl
  | cons scan rest ih =>
    rw [holdPatternOps_cons]
    obtain ⟨t1, t2⟩ := patternTick_latched x scan hc
    cases rest with
    | nil => exact t1
    | cons r1 rs =>
      have hd : (scan :: r1 :: rs).dropLast = scan :: (r1 :: rs).dropLast := rfl
      rw [hd] at hh
      rw [ih _ (t2 (hh scan (List.mem_cons_self _ _)))
        (fun sc hsc => hh sc (List.mem_cons_of_mem _ hsc))]
      exact t1

/-- Leaving the pattern mode with `nextPatternIndex < 0` switches and unmutes no track. -/
theorem doLeavePatternOps_nothing_queued (x : Sequencer) (hn : x.nextPatternIndex < 0)
    (k : Nat) :
    x.doLeavePatternOps.track k = { x.track k with patternOpsArmed := false } := by
  obtain ⟨-, -, -, h4⟩ := doLeavePatternOps_loop x 6
  have ht : x.doLeavePatternOps.track k
      = { (forLoop 6 Sequencer.doLeavePatternOpsTrack x).track k with
          patternOpsArmed := false } :=
    deactivateAllPatternOpsArms_track (forLoop 6 Sequencer.doLeavePatternOpsTrack x) k
  have hneg : ¬ (x.nextPatternIndex ≥ 0) := by omega
  rw [ht, h4 k]
  simp only [hneg, if_false, ite_self]

end PatternOpsGesture

/-- C19: the pattern-copy gesture in PATTERN_OPS. In a tick of `doPatternOps` in which pattern
`a` is the recorded source (`sourcePatternIndex = a`), step button `b ≠ a` is held and no track
button fell: on every track that takes part (all six when no track is pattern-ops-armed, the
armed ones otherwise) `patterns[b]` becomes `patterns[b].copyValuesFrom(patterns[a])`, so each
of its steps has the state and the parameters of the step of `patterns[a]` at the same place,
and `patterns[a]` is unchanged; the tracks that do not take part are unchanged. Moreover, for
every state with `nextPatternIndex = -1` and every run of PATTERN_OPS ticks made of ticks
without a released step button, then a tick without a release in which two step buttons are
held (the copy), then any ticks of which all but the last have a step button held (the
releases, in any order), `nextPatternIndex` is still -1 afterwards, and the following
`doLeavePatternOps` switches and unmutes no track. -/
theorem pattern_copy_gesture (s : Sequencer) (a b : Nat) (hlen : s.tracks.length = 6)
    (hsrc : s.sourcePatternIndex = (a : Int)) (hab : a ≠ b)
    (hb : (s.stepButton b).read = true) (hb16 : b < 16)
    (hnf : ∀ i, i < 6 → (s.trackButton i).fell = false) :
    (∀ k, k < 6 → b < (s.track k).patterns.length →
      (!s.anyPatternOpsArmed || (s.track k).isPatternOpsArmed) = true →
      (s.doPatternOps.track k).patterns.getD b default
        = ((s.track k).patterns.getD b default).copyValuesFrom
            ((s.track k).patterns.getD a default) ∧
      (∀ i, i < ((s.track k).patterns.getD b default).steps.length →
        (((s.doPatternOps.track k).patterns.getD b default).getStep i).state
          = (((s.track k).patterns.getD a default).getStep i).state ∧
        ∀ m, (((s.doPatternOps.track k).patterns.getD b default).getStep i).parameter m
          = (((s.track k).patterns.getD a default).getStep i).parameter m) ∧
      (s.doPatternOps.track k).patterns.getD a default = (s.track k).patterns.getD a default) ∧
    (∀ k, (!s.anyPatternOpsArmed || (s.track k).isPatternOpsArmed) = false →
      s.doPatternOps.track k = s.track k) ∧
    (∀ (x : Sequencer) (pre post : List Scan) (copyTick : Scan), x.nextPatternIndex = -1 →
      (∀ scan, scan ∈ pre → ∀ j, j < 16 → (scan.stepButtons.getD j default).fell = false) →
      (∀ j, j < 16 → (copyTick.stepButtons.getD j default).fell = false) →
      (∃ j k, j < k ∧ k < 16 ∧ (copyTick.stepButtons.getD j default).read = true ∧
        (copyTick.stepButtons.getD k default).read = true) →
      (∀ scan, scan ∈ post.dropLast →
        ∃ j, j < 16 ∧ (scan.stepButtons.getD j default).read = true) →
      (x.holdPatternOps (pre ++ copyTick :: post)).nextPatternIndex = -1 ∧
      ∀ k, (x.holdPatternOps (pre ++ copyTick :: post)).doLeavePatternOps.track k
        = { (x.holdPatternOps (pre ++ copyTick :: post)).track k with
            patternOpsArmed := false }) := by
  refine ⟨fun k hk hbl hc => ?_, fun k hc => ?_, ?_⟩
  · have e := doPatternOps_tracks s a hsrc hnf k
    rw [if_pos ⟨hk, by omega, hc⟩] at e
    obtain ⟨-, -, f3, -, -, f6⟩ := copyPasses_facts s a 16 (s.track k)
    have eb : (s.doPatternOps.track k).patterns.getD b default
        = ((s.track k).patterns.getD b default).copyValuesFrom
            ((s.track k).patterns.getD a default) := by
      rw [e]
      exact f6 b hb16 hbl hb (fun c => hab c.symm)
    refine ⟨eb, fun i hi => ?_, ?_⟩
    · rw [eb, pattern_copyValuesFrom_getStep _ _ i hi]
      refine ⟨rfl, fun m => ?_⟩
      unfold SequencerStep.parameter
      split <;> rfl
    · rw [e]
      exact f3
  · have e := doPatternOps_tracks s a hsrc hnf k
    rw [if_neg (fun c => by rw [hc] at c; exact Bool.noConfusion c.2.2)] at e
    exact e
  · intro x pre post copyTick hx hpre hcf hc2 hpost
    have hnext : (x.holdPatternOps (pre ++ copyTick :: post)).nextPatternIndex = -1 := by
      rw [holdPatternOps_append, holdPatternOps_cons,
        holdPatternOps_latched post _ (patternTick_copy _ copyTick hc2) hpost,
        patternTick_no_release _ copyTick hcf, holdPatternOps_no_release pre x hpre]
      exact hx
    exact ⟨hnext, fun k => doLeavePatternOps_nothing_queued _ (by omega) k⟩

set_option maxRecDepth 100000 in
theorem pattern_copy_gesture_witness :
    (((patternCopyScenario.doPatternOps.track 0).patterns.getD 5 default).getStep 2).state = 1 ∧
    (((patternCopyScenario.doPatternOps.track 0).patterns.getD 5 default).getStep 2).parameter 1
      = 77 := by
  have w := ((pattern_copy_gesture patternCopyScenario 0 5 (by decide) rfl (by decide)
    (by decide) (by decide) (by decide)).1 0 (by decide) (by decide) (by decide)).2.1 2
    (by decide)
  exact ⟨w.1.trans (by decide), (w.2 1).trans (by decide)⟩


/-! ### The plock latch -/

/-- An invariant of the body, for the indices the loop runs through, is an invariant of the
loop. -/
theorem forLoop_inv {σ : Type} (I : σ → Prop) (body : Nat → σ → σ) (n : Nat) (x : σ)
    (h : ∀ i y, i < n → I y → I (body i y)) (hx : I x) : I (forLoop n body x) := by
  induction n with
  | zero => exact hx
  | succ k ih =>
    rw [forLoop_succ]
    exact h k _ (Nat.lt_succ_self k) (ih fun i y hi => h i y (Nat.lt_succ_of_lt hi))

section PLockLatch

attribute [local irreducible] forLoop

theorem latchView_setStepLED (s : Sequencer) (i : Int) (c : CRGB) :
    (s.setStepLED i c).latchView = s.latchView := by
  unfold Sequencer.setStepLED
  split <;> rfl

theorem latchView_setDefaultTrackLight (s : Sequencer) (i : Nat) :
    (s.setDefaultTrackLight i).latchView = s.latchView := by
  simp only [Sequencer.latchView, Sequencer.setDefaultTrackLight, Sequencer.setTrackLED,
    apply_ite Sequencer.functionButtons, apply_ite Sequencer.trackButtons,
    apply_ite Sequencer.stepButtons, apply_ite Sequencer.trackOrStepButtonPressed, ite_self]

theorem latchView_doSetTrackSelectionTrack (i : Nat) (s : Sequencer) :
    (Sequencer.doSetTrackSelectionTrack i s).latchView = s.latchView := by
  unfold Sequencer.doSetTrackSelectionTrack
  simp only
  rw [latchView_setDefaultTrackLight]
  simp only [Sequencer.latchView, Sequencer.deactivateSensors, Sequencer.trackButton,
    apply_ite Sequencer.functionButtons, apply_ite Sequencer.trackButtons,
    apply_ite Sequencer.stepButtons, apply_ite Sequencer.trackOrStepButtonPressed, ite_self]

theorem latchView_doSetTrackSelection (s : Sequencer) :
    s.doSetTrackSelection.latchView = s.latchView :=
  forLoop_keeps Sequencer.latchView _ _ s latchView_doSetTrackSelectionTrack

theorem latchView_selectParamSet (s : Sequencer) :
    s.selectParamSet.latchView = s.latchView := by
  simp only [Sequencer.latchView, Sequencer.selectParamSet, Sequencer.deactivateSensors,
    apply_ite Sequencer.functionButtons, apply_ite Sequencer.trackButtons,
    apply_ite Sequencer.stepButtons, apply_ite Sequencer.trackOrStepButtonPressed, ite_self]

theorem latchView_setFunctionButtonLights (s : Sequencer) :
    s.setFunctionButtonLights.latchView = s.latchView := by
  simp only [Sequencer.latchView, Sequencer.setFunctionButtonLights,
    apply_ite Sequencer.functionButtons, apply_ite Sequencer.trackButtons,
    apply_ite Sequencer.stepButtons, apply_ite Sequencer.trackOrStepButtonPressed, ite_self]

theorem latchView_shouldStep (s : Sequencer) (millis : Nat) :
    (s.shouldStep millis).2.latchView = s.latchView := by
  simp only [Sequencer.latchView, Sequencer.shouldStep, Sequencer.shouldStepMidiClock,
    Sequencer.shouldStepInternalClock,
    apply_ite (Prod.snd : Bool × Sequencer → Sequencer),
    apply_ite Sequencer.functionButtons, apply_ite Sequencer.trackButtons,
    apply_ite Sequencer.stepButtons, apply_ite Sequencer.trackOrStepButtonPressed, ite_self]

theorem latchView_doStep (s : Sequencer) : s.doStep.latchView = s.latchView := by
  have h := forLoop_keeps Sequencer.latchView Sequencer.doStepTrack
    NUMBER_OF_INSTRUMENTTRACKS { s with log := s.log ++ [Call.doStep] }
    (fun i y => rfl)
  simp only [Sequencer.latchView, Prod.mk.injEq] at h
  simp only [Sequencer.latchView, Sequencer.doStep, h.1, h.2.1, h.2.2.1, h.2.2.2]

theorem latchView_doTriggerSoundsTrack (i : Nat) (s : Sequencer) :
    (Sequencer.doTriggerSoundsTrack i s).latchView = s.latchView := by
  simp only [Sequencer.latchView, Sequencer.doTriggerSoundsTrack, Sequencer.setTrack,
    apply_ite Sequencer.functionButtons, apply_ite Sequencer.trackButtons,
    apply_ite Sequencer.stepButtons, apply_ite Sequencer.trackOrStepButtonPressed, ite_self]

theorem latchView_doTriggerSounds (s : Sequencer) (poti1 poti2 : Nat) :
    (s.doTriggerSounds poti1 poti2).latchView = s.latchView := by
  have h := forLoop_keeps Sequencer.latchView Sequencer.doTriggerSoundsTrack
    NUMBER_OF_INSTRUMENTTRACKS
    { s with log := s.log ++ [Call.doTriggerSounds], input1 := s.input1.update (poti1 % 65536),
             input2 := s.input2.update (poti2 % 65536) }
    latchView_doTriggerSoundsTrack
  simp only [Sequencer.latchView, Prod.mk.injEq] at h
  simp only [Sequencer.latchView, Sequencer.doTriggerSounds, h.1, h.2.1, h.2.2.1, h.2.2.2]

theorem latchView_runClock (s : Sequencer) (millis poti1 poti2 : Nat) :
    (s.runClock millis poti1 poti2).latchView = s.latchView := by
  unfold Sequencer.runClock Sequencer.stepIfDue Sequencer.triggerIfPending
  simp only [apply_ite Sequencer.latchView, latchView_setStepLED, latchView_doTriggerSounds,
    latchView_doStep, latchView_shouldStep, ite_self]

end PLockLatch

section PLockHold

attribute [local irreducible] forLoop

/-- The function mode as a function of the latch view. -/
theorem calculateFunctionMode_latchView {x y : Sequencer} (h : x.latchView = y.latchView) :
    x.calculateFunctionMode = y.calculateFunctionMode := by
  simp only [Sequencer.latchView, Prod.mk.injEq] at h
  unfold Sequencer.calculateFunctionMode
  rw [h.1, h.2.2.2]

theorem calculateFunctionMode_held (s : Sequencer)
    (h1 : s.functionButtons.BUTTON_STARTSTOP.rose = false)
    (h2 : s.functionButtons.BUTTON_TOGGLE_PLOCK.read = true) :
    s.calculateFunctionMode = FunctionMode.TOGGLE_PLOCKS := by
  unfold Sequencer.calculateFunctionMode
  rw [h1, h2]
  rfl

theorem calculateFunctionMode_released (s : Sequencer)
    (h1 : s.functionButtons.BUTTON_STARTSTOP.rose = false)
    (h2 : s.functionButtons.BUTTON_TOGGLE_PLOCK.read = false)
    (h3 : s.functionButtons.BUTTON_TOGGLE_PLOCK.fell = true)
    (h4 : s.trackOrStepButtonPressed = false) :
    s.calculateFunctionMode = FunctionMode.LEAVE_TOGGLE_PLOCKS := by
  unfold Sequencer.calculateFunctionMode
  rw [h1, h2, h3, h4]
  rfl

theorem doSetTrackPLockTrack_idle (i : Nat) (s : Sequencer)
    (h : (s.trackButton i).fell = false) : Sequencer.doSetTrackPLockTrack i s = s := by
  unfold Sequencer.doSetTrackPLockTrack
  rw [h]
  rfl

theorem doSetTrackPLockStep_idle (i : Nat) (s : Sequencer)
    (h : (s.stepButton i).fell = false) :
    Sequencer.doSetTrackPLockStep i s
      = s.setStepLED i (Sequencer.colorForStepState (s.selectedStep i).state) := by
  unfold Sequencer.doSetTrackPLockStep
  rw [h]
  rfl

/-- With no track button and no step button released, `doSetTrackPLock` leaves the buttons as
they are, and the latch is cleared when TOGGLE_PLOCK rose and kept otherwise. -/
theorem doSetTrackPLock_latchView (s : Sequencer)
    (ht : ∀ i, i < 6 → (s.trackButton i).fell = false)
    (hs : ∀ i, i < 16 → (s.stepButton i).fell = false) :
    s.doSetTrackPLock.latchView
      = (s.functionButtons, s.trackButtons, s.stepButtons,
         if s.functionButtons.BUTTON_TOGGLE_PLOCK.rose then false
         else s.trackOrStepButtonPressed) := by
  have h1 : ∀ x : Sequencer, x.trackButtons = s.trackButtons →
      forLoop NUMBER_OF_INSTRUMENTTRACKS Sequencer.doSetTrackPLockTrack x = x := by
    intro x hx
    refine forLoop_inv (fun y => y = x) _ _ x (fun i y hi hy => ?_) rfl
    rw [hy]
    apply doSetTrackPLockTrack_idle
    unfold Sequencer.trackButton
    rw [hx]
    exact ht i hi
  have h2 : ∀ x : Sequencer, x.stepButtons = s.stepButtons →
      (forLoop NUMBER_OF_STEPBUTTONS Sequencer.doSetTrackPLockStep x).latchView
        = x.latchView := by
    intro x hx
    refine forLoop_inv (fun y => y.latchView = x.latchView) _ _ x (fun i y hi hy => ?_) rfl
    have hb : y.stepButtons = s.stepButtons := by
      simp only [Sequencer.latchView, Prod.mk.injEq] at hy
      rw [hy.2.2.1, hx]
    show (Sequencer.doSetTrackPLockStep i y).latchView = x.latchView
    rw [doSetTrackPLockStep_idle i y (by unfold Sequencer.stepButton; rw [hb]; exact hs i hi),
      latchView_setStepLED]
    exact hy
  have h3 := h2 { s with functionLeds :=
    { s.functionLeds with BUTTON_TOGGLE_PLOCK := CRGB.DarkOrange } } rfl
  unfold Sequencer.doSetTrackPLock
  simp only
  rw [h1 { s with functionLeds :=
    { s.functionLeds with BUTTON_TOGGLE_PLOCK := CRGB.DarkOrange } } rfl]
  simp only [Sequencer.latchView, Prod.mk.injEq] at h3
  simp only [Sequencer.latchView, apply_ite Sequencer.functionButtons,
    apply_ite Sequencer.trackButtons, apply_ite Sequencer.stepButtons,
    apply_ite Sequencer.trackOrStepButtonPressed, ite_self, h3.1, h3.2.1, h3.2.2.1, h3.2.2.2]

/-- One tick with TOGGLE_PLOCK held and no track or step button released: the latch
`trackOrStepButtonPressed` is cleared when the button rose in this tick and kept otherwise. -/
theorem plockHeld_tick (s : Sequencer) (scan : Scan) (h : scan.plockHeld) :
    (s.handle (Event.tick scan)).trackOrStepButtonPressed
      = if scan.functionButtons.BUTTON_TOGGLE_PLOCK.rose then false
        else s.trackOrStepButtonPressed := by
  obtain ⟨hread, hstart, ht, hs⟩ := h
  have e0 : ({ s.refreshButtons scan with hasActivePLockReceivers := false } :
      Sequencer).selectParamSet.latchView
      = (scan.functionButtons, scan.trackButtons, scan.stepButtons,
         s.trackOrStepButtonPressed) := latchView_selectParamSet _
  generalize hx : ({ s.refreshButtons scan with hasActivePLockReceivers := false } :
      Sequencer).selectParamSet = x at e0
  have e1 : (s.handle (Event.tick scan)).latchView
      = (x.runHandlers x.calculateFunctionMode scan.millis).latchView := by
    show (Sequencer.runClock _ _ _ _).latchView = _
    rw [latchView_runClock]
    show (Sequencer.setFunctionButtonLights _).latchView = _
    rw [latchView_setFunctionButtonLights, hx]
  simp only [Sequencer.latchView, Prod.mk.injEq] at e0
  have hm : x.calculateFunctionMode = FunctionMode.TOGGLE_PLOCKS :=
    calculateFunctionMode_held x (by rw [e0.1]; exact hstart) (by rw [e0.1]; exact hread)
  have e2 : x.runHandlers FunctionMode.TOGGLE_PLOCKS scan.millis
      = x.doSetTrackPLock.doSetTrackSelection := rfl
  rw [hm, e2, latchView_doSetTrackSelection, doSetTrackPLock_latchView x
    (fun i hi => by unfold Sequencer.trackButton; rw [e0.2.1]; exact ht i hi)
    (fun i hi => by unfold Sequencer.stepButton; rw [e0.2.2.1]; exact hs i hi)] at e1
  simp only [Sequencer.latchView, Prod.mk.injEq] at e1
  rw [e1.2.2.2, e0.1, e0.2.2.2]

theorem run_cons (s : Sequencer) (e : Event) (es : List Event) :
    s.run (e :: es) = (s.handle e).run es := rfl

theorem run_nil (s : Sequencer) : s.run [] = s := rfl

/-- While TOGGLE_PLOCK stays held with no track or step button released, a cleared latch stays
cleared. -/
theorem plockHeld_run (holds : List Scan) (s : Sequencer)
    (h : ∀ scan, scan ∈ holds → scan.plockHeld) (hs : s.trackOrStepButtonPressed = false) :
    (s.run (holds.map Event.tick)).trackOrStepButtonPressed = false := by
  induction holds generalizing s with
  | nil => exact hs
  | cons scan rest ih =>
    rw [List.map_cons, run_cons]
    apply ih _ (fun c hc => h c (List.mem_cons_of_mem _ hc))
    rw [plockHeld_tick s scan (h scan (List.mem_cons_self _ _)), hs]
    exact ite_self _

end PLockHold

/-! ### Leaving the plock mode -/

theorem turnOffPLockMode_getStep (P : SequencerPattern) (j : Nat) :
    (P.turnOffPLockMode.getStep j).isParameterLockOn = false ∧
    (P.turnOffPLockMode.getStep j).isTriggerOn = (P.getStep j).isTriggerOn ∧
    (∀ m, (P.turnOffPLockMode.getStep j).parameter m = (P.getStep j).parameter m) ∧
    (P.turnOffPLockMode.getStep j).triggerMask = (P.getStep j).triggerMask := by
  have e : P.turnOffPLockMode.getStep j
      = (fun st : SequencerStep =>
          if st.isParameterLockOn then st.toggleParameterLockRecord else st) (P.getStep j) :=
    list_getD_map P.steps _ j default
  rw [e]
  generalize P.getStep j = st
  beta_reduce
  rcases Bool.eq_false_or_eq_true st.isParameterLockOn with h | h
  · rw [if_pos h]
    refine ⟨?_, ?_, fun m => ?_, rfl⟩
    · show (st.state ^^^ 2).testBit 1 = false
      have h1 : st.state.testBit 1 = true := h
      rw [Nat.testBit_xor, h1]
      rfl
    · show (st.state ^^^ 2).testBit 0 = st.state.testBit 0
      rw [Nat.testBit_xor]
      cases st.state.testBit 0 <;> rfl
    · unfold SequencerStep.parameter
      split <;> rfl
  · rw [if_neg (by rw [h]; exact Bool.false_ne_true)]
    exact ⟨h, rfl, fun m => rfl, rfl⟩

theorem turnOffPLockMode_isInPLockMode (P : SequencerPattern) :
    P.turnOffPLockMode.isInPLockMode = false := by
  unfold SequencerPattern.isInPLockMode
  rw [List.any_eq_false]
  intro st hst
  obtain ⟨j, hj, e⟩ := List.getElem_of_mem hst
  have h := (turnOffPLockMode_getStep P j).1
  unfold SequencerPattern.getStep at h
  rw [List.getD_eq_getElem _ _ hj, e] at h
  rw [h]
  exact Bool.false_ne_true

theorem turnOffPLockMode_default : (default : SequencerPattern).turnOffPLockMode = default := by
  decide

theorem track_turnOffPLockMode_default :
    (default : SequencerTrack).turnOffPLockMode = default := by
  decide

/-- The patterns of a track after `turnOffPLockMode` on its current pattern. -/
theorem track_turnOffPLockMode (t : SequencerTrack) (p : Nat) :
    t.turnOffPLockMode.patterns.getD p default
      = if p = t.currentPatternIndex then (t.patterns.getD p default).turnOffPLockMode
        else t.patterns.getD p default := by
  unfold SequencerTrack.turnOffPLockMode SequencerTrack.setCurrentPattern
    SequencerTrack.getCurrentPattern
  simp only
  rw [list_getD_set]
  by_cases hp : p = t.currentPatternIndex
  · rw [if_pos hp]
    by_cases hl : t.currentPatternIndex < t.patterns.length
    · rw [if_pos ⟨hp, hl⟩, hp]
    · rw [if_neg (fun c => hl c.2), hp,
        List.getD_eq_default _ _ (Nat.le_of_not_lt hl), turnOffPLockMode_default]
  · rw [if_neg hp, if_neg (fun c => hp c.1)]

section PLockLeave

attribute [local irreducible] forLoop

/-- The tracks after `doTurnOffPlockMode`: the current pattern of each of the six tracks went
through `turnOffPLockMode`; both controllers are inactive. -/
theorem doTurnOffPlockMode_track (s : Sequencer) :
    (∀ i, s.doTurnOffPlockMode.track i
      = if i < 6 then (s.track i).turnOffPLockMode else s.track i) ∧
    s.doTurnOffPlockMode.input1.isActive = false ∧
    s.doTurnOffPlockMode.input2.isActive = false ∧
    s.doTurnOffPlockMode.stepButtons = s.stepButtons := by
  obtain ⟨-, h2, -, h4⟩ := forLoop_setTrack Sequencer.doTurnOffPlockModeTrack
    (fun _ t => t.turnOffPLockMode) (fun _ => True) (fun _ _ _ => trivial)
    (fun _ _ _ => rfl) 6 s trivial
  refine ⟨fun i => ?_, rfl, rfl, ?_⟩
  · have e : s.doTurnOffPlockMode.track i
        = (forLoop 6 Sequencer.doTurnOffPlockModeTrack s).track i := rfl
    rw [e, h4 i]
    by_cases hi : i < 6
    · rw [if_pos hi]
      by_cases hl : i < s.tracks.length
      · rw [if_pos ⟨hi, hl⟩]
      · rw [if_neg (fun c => hl c.2)]
        have e2 : s.track i = default := List.getD_eq_default _ _ (Nat.le_of_not_lt hl)
        rw [e2, track_turnOffPLockMode_default]
    · rw [if_neg hi, if_neg (fun c => hi c.1)]
  · have e : s.doTurnOffPlockMode.stepButtons
        = ({ forLoop 6 Sequencer.doTurnOffPlockModeTrack s with
              tracks := s.tracks } : Sequencer).stepButtons := rfl
    rw [e, h2]

end PLockLeave

section PLockRelease

attribute [local irreducible] forLoop

theorem doSetTrackSelectionTrack_tracks (i : Nat) (s : Sequencer) :
    (Sequencer.doSetTrackSelectionTrack i s).tracks = s.tracks ∧
    (Sequencer.doSetTrackSelectionTrack i s).stepButtons = s.stepButtons := by
  simp only [Sequencer.doSetTrackSelectionTrack, Sequencer.setDefaultTrackLight,
    Sequencer.setTrackLED, Sequencer.deactivateSensors,
    apply_ite Sequencer.tracks, apply_ite Sequencer.stepButtons, ite_self, and_self]

theorem doSetTrackSelectionTrack_inactive (i : Nat) (s : Sequencer)
    (h : s.input1.isActive = false ∧ s.input2.isActive = false) :
    (Sequencer.doSetTrackSelectionTrack i s).input1.isActive = false ∧
    (Sequencer.doSetTrackSelectionTrack i s).input2.isActive = false := by
  simp only [Sequencer.doSetTrackSelectionTrack, Sequencer.setDefaultTrackLight,
    Sequencer.setTrackLED, Sequencer.deactivateSensors,
    apply_ite Sequencer.input1, apply_ite Sequencer.input2, ite_self,
    apply_ite AnalogController.isActive, h.1, h.2]
  exact ⟨ite_self _, ite_self _⟩

/-- The handler `doSetTrackSelection` writes no track and no step button, and it leaves
inactive controllers inactive. -/
theorem doSetTrackSelection_tracks (s : Sequencer) :
    s.doSetTrackSelection.tracks = s.tracks ∧
    s.doSetTrackSelection.stepButtons = s.stepButtons ∧
    (s.input1.isActive = false ∧ s.input2.isActive = false →
      s.doSetTrackSelection.input1.isActive = false ∧
      s.doSetTrackSelection.input2.isActive = false) := by
  have h := forLoop_keeps (fun x : Sequencer => (x.tracks, x.stepButtons))
    Sequencer.doSetTrackSelectionTrack NUMBER_OF_INSTRUMENTTRACKS s
    (fun i y => by
      obtain ⟨h1, h2⟩ := doSetTrackSelectionTrack_tracks i y
      simp only [h1, h2])
  simp only [Prod.mk.injEq] at h
  exact ⟨h.1, h.2, fun hin =>
    forLoop_inv (fun y : Sequencer => y.input1.isActive = false ∧ y.input2.isActive = false)
      _ _ s (fun i y _ hy => doSetTrackSelectionTrack_inactive i y hy) hin⟩

theorem doSetTriggersStep_idle (i : Nat) (acc : Sequencer × Bool)
    (h1 : (acc.1.stepButton i).read = false) (h2 : (acc.1.stepButton i).fell = false) :
    Sequencer.doSetTriggersStep i acc
      = (acc.1.setStepLED i (Sequencer.colorForStepState (acc.1.selectedStep i).state),
         acc.2) := by
  unfold Sequencer.doSetTriggersStep
  simp only [h1, h2, Bool.false_eq_true, if_false, Bool.false_and]

theorem setStepLED_rest (s : Sequencer) (i : Int) (c : CRGB) :
    (s.setStepLED i c).tracks = s.tracks ∧ (s.setStepLED i c).stepButtons = s.stepButtons ∧
    (s.setStepLED i c).input1 = s.input1 ∧ (s.setStepLED i c).input2 = s.input2 := by
  unfold Sequencer.setStepLED
  split <;> exact ⟨rfl, rfl, rfl, rfl⟩

/-- With the step buttons at rest `doSetTriggers` writes no track and no controller. -/
theorem doSetTriggers_idle (s : Sequencer)
    (h1 : ∀ i, i < 16 → (s.stepButton i).read = false)
    (h2 : ∀ i, i < 16 → (s.stepButton i).fell = false) :
    s.doSetTriggers.tracks = s.tracks ∧ s.doSetTriggers.input1 = s.input1 ∧
    s.doSetTriggers.input2 = s.input2 := by
  have h := forLoop_inv
    (fun acc : Sequencer × Bool => acc.1.tracks = s.tracks ∧ acc.1.stepButtons = s.stepButtons ∧
      acc.1.input1 = s.input1 ∧ acc.1.input2 = s.input2)
    Sequencer.doSetTriggersStep NUMBER_OF_STEPBUTTONS (s, false)
    (fun i acc hi hacc => by
      have hb : ∀ k, acc.1.stepButton k = s.stepButton k := fun k => by
        unfold Sequencer.stepButton
        rw [hacc.2.1]
      show (Sequencer.doSetTriggersStep i acc).1.tracks = s.tracks ∧ _
      rw [doSetTriggersStep_idle i acc (by rw [hb]; exact h1 i hi) (by rw [hb]; exact h2 i hi)]
      obtain ⟨e1, e2, e3, e4⟩ := setStepLED_rest acc.1 i
        (Sequencer.colorForStepState (acc.1.selectedStep i).state)
      exact ⟨e1.trans hacc.1, e2.trans hacc.2.1, e3.trans hacc.2.2.1, e4.trans hacc.2.2.2⟩)
    ⟨rfl, rfl, rfl, rfl⟩
  simp only [Sequencer.doSetTriggers, apply_ite Sequencer.tracks, apply_ite Sequencer.input1,
    apply_ite Sequencer.input2, ite_self]
  exact ⟨h.1, h.2.2.1, h.2.2.2⟩

theorem selectParamSet_tracks (s : Sequencer) :
    s.selectParamSet.tracks = s.tracks := by
  simp only [Sequencer.selectParamSet, Sequencer.deactivateSensors,
    apply_ite Sequencer.tracks, ite_self]

theorem setFunctionButtonLights_rest (s : Sequencer) :
    s.setFunctionButtonLights.tracks = s.tracks ∧
    s.setFunctionButtonLights.input1 = s.input1 ∧
    s.setFunctionButtonLights.input2 = s.input2 := by
  simp only [Sequencer.setFunctionButtonLights, apply_ite Sequencer.tracks,
    apply_ite Sequencer.input1, apply_ite Sequencer.input2, ite_self, and_self]

/-- The handlers of the tick in which TOGGLE_PLOCK is released after an untouched hold: the
mode is LEAVE_TOGGLE_PLOCKS, the current pattern of each of the six tracks goes through
`turnOffPLockMode`, nothing else is written to the tracks, and both controllers are inactive
afterwards. -/
theorem plockReleased_handlers (s : Sequencer) (scan : Scan) (h : scan.plockReleased)
    (hl : s.trackOrStepButtonPressed = false) :
    (s.refreshButtons scan).calculateFunctionMode = FunctionMode.LEAVE_TOGGLE_PLOCKS ∧
    (∀ i, ((s.refreshButtons scan).updateStateHandlers scan.millis).track i
      = if i < 6 then (s.track i).turnOffPLockMode else s.track i) ∧
    ((s.refreshButtons scan).updateStateHandlers scan.millis).input1.isActive = false ∧
    ((s.refreshButtons scan).updateStateHandlers scan.millis).input2.isActive = false := by
  obtain ⟨hfell, hread, hstart, hsr, hsf⟩ := h
  have hm0 : (s.refreshButtons scan).calculateFunctionMode
      = FunctionMode.LEAVE_TOGGLE_PLOCKS :=
    calculateFunctionMode_released _ hstart hread hfell hl
  have e0 : ({ s.refreshButtons scan with hasActivePLockReceivers := false } :
      Sequencer).selectParamSet.latchView = (s.refreshButtons scan).latchView :=
    latchView_selectParamSet _
  have t0 : ({ s.refreshButtons scan with hasActivePLockReceivers := false } :
      Sequencer).selectParamSet.tracks = s.tracks := selectParamSet_tracks _
  generalize hx : ({ s.refreshButtons scan with hasActivePLockReceivers := false } :
      Sequencer).selectParamSet = x at e0 t0
  have hm : x.calculateFunctionMode = FunctionMode.LEAVE_TOGGLE_PLOCKS :=
    (calculateFunctionMode_latchView e0).trans hm0
  have e1 : (s.refreshButtons scan).updateStateHandlers scan.millis
      = (x.runHandlers x.calculateFunctionMode scan.millis).setFunctionButtonLights := by
    rw [← hx]
    rfl
  have e2 : x.runHandlers FunctionMode.LEAVE_TOGGLE_PLOCKS scan.millis
      = x.doTurnOffPlockMode.doSetTrackSelection.doSetTriggers := rfl
  obtain ⟨a1, a2, a3, a4⟩ := doTurnOffPlockMode_track x
  obtain ⟨b1, b2, b3⟩ := doSetTrackSelection_tracks x.doTurnOffPlockMode
  have hsb : x.stepButtons = scan.stepButtons := by
    simp only [Sequencer.latchView, Prod.mk.injEq] at e0
    exact e0.2.2.1
  have hbtn : ∀ k, x.doTurnOffPlockMode.doSetTrackSelection.stepButton k
      = scan.stepButtons.getD k default := fun k => by
    unfold Sequencer.stepButton
    rw [b2, a4, hsb]
  obtain ⟨c1, c2, c3⟩ := doSetTriggers_idle x.doTurnOffPlockMode.doSetTrackSelection
    (fun i hi => by rw [hbtn]; exact hsr i hi) (fun i hi => by rw [hbtn]; exact hsf i hi)
  obtain ⟨d1, d2, d3⟩ := setFunctionButtonLights_rest
    x.doTurnOffPlockMode.doSetTrackSelection.doSetTriggers
  obtain ⟨b4, b5⟩ := b3 ⟨a2, a3⟩
  rw [e1, hm, e2]
  refine ⟨hm0, fun i => ?_, ?_, ?_⟩
  · have e3 : ∀ y z : Sequencer, y.tracks = z.tracks → y.track i = z.track i :=
      fun y z hyz => track_congr hyz i
    rw [e3 _ _ (d1.trans (c1.trans b1)), a1 i, e3 _ _ t0]
  · rw [d2, c2]
    exact b4
  · rw [d3, c3]
    exact b5

end PLockRelease

/-! ### The clock phase and the steps -/

theorem track_doStep_patterns (t : SequencerTrack) :
    t.doStep.patterns = t.patterns.set t.currentPatternIndex
      { t.getCurrentPattern with
        currentStep := (t.getCurrentPattern.currentStep + 1) % t.getCurrentPattern.trackLength } := by
  simp only [SequencerTrack.doStep, SequencerTrack.setCurrentPattern,
    SequencerTrack.activateMuteArms, apply_ite SequencerTrack.patterns, ite_self]

/-- The step of a track's `doStep` changes the cursor only: every step of every pattern keeps
its content, and without a queued pattern the current pattern stays the current one. -/
theorem track_doStep_stepAt (t : SequencerTrack) :
    (∀ p j, t.doStep.stepAt p j = t.stepAt p j) ∧
    (t.queuedPatternIndex < 0 → t.doStep.currentPatternIndex = t.currentPatternIndex) := by
  refine ⟨fun p j => ?_, fun hq => ?_⟩
  · unfold SequencerTrack.stepAt
    rw [track_doStep_patterns, list_getD_set]
    by_cases h : p = t.currentPatternIndex ∧ t.currentPatternIndex < t.patterns.length
    · rw [if_pos h, h.1]
      rfl
    · rw [if_neg h]
  · have hn : ¬ (0 ≤ t.queuedPatternIndex) := by omega
    simp only [SequencerTrack.doStep, SequencerTrack.setCurrentPattern,
      SequencerTrack.activateMuteArms, apply_ite SequencerTrack.currentPatternIndex, ite_self,
      hn, if_false]

/-- The recording of parameter locks writes only a step whose plock bit is set. -/
theorem recordedTrack_stepAt (s : Sequencer) (t : SequencerTrack) :
    (∀ p j, (t.stepAt p j).isParameterLockOn = false →
      (s.recordedTrack t).stepAt p j = t.stepAt p j) ∧
    (s.recordedTrack t).currentPatternIndex = t.currentPatternIndex := by
  unfold Sequencer.recordedTrack
  by_cases h : t.getCurrentStep.isParameterLockOn = true
  · rw [if_pos h]
    refine ⟨fun p j hp => ?_, rfl⟩
    rcases setCurrentStep_getStep t (s.recordPLock t.getCurrentStep) p j with e | e
    · exact e
    · exfalso
      unfold SequencerTrack.stepAt at hp
      rw [e, h] at hp
      exact Bool.noConfusion hp
  · rw [if_neg h]
    exact ⟨fun _ _ _ => rfl, rfl⟩

section PLockClock

attribute [local irreducible] forLoop

theorem doStep_track (s : Sequencer) (i : Nat) :
    s.doStep.track i = if i < 6 ∧ i < s.tracks.length then (s.track i).doStep else s.track i := by
  obtain ⟨-, -, -, h4⟩ := forLoop_setTrack Sequencer.doStepTrack
    (fun _ t => t.doStep) (fun _ => True) (fun _ _ _ => trivial)
    (fun _ _ _ => rfl) 6 { s with log := s.log ++ [Call.doStep] } trivial
  exact h4 i

theorem shouldStep_tracks (s : Sequencer) (millis : Nat) :
    (s.shouldStep millis).2.tracks = s.tracks := by
  simp only [Sequencer.shouldStep, Sequencer.shouldStepMidiClock,
    Sequencer.shouldStepInternalClock, apply_ite (Prod.snd : Bool × Sequencer → Sequencer),
    apply_ite Sequencer.tracks, ite_self]

/-- The clock phase of a tick writes no step whose plock bit is clear, whichever pattern the
step belongs to; a track without a queued pattern keeps its current pattern. -/
theorem runClock_stepAt (s : Sequencer) (millis poti1 poti2 i : Nat) :
    (∀ p j, ((s.track i).stepAt p j).isParameterLockOn = false →
      ((s.runClock millis poti1 poti2).track i).stepAt p j = (s.track i).stepAt p j) ∧
    ((s.track i).queuedPatternIndex < 0 →
      ((s.runClock millis poti1 poti2).track i).currentPatternIndex
        = (s.track i).currentPatternIndex) := by
  have hstep : ∀ x : Sequencer, (∀ p j, (x.doStep.track i).stepAt p j = (x.track i).stepAt p j) ∧
      ((x.track i).queuedPatternIndex < 0 →
        (x.doStep.track i).currentPatternIndex = (x.track i).currentPatternIndex) := by
    intro x
    rw [doStep_track]
    by_cases h : i < 6 ∧ i < x.tracks.length
    · rw [if_pos h]
      exact track_doStep_stepAt _
    · rw [if_neg h]
      exact ⟨fun _ _ => rfl, fun _ => rfl⟩
  have hdue : ∀ x : Sequencer,
      (∀ p j, ((x.stepIfDue millis).track i).stepAt p j = (x.track i).stepAt p j) ∧
      ((x.track i).queuedPatternIndex < 0 →
        ((x.stepIfDue millis).track i).currentPatternIndex
          = (x.track i).currentPatternIndex) := by
    intro x
    have e : (x.shouldStep millis).2.track i = x.track i :=
      track_congr (shouldStep_tracks x millis) i
    unfold Sequencer.stepIfDue
    simp only
    by_cases h : (x.shouldStep millis).1 = true
    · rw [if_pos h]
      obtain ⟨a, b⟩ := hstep (x.shouldStep millis).2
      rw [e] at a b
      exact ⟨a, b⟩
    · rw [if_neg h, e]
      exact ⟨fun _ _ => rfl, fun _ => rfl⟩
  have hsound : ∀ x : Sequencer,
      (∀ p j, ((x.track i).stepAt p j).isParameterLockOn = false →
        (((x.triggerIfPending poti1 poti2).track i).stepAt p j = (x.track i).stepAt p j)) ∧
      ((x.triggerIfPending poti1 poti2).track i).currentPatternIndex
        = (x.track i).currentPatternIndex := by
    intro x
    unfold Sequencer.triggerIfPending
    by_cases h : x.triggerSounds = true
    · rw [if_pos h]
      obtain ⟨-, -, -, -, e5, -⟩ := doTriggerSounds_spec x poti1 poti2
      rw [e5 i]
      by_cases hi : i < 6
      · rw [if_pos hi]
        exact recordedTrack_stepAt _ _
      · rw [if_neg hi]
        exact ⟨fun _ _ _ => rfl, rfl⟩
    · rw [if_neg h]
      exact ⟨fun _ _ _ => rfl, rfl⟩
  have hled : ∀ (x : Sequencer) (k : Int) (c : CRGB), (x.setStepLED k c).track i = x.track i :=
    fun x k c => track_congr (tracks_setStepLED x k c) i
  have hmid : ∀ x : Sequencer,
      (∀ p j, ((x.track i).stepAt p j).isParameterLockOn = false →
        ((((x.stepIfDue millis).triggerIfPending poti1 poti2).track i).stepAt p j
          = (x.track i).stepAt p j)) ∧
      ((x.track i).queuedPatternIndex < 0 →
        (((x.stepIfDue millis).triggerIfPending poti1 poti2).track i).currentPatternIndex
          = (x.track i).currentPatternIndex) := by
    intro x
    obtain ⟨a1, a2⟩ := hdue x
    obtain ⟨b1, b2⟩ := hsound (x.stepIfDue millis)
    refine ⟨fun p j hp => ?_, fun hq => ?_⟩
    · rw [b1 p j (by rw [a1]; exact hp), a1]
    · rw [b2, a2 hq]
  unfold Sequencer.runClock
  simp only
  by_cases hr : s.running = true
  · simp only [hr, if_true, apply_ite (fun x : Sequencer => x.track i), hled, ite_self]
    exact hmid s
  · simp only [hr, if_false, apply_ite (fun x : Sequencer => x.track i), hled, ite_self]
    exact ⟨fun _ _ _ => rfl, fun _ => rfl⟩

end PLockClock

theorem list_any_of_getD {α : Type} (l : List α) (f : α → Bool) (d : α)
    (h : ∀ j, f (l.getD j d) = false) : l.any f = false := by
  rw [List.any_eq_false]
  intro a ha
  obtain ⟨j, hj, e⟩ := List.getElem_of_mem ha
  have hf := h j
  rw [List.getD_eq_getElem _ _ hj, e] at hf
  rw [hf]
  exact Bool.false_ne_true

/-- C17, amended: the plock cancel-tap. TOGGLE_PLOCK goes down in the scan `press`, stays down
through the scans `holds` and is released in the scan `release`; START/STOP does not rise, no
track button and no step button is released during the hold, and the step buttons are at rest
in the release scan. Then, whatever the latch `trackOrStepButtonPressed` was before: the latch is clear
when the hold ends (`held`), the release tick runs in LEAVE_TOGGLE_PLOCKS, and right after its
handlers both controllers are inactive and, on each of the six tracks, the current pattern is the
same pattern as before the tick, is out of plock mode, has the plock bit clear on every step and
has the trigger bit and the six parameters of every step as before the tick. At the end of the
release tick (`after`, the clock phase included) the same holds of that pattern, and it is still
the current pattern of the track unless a queued pattern switch was pending. -/
theorem plock_cancel_tap (s : Sequencer) (press release : Scan) (holds : List Scan)
    (hrose : press.functionButtons.BUTTON_TOGGLE_PLOCK.rose = true)
    (hpress : press.plockHeld) (hholds : ∀ scan, scan ∈ holds → scan.plockHeld)
    (hrel : release.plockReleased) :
    ∀ held handled after : Sequencer,
      held = s.run (Event.tick press :: holds.map Event.tick) →
      handled = (held.refreshButtons release).updateStateHandlers release.millis →
      after = held.handle (Event.tick release) →
      held.trackOrStepButtonPressed = false ∧
      (held.refreshButtons release).calculateFunctionMode = FunctionMode.LEAVE_TOGGLE_PLOCKS ∧
      handled.input1.isActive = false ∧ handled.input2.isActive = false ∧
      ∀ i, i < 6 →
        ((handled.track i).currentPatternIndex = (held.track i).currentPatternIndex ∧
         (handled.track i).getCurrentPattern.isInPLockMode = false ∧
         ∀ j, ((handled.track i).getCurrentPattern.getStep j).isParameterLockOn = false ∧
           ((handled.track i).getCurrentPattern.getStep j).isTriggerOn
             = ((held.track i).getCurrentPattern.getStep j).isTriggerOn ∧
           ∀ m, ((handled.track i).getCurrentPattern.getStep j).parameter m
             = ((held.track i).getCurrentPattern.getStep j).parameter m) ∧
        (((after.track i).patterns.getD (held.track i).currentPatternIndex
            default).isInPLockMode = false ∧
         ∀ j, ((after.track i).stepAt (held.track i).currentPatternIndex j).isParameterLockOn
             = false ∧
           ((after.track i).stepAt (held.track i).currentPatternIndex j).isTriggerOn
             = ((held.track i).getCurrentPattern.getStep j).isTriggerOn ∧
           ∀ m, ((after.track i).stepAt (held.track i).currentPatternIndex j).parameter m
             = ((held.track i).getCurrentPattern.getStep j).parameter m) ∧
        ((held.track i).queuedPatternIndex < 0 →
          (after.track i).currentPatternIndex = (held.track i).currentPatternIndex) := by
  intro held handled after hheld hhandled hafter
  have hlatch : held.trackOrStepButtonPressed = false := by
    rw [hheld, run_cons]
    apply plockHeld_run holds _ hholds
    rw [plockHeld_tick s press hpress, hrose]
    rfl
  obtain ⟨hmode, htrack, hin1, hin2⟩ := plockReleased_handlers held release hrel hlatch
  rw [← hhandled] at htrack hin1 hin2
  have hclock : after
      = handled.runClock release.millis release.poti1 release.poti2 := by
    rw [hafter, hhandled]
    rfl
  refine ⟨hlatch, hmode, hin1, hin2, fun i hi => ?_⟩
  have ht : handled.track i = (held.track i).turnOffPLockMode := by
    rw [htrack i, if_pos hi]
  have hpat : (handled.track i).patterns.getD (held.track i).currentPatternIndex default
      = (held.track i).getCurrentPattern.turnOffPLockMode := by
    rw [ht, track_turnOffPLockMode, if_pos rfl]
    rfl
  have hcur : (handled.track i).getCurrentPattern
      = (held.track i).getCurrentPattern.turnOffPLockMode := by
    rw [← hpat, ht]
    rfl
  have hsteps : ∀ j, ((handled.track i).stepAt (held.track i).currentPatternIndex j)
      = (held.track i).getCurrentPattern.turnOffPLockMode.getStep j := fun j => by
    unfold SequencerTrack.stepAt
    rw [hpat]
  obtain ⟨c1, c2⟩ := runClock_stepAt handled release.millis release.poti1 release.poti2 i
  have hafterStep : ∀ j, (after.track i).stepAt (held.track i).currentPatternIndex j
      = (held.track i).getCurrentPattern.turnOffPLockMode.getStep j := fun j => by
    rw [hclock, c1 _ j (by rw [hsteps]; exact (turnOffPLockMode_getStep _ j).1), hsteps]
  refine ⟨⟨by rw [ht]; rfl, ?_, fun j => ?_⟩, ⟨?_, fun j => ?_⟩, fun hq => ?_⟩
  · rw [hcur]
    exact turnOffPLockMode_isInPLockMode _
  · rw [hcur]
    obtain ⟨a, b, c, -⟩ := turnOffPLockMode_getStep (held.track i).getCurrentPattern j
    exact ⟨a, b, c⟩
  · apply list_any_of_getD _ _ default
    intro j
    have e := hafterStep j
    unfold SequencerTrack.stepAt SequencerPattern.getStep at e
    rw [e]
    exact (turnOffPLockMode_getStep _ j).1
  · rw [hafterStep]
    obtain ⟨a, b, c, -⟩ := turnOffPLockMode_getStep (held.track i).getCurrentPattern j
    exact ⟨a, b, c⟩
  · rw [hclock, c2 (by rw [ht]; exact hq), ht]
    rfl

set_option maxRecDepth 100000 in
theorem plock_cancel_tap_witness :
    plockTapScenario.trackOrStepButtonPressed = true ∧
    (plockTapScenario.track 0).getCurrentPattern.isInPLockMode = true ∧
    (((plockTapScenario.run [Event.tick plockTapPress, Event.tick plockTapHold,
        Event.tick plockTapRelease]).track 0).patterns.getD 0 default).isInPLockMode
      = false := by
  have w := (plock_cancel_tap plockTapScenario plockTapPress plockTapRelease [plockTapHold]
    (by decide) (by decide) (by decide) (by decide) _ _ _ rfl rfl rfl).2.2.2.2 0 (by decide)
  exact ⟨by decide, by decide, w.2.1.1⟩

set_option maxRecDepth 100000 in
/-- C17, counterexample: the sequencer runs, the next step is due at 25 ms, and on track 0 the
cursor of pattern 0 stands on its last step while a switch to pattern 1 is queued; step 0 of
pattern 1 has the plock bit set. TOGGLE_PLOCK goes down at 10 ms and is released at 30 ms, all
other buttons at rest. The release tick runs in LEAVE_TOGGLE_PLOCKS and clears pattern 0; its
clock phase then steps track 0, the cursor wraps and the queued switch commits. After the
release tick the current pattern of track 0 is pattern 1, which is in plock mode. -/
theorem plock_tap_queued_switch :
    plockTapPress.functionButtons.BUTTON_TOGGLE_PLOCK.rose = true ∧
    plockTapPress.plockHeld ∧ plockTapRelease.plockReleased ∧
    ((plockQueuedScenario.run [Event.tick plockTapPress]).refreshButtons
      plockTapRelease).calculateFunctionMode = FunctionMode.LEAVE_TOGGLE_PLOCKS ∧
    ((plockQueuedScenario.run [Event.tick plockTapPress]).track 0).currentPatternIndex = 0 ∧
    ((plockQueuedScenario.run [Event.tick plockTapPress,
      Event.tick plockTapRelease]).track 0).currentPatternIndex = 1 ∧
    ((plockQueuedScenario.run [Event.tick plockTapPress,
      Event.tick plockTapRelease]).track 0).getCurrentPattern.isInPLockMode = true ∧
    (((plockQueuedScenario.run [Event.tick plockTapPress,
      Event.tick plockTapRelease]).track 0).getCurrentPattern.getStep 0).isParameterLockOn
      = true := by
  decide


/-! ### The bounds on the cursor -/

theorem list_getD_mem_or_default {α : Type} (l : List α) (i : Nat) (d : α) :
    l.getD i d ∈ l ∨ l.getD i d = d := by
  by_cases h : i < l.length
  · rw [List.getD_eq_getElem _ _ h]
    exact Or.inl (List.getElem_mem h)
  · exact Or.inr (List.getD_eq_default _ _ (Nat.le_of_not_lt h))

theorem list_mem_set {α : Type} (l : List α) (j : Nat) (x a : α) (h : a ∈ l.set j x) :
    a = x ∨ a ∈ l := by
  induction l generalizing j with
  | nil => exact Or.inr h
  | cons b rest ih =>
    cases j with
    | zero =>
      rw [List.set_cons_zero, List.mem_cons] at h
      rcases h with h | h
      · exact Or.inl h
      · exact Or.inr (List.mem_cons_of_mem _ h)
    | succ k =>
      rw [List.set_cons_succ, List.mem_cons] at h
      rcases h with h | h
      · exact Or.inr (h ▸ List.mem_cons_self _ _)
      · rcases ih k h with e | e
        · exact Or.inl e
        · exact Or.inr (List.mem_cons_of_mem _ e)

theorem cursorInRange_default : (default : SequencerPattern).cursorInRange := by decide

theorem cursorsInRange_default : (default : SequencerTrack).cursorsInRange := by decide

theorem cursorInRange_getD (t : SequencerTrack) (h : t.cursorsInRange) (i : Nat) :
    (t.patterns.getD i default).cursorInRange := by
  rcases list_getD_mem_or_default t.patterns i default with e | e
  · exact h _ e
  · rw [e]
    exact cursorInRange_default

theorem cursorInRange_getCurrentPattern (t : SequencerTrack) (h : t.cursorsInRange) :
    t.getCurrentPattern.cursorInRange := cursorInRange_getD t h _

theorem tracksInRange_getD (l : List SequencerTrack) (h : tracksInRange l) (i : Nat) :
    (l.getD i default).cursorsInRange := by
  rcases list_getD_mem_or_default l i default with e | e
  · exact h _ e
  · rw [e]
    exact cursorsInRange_default

theorem tracksInRange_set (l : List SequencerTrack) (j : Nat) (t : SequencerTrack)
    (h : tracksInRange l) (ht : t.cursorsInRange) : tracksInRange (l.set j t) := by
  intro a ha
  rcases list_mem_set l j t a ha with e | e
  · rw [e]
    exact ht
  · exact h a e

theorem cursorsInRange_set (t : SequencerTrack) (i : Nat) (q : SequencerPattern)
    (h : t.cursorsInRange) (hq : q.cursorInRange) :
    ({ t with patterns := t.patterns.set i q } : SequencerTrack).cursorsInRange := by
  intro a ha
  rcases list_mem_set t.patterns i q a ha with e | e
  · rw [e]
    exact hq
  · exact h a e

theorem cursorsInRange_setCurrentPattern (t : SequencerTrack) (q : SequencerPattern)
    (h : t.cursorsInRange) (hq : q.cursorInRange) : (t.setCurrentPattern q).cursorsInRange :=
  cursorsInRange_set t _ q h hq

/-- A track operation that leaves the pattern array alone keeps the bounds. -/
theorem cursorsInRange_of_patterns {t u : SequencerTrack} (e : u.patterns = t.patterns)
    (h : t.cursorsInRange) : u.cursorsInRange := by
  unfold SequencerTrack.cursorsInRange
  rw [e]
  exact h

/-- A pattern operation that leaves the cursor and the loop length alone keeps the bounds. -/
theorem cursorInRange_of_eq {p q : SequencerPattern} (e1 : q.currentStep = p.currentStep)
    (e2 : q.trackLength = p.trackLength) (h : p.cursorInRange) : q.cursorInRange := by
  unfold SequencerPattern.cursorInRange
  rw [e1, e2]
  exact h

theorem cursorInRange_setStep (p : SequencerPattern) (j : Nat) (st : SequencerStep)
    (h : p.cursorInRange) : (p.setStep j st).cursorInRange := h

theorem cursorInRange_togglePLockMode (p : SequencerPattern) (h : p.cursorInRange) :
    p.togglePLockMode.cursorInRange := h

theorem cursorInRange_turnOffPLockMode (p : SequencerPattern) (h : p.cursorInRange) :
    p.turnOffPLockMode.cursorInRange := h

theorem cursorInRange_copyValuesFrom (p q : SequencerPattern) (h : p.cursorInRange) :
    (p.copyValuesFrom q).cursorInRange := h

theorem cursorInRange_offset (p : SequencerPattern) (k : Nat) (h : p.cursorInRange) :
    ({ p with offset := k } : SequencerPattern).cursorInRange := h

theorem cursorInRange_trackLength (p : SequencerPattern) (i : Nat) (hi : i < 16)
    (h : p.cursorInRange) : ({ p with trackLength := i + 1 } : SequencerPattern).cursorInRange :=
  ⟨h.1, Nat.succ_le_succ (Nat.zero_le i), hi⟩

theorem cursorsInRange_setCurrentStep (t : SequencerTrack) (st : SequencerStep)
    (h : t.cursorsInRange) : (t.setCurrentStep st).cursorsInRange :=
  cursorsInRange_setCurrentPattern t _ h
    (cursorInRange_setStep _ _ _ (cursorInRange_getCurrentPattern t h))

/-- The step of a track keeps the bounds, and it puts the cursor of the pattern it advanced
below the loop length. -/
theorem cursorsInRange_doStep (t : SequencerTrack) (h : t.cursorsInRange) :
    t.doStep.cursorsInRange ∧
    (t.currentPatternIndex < t.patterns.length →
      (t.doStep.patterns.getD t.currentPatternIndex default).currentStep
        < (t.doStep.patterns.getD t.currentPatternIndex default).trackLength) := by
  obtain ⟨-, h1, h2⟩ := cursorInRange_getCurrentPattern t h
  have hc : (t.getCurrentPattern.currentStep + 1) % t.getCurrentPattern.trackLength
      < t.getCurrentPattern.trackLength := Nat.mod_lt _ h1
  refine ⟨?_, fun hl => ?_⟩
  · intro a ha
    rw [track_doStep_patterns] at ha
    rcases list_mem_set _ _ _ a ha with e | e
    · rw [e]
      exact ⟨by show _ % _ < 16; omega, h1, h2⟩
    · exact h a e
  · rw [track_doStep_patterns, list_getD_set, if_pos ⟨rfl, hl⟩]
    exact hc

theorem cursorsInRange_onStop (t : SequencerTrack) (h : t.cursorsInRange) :
    t.onStop.cursorsInRange := by
  obtain ⟨-, h1, h2⟩ := cursorInRange_getCurrentPattern t h
  exact cursorsInRange_setCurrentPattern t _ h ⟨by show _ - 1 < 16; omega, h1, h2⟩

theorem cursorsInRange_recordedTrack (s : Sequencer) (t : SequencerTrack)
    (h : t.cursorsInRange) : (s.recordedTrack t).cursorsInRange := by
  unfold Sequencer.recordedTrack
  split
  · exact cursorsInRange_setCurrentStep t _ h
  · exact h

/-- Writing a step of the current pattern of a track keeps the bounds. -/
theorem tracksInRange_setStep (l : List SequencerTrack) (j i : Nat) (st : SequencerStep)
    (h : tracksInRange l) :
    tracksInRange (l.set j ((l.getD j default).setCurrentPattern
      ((l.getD j default).getCurrentPattern.setStep i st))) :=
  tracksInRange_set _ _ _ h (cursorsInRange_setCurrentPattern _ _ (tracksInRange_getD _ h _)
    (cursorInRange_setStep _ _ _ (cursorInRange_getCurrentPattern _ (tracksInRange_getD _ h _))))

/-- Replacing the current pattern of a track by a pattern within bounds keeps the bounds. -/
theorem tracksInRange_setCurrentPattern (l : List SequencerTrack) (j : Nat)
    (q : SequencerPattern) (h : tracksInRange l) (hq : q.cursorInRange) :
    tracksInRange (l.set j ((l.getD j default).setCurrentPattern q)) :=
  tracksInRange_set _ _ _ h (cursorsInRange_setCurrentPattern _ _ (tracksInRange_getD _ h _) hq)

/-- Replacing a track by one with the same pattern array keeps the bounds. -/
theorem tracksInRange_same (l : List SequencerTrack) (j : Nat) (u : SequencerTrack)
    (h : tracksInRange l) (e : u.patterns = (l.getD j default).patterns) :
    tracksInRange (l.set j u) :=
  tracksInRange_set _ _ _ h (cursorsInRange_of_patterns e (tracksInRange_getD _ h _))

section CursorBounds

attribute [local irreducible] forLoop

theorem tracks_setDefaultTrackLight (s : Sequencer) (i : Nat) :
    (s.setDefaultTrackLight i).tracks = s.tracks := by
  simp only [Sequencer.setDefaultTrackLight, Sequencer.setTrackLED,
    apply_ite Sequencer.tracks, ite_self]

theorem tracks_advanceLedFader (s : Sequencer) : s.advanceLedFader.tracks = s.tracks := by
  simp only [Sequencer.advanceLedFader, apply_ite Sequencer.tracks, ite_self]

theorem inRange_doSetTriggersStep (i : Nat) (acc : Sequencer × Bool)
    (h : tracksInRange acc.1.tracks) :
    tracksInRange (Sequencer.doSetTriggersStep i acc).1.tracks := by
  simp only [Sequencer.doSetTriggersStep, Sequencer.setSelectedStep, Sequencer.setTrack,
    Sequencer.track, tracks_setStepLED, apply_ite Sequencer.tracks,
    apply_ite (Prod.fst : Sequencer × Bool → Sequencer)]
  split_ifs <;>
  first
    | exact h
    | exact tracksInRange_setStep _ _ _ _ h
    | exact tracksInRange_setStep _ _ _ _ (tracksInRange_setStep _ _ _ _ h)

theorem inRange_doSetTrackLengthStep (i : Nat) (hi : i < 16) (s : Sequencer)
    (h : tracksInRange s.tracks) :
    tracksInRange (Sequencer.doSetTrackLengthStep i s).tracks := by
  simp only [Sequencer.doSetTrackLengthStep, Sequencer.setSelectedStep, Sequencer.setTrack,
    Sequencer.track, tracks_setStepLED, apply_ite Sequencer.tracks,
    apply_ite (Prod.fst : Sequencer × Bool → Sequencer)]
  split_ifs
  · exact tracksInRange_setCurrentPattern _ _ _ h (cursorInRange_trackLength _ i hi
      (cursorInRange_getCurrentPattern _ (tracksInRange_getD _ h _)))
  · exact h

end CursorBounds

theorem tracksInRange_map (l : List SequencerTrack) (f : SequencerTrack → SequencerTrack)
    (hf : ∀ t, (f t).patterns = t.patterns) (h : tracksInRange l) :
    tracksInRange (l.map f) := by
  intro a ha
  rw [List.mem_map] at ha
  obtain ⟨t, ht, e⟩ := ha
  rw [← e]
  exact cursorsInRange_of_patterns (hf t) (h t ht)

theorem activateMuteArms_patterns (t : SequencerTrack) :
    t.activateMuteArms.patterns = t.patterns := by
  unfold SequencerTrack.activateMuteArms
  split <;> rfl

section CursorBodies

attribute [local irreducible] forLoop

theorem forLoop_inRange (body : Nat → Sequencer → Sequencer) (n : Nat)
    (hb : ∀ i y, i < n → tracksInRange y.tracks → tracksInRange (body i y).tracks)
    (x : Sequencer) (hx : tracksInRange x.tracks) : tracksInRange (forLoop n body x).tracks :=
  forLoop_inv (fun y => tracksInRange y.tracks) body n x hb hx

theorem forLoop_inRange_fst (body : Nat → Sequencer × Bool → Sequencer × Bool) (n : Nat)
    (hb : ∀ i y, i < n → tracksInRange y.1.tracks → tracksInRange (body i y).1.tracks)
    (x : Sequencer × Bool) (hx : tracksInRange x.1.tracks) :
    tracksInRange (forLoop n body x).1.tracks :=
  forLoop_inv (fun y => tracksInRange y.1.tracks) body n x hb hx

theorem inRange_doSetTrackPLockTrack (i : Nat) (s : Sequencer) (h : tracksInRange s.tracks) :
    tracksInRange (Sequencer.doSetTrackPLockTrack i s).tracks := by
  simp only [Sequencer.doSetTrackPLockTrack, Sequencer.setTrack, Sequencer.track,
    apply_ite Sequencer.tracks]
  split_ifs
  · exact tracksInRange_setCurrentPattern _ _ _ h (cursorInRange_togglePLockMode _
      (cursorInRange_getCurrentPattern _ (tracksInRange_getD _ h _)))
  · exact h

theorem inRange_doSetTrackPLockStep (i : Nat) (s : Sequencer) (h : tracksInRange s.tracks) :
    tracksInRange (Sequencer.doSetTrackPLockStep i s).tracks := by
  simp only [Sequencer.doSetTrackPLockStep, Sequencer.setSelectedStep, Sequencer.setTrack,
    Sequencer.track, tracks_setStepLED, apply_ite Sequencer.tracks]
  split_ifs
  · exact tracksInRange_setStep _ _ _ _ h
  · exact h

theorem inRange_doTurnOffPlockModeTrack (i : Nat) (s : Sequencer)
    (h : tracksInRange s.tracks) :
    tracksInRange (Sequencer.doTurnOffPlockModeTrack i s).tracks :=
  tracksInRange_setCurrentPattern _ _ _ h (cursorInRange_turnOffPLockMode _
    (cursorInRange_getCurrentPattern _ (tracksInRange_getD _ h _)))

theorem inRange_doToggleTrackMuteArmTrack (i : Nat) (s : Sequencer)
    (h : tracksInRange s.tracks) :
    tracksInRange (Sequencer.doToggleTrackMuteArmTrack i s).tracks := by
  simp only [Sequencer.doToggleTrackMuteArmTrack, Sequencer.setTrack, Sequencer.track,
    apply_ite Sequencer.tracks]
  split_ifs
  · exact tracksInRange_same _ _ _ h rfl
  · exact h

theorem tracks_doToggleTrackMuteArmLight (i : Nat) (s : Sequencer) :
    (Sequencer.doToggleTrackMuteArmLight i s).tracks = s.tracks := by
  simp only [Sequencer.doToggleTrackMuteArmLight, Sequencer.setTrackLED,
    tracks_setDefaultTrackLight, apply_ite Sequencer.tracks, ite_self]

theorem inRange_doUpdateMutesTrack (i : Nat) (s : Sequencer) (h : tracksInRange s.tracks) :
    tracksInRange (Sequencer.doUpdateMutesTrack i s).tracks :=
  tracksInRange_same _ _ _ h (activateMuteArms_patterns _)

theorem inRange_doPatternOpsTrack (i : Nat) (s : Sequencer) (h : tracksInRange s.tracks) :
    tracksInRange (Sequencer.doPatternOpsTrack i s).tracks := by
  simp only [Sequencer.doPatternOpsTrack, Sequencer.setTrack, Sequencer.track,
    Sequencer.setTrackLED, tracks_setDefaultTrackLight, apply_ite Sequencer.tracks, ite_self]
  split_ifs
  · exact tracksInRange_same _ _ _ h rfl
  · exact h

theorem inRange_doPatternOpsCopy (i k : Nat) (s : Sequencer) (h : tracksInRange s.tracks) :
    tracksInRange (Sequencer.doPatternOpsCopy i k s).tracks := by
  simp only [Sequencer.doPatternOpsCopy, Sequencer.setTrack, Sequencer.track,
    tracks_setStepLED, apply_ite Sequencer.tracks]
  split_ifs
  · exact tracksInRange_set _ _ _ h (cursorsInRange_set _ _ _ (tracksInRange_getD _ h _)
      (cursorInRange_copyValuesFrom _ _ (cursorInRange_getD _ (tracksInRange_getD _ h _) _)))
  · exact h

theorem inRange_doPatternOpsStep (c i : Nat) (acc : Sequencer × Bool)
    (h : tracksInRange acc.1.tracks) :
    tracksInRange (Sequencer.doPatternOpsStep c i acc).1.tracks := by
  have hc := forLoop_inRange (Sequencer.doPatternOpsCopy i) NUMBER_OF_INSTRUMENTTRACKS
    (fun k y _ hy => inRange_doPatternOpsCopy i k y hy) acc.1 h
  simp only [Sequencer.doPatternOpsStep, tracks_setStepLED, apply_ite Sequencer.tracks,
    apply_ite (Prod.fst : Sequencer × Bool → Sequencer), ite_self]
  split_ifs <;> first | exact h | exact hc

theorem inRange_doLeavePatternOpsTrack (k : Nat) (s : Sequencer)
    (h : tracksInRange s.tracks) :
    tracksInRange (Sequencer.doLeavePatternOpsTrack k s).tracks := by
  simp only [Sequencer.doLeavePatternOpsTrack, Sequencer.setTrack, Sequencer.track,
    apply_ite Sequencer.tracks]
  split_ifs <;> first | exact h | exact tracksInRange_same _ _ _ h rfl

theorem inRange_doStepTrack (i : Nat) (s : Sequencer) (h : tracksInRange s.tracks) :
    tracksInRange (Sequencer.doStepTrack i s).tracks :=
  tracksInRange_set _ _ _ h (cursorsInRange_doStep _ (tracksInRange_getD _ h _)).1

theorem inRange_onStopTrack (i : Nat) (s : Sequencer) (h : tracksInRange s.tracks) :
    tracksInRange (Sequencer.onStopTrack i s).tracks :=
  tracksInRange_set _ _ _ h (cursorsInRange_onStop _ (tracksInRange_getD _ h _))

theorem inRange_doTriggerSoundsTrack (i : Nat) (s : Sequencer) (h : tracksInRange s.tracks) :
    tracksInRange (Sequencer.doTriggerSoundsTrack i s).tracks := by
  simp only [Sequencer.doTriggerSoundsTrack, Sequencer.setTrack, Sequencer.track,
    apply_ite Sequencer.tracks, ite_self]
  split_ifs
  · exact tracksInRange_set _ _ _ h (cursorsInRange_setCurrentStep _ _
      (tracksInRange_getD _ h _))
  · exact h

end CursorBodies

section CursorHandlers

attribute [local irreducible] forLoop

theorem inRange_doSetTrackLength (s : Sequencer) (h : tracksInRange s.tracks) :
    tracksInRange s.doSetTrackLength.tracks := by
  have hL := forLoop_inRange Sequencer.doSetTrackLengthStep NUMBER_OF_STEPBUTTONS
    (fun i y hi hy => inRange_doSetTrackLengthStep i hi y hy)
    { s with functionLeds :=
      { s.functionLeds with BUTTON_SET_TRACKLENGTH := CRGB.CornflowerBlue } } h
  simp only [Sequencer.doSetTrackLength, Sequencer.setTrack, Sequencer.track,
    tracks_setStepLED, apply_ite Sequencer.tracks, ite_self]
  split_ifs <;> first
    | exact hL
    | exact tracksInRange_setCurrentPattern _ _ _ hL (cursorInRange_offset _ _
        (cursorInRange_getCurrentPattern _ (tracksInRange_getD _ hL _)))

theorem inRange_doSetTrackPLock (s : Sequencer) (h : tracksInRange s.tracks) :
    tracksInRange s.doSetTrackPLock.tracks := by
  have h1 := forLoop_inRange Sequencer.doSetTrackPLockTrack NUMBER_OF_INSTRUMENTTRACKS
    (fun i y _ hy => inRange_doSetTrackPLockTrack i y hy)
    { s with functionLeds :=
      { s.functionLeds with BUTTON_TOGGLE_PLOCK := CRGB.DarkOrange } } h
  have h2 := forLoop_inRange Sequencer.doSetTrackPLockStep NUMBER_OF_STEPBUTTONS
    (fun i y _ hy => inRange_doSetTrackPLockStep i y hy) _ h1
  simp only [Sequencer.doSetTrackPLock, apply_ite Sequencer.tracks, ite_self]
  exact h2

theorem inRange_doTurnOffPlockMode (s : Sequencer) (h : tracksInRange s.tracks) :
    tracksInRange s.doTurnOffPlockMode.tracks :=
  forLoop_inRange Sequencer.doTurnOffPlockModeTrack NUMBER_OF_INSTRUMENTTRACKS
    (fun i y _ hy => inRange_doTurnOffPlockModeTrack i y hy) s h

theorem inRange_doToggleTrackMuteArm (s : Sequencer) (h : tracksInRange s.tracks) :
    tracksInRange s.doToggleTrackMuteArm.tracks := by
  have h1 := forLoop_inRange Sequencer.doToggleTrackMuteArmTrack NUMBER_OF_INSTRUMENTTRACKS
    (fun i y _ hy => inRange_doToggleTrackMuteArmTrack i y hy)
    { s with functionLeds :=
      { s.functionLeds with BUTTON_TOGGLE_MUTE := CRGB.CornflowerBlue } } h
  rw [← tracks_advanceLedFader] at h1
  exact forLoop_inRange Sequencer.doToggleTrackMuteArmLight NUMBER_OF_INSTRUMENTTRACKS
    (fun i y _ hy => by rw [tracks_doToggleTrackMuteArmLight]; exact hy) _ h1

theorem inRange_doUpdateMutes (s : Sequencer) (h : tracksInRange s.tracks) :
    tracksInRange s.doUpdateMutes.tracks :=
  forLoop_inRange Sequencer.doUpdateMutesTrack NUMBER_OF_INSTRUMENTTRACKS
    (fun i y _ hy => inRange_doUpdateMutesTrack i y hy) s h

theorem inRange_doPatternOps (s : Sequencer) (h : tracksInRange s.tracks) :
    tracksInRange s.doPatternOps.tracks := by
  have h0 : tracksInRange ({ s with functionLeds :=
      { s.functionLeds with BUTTON_SET_PATTERN := CRGB.CornflowerBlue } } :
      Sequencer).advanceLedFader.tracks := by
    rw [tracks_advanceLedFader]
    exact h
  have h1 := forLoop_inRange Sequencer.doPatternOpsTrack NUMBER_OF_INSTRUMENTTRACKS
    (fun i y _ hy => inRange_doPatternOpsTrack i y hy) _ h0
  have h2 := fun c => forLoop_inRange_fst (Sequencer.doPatternOpsStep c)
    NUMBER_OF_STEPBUTTONS (fun i y _ hy => inRange_doPatternOpsStep c i y hy) (_, false) h1
  simp only [Sequencer.doPatternOps, tracks_setStepLED, apply_ite Sequencer.tracks, ite_self]
  exact h2 _

theorem inRange_doLeavePatternOps (s : Sequencer) (h : tracksInRange s.tracks) :
    tracksInRange s.doLeavePatternOps.tracks := by
  have h1 := forLoop_inRange Sequencer.doLeavePatternOpsTrack NUMBER_OF_INSTRUMENTTRACKS
    (fun i y _ hy => inRange_doLeavePatternOpsTrack i y hy) s h
  exact tracksInRange_map _ _ (fun _ => rfl) h1

theorem inRange_doSetTrackSelection (s : Sequencer) (h : tracksInRange s.tracks) :
    tracksInRange s.doSetTrackSelection.tracks := by
  rw [(doSetTrackSelection_tracks s).1]
  exact h

theorem inRange_doSetTriggers (s : Sequencer) (h : tracksInRange s.tracks) :
    tracksInRange s.doSetTriggers.tracks := by
  have h1 := forLoop_inRange_fst Sequencer.doSetTriggersStep NUMBER_OF_STEPBUTTONS
    (fun i y _ hy => inRange_doSetTriggersStep i y hy) (s, false) h
  simp only [Sequencer.doSetTriggers, apply_ite Sequencer.tracks, ite_self]
  exact h1

theorem inRange_doStartStop (s : Sequencer) (millis : Nat) (h : tracksInRange s.tracks) :
    tracksInRange (s.doStartStop millis).tracks := by
  have h1 := forLoop_inRange Sequencer.onStopTrack NUMBER_OF_INSTRUMENTTRACKS
    (fun i y _ hy => inRange_onStopTrack i y hy) { s with running := !s.running } h
  simp only [Sequencer.doStartStop, apply_ite Sequencer.tracks]
  split_ifs <;> first | exact h | exact h1

theorem inRange_doStep (s : Sequencer) (h : tracksInRange s.tracks) :
    tracksInRange s.doStep.tracks :=
  forLoop_inRange Sequencer.doStepTrack NUMBER_OF_INSTRUMENTTRACKS
    (fun i y _ hy => inRange_doStepTrack i y hy) { s with log := s.log ++ [Call.doStep] } h

theorem inRange_doTriggerSounds (s : Sequencer) (poti1 poti2 : Nat)
    (h : tracksInRange s.tracks) : tracksInRange (s.doTriggerSounds poti1 poti2).tracks :=
  forLoop_inRange Sequencer.doTriggerSoundsTrack NUMBER_OF_INSTRUMENTTRACKS
    (fun i y _ hy => inRange_doTriggerSoundsTrack i y hy)
    { s with log := s.log ++ [Call.doTriggerSounds],
             input1 := s.input1.update (poti1 % 65536),
             input2 := s.input2.update (poti2 % 65536) } h

theorem inRange_runHandlers (s : Sequencer) (functionMode : FunctionMode) (millis : Nat)
    (h : tracksInRange s.tracks) :
    tracksInRange (s.runHandlers functionMode millis).tracks := by
  have h1 : tracksInRange (match functionMode with
      | FunctionMode.START_STOP => s.doStartStop millis
      | FunctionMode.SET_TRACK_LENGTH => s.doSetTrackLength
      | FunctionMode.TOGGLE_PLOCKS => s.doSetTrackPLock
      | FunctionMode.LEAVE_TOGGLE_PLOCKS => s.doTurnOffPlockMode
      | FunctionMode.TOGGLE_MUTES => s.doToggleTrackMuteArm
      | FunctionMode.LEAVE_TOGGLE_MUTES => s.doUpdateMutes
      | FunctionMode.PATTERN_OPS => s.doPatternOps
      | FunctionMode.LEAVE_PATTERN_OPS => s.doLeavePatternOps
      | FunctionMode.DEFAULT_MODE => s).tracks := by
    cases functionMode
    · exact inRange_doStartStop s millis h
    · exact inRange_doSetTrackLength s h
    · exact inRange_doSetTrackPLock s h
    · exact inRange_doTurnOffPlockMode s h
    · exact inRange_doToggleTrackMuteArm s h
    · exact inRange_doUpdateMutes s h
    · exact inRange_doPatternOps s h
    · exact inRange_doLeavePatternOps s h
    · exact h
  unfold Sequencer.runHandlers
  simp only
  split_ifs <;> first
    | exact h1
    | exact inRange_doSetTrackSelection _ h1
    | exact inRange_doSetTriggers _ h1
    | exact inRange_doSetTriggers _ (inRange_doSetTrackSelection _ h1)

theorem inRange_updateStateHandlers (s : Sequencer) (millis : Nat)
    (h : tracksInRange s.tracks) : tracksInRange (s.updateStateHandlers millis).tracks := by
  have h0 : tracksInRange ({ s with hasActivePLockReceivers := false } :
      Sequencer).selectParamSet.tracks := by
    rw [selectParamSet_tracks]
    exact h
  have h1 := inRange_runHandlers _
    ({ s with hasActivePLockReceivers := false } :
      Sequencer).selectParamSet.calculateFunctionMode millis h0
  unfold Sequencer.updateStateHandlers
  simp only
  rw [(setFunctionButtonLights_rest _).1]
  exact h1

theorem inRange_beforeCursorLED (s : Sequencer) (millis poti1 poti2 : Nat)
    (h : tracksInRange s.tracks) :
    tracksInRange (s.beforeCursorLED millis poti1 poti2).tracks := by
  have h0 : tracksInRange (s.stepIfDue millis).tracks := by
    unfold Sequencer.stepIfDue
    simp only
    split_ifs
    · apply inRange_doStep
      rw [shouldStep_tracks]
      exact h
    · rw [shouldStep_tracks]
      exact h
  unfold Sequencer.beforeCursorLED Sequencer.triggerIfPending
  split_ifs <;> first | exact h | exact h0 | exact inRange_doTriggerSounds _ _ _ h0

theorem runClock_beforeCursorLED (s : Sequencer) (millis poti1 poti2 : Nat) :
    s.runClock millis poti1 poti2
      = if (s.beforeCursorLED millis poti1 poti2).running then
          (s.beforeCursorLED millis poti1 poti2).setStepLED
            ((s.beforeCursorLED millis poti1 poti2).track
              (s.beforeCursorLED millis poti1 poti2).selectedTrack).getCurrentPattern.currentStep
            CRGB.Red
        else s.beforeCursorLED millis poti1 poti2 := rfl

theorem inRange_handle (s : Sequencer) (e : Event) (h : s.cursorsInRange) :
    (s.handle e).cursorsInRange := by
  cases e with
  | tick scan =>
    have h1 : tracksInRange ((s.refreshButtons scan).updateStateHandlers scan.millis).tracks :=
      inRange_updateStateHandlers _ _ h
    have h2 := inRange_beforeCursorLED _ scan.millis scan.poti1 scan.poti2 h1
    show tracksInRange (Sequencer.runClock _ _ _ _).tracks
    rw [runClock_beforeCursorLED]
    split_ifs
    · rw [tracks_setStepLED]
      exact h2
    · exact h2
  | midi rtb millis =>
    show tracksInRange (s.onMidiInput rtb millis).tracks
    unfold Sequencer.onMidiInput Sequencer.start Sequencer.stop
    split
    · exact h
    · split_ifs
      · exact inRange_doStartStop _ _ h
      · exact h
    · split_ifs
      · exact inRange_doStartStop _ _ h
      · exact h
    · exact h

theorem inRange_run (events : List Event) (s : Sequencer) (h : s.cursorsInRange) :
    (s.run events).cursorsInRange := by
  induction events generalizing s with
  | nil => exact h
  | cons e rest ih =>
    rw [run_cons]
    exact ih _ (inRange_handle s e h)

end CursorHandlers

/-- C16, counterexample: from power-on, START/STOP, one step, then the release of step button 0
with SET_TRACKLENGTH held (no step is due in that tick). Afterwards the current pattern of
track 0 has `currentStep = 1` and `trackLength = 1`, so `currentStep < trackLength` fails. -/
theorem cursor_past_trackLength :
    ((Sequencer.run {} trackLengthCutEvents).track 0).getCurrentPattern.currentStep = 1 ∧
    ((Sequencer.run {} trackLengthCutEvents).track 0).getCurrentPattern.trackLength = 1 ∧
    ¬ (((Sequencer.run {} trackLengthCutEvents).track 0).getCurrentPattern.currentStep
        < ((Sequencer.run {} trackLengthCutEvents).track 0).getCurrentPattern.trackLength) := by
  set_option maxRecDepth 100000 in decide

/-- C16, amended: the bounds that every tick and every MIDI byte keep. From a state in which
every pattern of every track has `currentStep < 16` and `1 ≤ trackLength ≤ 16` (the power-on
state is one), every state reached by a sequence of ticks and MIDI bytes has the same bounds on
every pattern of every track, in particular on the current pattern of every track; in the next
tick the LED of the running cursor is written at an index below 16; and `currentStep <
trackLength`, which SET_TRACK_LENGTH can break, holds again for the pattern that the next
`doStep` of its track advances. -/
theorem cursor_bounds (s : Sequencer) (events : List Event) (h : s.cursorsInRange) :
    (s.run events).cursorsInRange ∧
    (∀ i, ((s.run events).track i).getCurrentPattern.currentStep < 16 ∧
      1 ≤ ((s.run events).track i).getCurrentPattern.trackLength ∧
      ((s.run events).track i).getCurrentPattern.trackLength ≤ 16) ∧
    (∀ (scan : Scan) (z : Sequencer),
      z = (((s.run events).refreshButtons scan).updateStateHandlers scan.millis).beforeCursorLED
            scan.millis scan.poti1 scan.poti2 →
      (s.run events).handle (Event.tick scan)
        = (if z.running then
            z.setStepLED (z.track z.selectedTrack).getCurrentPattern.currentStep CRGB.Red
          else z) ∧
      (z.track z.selectedTrack).getCurrentPattern.currentStep < 16) ∧
    (∀ i, ((s.run events).track i).currentPatternIndex
        < ((s.run events).track i).patterns.length →
      (((s.run events).track i).doStep.patterns.getD
          ((s.run events).track i).currentPatternIndex default).currentStep
        < (((s.run events).track i).doStep.patterns.getD
            ((s.run events).track i).currentPatternIndex default).trackLength) := by
  have hr : tracksInRange (s.run events).tracks := inRange_run events s h
  refine ⟨hr, fun i => ?_, fun scan z hz => ?_, fun i hi => ?_⟩
  · exact cursorInRange_getCurrentPattern _ (tracksInRange_getD _ hr i)
  · have hz2 : tracksInRange z.tracks := by
      rw [hz]
      exact inRange_beforeCursorLED _ _ _ _ (inRange_updateStateHandlers _ _ hr)
    refine ⟨?_, (cursorInRange_getCurrentPattern _ (tracksInRange_getD _ hz2 _)).1⟩
    rw [hz]
    exact runClock_beforeCursorLED _ _ _ _
  · exact (cursorsInRange_doStep _ (tracksInRange_getD _ hr i)).2 hi

theorem cursor_bounds_witness :
    (Sequencer.run {} trackLengthCutEvents).cursorsInRange ∧
    ((Sequencer.run {} trackLengthCutEvents).track 0).getCurrentPattern.currentStep < 16 :=
  ⟨(cursor_bounds {} trackLengthCutEvents (by decide)).1,
   ((cursor_bounds {} trackLengthCutEvents (by decide)).2.1 0).1⟩


/-! ## Stopping -/

section Stopping

attribute [local irreducible] forLoop

/-- The stopping branch of `doStartStop`: on a running sequencer the flag is cleared, the two
counters are reset and `onStop` runs on each of the six tracks. -/
theorem doStartStop_running (s : Sequencer) (millis : Nat) (hr : s.running = true) :
    (s.doStartStop millis).running = false ∧
    (s.doStartStop millis).pulseCount = 0 ∧
    (s.doStartStop millis).stepCount = 0 ∧
    (s.doStartStop millis).isSyncingToMidiClock = s.isSyncingToMidiClock ∧
    (∀ i, (s.doStartStop millis).track i
      = if i < 6 ∧ i < s.tracks.length then (s.track i).onStop else s.track i) := by
  obtain ⟨-, -, -, h4⟩ := forLoop_setTrack Sequencer.onStopTrack
    (fun _ t => t.onStop) (fun _ => True) (fun _ _ _ => trivial)
    (fun _ _ _ => rfl) 6 { s with running := !s.running } trivial
  have hk := forLoop_keeps (fun x : Sequencer => (x.running, x.isSyncingToMidiClock))
    Sequencer.onStopTrack 6 { s with running := !s.running } (fun _ _ => rfl)
  simp only [Prod.mk.injEq, hr, Bool.not_true] at hk
  have e : s.doStartStop millis
      = { forLoop 6 Sequencer.onStopTrack { s with running := !s.running } with
          pulseCount := 0, stepCount := 0 } := by
    unfold Sequencer.doStartStop
    simp only [hr, Bool.not_true, Bool.not_false, if_true]
    rfl
  rw [e]
  refine ⟨?_, rfl, rfl, ?_, fun i => h4 i⟩
  · have e2 : ∀ x : Sequencer,
        ({ x with pulseCount := 0, stepCount := 0 } : Sequencer).running = x.running :=
      fun _ => rfl
    rw [e2, hr]
    exact hk.1
  · have e2 : ∀ x : Sequencer,
        ({ x with pulseCount := 0, stepCount := 0 } : Sequencer).isSyncingToMidiClock
          = x.isSyncingToMidiClock := fun _ => rfl
    rw [e2, hr]
    exact hk.2

theorem stop_stopped (s : Sequencer) (millis : Nat) (hr : s.running = false) :
    s.stop millis = s := by
  unfold Sequencer.stop
  rw [hr]
  rfl

theorem start_running (s : Sequencer) (millis : Nat) (hr : s.running = true) :
    s.start millis = s := by
  unfold Sequencer.start
  rw [hr]
  rfl

theorem stop_running (s : Sequencer) (millis : Nat) (hr : s.running = true) :
    s.stop millis = s.doStartStop millis := by
  unfold Sequencer.stop
  rw [hr]
  rfl

end Stopping

section StoppingTick

attribute [local irreducible] forLoop

theorem calculateFunctionMode_start (s : Sequencer)
    (h : s.functionButtons.BUTTON_STARTSTOP.rose = true) :
    s.calculateFunctionMode = FunctionMode.START_STOP := by
  unfold Sequencer.calculateFunctionMode
  rw [h]
  rfl

theorem stopView_doSetTrackSelection (s : Sequencer) :
    s.doSetTrackSelection.running = s.running ∧
    s.doSetTrackSelection.pulseCount = s.pulseCount ∧
    s.doSetTrackSelection.stepCount = s.stepCount := by
  have h := forLoop_keeps (fun x : Sequencer => (x.running, x.pulseCount, x.stepCount))
    Sequencer.doSetTrackSelectionTrack NUMBER_OF_INSTRUMENTTRACKS s
    (fun i y => by
      simp only [Sequencer.doSetTrackSelectionTrack, Sequencer.setDefaultTrackLight,
        Sequencer.setTrackLED, Sequencer.deactivateSensors, apply_ite Sequencer.running,
        apply_ite Sequencer.pulseCount, apply_ite Sequencer.stepCount, ite_self])
  simp only [Prod.mk.injEq] at h
  exact h

theorem stopView_doSetTriggers (s : Sequencer) :
    s.doSetTriggers.running = s.running ∧
    s.doSetTriggers.pulseCount = s.pulseCount ∧
    s.doSetTriggers.stepCount = s.stepCount := by
  have h := forLoop_keeps
    (fun x : Sequencer × Bool => (x.1.running, x.1.pulseCount, x.1.stepCount))
    Sequencer.doSetTriggersStep NUMBER_OF_STEPBUTTONS (s, false)
    (fun i y => by
      simp only [Sequencer.doSetTriggersStep, Sequencer.setSelectedStep, Sequencer.setTrack,
        Sequencer.setStepLED, apply_ite Sequencer.running,
        apply_ite Sequencer.pulseCount, apply_ite Sequencer.stepCount,
        apply_ite (Prod.fst : Sequencer × Bool → Sequencer), ite_self])
  simp only [Prod.mk.injEq] at h
  simp only [Sequencer.doSetTriggers, apply_ite Sequencer.running,
    apply_ite Sequencer.pulseCount, apply_ite Sequencer.stepCount, ite_self]
  exact h

theorem stopView_setFunctionButtonLights (s : Sequencer) :
    s.setFunctionButtonLights.running = s.running ∧
    s.setFunctionButtonLights.pulseCount = s.pulseCount ∧
    s.setFunctionButtonLights.stepCount = s.stepCount := by
  simp only [Sequencer.setFunctionButtonLights, apply_ite Sequencer.running,
    apply_ite Sequencer.pulseCount, apply_ite Sequencer.stepCount, ite_self, and_self]

theorem stopView_selectParamSet (s : Sequencer) :
    s.selectParamSet.running = s.running ∧
    s.selectParamSet.stepButtons = s.stepButtons := by
  simp only [Sequencer.selectParamSet, Sequencer.deactivateSensors,
    apply_ite Sequencer.running, apply_ite Sequencer.stepButtons, ite_self, and_self]

theorem doStartStop_stepButtons (s : Sequencer) (millis : Nat) :
    (s.doStartStop millis).stepButtons = s.stepButtons := by
  have h := forLoop_keeps Sequencer.stepButtons Sequencer.onStopTrack
    NUMBER_OF_INSTRUMENTTRACKS { s with running := !s.running } (fun _ _ => rfl)
  simp only [Sequencer.doStartStop, apply_ite Sequencer.stepButtons, h, ite_self]

/-- A tick in which START/STOP rose, on a running sequencer: the mode is START_STOP, and at the
end of the tick the sequencer is stopped with both counters at 0; with the step buttons at rest
the tracks are the result of `onStop` on each of the six. -/
theorem startStop_tick_stops (s : Sequencer) (scan : Scan) (hr : s.running = true)
    (hrose : scan.functionButtons.BUTTON_STARTSTOP.rose = true) :
    (s.refreshButtons scan).calculateFunctionMode = FunctionMode.START_STOP ∧
    (s.handle (Event.tick scan)).running = false ∧
    (s.handle (Event.tick scan)).pulseCount = 0 ∧
    (s.handle (Event.tick scan)).stepCount = 0 ∧
    ((∀ i, i < 16 → (scan.stepButtons.getD i default).read = false) →
     (∀ i, i < 16 → (scan.stepButtons.getD i default).fell = false) →
     ∀ i, (s.handle (Event.tick scan)).track i
       = if i < 6 ∧ i < s.tracks.length then (s.track i).onStop else s.track i) := by
  have hm0 : (s.refreshButtons scan).calculateFunctionMode = FunctionMode.START_STOP :=
    calculateFunctionMode_start _ hrose
  have e0 : ({ s.refreshButtons scan with hasActivePLockReceivers := false } :
      Sequencer).selectParamSet.latchView = (s.refreshButtons scan).latchView :=
    latchView_selectParamSet _
  have t0 : ({ s.refreshButtons scan with hasActivePLockReceivers := false } :
      Sequencer).selectParamSet.tracks = s.tracks := selectParamSet_tracks _
  obtain ⟨r0, b0⟩ := stopView_selectParamSet
    ({ s.refreshButtons scan with hasActivePLockReceivers := false } : Sequencer)
  generalize hx : ({ s.refreshButtons scan with hasActivePLockReceivers := false } :
      Sequencer).selectParamSet = x at e0 t0 r0 b0
  have hm : x.calculateFunctionMode = FunctionMode.START_STOP :=
    (calculateFunctionMode_latchView e0).trans hm0
  have hxr : x.running = true := r0.trans hr
  have hxb : x.stepButtons = scan.stepButtons := b0
  have e1 : (s.refreshButtons scan).updateStateHandlers scan.millis
      = (x.runHandlers x.calculateFunctionMode scan.millis).setFunctionButtonLights := by
    rw [← hx]
    rfl
  have e2 : x.runHandlers FunctionMode.START_STOP scan.millis
      = (x.doStartStop scan.millis).doSetTrackSelection.doSetTriggers := rfl
  obtain ⟨a1, a2, a3, -, a5⟩ := doStartStop_running x scan.millis hxr
  obtain ⟨b1, b2, b3⟩ := stopView_doSetTrackSelection (x.doStartStop scan.millis)
  obtain ⟨c1, c2, c3⟩ := stopView_doSetTriggers (x.doStartStop scan.millis).doSetTrackSelection
  obtain ⟨d1, d2, d3⟩ := stopView_setFunctionButtonLights
    (x.doStartStop scan.millis).doSetTrackSelection.doSetTriggers
  have hstop : ((s.refreshButtons scan).updateStateHandlers scan.millis).running = false := by
    rw [e1, hm, e2, d1, c1, b1, a1]
  have e3 : s.handle (Event.tick scan)
      = (s.refreshButtons scan).updateStateHandlers scan.millis :=
    runClock_stopped _ _ _ _ hstop
  rw [e3]
  refine ⟨hm0, hstop, ?_, ?_, fun h1 h2 i => ?_⟩
  · rw [e1, hm, e2, d2, c2, b2, a2]
  · rw [e1, hm, e2, d3, c3, b3, a3]
  · obtain ⟨f1, f2, -⟩ := doSetTrackSelection_tracks (x.doStartStop scan.millis)
    have hbtn : ∀ k, (x.doStartStop scan.millis).doSetTrackSelection.stepButton k
        = scan.stepButtons.getD k default := fun k => by
      unfold Sequencer.stepButton
      rw [f2, doStartStop_stepButtons, hxb]
    obtain ⟨g1, -, -⟩ := doSetTriggers_idle (x.doStartStop scan.millis).doSetTrackSelection
      (fun i hi => by rw [hbtn]; exact h1 i hi) (fun i hi => by rw [hbtn]; exact h2 i hi)
    obtain ⟨k1, -, -⟩ := setFunctionButtonLights_rest
      (x.doStartStop scan.millis).doSetTrackSelection.doSetTriggers
    rw [e1, hm, e2, track_congr (k1.trans (g1.trans f1)) i, a5 i, t0, track_congr t0 i]

end StoppingTick

/-- C26: stopping resets the clock phase. On a running sequencer, `stop()`, the MIDI byte
`0xFC` and a tick in which START/STOP rose (mode START_STOP) each leave `running = false`,
`pulseCount = 0` and `stepCount = 0`, with `onStop` called on each of the six tracks (`0xFC`
also clears `isSyncingToMidiClock`; for the tick the tracks are stated with the step buttons at
rest, since the trigger handler runs after the stop). While the sequencer stays stopped, ticks
without a START/STOP press and clock bytes leave `pulseCount` alone, and after the MIDI start
`0xFA` on a stopped sequencer with `pulseCount = 0` the sequencer runs, syncs to the MIDI
clock, and of the calls of `shouldStep` that consume a clock pulse exactly every sixth returns
true, the first five returning false. `stop()` on a stopped sequencer and `start()` on a running
one return the state unchanged. -/
theorem stop_resets_clock_phase (s : Sequencer) (millis : Nat) (hr : s.running = true) :
    ((s.stop millis).running = false ∧ (s.stop millis).pulseCount = 0 ∧
      (s.stop millis).stepCount = 0 ∧
      ∀ i, (s.stop millis).track i
        = if i < 6 ∧ i < s.tracks.length then (s.track i).onStop else s.track i) ∧
    ((s.onMidiInput 0xFC millis).running = false ∧ (s.onMidiInput 0xFC millis).pulseCount = 0 ∧
      (s.onMidiInput 0xFC millis).stepCount = 0 ∧
      (s.onMidiInput 0xFC millis).isSyncingToMidiClock = false ∧
      ∀ i, (s.onMidiInput 0xFC millis).track i
        = if i < 6 ∧ i < s.tracks.length then (s.track i).onStop else s.track i) ∧
    (∀ scan : Scan, scan.functionButtons.BUTTON_STARTSTOP.rose = true →
      (s.refreshButtons scan).calculateFunctionMode = FunctionMode.START_STOP ∧
      (s.handle (Event.tick scan)).running = false ∧
      (s.handle (Event.tick scan)).pulseCount = 0 ∧
      (s.handle (Event.tick scan)).stepCount = 0 ∧
      ((∀ i, i < 16 → (scan.stepButtons.getD i default).read = false) →
       (∀ i, i < 16 → (scan.stepButtons.getD i default).fell = false) →
       ∀ i, (s.handle (Event.tick scan)).track i
         = if i < 6 ∧ i < s.tracks.length then (s.track i).onStop else s.track i)) ∧
    (∀ (x : Sequencer) (scan : Scan) (t : Nat), x.running = false →
      ((x.onMidiInput 0xF8 t).running = false ∧
        (x.onMidiInput 0xF8 t).pulseCount = x.pulseCount) ∧
      (scan.functionButtons.BUTTON_STARTSTOP.rose = false →
        (x.handle (Event.tick scan)).running = false ∧
        (x.handle (Event.tick scan)).pulseCount = x.pulseCount)) ∧
    (∀ (x : Sequencer) (t : Nat) (times : List Nat), x.running = false → x.pulseCount = 0 →
      (x.onMidiInput 0xFA t).running = true ∧
      (x.onMidiInput 0xFA t).isSyncingToMidiClock = true ∧
      (x.onMidiInput 0xFA t).pulseCount = 0 ∧
      ((x.onMidiInput 0xFA t).midiClockCalls times).1
        = (List.range times.length).map (fun j => decide ((j + 1) % 6 = 0))) ∧
    (∀ (x : Sequencer) (t : Nat), x.running = false → x.stop t = x) ∧
    (∀ (x : Sequencer) (t : Nat), x.running = true → x.start t = x) := by
  refine ⟨?_, ?_, fun scan hrose => startStop_tick_stops s scan hr hrose, ?_, ?_,
    fun x t hx => stop_stopped x t hx, fun x t hx => start_running x t hx⟩
  · rw [stop_running s millis hr]
    obtain ⟨a1, a2, a3, -, a5⟩ := doStartStop_running s millis hr
    exact ⟨a1, a2, a3, a5⟩
  · have e : s.onMidiInput 0xFC millis
        = ({ s with isSyncingToMidiClock := false } : Sequencer).doStartStop millis := by
      show Sequencer.stop _ _ = _
      exact stop_running _ millis hr
    obtain ⟨a1, a2, a3, a4, a5⟩ := doStartStop_running
      ({ s with isSyncingToMidiClock := false } : Sequencer) millis hr
    rw [e]
    exact ⟨a1, a2, a3, a4, a5⟩
  · intro x scan t hx
    refine ⟨⟨hx, rfl⟩, fun hrose => ?_⟩
    have hv := clockView_tick_handlers x scan hrose
    obtain ⟨v1, -, -, v4, -, -, -⟩ := clockView_fields _ _ hv
    have hstop : ((x.refreshButtons scan).updateStateHandlers scan.millis).running = false :=
      v1.trans hx
    have e3 : x.handle (Event.tick scan)
        = (x.refreshButtons scan).updateStateHandlers scan.millis :=
      runClock_stopped _ _ _ _ hstop
    rw [e3]
    exact ⟨hstop, v4⟩
  · intro x t times hx hp
    have e : x.onMidiInput 0xFA t
        = { ({ x with isSyncingToMidiClock := true } : Sequencer) with
            running := true, triggerSounds := true, nextStepTime := t + x.stepLength } := by
      show Sequencer.start _ _ = _
      exact start_of_stopped _ t hx
    rw [e]
    obtain ⟨m1, -, -, -⟩ := midiClockCalls_from times
      { ({ x with isSyncingToMidiClock := true } : Sequencer) with
        running := true, triggerSounds := true, nextStepTime := t + x.stepLength }
      0 rfl hp (by decide)
    refine ⟨rfl, rfl, hp, ?_⟩
    rw [m1]
    simp only [Nat.zero_add]

theorem stop_resets_clock_phase_witness :
    (({ running := true, pulseCount := 3, stepCount := 7 } : Sequencer).stop 0).running = false ∧
    (({ running := true, pulseCount := 3, stepCount := 7 } : Sequencer).stop 0).pulseCount = 0 ∧
    (({ running := true, pulseCount := 3, stepCount := 7 } : Sequencer).stop 0).stepCount = 0 :=
  ⟨(stop_resets_clock_phase { running := true, pulseCount := 3, stepCount := 7 } 0 rfl).1.1,
   (stop_resets_clock_phase { running := true, pulseCount := 3, stepCount := 7 } 0 rfl).1.2.1,
   (stop_resets_clock_phase { running := true, pulseCount := 3, stepCount := 7 } 0 rfl).1.2.2.1⟩


/-! ## Handler gating -/

section GatingSelection

attribute [local irreducible] forLoop

theorem selectionView_setStepLED (s : Sequencer) (i : Int) (c : CRGB) :
    (s.setStepLED i c).selectionView = s.selectionView := by
  unfold Sequencer.setStepLED
  split <;> rfl

theorem selectionView_setDefaultTrackLight (s : Sequencer) (i : Nat) :
    (s.setDefaultTrackLight i).selectionView = s.selectionView := by
  simp only [Sequencer.selectionView, Sequencer.setDefaultTrackLight, Sequencer.setTrackLED,
    apply_ite Sequencer.selectedTrack, apply_ite Sequencer.log, ite_self]

theorem selectionView_selectParamSet (s : Sequencer) :
    s.selectParamSet.selectionView = s.selectionView := by
  simp only [Sequencer.selectionView, Sequencer.selectParamSet, Sequencer.deactivateSensors,
    apply_ite Sequencer.selectedTrack, apply_ite Sequencer.log, ite_self]

theorem selectionView_setFunctionButtonLights (s : Sequencer) :
    s.setFunctionButtonLights.selectionView = s.selectionView := by
  simp only [Sequencer.selectionView, Sequencer.setFunctionButtonLights,
    apply_ite Sequencer.selectedTrack, apply_ite Sequencer.log, ite_self]

theorem selectionView_advanceLedFader (s : Sequencer) :
    s.advanceLedFader.selectionView = s.selectionView := by
  simp only [Sequencer.selectionView, Sequencer.advanceLedFader,
    apply_ite Sequencer.selectedTrack, apply_ite Sequencer.log, ite_self]

theorem selectionView_doToggleTrackMuteArmTrack (i : Nat) (s : Sequencer) :
    (Sequencer.doToggleTrackMuteArmTrack i s).selectionView = s.selectionView := by
  simp only [Sequencer.selectionView, Sequencer.doToggleTrackMuteArmTrack, Sequencer.setTrack,
    apply_ite Sequencer.selectedTrack, apply_ite Sequencer.log, ite_self]

theorem selectionView_doToggleTrackMuteArmLight (i : Nat) (s : Sequencer) :
    (Sequencer.doToggleTrackMuteArmLight i s).selectionView = s.selectionView := by
  unfold Sequencer.doToggleTrackMuteArmLight
  split_ifs
  · rfl
  · rfl
  · exact selectionView_setDefaultTrackLight s i

theorem selectionView_doToggleTrackMuteArm (s : Sequencer) :
    s.doToggleTrackMuteArm.selectionView = s.selectionView := by
  unfold Sequencer.doToggleTrackMuteArm
  simp only
  rw [forLoop_keeps Sequencer.selectionView _ _ _ selectionView_doToggleTrackMuteArmLight,
    selectionView_advanceLedFader,
    forLoop_keeps Sequencer.selectionView _ _ _ selectionView_doToggleTrackMuteArmTrack]
  rfl

theorem selectionView_doPatternOpsTrack (i : Nat) (s : Sequencer) :
    (Sequencer.doPatternOpsTrack i s).selectionView = s.selectionView := by
  unfold Sequencer.doPatternOpsTrack
  simp only
  split_ifs
  · rfl
  · rw [selectionView_setDefaultTrackLight]
    rfl
  · rfl
  · rw [selectionView_setDefaultTrackLight]

theorem selectionView_doPatternOpsCopy (i k : Nat) (s : Sequencer) :
    (Sequencer.doPatternOpsCopy i k s).selectionView = s.selectionView := by
  unfold Sequencer.doPatternOpsCopy
  simp only
  split_ifs
  · rw [selectionView_setStepLED]
    rfl
  · rfl

theorem selectionView_doPatternOpsStep (c i : Nat) (acc : Sequencer × Bool) :
    (Sequencer.doPatternOpsStep c i acc).1.selectionView = acc.1.selectionView := by
  have hc := forLoop_keeps Sequencer.selectionView (Sequencer.doPatternOpsCopy i)
    NUMBER_OF_INSTRUMENTTRACKS acc.1 (selectionView_doPatternOpsCopy i)
  unfold Sequencer.doPatternOpsStep
  simp only
  rw [selectionView_setStepLED]
  split_ifs <;> first | rfl | exact hc

theorem selectionView_doPatternOps (s : Sequencer) :
    s.doPatternOps.selectionView = s.selectionView := by
  have h1 : ∀ x : Sequencer,
      (forLoop NUMBER_OF_INSTRUMENTTRACKS Sequencer.doPatternOpsTrack x).selectionView
        = x.selectionView :=
    fun x => forLoop_keeps Sequencer.selectionView _ _ x selectionView_doPatternOpsTrack
  have h2 : ∀ (c : Nat) (x : Sequencer × Bool),
      (forLoop NUMBER_OF_STEPBUTTONS (Sequencer.doPatternOpsStep c) x).1.selectionView
        = x.1.selectionView :=
    fun c x => forLoop_keeps (fun acc : Sequencer × Bool => acc.1.selectionView) _ _ x
      (selectionView_doPatternOpsStep c)
  unfold Sequencer.doPatternOps
  simp only [apply_ite Sequencer.selectionView, selectionView_setStepLED]
  have e : ∀ x : Sequencer,
      ({ x with sourcePatternIndex := -1, patternCopy := false } : Sequencer).selectionView
        = x.selectionView := fun _ => rfl
  simp only [e, ite_self, h2, h1, selectionView_advanceLedFader]
  rfl

theorem selectionView_doSetTriggersStep (i : Nat) (acc : Sequencer × Bool) :
    (Sequencer.doSetTriggersStep i acc).1.selectionView = acc.1.selectionView := by
  simp only [Sequencer.selectionView, Sequencer.doSetTriggersStep, Sequencer.setSelectedStep,
    Sequencer.setTrack, Sequencer.setStepLED, apply_ite Sequencer.selectedTrack,
    apply_ite Sequencer.log, apply_ite (Prod.fst : Sequencer × Bool → Sequencer), ite_self]

theorem selectionView_doSetTriggers (s : Sequencer) :
    s.doSetTriggers.selectionView = s.selectionView := by
  have h := forLoop_keeps (fun acc : Sequencer × Bool => acc.1.selectionView)
    Sequencer.doSetTriggersStep NUMBER_OF_STEPBUTTONS (s, false) selectionView_doSetTriggersStep
  unfold Sequencer.doSetTriggers
  simp only
  split_ifs
  · exact h
  · exact h

theorem isMix_triggerCalls (i : Nat) (st : SequencerStep) :
    (Sequencer.triggerCalls i st).filter Call.isMix = [] := rfl

theorem selectionView_doTriggerSoundsTrack (i : Nat) (s : Sequencer) :
    (Sequencer.doTriggerSoundsTrack i s).selectionView = s.selectionView := by
  simp only [Sequencer.selectionView, Sequencer.doTriggerSoundsTrack, Sequencer.setTrack,
    apply_ite Sequencer.selectedTrack, apply_ite Sequencer.log,
    apply_ite (List.filter Call.isMix), List.filter_append, isMix_triggerCalls,
    List.append_nil, ite_self]

theorem selectionView_runClock (s : Sequencer) (millis poti1 poti2 : Nat) :
    (s.runClock millis poti1 poti2).selectionView = s.selectionView := by
  have h1 : ∀ x : Sequencer, (x.shouldStep millis).2.selectionView = x.selectionView := by
    intro x
    simp only [Sequencer.selectionView, Sequencer.shouldStep, Sequencer.shouldStepMidiClock,
      Sequencer.shouldStepInternalClock, apply_ite (Prod.snd : Bool × Sequencer → Sequencer),
      apply_ite Sequencer.selectedTrack, apply_ite Sequencer.log, ite_self]
  have h2 : ∀ x : Sequencer, x.doStep.selectionView = x.selectionView := by
    intro x
    have h := forLoop_keeps Sequencer.selectionView Sequencer.doStepTrack
      NUMBER_OF_INSTRUMENTTRACKS { x with log := x.log ++ [Call.doStep] } (fun _ _ => rfl)
    have e : (x.doStep).selectionView
        = (forLoop NUMBER_OF_INSTRUMENTTRACKS Sequencer.doStepTrack
            { x with log := x.log ++ [Call.doStep] }).selectionView := rfl
    rw [e, h]
    simp only [Sequencer.selectionView, List.filter_append]
    exact congrArg (Prod.mk x.selectedTrack) (List.append_nil _)
  have h3 : ∀ x : Sequencer,
      (x.doTriggerSounds poti1 poti2).selectionView = x.selectionView := by
    intro x
    have h := forLoop_keeps Sequencer.selectionView Sequencer.doTriggerSoundsTrack
      NUMBER_OF_INSTRUMENTTRACKS
      { x with log := x.log ++ [Call.doTriggerSounds],
               input1 := x.input1.update (poti1 % 65536),
               input2 := x.input2.update (poti2 % 65536) }
      selectionView_doTriggerSoundsTrack
    have e : (x.doTriggerSounds poti1 poti2).selectionView
        = (forLoop NUMBER_OF_INSTRUMENTTRACKS Sequencer.doTriggerSoundsTrack
            { x with log := x.log ++ [Call.doTriggerSounds],
                     input1 := x.input1.update (poti1 % 65536),
                     input2 := x.input2.update (poti2 % 65536) }).selectionView := rfl
    rw [e, h]
    simp only [Sequencer.selectionView, List.filter_append]
    exact congrArg (Prod.mk x.selectedTrack) (List.append_nil _)
  unfold Sequencer.runClock Sequencer.stepIfDue Sequencer.triggerIfPending
  simp only [apply_ite Sequencer.selectionView, selectionView_setStepLED, h3, h2, h1, ite_self]

end GatingSelection

theorem sameSteps_refl {β : Type} (v : SequencerStep → β) (l : List SequencerTrack) :
    sameSteps v l l := fun _ _ _ => rfl

theorem sameSteps_trans {β : Type} {v : SequencerStep → β} {a b c : List SequencerTrack}
    (h1 : sameSteps v a b) (h2 : sameSteps v b c) : sameSteps v a c :=
  fun i p j => (h1 i p j).trans (h2 i p j)

theorem sameSteps_of_eq {β : Type} (v : SequencerStep → β) {a b : List SequencerTrack}
    (h : a = b) : sameSteps v a b := h ▸ sameSteps_refl v a

theorem setCurrentPattern_stepAt (t : SequencerTrack) (q : SequencerPattern) (p j : Nat) :
    (t.setCurrentPattern q).stepAt p j
      = if p = t.currentPatternIndex ∧ t.currentPatternIndex < t.patterns.length then
          q.getStep j
        else t.stepAt p j := by
  unfold SequencerTrack.stepAt SequencerTrack.setCurrentPattern
  simp only
  rw [list_getD_set]
  split_ifs <;> rfl

theorem setStep_getStep (P : SequencerPattern) (i : Nat) (st : SequencerStep) (j : Nat) :
    (P.setStep i st).getStep j = if j = i ∧ i < P.steps.length then st else P.getStep j := by
  unfold SequencerPattern.getStep SequencerPattern.setStep
  simp only
  rw [list_getD_set]

/-- Writing the current pattern of a track with a pattern that shows the same of every step
keeps what is shown of every step of the track. -/
theorem sameSteps_setCurrentPattern {β : Type} (v : SequencerStep → β)
    (l : List SequencerTrack) (j : Nat) (q : SequencerPattern)
    (h : ∀ k, v (q.getStep k) = v ((l.getD j default).getCurrentPattern.getStep k)) :
    sameSteps v (l.set j ((l.getD j default).setCurrentPattern q)) l := by
  intro i p k
  rw [list_getD_set]
  by_cases hi : i = j ∧ j < l.length
  · rw [if_pos hi, hi.1, setCurrentPattern_stepAt]
    by_cases hp : p = (l.getD j default).currentPatternIndex ∧
        (l.getD j default).currentPatternIndex < (l.getD j default).patterns.length
    · rw [if_pos hp, h k, hp.1]
      rfl
    · rw [if_neg hp]
  · rw [if_neg hi]

/-- Writing one step of the current pattern of a track with a step that shows the same keeps
what is shown of every step. -/
theorem sameSteps_setStep {β : Type} (v : SequencerStep → β)
    (l : List SequencerTrack) (j i : Nat) (st : SequencerStep)
    (h : v st = v ((l.getD j default).getCurrentPattern.getStep i)) :
    sameSteps v (l.set j ((l.getD j default).setCurrentPattern
      ((l.getD j default).getCurrentPattern.setStep i st))) l := by
  apply sameSteps_setCurrentPattern
  intro k
  rw [setStep_getStep]
  by_cases hk : k = i ∧ i < (l.getD j default).getCurrentPattern.steps.length
  · rw [if_pos hk, h, hk.1]
  · rw [if_neg hk]

theorem triggerView_toggleParameterLockRecord (st : SequencerStep) :
    st.toggleParameterLockRecord.triggerView = st.triggerView := by
  unfold SequencerStep.triggerView
  have e : st.toggleParameterLockRecord.isTriggerOn = st.isTriggerOn := by
    show (st.state ^^^ 2).testBit 0 = st.state.testBit 0
    rw [Nat.testBit_xor]
    cases st.state.testBit 0 <;> rfl
  rw [e]
  rfl

theorem togglePLockMode_getStep (P : SequencerPattern) (j : Nat) :
    (P.togglePLockMode.getStep j).triggerView = (P.getStep j).triggerView := by
  have e : P.togglePLockMode.getStep j
      = (fun st : SequencerStep =>
          if st.isTriggerOn then st.toggleParameterLockRecord else st) (P.getStep j) :=
    list_getD_map P.steps _ j default
  rw [e]
  beta_reduce
  split_ifs
  · exact triggerView_toggleParameterLockRecord _
  · rfl

theorem isTriggerOn_recordPLock (s : Sequencer) (st : SequencerStep) :
    (s.recordPLock st).isTriggerOn = st.isTriggerOn := by
  unfold SequencerStep.isTriggerOn
  rw [(recordPLock_state s st).1]

section GatingTriggers

attribute [local irreducible] forLoop

theorem forLoop_sameSteps {β : Type} (v : SequencerStep → β)
    (body : Nat → Sequencer → Sequencer) (n : Nat)
    (hb : ∀ i y, sameSteps v (body i y).tracks y.tracks) (x : Sequencer) :
    sameSteps v (forLoop n body x).tracks x.tracks :=
  forLoop_inv (fun y => sameSteps v y.tracks x.tracks) body n x
    (fun i y _ hy => sameSteps_trans (hb i y) hy) (sameSteps_refl v _)

theorem sameSteps_doSetTrackLengthStep (i : Nat) (s : Sequencer) :
    sameSteps SequencerStep.triggerView (Sequencer.doSetTrackLengthStep i s).tracks
      s.tracks := by
  simp only [Sequencer.doSetTrackLengthStep, Sequencer.setTrack, Sequencer.track,
    tracks_setStepLED, apply_ite Sequencer.tracks]
  split_ifs
  · exact sameSteps_setCurrentPattern _ _ _ _ (fun _ => rfl)
  · exact sameSteps_refl _ _

theorem sameSteps_doSetTrackLength (s : Sequencer) :
    sameSteps SequencerStep.triggerView s.doSetTrackLength.tracks s.tracks := by
  have hL := forLoop_sameSteps SequencerStep.triggerView Sequencer.doSetTrackLengthStep
    NUMBER_OF_STEPBUTTONS sameSteps_doSetTrackLengthStep
    { s with functionLeds :=
      { s.functionLeds with BUTTON_SET_TRACKLENGTH := CRGB.CornflowerBlue } }
  simp only [Sequencer.doSetTrackLength, Sequencer.setTrack, Sequencer.track,
    tracks_setStepLED, apply_ite Sequencer.tracks, ite_self]
  split_ifs <;> first
    | exact hL
    | exact sameSteps_trans (sameSteps_setCurrentPattern _ _ _ _ (fun _ => rfl)) hL

theorem sameSteps_doSetTrackPLockTrack (i : Nat) (s : Sequencer) :
    sameSteps SequencerStep.triggerView (Sequencer.doSetTrackPLockTrack i s).tracks
      s.tracks := by
  simp only [Sequencer.doSetTrackPLockTrack, Sequencer.setTrack, Sequencer.track,
    apply_ite Sequencer.tracks]
  split_ifs
  · exact sameSteps_setCurrentPattern _ _ _ _ (fun k => togglePLockMode_getStep _ k)
  · exact sameSteps_refl _ _

theorem sameSteps_doSetTrackPLockStep (i : Nat) (s : Sequencer) :
    sameSteps SequencerStep.triggerView (Sequencer.doSetTrackPLockStep i s).tracks
      s.tracks := by
  simp only [Sequencer.doSetTrackPLockStep, Sequencer.setSelectedStep, Sequencer.selectedStep,
    Sequencer.setTrack, Sequencer.track, tracks_setStepLED, apply_ite Sequencer.tracks]
  split_ifs
  · exact sameSteps_setStep _ _ _ _ _ (triggerView_toggleParameterLockRecord _)
  · exact sameSteps_refl _ _

theorem sameSteps_doSetTrackPLock (s : Sequencer) :
    sameSteps SequencerStep.triggerView s.doSetTrackPLock.tracks s.tracks := by
  have h1 := forLoop_sameSteps SequencerStep.triggerView Sequencer.doSetTrackPLockTrack
    NUMBER_OF_INSTRUMENTTRACKS sameSteps_doSetTrackPLockTrack
    { s with functionLeds :=
      { s.functionLeds with BUTTON_TOGGLE_PLOCK := CRGB.DarkOrange } }
  have h2 := forLoop_sameSteps SequencerStep.triggerView Sequencer.doSetTrackPLockStep
    NUMBER_OF_STEPBUTTONS sameSteps_doSetTrackPLockStep
    (forLoop NUMBER_OF_INSTRUMENTTRACKS Sequencer.doSetTrackPLockTrack
      { s with functionLeds :=
        { s.functionLeds with BUTTON_TOGGLE_PLOCK := CRGB.DarkOrange } })
  simp only [Sequencer.doSetTrackPLock, apply_ite Sequencer.tracks, ite_self]
  exact sameSteps_trans h2 h1

/-- The step-copy bookkeeping of `doSetTriggers`. -/
theorem copyFlags_handlers (s : Sequencer) :
    (s.doSetTrackLength.stepCopy = s.stepCopy ∧
      s.doSetTrackLength.sourceStepIndex = s.sourceStepIndex) ∧
    (s.doSetTrackPLock.stepCopy = s.stepCopy ∧
      s.doSetTrackPLock.sourceStepIndex = s.sourceStepIndex) ∧
    (s.doSetTrackSelection.stepCopy = s.stepCopy ∧
      s.doSetTrackSelection.sourceStepIndex = s.sourceStepIndex) ∧
    (s.setFunctionButtonLights.stepCopy = s.stepCopy ∧
      s.setFunctionButtonLights.sourceStepIndex = s.sourceStepIndex) ∧
    (s.selectParamSet.stepCopy = s.stepCopy ∧
      s.selectParamSet.sourceStepIndex = s.sourceStepIndex) := by
  have k1 : ∀ x : Sequencer,
      (forLoop NUMBER_OF_STEPBUTTONS Sequencer.doSetTrackLengthStep x).stepCopy = x.stepCopy ∧
      (forLoop NUMBER_OF_STEPBUTTONS Sequencer.doSetTrackLengthStep x).sourceStepIndex
        = x.sourceStepIndex := by
    intro x
    have h := forLoop_keeps (fun y : Sequencer => (y.stepCopy, y.sourceStepIndex))
      Sequencer.doSetTrackLengthStep NUMBER_OF_STEPBUTTONS x (fun i y => by
        simp only [Sequencer.doSetTrackLengthStep, Sequencer.setTrack, Sequencer.setStepLED,
          apply_ite Sequencer.stepCopy, apply_ite Sequencer.sourceStepIndex, ite_self])
    simpa only [Prod.mk.injEq] using h
  have k2 : ∀ x : Sequencer,
      (forLoop NUMBER_OF_INSTRUMENTTRACKS Sequencer.doSetTrackPLockTrack x).stepCopy
        = x.stepCopy ∧
      (forLoop NUMBER_OF_INSTRUMENTTRACKS Sequencer.doSetTrackPLockTrack x).sourceStepIndex
        = x.sourceStepIndex := by
    intro x
    have h := forLoop_keeps (fun y : Sequencer => (y.stepCopy, y.sourceStepIndex))
      Sequencer.doSetTrackPLockTrack NUMBER_OF_INSTRUMENTTRACKS x (fun i y => by
        simp only [Sequencer.doSetTrackPLockTrack, Sequencer.setTrack,
          apply_ite Sequencer.stepCopy, apply_ite Sequencer.sourceStepIndex, ite_self])
    simpa only [Prod.mk.injEq] using h
  have k3 : ∀ x : Sequencer,
      (forLoop NUMBER_OF_STEPBUTTONS Sequencer.doSetTrackPLockStep x).stepCopy = x.stepCopy ∧
      (forLoop NUMBER_OF_STEPBUTTONS Sequencer.doSetTrackPLockStep x).sourceStepIndex
        = x.sourceStepIndex := by
    intro x
    have h := forLoop_keeps (fun y : Sequencer => (y.stepCopy, y.sourceStepIndex))
      Sequencer.doSetTrackPLockStep NUMBER_OF_STEPBUTTONS x (fun i y => by
        simp only [Sequencer.doSetTrackPLockStep, Sequencer.setSelectedStep, Sequencer.setTrack,
          Sequencer.setStepLED, apply_ite Sequencer.stepCopy,
          apply_ite Sequencer.sourceStepIndex, ite_self])
    simpa only [Prod.mk.injEq] using h
  have k4 : ∀ x : Sequencer,
      (forLoop NUMBER_OF_INSTRUMENTTRACKS Sequencer.doSetTrackSelectionTrack x).stepCopy
        = x.stepCopy ∧
      (forLoop NUMBER_OF_INSTRUMENTTRACKS Sequencer.doSetTrackSelectionTrack x).sourceStepIndex
        = x.sourceStepIndex := by
    intro x
    have h := forLoop_keeps (fun y : Sequencer => (y.stepCopy, y.sourceStepIndex))
      Sequencer.doSetTrackSelectionTrack NUMBER_OF_INSTRUMENTTRACKS x (fun i y => by
        simp only [Sequencer.doSetTrackSelectionTrack, Sequencer.setDefaultTrackLight,
          Sequencer.setTrackLED, Sequencer.deactivateSensors, apply_ite Sequencer.stepCopy,
          apply_ite Sequencer.sourceStepIndex, ite_self])
    simpa only [Prod.mk.injEq] using h
  refine ⟨?_, ?_, k4 s, ?_, ?_⟩
  · simp only [Sequencer.doSetTrackLength, Sequencer.setTrack, Sequencer.setStepLED,
      apply_ite Sequencer.stepCopy, apply_ite Sequencer.sourceStepIndex, ite_self, k1, and_self]
  · simp only [Sequencer.doSetTrackPLock, apply_ite Sequencer.stepCopy,
      apply_ite Sequencer.sourceStepIndex, ite_self, k3, k2, and_self]
  · simp only [Sequencer.setFunctionButtonLights, apply_ite Sequencer.stepCopy,
      apply_ite Sequencer.sourceStepIndex, ite_self, and_self]
  · simp only [Sequencer.selectParamSet, Sequencer.deactivateSensors,
      apply_ite Sequencer.stepCopy, apply_ite Sequencer.sourceStepIndex, ite_self, and_self]

end GatingTriggers

theorem sameSteps_set {β : Type} (v : SequencerStep → β) (l : List SequencerTrack) (j : Nat)
    (u : SequencerTrack)
    (h : ∀ p k, v (u.stepAt p k) = v ((l.getD j default).stepAt p k)) :
    sameSteps v (l.set j u) l := by
  intro i p k
  rw [list_getD_set]
  by_cases hi : i = j ∧ j < l.length
  · rw [if_pos hi, hi.1]
    exact h p k
  · rw [if_neg hi]

section GatingClock

attribute [local irreducible] forLoop

theorem sameSteps_doStep (s : Sequencer) :
    sameSteps SequencerStep.isTriggerOn s.doStep.tracks s.tracks :=
  forLoop_sameSteps SequencerStep.isTriggerOn Sequencer.doStepTrack
    NUMBER_OF_INSTRUMENTTRACKS
    (fun _ _ => sameSteps_set _ _ _ _
      (fun p k => congrArg SequencerStep.isTriggerOn ((track_doStep_stepAt _).1 p k)))
    { s with log := s.log ++ [Call.doStep] }

theorem sameSteps_doTriggerSoundsTrack (i : Nat) (s : Sequencer) :
    sameSteps SequencerStep.isTriggerOn (Sequencer.doTriggerSoundsTrack i s).tracks
      s.tracks := by
  simp only [Sequencer.doTriggerSoundsTrack, Sequencer.setTrack, Sequencer.track,
    SequencerTrack.setCurrentStep, apply_ite Sequencer.tracks, ite_self]
  split_ifs
  · exact sameSteps_setStep _ _ _ _ _ (isTriggerOn_recordPLock _ _)
  · exact sameSteps_refl _ _

theorem sameSteps_doTriggerSounds (s : Sequencer) (poti1 poti2 : Nat) :
    sameSteps SequencerStep.isTriggerOn (s.doTriggerSounds poti1 poti2).tracks s.tracks :=
  forLoop_sameSteps SequencerStep.isTriggerOn Sequencer.doTriggerSoundsTrack
    NUMBER_OF_INSTRUMENTTRACKS sameSteps_doTriggerSoundsTrack
    { s with log := s.log ++ [Call.doTriggerSounds],
             input1 := s.input1.update (poti1 % 65536),
             input2 := s.input2.update (poti2 % 65536) }

/-- The clock phase changes no trigger bit and leaves the step-copy bookkeeping alone. -/
theorem runClock_triggers (s : Sequencer) (millis poti1 poti2 : Nat) :
    sameSteps SequencerStep.isTriggerOn (s.runClock millis poti1 poti2).tracks s.tracks ∧
    (s.runClock millis poti1 poti2).stepCopy = s.stepCopy ∧
    (s.runClock millis poti1 poti2).sourceStepIndex = s.sourceStepIndex := by
  have h0 : sameSteps SequencerStep.isTriggerOn (s.stepIfDue millis).tracks s.tracks := by
    unfold Sequencer.stepIfDue
    simp only
    split_ifs
    · exact sameSteps_trans (sameSteps_doStep _)
        (sameSteps_of_eq _ (shouldStep_tracks s millis))
    · exact sameSteps_of_eq _ (shouldStep_tracks s millis)
  have h1 : sameSteps SequencerStep.isTriggerOn
      (s.beforeCursorLED millis poti1 poti2).tracks s.tracks := by
    unfold Sequencer.beforeCursorLED Sequencer.triggerIfPending
    split_ifs <;> first
      | exact sameSteps_refl _ _
      | exact h0
      | exact sameSteps_trans (sameSteps_doTriggerSounds _ _ _) h0
  have c1 : ∀ x : Sequencer, x.doStep.stepCopy = x.stepCopy ∧
      x.doStep.sourceStepIndex = x.sourceStepIndex := by
    intro x
    have h := forLoop_keeps (fun y : Sequencer => (y.stepCopy, y.sourceStepIndex))
      Sequencer.doStepTrack NUMBER_OF_INSTRUMENTTRACKS
      { x with log := x.log ++ [Call.doStep] } (fun _ _ => rfl)
    simp only [Prod.mk.injEq] at h
    exact h
  have c2 : ∀ x : Sequencer, (x.doTriggerSounds poti1 poti2).stepCopy = x.stepCopy ∧
      (x.doTriggerSounds poti1 poti2).sourceStepIndex = x.sourceStepIndex := by
    intro x
    have h := forLoop_keeps (fun y : Sequencer => (y.stepCopy, y.sourceStepIndex))
      Sequencer.doTriggerSoundsTrack NUMBER_OF_INSTRUMENTTRACKS
      { x with log := x.log ++ [Call.doTriggerSounds],
               input1 := x.input1.update (poti1 % 65536),
               input2 := x.input2.update (poti2 % 65536) }
      (fun i y => by
        simp only [Sequencer.doTriggerSoundsTrack, Sequencer.setTrack,
          apply_ite Sequencer.stepCopy, apply_ite Sequencer.sourceStepIndex, ite_self])
    simp only [Prod.mk.injEq] at h
    exact h
  have c3 : ∀ x : Sequencer, (x.shouldStep millis).2.stepCopy = x.stepCopy ∧
      (x.shouldStep millis).2.sourceStepIndex = x.sourceStepIndex := by
    intro x
    simp only [Sequencer.shouldStep, Sequencer.shouldStepMidiClock,
      Sequencer.shouldStepInternalClock, apply_ite (Prod.snd : Bool × Sequencer → Sequencer),
      apply_ite Sequencer.stepCopy, apply_ite Sequencer.sourceStepIndex, ite_self, and_self]
  have c4 : (s.beforeCursorLED millis poti1 poti2).stepCopy = s.stepCopy ∧
      (s.beforeCursorLED millis poti1 poti2).sourceStepIndex = s.sourceStepIndex := by
    unfold Sequencer.beforeCursorLED Sequencer.triggerIfPending Sequencer.stepIfDue
    simp only [apply_ite Sequencer.stepCopy, apply_ite Sequencer.sourceStepIndex,
      (c2 _).1, (c2 _).2, (c1 _).1, (c1 _).2, (c3 _).1, (c3 _).2, ite_self, and_self]
  rw [runClock_beforeCursorLED]
  split_ifs
  · refine ⟨?_, ?_, ?_⟩
    · rw [tracks_setStepLED]
      exact h1
    · rw [stepCopy_setStepLED]
      exact c4.1
    · rw [sourceStepIndex_setStepLED]
      exact c4.2
  · exact ⟨h1, c4.1, c4.2⟩

end GatingClock

section GatingTick

attribute [local irreducible] forLoop

/-- C23: handler gating in `updateState`. The mode of the tick is `calculateFunctionMode` on
the state at entry (the parameter-set selection that runs first does not change it). In a tick
whose mode is TOGGLE_MUTES or PATTERN_OPS the selected track is the same after the whole tick
and no volume, pan or mixer call is added to the log, whatever the track buttons read. In a
tick whose mode is SET_TRACK_LENGTH or TOGGLE_PLOCKS the handlers leave the trigger bit, the
trigger mask and the six parameters of every step of every pattern as they are (so no step is
toggled and no step is copied), the whole tick leaves every trigger bit as it is, and the
step-copy bookkeeping (`stepCopy`, `sourceStepIndex`) is untouched, whatever the step buttons
read. In the five other modes the mode handler is followed by `doSetTrackSelection` and then by
`doSetTriggers`; the last conjunct lists what runs in each of the nine modes. -/
theorem handler_gating (s : Sequencer) (millis poti1 poti2 : Nat) :
    (({ s with hasActivePLockReceivers := false } : Sequencer).selectParamSet.calculateFunctionMode
      = s.calculateFunctionMode) ∧
    ((s.calculateFunctionMode = FunctionMode.TOGGLE_MUTES ∨
        s.calculateFunctionMode = FunctionMode.PATTERN_OPS) →
      (s.updateState millis poti1 poti2).selectedTrack = s.selectedTrack ∧
      (s.updateState millis poti1 poti2).log.filter Call.isMix = s.log.filter Call.isMix) ∧
    ((s.calculateFunctionMode = FunctionMode.SET_TRACK_LENGTH ∨
        s.calculateFunctionMode = FunctionMode.TOGGLE_PLOCKS) →
      (∀ i p j, (((s.updateStateHandlers millis).track i).stepAt p j).triggerView
        = ((s.track i).stepAt p j).triggerView) ∧
      (∀ i p j, (((s.updateState millis poti1 poti2).track i).stepAt p j).isTriggerOn
        = ((s.track i).stepAt p j).isTriggerOn) ∧
      (s.updateState millis poti1 poti2).stepCopy = s.stepCopy ∧
      (s.updateState millis poti1 poti2).sourceStepIndex = s.sourceStepIndex) ∧
    (∀ (x : Sequencer) (m : Nat),
      x.runHandlers FunctionMode.START_STOP m
        = (x.doStartStop m).doSetTrackSelection.doSetTriggers ∧
      x.runHandlers FunctionMode.LEAVE_TOGGLE_PLOCKS m
        = x.doTurnOffPlockMode.doSetTrackSelection.doSetTriggers ∧
      x.runHandlers FunctionMode.LEAVE_TOGGLE_MUTES m
        = x.doUpdateMutes.doSetTrackSelection.doSetTriggers ∧
      x.runHandlers FunctionMode.LEAVE_PATTERN_OPS m
        = x.doLeavePatternOps.doSetTrackSelection.doSetTriggers ∧
      x.runHandlers FunctionMode.DEFAULT_MODE m = x.doSetTrackSelection.doSetTriggers ∧
      x.runHandlers FunctionMode.TOGGLE_MUTES m = x.doToggleTrackMuteArm.doSetTriggers ∧
      x.runHandlers FunctionMode.PATTERN_OPS m = x.doPatternOps ∧
      x.runHandlers FunctionMode.SET_TRACK_LENGTH m
        = x.doSetTrackLength.doSetTrackSelection ∧
      x.runHandlers FunctionMode.TOGGLE_PLOCKS m = x.doSetTrackPLock.doSetTrackSelection) := by
  have e0 : ({ s with hasActivePLockReceivers := false } :
      Sequencer).selectParamSet.latchView = s.latchView := latchView_selectParamSet _
  have v0 : ({ s with hasActivePLockReceivers := false } :
      Sequencer).selectParamSet.selectionView = s.selectionView :=
    selectionView_selectParamSet _
  have t0 : ({ s with hasActivePLockReceivers := false } :
      Sequencer).selectParamSet.tracks = s.tracks := selectParamSet_tracks _
  have f0 := (copyFlags_handlers
    ({ s with hasActivePLockReceivers := false } : Sequencer)).2.2.2.2
  have hm0 := calculateFunctionMode_latchView e0
  have eh : s.updateStateHandlers millis
      = (({ s with hasActivePLockReceivers := false } : Sequencer).selectParamSet.runHandlers
          ({ s with hasActivePLockReceivers := false } :
            Sequencer).selectParamSet.calculateFunctionMode millis).setFunctionButtonLights :=
    rfl
  have eu : s.updateState millis poti1 poti2
      = (s.updateStateHandlers millis).runClock millis poti1 poti2 := rfl
  generalize ({ s with hasActivePLockReceivers := false } : Sequencer).selectParamSet = x
    at e0 v0 t0 f0 hm0 eh
  refine ⟨hm0, fun hmode => ?_, fun hmode => ?_, fun y m => ⟨rfl, rfl, rfl, rfl, rfl, rfl, rfl,
    rfl, rfl⟩⟩
  · have hv : (s.updateState millis poti1 poti2).selectionView = s.selectionView := by
      rw [eu, selectionView_runClock, eh, selectionView_setFunctionButtonLights, hm0]
      rcases hmode with h | h
      · rw [h]
        show (x.doToggleTrackMuteArm.doSetTriggers).selectionView = _
        rw [selectionView_doSetTriggers, selectionView_doToggleTrackMuteArm, v0]
      · rw [h]
        show x.doPatternOps.selectionView = _
        rw [selectionView_doPatternOps, v0]
    simp only [Sequencer.selectionView, Prod.mk.injEq] at hv
    exact hv
  · have hh : sameSteps SequencerStep.triggerView (s.updateStateHandlers millis).tracks
          s.tracks ∧
        (s.updateStateHandlers millis).stepCopy = s.stepCopy ∧
        (s.updateStateHandlers millis).sourceStepIndex = s.sourceStepIndex := by
      rw [eh, (setFunctionButtonLights_rest _).1, (copyFlags_handlers _).2.2.2.1.1,
        (copyFlags_handlers _).2.2.2.1.2, hm0]
      rcases hmode with h | h
      · rw [h]
        show sameSteps _ (x.doSetTrackLength.doSetTrackSelection).tracks _ ∧
          (x.doSetTrackLength.doSetTrackSelection).stepCopy = _ ∧
          (x.doSetTrackLength.doSetTrackSelection).sourceStepIndex = _
        rw [(doSetTrackSelection_tracks _).1, (copyFlags_handlers _).2.2.1.1,
          (copyFlags_handlers _).2.2.1.2, (copyFlags_handlers x).1.1,
          (copyFlags_handlers x).1.2, f0.1, f0.2, ← t0]
        exact ⟨sameSteps_doSetTrackLength x, rfl, rfl⟩
      · rw [h]
        show sameSteps _ (x.doSetTrackPLock.doSetTrackSelection).tracks _ ∧
          (x.doSetTrackPLock.doSetTrackSelection).stepCopy = _ ∧
          (x.doSetTrackPLock.doSetTrackSelection).sourceStepIndex = _
        rw [(doSetTrackSelection_tracks _).1, (copyFlags_handlers _).2.2.1.1,
          (copyFlags_handlers _).2.2.1.2, (copyFlags_handlers x).2.1.1,
          (copyFlags_handlers x).2.1.2, f0.1, f0.2, ← t0]
        exact ⟨sameSteps_doSetTrackPLock x, rfl, rfl⟩
    obtain ⟨r1, r2, r3⟩ := runClock_triggers (s.updateStateHandlers millis) millis poti1 poti2
    refine ⟨fun i p j => hh.1 i p j, fun i p j => ?_, ?_, ?_⟩
    · rw [eu]
      exact (r1 i p j).trans (congrArg Prod.fst (hh.1 i p j))
    · rw [eu, r2, hh.2.1]
    · rw [eu, r3, hh.2.2]

end GatingTick

set_option maxRecDepth 100000 in
theorem handler_gating_witness :
    (({ functionButtons := { BUTTON_TOGGLE_MUTE := { read := true } }
        trackButtons := (List.replicate 6 {}).set 2 { read := true, fell := true }
        input1 := { value := 700, active := true } } : Sequencer).updateState 0 0 0).selectedTrack
      = 0 :=
  ((handler_gating
    { functionButtons := { BUTTON_TOGGLE_MUTE := { read := true } }
      trackButtons := (List.replicate 6 {}).set 2 { read := true, fell := true }
      input1 := { value := 700, active := true } } 0 0 0).2.1 (Or.inl (by decide))).1


/-! ## The plock indicator -/

/-- C24, counterexample: in a tick in mode TOGGLE_MUTES the current pattern of track 0 is in
plock mode before and after the tick and `stepCount` is even, but track 0 is mute-armed, so its
light is not the default light, `hasActivePLockReceivers` stays clear, and the LED of
TOGGLE_PLOCK is Black after `updateState`. -/
theorem plock_indicator_dark :
    plockIndicatorScenario.calculateFunctionMode = FunctionMode.TOGGLE_MUTES ∧
    (plockIndicatorScenario.track 0).getCurrentPattern.isInPLockMode = true ∧
    plockIndicatorScenario.stepCount % 2 = 0 ∧
    (((plockIndicatorScenario.updateState 0 0 0).track 0).getCurrentPattern.isInPLockMode
      = true) ∧
    (plockIndicatorScenario.updateState 0 0 0).stepCount % 2 = 0 ∧
    (plockIndicatorScenario.updateState 0 0 0).functionLeds.BUTTON_TOGGLE_PLOCK
      = CRGB.Black := by
  set_option maxRecDepth 100000 in decide

theorem sameTracks_refl {β : Type} (w : SequencerTrack → β) (l : List SequencerTrack) :
    sameTracks w l l := fun _ => rfl

theorem sameTracks_trans {β : Type} {w : SequencerTrack → β} {a b c : List SequencerTrack}
    (h1 : sameTracks w a b) (h2 : sameTracks w b c) : sameTracks w a c :=
  fun i => (h1 i).trans (h2 i)

theorem sameTracks_of_eq {β : Type} (w : SequencerTrack → β) {a b : List SequencerTrack}
    (h : a = b) : sameTracks w a b := h ▸ sameTracks_refl w a

theorem sameTracks_set {β : Type} (w : SequencerTrack → β) (l : List SequencerTrack)
    (j : Nat) (u : SequencerTrack) (h : w u = w (l.getD j default)) :
    sameTracks w (l.set j u) l := by
  intro i
  rw [list_getD_set]
  by_cases hi : i = j ∧ j < l.length
  · rw [if_pos hi, hi.1]
    exact h
  · rw [if_neg hi]

theorem sameTracks_map {β : Type} (w : SequencerTrack → β) (l : List SequencerTrack)
    (f : SequencerTrack → SequencerTrack) (hd : f default = default)
    (h : ∀ t, w (f t) = w t) : sameTracks w (l.map f) l := by
  intro i
  have e : (l.map f).getD i default = f (l.getD i default) := by
    have e2 := list_getD_map l f i default
    rw [hd] at e2
    exact e2
  rw [e, h]

/-- Replacing the current pattern by one with the same steps keeps the receiver status. -/
theorem isPLockReceiver_setCurrentPattern (t : SequencerTrack) (q : SequencerPattern)
    (h : q.steps = t.getCurrentPattern.steps) :
    (t.setCurrentPattern q).isPLockReceiver = t.isPLockReceiver := by
  unfold SequencerTrack.isPLockReceiver
  rw [getCurrentPattern_setCurrentPattern]
  split_ifs
  · unfold SequencerPattern.isInPLockMode
    rw [h]
  · rfl

theorem isPLockReceiver_onStop (t : SequencerTrack) :
    t.onStop.isPLockReceiver = t.isPLockReceiver :=
  isPLockReceiver_setCurrentPattern t _ rfl

theorem isPLockReceiver_activateMuteArms (t : SequencerTrack) :
    t.activateMuteArms.isPLockReceiver = t.isPLockReceiver := by
  unfold SequencerTrack.activateMuteArms
  split <;> rfl

section IndicatorHandlers

attribute [local irreducible] forLoop

theorem forLoop_sameTracks {β : Type} (w : SequencerTrack → β)
    (body : Nat → Sequencer → Sequencer) (n : Nat)
    (hb : ∀ i y, sameTracks w (body i y).tracks y.tracks) (x : Sequencer) :
    sameTracks w (forLoop n body x).tracks x.tracks :=
  forLoop_inv (fun y => sameTracks w y.tracks x.tracks) body n x
    (fun i y _ hy => sameTracks_trans (hb i y) hy) (sameTracks_refl w _)

theorem receivers_doStartStop (s : Sequencer) (millis : Nat) :
    sameTracks SequencerTrack.isPLockReceiver (s.doStartStop millis).tracks s.tracks := by
  have h1 := forLoop_sameTracks SequencerTrack.isPLockReceiver Sequencer.onStopTrack
    NUMBER_OF_INSTRUMENTTRACKS
    (fun _ _ => sameTracks_set _ _ _ _ (isPLockReceiver_onStop _))
    { s with running := !s.running }
  simp only [Sequencer.doStartStop, apply_ite Sequencer.tracks]
  split_ifs <;> first | exact h1 | exact sameTracks_refl _ _

theorem receivers_doSetTrackLengthStep (i : Nat) (s : Sequencer) :
    sameTracks SequencerTrack.isPLockReceiver (Sequencer.doSetTrackLengthStep i s).tracks
      s.tracks := by
  simp only [Sequencer.doSetTrackLengthStep, Sequencer.setTrack, Sequencer.track,
    tracks_setStepLED, apply_ite Sequencer.tracks]
  split_ifs
  · exact sameTracks_set _ _ _ _ (isPLockReceiver_setCurrentPattern _ _ rfl)
  · exact sameTracks_refl _ _

theorem receivers_doSetTrackLength (s : Sequencer) :
    sameTracks SequencerTrack.isPLockReceiver s.doSetTrackLength.tracks s.tracks := by
  have hL := forLoop_sameTracks SequencerTrack.isPLockReceiver Sequencer.doSetTrackLengthStep
    NUMBER_OF_STEPBUTTONS receivers_doSetTrackLengthStep
    { s with functionLeds :=
      { s.functionLeds with BUTTON_SET_TRACKLENGTH := CRGB.CornflowerBlue } }
  simp only [Sequencer.doSetTrackLength, Sequencer.setTrack, Sequencer.track,
    tracks_setStepLED, apply_ite Sequencer.tracks, ite_self]
  split_ifs <;> first
    | exact hL
    | exact sameTracks_trans
        (sameTracks_set _ _ _ _ (isPLockReceiver_setCurrentPattern _ _ rfl)) hL

theorem receivers_doUpdateMutes (s : Sequencer) :
    sameTracks SequencerTrack.isPLockReceiver s.doUpdateMutes.tracks s.tracks :=
  forLoop_sameTracks SequencerTrack.isPLockReceiver Sequencer.doUpdateMutesTrack
    NUMBER_OF_INSTRUMENTTRACKS
    (fun _ _ => sameTracks_set _ _ _ _ (isPLockReceiver_activateMuteArms _)) s

theorem receivers_doLeavePatternOpsTrack (k : Nat) (s : Sequencer) :
    sameTracks SequencerTrack.isPLockReceiver (Sequencer.doLeavePatternOpsTrack k s).tracks
      s.tracks := by
  simp only [Sequencer.doLeavePatternOpsTrack, Sequencer.setTrack, Sequencer.track,
    apply_ite Sequencer.tracks]
  split_ifs <;> first
    | exact sameTracks_refl _ _
    | exact sameTracks_set _ _ _ _ rfl

theorem receivers_doLeavePatternOps (s : Sequencer) :
    sameTracks SequencerTrack.isPLockReceiver s.doLeavePatternOps.tracks s.tracks := by
  have h1 := forLoop_sameTracks SequencerTrack.isPLockReceiver
    Sequencer.doLeavePatternOpsTrack NUMBER_OF_INSTRUMENTTRACKS
    receivers_doLeavePatternOpsTrack s
  exact sameTracks_trans
    (sameTracks_map _ _ (fun t => { t with patternOpsArmed := false }) rfl (fun _ => rfl)) h1

end IndicatorHandlers

section IndicatorLights

attribute [local irreducible] forLoop

theorem lightView_setStepLED (s : Sequencer) (i : Int) (c : CRGB) :
    (s.setStepLED i c).lightView = s.lightView := by
  unfold Sequencer.setStepLED
  split <;> rfl

/-- The only write of `hasActivePLockReceivers` outside the reset at the start of the tick. -/
theorem setDefaultTrackLight_receivers (s : Sequencer) (i : Nat) :
    (s.setDefaultTrackLight i).hasActivePLockReceivers
      = (s.hasActivePLockReceivers || (s.track i).isPLockReceiver) ∧
    (s.setDefaultTrackLight i).stepCount = s.stepCount ∧
    (s.setDefaultTrackLight i).input1 = s.input1 ∧
    (s.setDefaultTrackLight i).input2 = s.input2 ∧
    (s.setDefaultTrackLight i).functionLeds = s.functionLeds ∧
    (s.setDefaultTrackLight i).trackButtons = s.trackButtons := by
  simp only [Sequencer.setDefaultTrackLight, Sequencer.setTrackLED,
    SequencerTrack.isPLockReceiver, apply_ite Sequencer.hasActivePLockReceivers,
    apply_ite Sequencer.stepCount, apply_ite Sequencer.input1, apply_ite Sequencer.input2,
    apply_ite Sequencer.functionLeds, apply_ite Sequencer.trackButtons, ite_self, and_true]
  cases (s.track i).getCurrentPattern.isInPLockMode <;> simp

theorem doSetTrackSelectionTrack_receivers (i : Nat) (y : Sequencer) :
    (Sequencer.doSetTrackSelectionTrack i y).hasActivePLockReceivers
      = (y.hasActivePLockReceivers || (y.track i).isPLockReceiver) ∧
    (Sequencer.doSetTrackSelectionTrack i y).stepCount = y.stepCount ∧
    (Sequencer.doSetTrackSelectionTrack i y).functionLeds = y.functionLeds ∧
    (Sequencer.doSetTrackSelectionTrack i y).trackButtons = y.trackButtons ∧
    ((y.trackButton i).fell = false →
      (Sequencer.doSetTrackSelectionTrack i y).input1 = y.input1 ∧
      (Sequencer.doSetTrackSelectionTrack i y).input2 = y.input2) := by
  refine ⟨?_, ?_, ?_, ?_, fun hf => ?_⟩
  · simp only [Sequencer.doSetTrackSelectionTrack, Sequencer.setDefaultTrackLight,
      Sequencer.setTrackLED, Sequencer.deactivateSensors, Sequencer.track,
      SequencerTrack.isPLockReceiver, apply_ite Sequencer.hasActivePLockReceivers,
      apply_ite Sequencer.tracks, ite_self]
    cases (y.tracks.getD i default).getCurrentPattern.isInPLockMode <;> simp
  · simp only [Sequencer.doSetTrackSelectionTrack, Sequencer.setDefaultTrackLight,
      Sequencer.setTrackLED, Sequencer.deactivateSensors,
      apply_ite Sequencer.stepCount, ite_self]
  · simp only [Sequencer.doSetTrackSelectionTrack, Sequencer.setDefaultTrackLight,
      Sequencer.setTrackLED, Sequencer.deactivateSensors,
      apply_ite Sequencer.functionLeds, ite_self]
  · simp only [Sequencer.doSetTrackSelectionTrack, Sequencer.setDefaultTrackLight,
      Sequencer.setTrackLED, Sequencer.deactivateSensors,
      apply_ite Sequencer.trackButtons, ite_self]
  · simp only [Sequencer.doSetTrackSelectionTrack, Sequencer.setDefaultTrackLight,
      Sequencer.setTrackLED, Sequencer.deactivateSensors, Sequencer.trackButton,
      apply_ite Sequencer.input1, apply_ite Sequencer.input2,
      apply_ite Sequencer.trackButtons, ite_self]
    unfold Sequencer.trackButton at hf
    simp only [hf, Bool.false_eq_true, if_false, and_self]

theorem doSetTrackSelection_loop_receivers (s : Sequencer) (n : Nat) :
    (forLoop n Sequencer.doSetTrackSelectionTrack s).tracks = s.tracks ∧
    (forLoop n Sequencer.doSetTrackSelectionTrack s).trackButtons = s.trackButtons ∧
    (forLoop n Sequencer.doSetTrackSelectionTrack s).hasActivePLockReceivers
      = (s.hasActivePLockReceivers ||
          (List.range n).any fun i => (s.track i).isPLockReceiver) ∧
    (forLoop n Sequencer.doSetTrackSelectionTrack s).stepCount = s.stepCount ∧
    (forLoop n Sequencer.doSetTrackSelectionTrack s).functionLeds = s.functionLeds ∧
    ((∀ i, i < n → (s.trackButton i).fell = false) →
      (forLoop n Sequencer.doSetTrackSelectionTrack s).input1 = s.input1 ∧
      (forLoop n Sequencer.doSetTrackSelectionTrack s).input2 = s.input2) := by
  induction n with
  | zero =>
    rw [forLoop_zero]
    refine ⟨rfl, rfl, ?_, rfl, rfl, fun _ => ⟨rfl, rfl⟩⟩
    rw [List.range_zero, List.any_nil, Bool.or_false]
  | succ k ih =>
    obtain ⟨h1, h2, h3, h4, h5, h6⟩ := ih
    rw [forLoop_succ]
    obtain ⟨b1, b2, b3, b4, b5⟩ := doSetTrackSelectionTrack_receivers k
      (forLoop k Sequencer.doSetTrackSelectionTrack s)
    obtain ⟨t1, -⟩ := doSetTrackSelectionTrack_tracks k
      (forLoop k Sequencer.doSetTrackSelectionTrack s)
    have ht : (forLoop k Sequencer.doSetTrackSelectionTrack s).track k = s.track k :=
      track_congr h1 k
    have hb : (forLoop k Sequencer.doSetTrackSelectionTrack s).trackButton k
        = s.trackButton k := by
      unfold Sequencer.trackButton
      rw [h2]
    refine ⟨t1.trans h1, b4.trans h2, ?_, b2.trans h4, b3.trans h5, fun hf => ?_⟩
    · rw [b1, h3, ht, List.range_succ, List.any_append, List.any_cons, List.any_nil,
        Bool.or_false, Bool.or_assoc]
    · obtain ⟨i1, i2⟩ := h6 (fun i hi => hf i (Nat.lt_succ_of_lt hi))
      obtain ⟨j1, j2⟩ := b5 (by rw [hb]; exact hf k (Nat.lt_succ_self k))
      exact ⟨j1.trans i1, j2.trans i2⟩

theorem lightView_doSetTriggersStep (i : Nat) (acc : Sequencer × Bool) :
    (Sequencer.doSetTriggersStep i acc).1.lightView = acc.1.lightView := by
  simp only [Sequencer.lightView, Sequencer.doSetTriggersStep, Sequencer.setSelectedStep,
    Sequencer.setTrack, Sequencer.setStepLED, apply_ite Sequencer.stepCount,
    apply_ite Sequencer.input1, apply_ite Sequencer.input2,
    apply_ite Sequencer.hasActivePLockReceivers, apply_ite Sequencer.functionLeds,
        apply_ite Sequencer.trackButtons,
    apply_ite (Prod.fst : Sequencer × Bool → Sequencer), ite_self]

theorem lightView_doSetTriggers (s : Sequencer) :
    s.doSetTriggers.lightView = s.lightView := by
  have h := forLoop_keeps (fun acc : Sequencer × Bool => acc.1.lightView)
    Sequencer.doSetTriggersStep NUMBER_OF_STEPBUTTONS (s, false) lightView_doSetTriggersStep
  unfold Sequencer.doSetTriggers
  simp only
  split_ifs
  · exact h
  · exact h

theorem lightView_doSetTrackLength (s : Sequencer) :
    s.doSetTrackLength.lightView = s.lightView := by
  have h := forLoop_keeps Sequencer.lightView Sequencer.doSetTrackLengthStep
    NUMBER_OF_STEPBUTTONS
    { s with functionLeds :=
      { s.functionLeds with BUTTON_SET_TRACKLENGTH := CRGB.CornflowerBlue } }
    (fun i y => by
      simp only [Sequencer.lightView, Sequencer.doSetTrackLengthStep, Sequencer.setTrack,
        Sequencer.setStepLED, apply_ite Sequencer.stepCount,
        apply_ite Sequencer.input1, apply_ite Sequencer.input2,
        apply_ite Sequencer.hasActivePLockReceivers, apply_ite Sequencer.functionLeds,
        apply_ite Sequencer.trackButtons,
        ite_self])
  simp only [Sequencer.lightView, Prod.mk.injEq] at h
  simp only [Sequencer.lightView, Sequencer.doSetTrackLength, Sequencer.setTrack,
    Sequencer.setStepLED, apply_ite Sequencer.stepCount,
    apply_ite Sequencer.input1, apply_ite Sequencer.input2,
    apply_ite Sequencer.hasActivePLockReceivers, apply_ite Sequencer.functionLeds,
        apply_ite Sequencer.trackButtons,
    ite_self, h.1, h.2.1, h.2.2.1, h.2.2.2.1, h.2.2.2.2.1, h.2.2.2.2.2]

theorem lightView_doUpdateMutes (s : Sequencer) :
    s.doUpdateMutes.lightView = s.lightView :=
  forLoop_keeps Sequencer.lightView Sequencer.doUpdateMutesTrack
    NUMBER_OF_INSTRUMENTTRACKS s (fun _ _ => rfl)

theorem lightView_doLeavePatternOps (s : Sequencer) :
    s.doLeavePatternOps.lightView = s.lightView := by
  have h := forLoop_keeps Sequencer.lightView Sequencer.doLeavePatternOpsTrack
    NUMBER_OF_INSTRUMENTTRACKS s
    (fun i y => by
      simp only [Sequencer.lightView, Sequencer.doLeavePatternOpsTrack, Sequencer.setTrack,
        apply_ite Sequencer.stepCount,
        apply_ite Sequencer.input1, apply_ite Sequencer.input2,
        apply_ite Sequencer.hasActivePLockReceivers, apply_ite Sequencer.functionLeds,
        apply_ite Sequencer.trackButtons,
        ite_self])
  exact h

theorem lightView_doStartStop (s : Sequencer) (millis : Nat) :
    (s.doStartStop millis).stepCount % 2 = (if s.running then 0 else s.stepCount % 2) ∧
    (s.doStartStop millis).input1 = s.input1 ∧
    (s.doStartStop millis).input2 = s.input2 ∧
    (s.doStartStop millis).functionLeds = s.functionLeds ∧
    (s.doStartStop millis).hasActivePLockReceivers = s.hasActivePLockReceivers ∧
    (s.doStartStop millis).trackButtons = s.trackButtons := by
  have h := forLoop_keeps (fun y : Sequencer =>
      (y.input1, y.input2, y.functionLeds, y.hasActivePLockReceivers, y.trackButtons))
    Sequencer.onStopTrack NUMBER_OF_INSTRUMENTTRACKS { s with running := !s.running }
    (fun _ _ => rfl)
  simp only [Prod.mk.injEq] at h
  simp only [Sequencer.doStartStop, apply_ite Sequencer.stepCount,
    apply_ite Sequencer.input1, apply_ite Sequencer.input2, apply_ite Sequencer.functionLeds,
    apply_ite Sequencer.hasActivePLockReceivers, apply_ite Sequencer.trackButtons,
    h.1, h.2.1, h.2.2.1, h.2.2.2.1, h.2.2.2.2, ite_self]
  cases s.running <;> simp

theorem lightView_selectParamSet (s : Sequencer) :
    s.selectParamSet.stepCount = s.stepCount ∧
    s.selectParamSet.hasActivePLockReceivers = s.hasActivePLockReceivers ∧
    s.selectParamSet.functionLeds = s.functionLeds ∧
    s.selectParamSet.trackButtons = s.trackButtons ∧
    (s.functionButtons.BUTTON_SET_PARAMSET_1.rose = false →
      s.functionButtons.BUTTON_SET_PARAMSET_2.rose = false →
      s.functionButtons.BUTTON_SET_PARAMSET_3.rose = false →
      s.selectParamSet.input1 = s.input1 ∧ s.selectParamSet.input2 = s.input2) := by
  refine ⟨?_, ?_, ?_, ?_, fun h1 h2 h3 => ?_⟩
  · simp only [Sequencer.selectParamSet, Sequencer.deactivateSensors,
      apply_ite Sequencer.stepCount, ite_self]
  · simp only [Sequencer.selectParamSet, Sequencer.deactivateSensors,
      apply_ite Sequencer.hasActivePLockReceivers, ite_self]
  · simp only [Sequencer.selectParamSet, Sequencer.deactivateSensors,
      apply_ite Sequencer.functionLeds, ite_self]
  · simp only [Sequencer.selectParamSet, Sequencer.deactivateSensors,
      apply_ite Sequencer.trackButtons, ite_self]
  · unfold Sequencer.selectParamSet
    rw [h1, h2, h3]
    exact ⟨rfl, rfl⟩

/-- The write of the plock indicator in `setFunctionButtonLights`: DarkOrange under the
condition of the source, the former content of the cell otherwise. -/
theorem setFunctionButtonLights_plock (s : Sequencer) :
    s.setFunctionButtonLights.functionLeds.BUTTON_TOGGLE_PLOCK
      = if ((s.hasActivePLockReceivers && s.stepCount % 2 == 0) ||
            (s.hasActivePLockReceivers && (s.input1.isActive || s.input2.isActive))) = true
        then CRGB.DarkOrange else s.functionLeds.BUTTON_TOGGLE_PLOCK := by
  unfold Sequencer.setFunctionButtonLights
  simp only
  split_ifs <;> rfl

theorem functionLeds_runClock (s : Sequencer) (millis poti1 poti2 : Nat) :
    (s.runClock millis poti1 poti2).functionLeds = s.functionLeds := by
  have h2 : ∀ x : Sequencer, x.doStep.functionLeds = x.functionLeds := fun x =>
    forLoop_keeps Sequencer.functionLeds Sequencer.doStepTrack
      NUMBER_OF_INSTRUMENTTRACKS { x with log := x.log ++ [Call.doStep] } (fun _ _ => rfl)
  have h3 : ∀ x : Sequencer, (x.doTriggerSounds poti1 poti2).functionLeds = x.functionLeds :=
    fun x => forLoop_keeps Sequencer.functionLeds Sequencer.doTriggerSoundsTrack
      NUMBER_OF_INSTRUMENTTRACKS
      { x with log := x.log ++ [Call.doTriggerSounds],
               input1 := x.input1.update (poti1 % 65536),
               input2 := x.input2.update (poti2 % 65536) }
      (fun i y => by
        simp only [Sequencer.doTriggerSoundsTrack, Sequencer.setTrack,
          apply_ite Sequencer.functionLeds, ite_self])
  have h1 : ∀ x : Sequencer, (x.shouldStep millis).2.functionLeds = x.functionLeds := by
    intro x
    simp only [Sequencer.shouldStep, Sequencer.shouldStepMidiClock,
      Sequencer.shouldStepInternalClock, apply_ite (Prod.snd : Bool × Sequencer → Sequencer),
      apply_ite Sequencer.functionLeds, ite_self]
  have h4 : ∀ (x : Sequencer) (k : Int) (c : CRGB),
      (x.setStepLED k c).functionLeds = x.functionLeds := by
    intro x k c
    unfold Sequencer.setStepLED
    split <;> rfl
  unfold Sequencer.runClock Sequencer.stepIfDue Sequencer.triggerIfPending
  simp only [apply_ite Sequencer.functionLeds, h4, h3, h2, h1, ite_self]

end IndicatorLights

theorem list_any_range_true (n : Nat) (P : Nat → Bool) (h : ∃ i, i < n ∧ P i = true) :
    (List.range n).any P = true := by
  obtain ⟨i, hi, hp⟩ := h
  rw [List.any_eq_true]
  exact ⟨i, List.mem_range.mpr hi, hp⟩

theorem list_any_range_false (n : Nat) (P : Nat → Bool) (h : ∀ i, i < n → P i = false) :
    (List.range n).any P = false := by
  rw [List.any_eq_false]
  intro i hi
  rw [h i (List.mem_range.mp hi)]
  exact Bool.false_ne_true

section IndicatorTick

attribute [local irreducible] forLoop

/-- The track-button handler, followed or not by the step-button handler: the receivers flag
collects the six tracks, the step count and the LED cell are kept, and the controllers are kept
when no track button was released. -/
theorem indicator_after_selection (m h : Sequencer)
    (hh : h = m.doSetTrackSelection ∨ h = m.doSetTrackSelection.doSetTriggers) :
    h.hasActivePLockReceivers
      = (m.hasActivePLockReceivers ||
          (List.range 6).any fun i => (m.track i).isPLockReceiver) ∧
    h.stepCount = m.stepCount ∧
    h.functionLeds.BUTTON_TOGGLE_PLOCK = m.functionLeds.BUTTON_TOGGLE_PLOCK ∧
    ((∀ i, i < 6 → (m.trackButton i).fell = false) →
      h.input1 = m.input1 ∧ h.input2 = m.input2) := by
  obtain ⟨-, -, a3, a4, a5, a6⟩ := doSetTrackSelection_loop_receivers m 6
  have v := lightView_doSetTriggers m.doSetTrackSelection
  simp only [Sequencer.lightView, Prod.mk.injEq] at v
  obtain ⟨v1, v2, v3, v4, v5, -⟩ := v
  rcases hh with e | e
  · rw [e]
    exact ⟨a3, a4, congrArg FunctionLeds.BUTTON_TOGGLE_PLOCK a5, a6⟩
  · rw [e, v1, v2, v3, v4, v5]
    exact ⟨a3, a4, congrArg FunctionLeds.BUTTON_TOGGLE_PLOCK a5, a6⟩

/-- The five modes whose handler leaves the plock bits alone and which run the track-button
handler: what their handler keeps. -/
theorem indicator_modes (x : Sequencer) (millis : Nat) (mode : FunctionMode)
    (hmode : mode = FunctionMode.DEFAULT_MODE ∨ mode = FunctionMode.START_STOP ∨
      mode = FunctionMode.SET_TRACK_LENGTH ∨ mode = FunctionMode.LEAVE_TOGGLE_MUTES ∨
      mode = FunctionMode.LEAVE_PATTERN_OPS) :
    ∃ m : Sequencer,
      (x.runHandlers mode millis = m.doSetTrackSelection ∨
        x.runHandlers mode millis = m.doSetTrackSelection.doSetTriggers) ∧
      sameTracks SequencerTrack.isPLockReceiver m.tracks x.tracks ∧
      (x.stepCount % 2 = 0 → m.stepCount % 2 = 0) ∧
      m.input1 = x.input1 ∧ m.input2 = x.input2 ∧
      m.functionLeds.BUTTON_TOGGLE_PLOCK = x.functionLeds.BUTTON_TOGGLE_PLOCK ∧
      m.hasActivePLockReceivers = x.hasActivePLockReceivers ∧
      m.trackButtons = x.trackButtons := by
  rcases hmode with h | h | h | h | h
  · rw [h]
    exact ⟨x, Or.inr rfl, sameTracks_refl _ _, fun e => e, rfl, rfl, rfl, rfl, rfl⟩
  · rw [h]
    obtain ⟨a1, a2, a3, a4, a5, a6⟩ := lightView_doStartStop x millis
    refine ⟨x.doStartStop millis, Or.inr rfl, receivers_doStartStop x millis, fun e => ?_,
      a2, a3, congrArg FunctionLeds.BUTTON_TOGGLE_PLOCK a4, a5, a6⟩
    rw [a1]
    split_ifs
    · rfl
    · exact e
  · rw [h]
    have v := lightView_doSetTrackLength x
    simp only [Sequencer.lightView, Prod.mk.injEq] at v
    obtain ⟨v1, v2, v3, v4, v5, v6⟩ := v
    exact ⟨x.doSetTrackLength, Or.inl rfl, receivers_doSetTrackLength x,
      fun e => by rw [v1]; exact e, v2, v3, v5, v4, v6⟩
  · rw [h]
    have v := lightView_doUpdateMutes x
    simp only [Sequencer.lightView, Prod.mk.injEq] at v
    obtain ⟨v1, v2, v3, v4, v5, v6⟩ := v
    exact ⟨x.doUpdateMutes, Or.inr rfl, receivers_doUpdateMutes x,
      fun e => by rw [v1]; exact e, v2, v3, v5, v4, v6⟩
  · rw [h]
    have v := lightView_doLeavePatternOps x
    simp only [Sequencer.lightView, Prod.mk.injEq] at v
    obtain ⟨v1, v2, v3, v4, v5, v6⟩ := v
    exact ⟨x.doLeavePatternOps, Or.inr rfl, receivers_doLeavePatternOps x,
      fun e => by rw [v1]; exact e, v2, v3, v5, v4, v6⟩

theorem doSetTrackPLock_functionLeds (s : Sequencer) :
    s.doSetTrackPLock.functionLeds.BUTTON_TOGGLE_PLOCK = CRGB.DarkOrange := by
  have h1 : ∀ x : Sequencer,
      (forLoop NUMBER_OF_INSTRUMENTTRACKS Sequencer.doSetTrackPLockTrack x).functionLeds
        = x.functionLeds := fun x =>
    forLoop_keeps Sequencer.functionLeds _ _ x (fun i y => by
      simp only [Sequencer.doSetTrackPLockTrack, Sequencer.setTrack,
        apply_ite Sequencer.functionLeds, ite_self])
  have h2 : ∀ x : Sequencer,
      (forLoop NUMBER_OF_STEPBUTTONS Sequencer.doSetTrackPLockStep x).functionLeds
        = x.functionLeds := fun x =>
    forLoop_keeps Sequencer.functionLeds _ _ x (fun i y => by
      simp only [Sequencer.doSetTrackPLockStep, Sequencer.setSelectedStep, Sequencer.setTrack,
        Sequencer.setStepLED, apply_ite Sequencer.functionLeds, ite_self])
  simp only [Sequencer.doSetTrackPLock, apply_ite Sequencer.functionLeds, ite_self, h2, h1]

/-- The LED of TOGGLE_PLOCK at the end of a tick, from the state `h` that the handlers hand
to `setFunctionButtonLights`. -/
theorem indicator_led (s : Sequencer) (millis poti1 poti2 : Nat) :
    (s.updateState millis poti1 poti2).functionLeds.BUTTON_TOGGLE_PLOCK
      = (({ s with hasActivePLockReceivers := false } : Sequencer).selectParamSet.runHandlers
          s.calculateFunctionMode millis).setFunctionButtonLights.functionLeds.BUTTON_TOGGLE_PLOCK
      := by
  have e0 : ({ s with hasActivePLockReceivers := false } :
      Sequencer).selectParamSet.latchView = s.latchView := latchView_selectParamSet _
  have hm0 := calculateFunctionMode_latchView e0
  have eu : s.updateState millis poti1 poti2
      = ((({ s with hasActivePLockReceivers := false } : Sequencer).selectParamSet.runHandlers
          ({ s with hasActivePLockReceivers := false } :
            Sequencer).selectParamSet.calculateFunctionMode millis).setFunctionButtonLights).runClock
          millis poti1 poti2 := rfl
  rw [eu, functionLeds_runClock, hm0]

end IndicatorTick

section IndicatorResult

attribute [local irreducible] forLoop

/-- C24, amended: the plock indicator at the end of a tick. With `h` the state that the
handlers of the tick hand to `setFunctionButtonLights`, the LED of TOGGLE_PLOCK ends DarkOrange
when `h.hasActivePLockReceivers` holds and `h.stepCount` is even or a controller of `h` is
active, and keeps its former content otherwise (it is never written Black). In mode
TOGGLE_PLOCKS it is always DarkOrange. In the modes DEFAULT_MODE, START_STOP,
SET_TRACK_LENGTH, LEAVE_TOGGLE_MUTES and LEAVE_PATTERN_OPS: if at entry the current pattern of
one of the six tracks is in plock mode, and `stepCount` is even, or a controller is active and
no SET_PARAMSET button rose and no track button was released (these deactivate the
controllers), then the LED is DarkOrange; and if no track of the six is in plock mode the LED
keeps the content it had at entry. -/
theorem plock_indicator_lit (s : Sequencer) (millis poti1 poti2 : Nat) :
    (∀ h : Sequencer,
      h = ({ s with hasActivePLockReceivers := false } : Sequencer).selectParamSet.runHandlers
            s.calculateFunctionMode millis →
      (s.updateState millis poti1 poti2).functionLeds.BUTTON_TOGGLE_PLOCK
        = if ((h.hasActivePLockReceivers && h.stepCount % 2 == 0) ||
              (h.hasActivePLockReceivers && (h.input1.isActive || h.input2.isActive))) = true
          then CRGB.DarkOrange else h.functionLeds.BUTTON_TOGGLE_PLOCK) ∧
    (s.calculateFunctionMode = FunctionMode.TOGGLE_PLOCKS →
      (s.updateState millis poti1 poti2).functionLeds.BUTTON_TOGGLE_PLOCK = CRGB.DarkOrange) ∧
    ((s.calculateFunctionMode = FunctionMode.DEFAULT_MODE ∨
        s.calculateFunctionMode = FunctionMode.START_STOP ∨
        s.calculateFunctionMode = FunctionMode.SET_TRACK_LENGTH ∨
        s.calculateFunctionMode = FunctionMode.LEAVE_TOGGLE_MUTES ∨
        s.calculateFunctionMode = FunctionMode.LEAVE_PATTERN_OPS) →
      ((∃ i, i < 6 ∧ (s.track i).getCurrentPattern.isInPLockMode = true) →
        (s.stepCount % 2 = 0 ∨
          ((s.input1.isActive = true ∨ s.input2.isActive = true) ∧
            s.functionButtons.BUTTON_SET_PARAMSET_1.rose = false ∧
            s.functionButtons.BUTTON_SET_PARAMSET_2.rose = false ∧
            s.functionButtons.BUTTON_SET_PARAMSET_3.rose = false ∧
            ∀ i, i < 6 → (s.trackButton i).fell = false)) →
        (s.updateState millis poti1 poti2).functionLeds.BUTTON_TOGGLE_PLOCK
          = CRGB.DarkOrange) ∧
      ((∀ i, i < 6 → (s.track i).getCurrentPattern.isInPLockMode = false) →
        (s.updateState millis poti1 poti2).functionLeds.BUTTON_TOGGLE_PLOCK
          = s.functionLeds.BUTTON_TOGGLE_PLOCK)) := by
  have hled := indicator_led s millis poti1 poti2
  obtain ⟨p1, p2, p3, p4, p5⟩ := lightView_selectParamSet
    ({ s with hasActivePLockReceivers := false } : Sequencer)
  have pt : ({ s with hasActivePLockReceivers := false } : Sequencer).selectParamSet.tracks
      = s.tracks := selectParamSet_tracks _
  generalize ({ s with hasActivePLockReceivers := false } : Sequencer).selectParamSet = x
    at hled p1 p2 p3 p4 p5 pt
  have hx1 : x.stepCount = s.stepCount := p1
  have hx2 : x.hasActivePLockReceivers = false := p2
  have hx3 : x.functionLeds = s.functionLeds := p3
  have hx4 : x.trackButtons = s.trackButtons := p4
  refine ⟨fun h hh => ?_, fun hmode => ?_, fun hmode => ?_⟩
  · rw [hled, hh]
    exact setFunctionButtonLights_plock _
  · rw [hled, hmode, setFunctionButtonLights_plock]
    have e : (x.runHandlers FunctionMode.TOGGLE_PLOCKS millis).functionLeds.BUTTON_TOGGLE_PLOCK
        = CRGB.DarkOrange := by
      show (x.doSetTrackPLock.doSetTrackSelection).functionLeds.BUTTON_TOGGLE_PLOCK = _
      have e2 : (x.doSetTrackPLock.doSetTrackSelection).functionLeds
          = x.doSetTrackPLock.functionLeds :=
        (doSetTrackSelection_loop_receivers x.doSetTrackPLock 6).2.2.2.2.1
      rw [e2]
      exact doSetTrackPLock_functionLeds x
    rw [e]
    exact ite_self _
  · obtain ⟨m, hm, m1, m2, m3, m4, m5, m6, m7⟩ :=
      indicator_modes x millis s.calculateFunctionMode hmode
    obtain ⟨a1, a2, a3, a4⟩ :=
      indicator_after_selection m (x.runHandlers s.calculateFunctionMode millis) hm
    have hrec : ∀ i, (m.track i).isPLockReceiver = (s.track i).getCurrentPattern.isInPLockMode :=
      fun i => (m1 i).trans (congrArg SequencerTrack.isPLockReceiver (track_congr pt i))
    rw [hled, setFunctionButtonLights_plock, a1, a2, a3, m5, m6, hx2, hx3, Bool.false_or]
    refine ⟨fun hex hcond => ?_, fun hno => ?_⟩
    · obtain ⟨i, hi, hp⟩ := hex
      rw [list_any_range_true 6 _ ⟨i, hi, (hrec i).trans hp⟩]
      rcases hcond with he | ⟨hact, q1, q2, q3, qf⟩
      · have e2 : m.stepCount % 2 = 0 := m2 (by rw [hx1]; exact he)
        rw [e2]
        rfl
      · obtain ⟨i1, i2⟩ := a4 (fun k hk => by
          unfold Sequencer.trackButton
          rw [m7, hx4]
          exact qf k hk)
        obtain ⟨r1, r2⟩ := p5 q1 q2 q3
        have f1 : (x.runHandlers s.calculateFunctionMode millis).input1 = s.input1 :=
          i1.trans (m3.trans r1)
        have f2 : (x.runHandlers s.calculateFunctionMode millis).input2 = s.input2 :=
          i2.trans (m4.trans r2)
        rw [f1, f2]
        rcases hact with ha | ha
        · rw [ha]
          simp
        · rw [ha]
          simp
    · rw [list_any_range_false 6 _ (fun i hi => (hrec i).trans (hno i hi))]
      rfl

theorem plock_indicator_lit_witness :
    (plockRecordScenario.updateState 0 0 0).functionLeds.BUTTON_TOGGLE_PLOCK
      = CRGB.DarkOrange :=
  ((plock_indicator_lit plockRecordScenario 0 0 0).2.2 (Or.inl (by decide))).1
    ⟨0, by decide, by decide⟩ (Or.inl (by decide))

end IndicatorResult


/-! ## Project persistence -/

theorem forEachIdx_nil {α σ : Type} (i : Nat) (f : Nat → α → σ → Option σ) (x : σ) :
    forEachIdx [] i f x = some x := rfl

theorem forEachIdx_cons {α σ : Type} (a : α) (rest : List α) (i : Nat)
    (f : Nat → α → σ → Option σ) (x : σ) :
    forEachIdx (a :: rest) i f x = (f i a x).bind (forEachIdx rest (i + 1) f) := rfl

/-- A relation that every pass of the body establishes between the state before and after it,
and that is reflexive and transitive, holds between the state before and after the loop. -/
theorem forEachIdx_frame {α σ : Type} (Q : σ → σ → Prop) (hrefl : ∀ x, Q x x)
    (htrans : ∀ x y z, Q x y → Q y z → Q x z) (f : Nat → α → σ → Option σ)
    (hf : ∀ k d x y, f k d x = some y → Q x y) (ds : List α) :
    ∀ (i : Nat) (x r : σ), forEachIdx ds i f x = some r → Q x r := by
  induction ds with
  | nil =>
    intro i x r h
    rw [forEachIdx_nil] at h
    cases h
    exact hrefl x
  | cons a rest ih =>
    intro i x r h
    rw [forEachIdx_cons, Option.bind_eq_some] at h
    obtain ⟨y, h1, h2⟩ := h
    exact htrans x y r (hf i a x y h1) (ih (i + 1) y r h2)

/-- A loop whose pass `k` rewrites cell `k` of the state from item `k` and leaves the other
cells alone: after the loop the cells outside the range of the loop are what they were, and
cell `j` of the range is rewritten from its item. -/
theorem forEachIdx_cells {α σ β : Type} (get : σ → Nat → β) (R : α → β → β → Prop)
    (f : Nat → α → σ → Option σ)
    (hf : ∀ k d x y, f k d x = some y →
      R d (get x k) (get y k) ∧ ∀ j, j ≠ k → get y j = get x j)
    (ds : List α) :
    ∀ (i : Nat) (x r : σ), forEachIdx ds i f x = some r →
      ∀ j, (j < i ∨ i + ds.length ≤ j → get r j = get x j) ∧
        (∀ d, i ≤ j → ds[j - i]? = some d → R d (get x j) (get r j)) := by
  induction ds with
  | nil =>
    intro i x r h j
    rw [forEachIdx_nil] at h
    cases h
    exact ⟨fun _ => rfl, fun d _ hd => by simp at hd⟩
  | cons a rest ih =>
    intro i x r h j
    rw [forEachIdx_cons, Option.bind_eq_some] at h
    obtain ⟨y, h1, h2⟩ := h
    obtain ⟨hR, hframe⟩ := hf i a x y h1
    obtain ⟨ih1, ih2⟩ := ih (i + 1) y r h2 j
    refine ⟨fun hj => ?_, fun d hij hd => ?_⟩
    · have hne : j ≠ i := by
        rcases hj with hj | hj
        · omega
        · simp only [List.length_cons] at hj
          omega
      rw [ih1 (by simp only [List.length_cons] at hj; omega), hframe j hne]
    · by_cases hji : j = i
      · subst hji
        rw [Nat.sub_self] at hd
        have e : a = d := by simpa using hd
        subst e
        rw [ih1 (Or.inl (Nat.lt_succ_self j))]
        exact hR
      · have e : j - i = (j - (i + 1)) + 1 := by omega
        rw [e, List.getElem?_cons_succ] at hd
        have h3 := ih2 d (by omega) hd
        rw [hframe j hji] at h3
        exact h3

/-- A loop each pass of which has an outcome under a condition that the earlier passes do not
disturb has an outcome. -/
theorem forEachIdx_isSome {α σ : Type} (ok : Nat → α → σ → Prop)
    (f : Nat → α → σ → Option σ)
    (hok : ∀ k d x, ok k d x → ∃ y, f k d x = some y)
    (hstable : ∀ k d x y, f k d x = some y → ∀ k2 d2, k < k2 → ok k2 d2 x → ok k2 d2 y)
    (ds : List α) :
    ∀ (i : Nat) (x : σ), (∀ k d, ds[k]? = some d → ok (i + k) d x) →
      ∃ r, forEachIdx ds i f x = some r := by
  induction ds with
  | nil => intro i x _; exact ⟨x, rfl⟩
  | cons a rest ih =>
    intro i x h
    obtain ⟨y, hy⟩ := hok i a x (h 0 a (by simp))
    have h2 : ∀ k d, rest[k]? = some d → ok (i + 1 + k) d y := by
      intro k d hd
      have e : i + 1 + k = i + (k + 1) := by omega
      rw [e]
      exact hstable i a x y hy (i + (k + 1)) d (by omega)
        (h (k + 1) d (by rw [List.getElem?_cons_succ]; exact hd))
    obtain ⟨r, hr⟩ := ih (i + 1) y h2
    exact ⟨r, by rw [forEachIdx_cons, hy]; exact hr⟩

/-! ### The steps of a pattern object -/

/-- One pass of the loop over the steps: it has an outcome exactly when the index is one of
the array, and writes the step of that index. -/
theorem loadSteps_pass (k : Nat) (d : StepRecord) (x y : List Project.SequencerStep)
    (h : (if k < x.length then
        some (x.set k (ProjectPersistence.loadStep d (x.getD k default))) else none) = some y) :
    k < x.length ∧ y = x.set k (ProjectPersistence.loadStep d (x.getD k default)) := by
  by_cases hk : k < x.length
  · rw [if_pos hk] at h
    exact ⟨hk, (Option.some.inj h).symm⟩
  · rw [if_neg hk] at h
    cases h

/-- The steps that the loop over the step objects leaves: as many as before, the steps from
index `ds.length` on as they were, step `j` below it written from object `j`. -/
theorem loadSteps_cells (ds : List StepRecord) (steps r : List Project.SequencerStep)
    (h : ProjectPersistence.loadSteps ds steps = some r) :
    r.length = steps.length ∧
    ∀ j, (ds.length ≤ j → r.getD j default = steps.getD j default) ∧
      (∀ d, ds[j]? = some d →
        r.getD j default = ProjectPersistence.loadStep d (steps.getD j default)) := by
  refine ⟨?_, fun j => ?_⟩
  · exact forEachIdx_frame (fun x y : List Project.SequencerStep => y.length = x.length)
      (fun _ => rfl) (fun x y z h1 h2 => h2.trans h1) _
      (fun k d x y hp => by
        rw [(loadSteps_pass k d x y hp).2]
        exact List.length_set _ _ _) ds 0 steps r h
  · have hc := forEachIdx_cells (fun (l : List Project.SequencerStep) j => l.getD j default)
      (fun d a b => b = ProjectPersistence.loadStep d a) _
      (fun k d x y hp => by
        obtain ⟨hk, hy⟩ := loadSteps_pass k d x y hp
        subst hy
        refine ⟨?_, fun j hj => ?_⟩
        · show (x.set k _).getD k default = _
          rw [list_getD_set, if_pos ⟨rfl, hk⟩]
        · show (x.set k _).getD j default = _
          rw [list_getD_set, if_neg (fun c => hj c.1)]) ds 0 steps r h j
    refine ⟨fun hj => hc.1 (Or.inr (by omega)), fun d hd => hc.2 d (Nat.zero_le j) ?_⟩
    rw [Nat.sub_zero]
    exact hd

/-- The loop over the step objects has an outcome when there are no more objects than
steps. -/
theorem loadSteps_isSome (ds : List StepRecord) (steps : List Project.SequencerStep)
    (h : ds.length ≤ steps.length) :
    ∃ r, ProjectPersistence.loadSteps ds steps = some r := by
  refine forEachIdx_isSome (fun k _ (x : List Project.SequencerStep) => k < x.length) _
    (fun k d x hk => ⟨_, if_pos hk⟩)
    (fun k d x y hp k2 d2 _ hk2 => by
      rw [(loadSteps_pass k d x y hp).2]
      show k2 < (x.set k _).length
      rw [List.length_set]
      exact hk2) ds 0 steps ?_
  intro k d hd
  have := (List.getElem?_eq_some.1 hd).1
  omega

/-! ### A pattern object -/

/-- The pattern that `load` leaves for a pattern object: the five members are those of the
object or their defaults, the steps are those the loop over the step objects leaves. -/
theorem loadPattern_fields (d : PatternRecord) (p q : Project.SequencerPattern)
    (h : ProjectPersistence.loadPattern d p = some q) :
    q.triggerState = d.triggerState.getD 0 ∧ q.pLockArmState = d.pLockArmState.getD 0 ∧
    q.offset = d.offset.getD 0 ∧ q.trackLength = d.trackLength.getD 16 ∧
    q.autoMutate = d.autoMutate.getD false ∧
    ProjectPersistence.loadSteps d.steps p.steps = some q.steps := by
  simp only [ProjectPersistence.loadPattern, Option.map_eq_some'] at h
  obtain ⟨st, h1, h2⟩ := h
  subst h2
  exact ⟨rfl, rfl, rfl, rfl, rfl, h1⟩

/-- The assignments to a pattern have an outcome when the object has no more step objects than
the pattern has steps. -/
theorem loadPattern_isSome (d : PatternRecord) (p : Project.SequencerPattern)
    (h : d.steps.length ≤ p.steps.length) :
    ∃ q, ProjectPersistence.loadPattern d p = some q := by
  obtain ⟨st, hst⟩ := loadSteps_isSome d.steps p.steps h
  exact ⟨_, by simp only [ProjectPersistence.loadPattern, hst]; rfl⟩

/-! ### The patterns of a track object -/

/-- Reading a pattern of a sequencer in which pattern `k` of track `t` has been written. -/
theorem pattern_setPattern (m : Project.Sequencer) (t k : Nat) (q : Project.SequencerPattern)
    (ht : t < m.tracks.length) (hk : k < (m.tracks.getD t default).patterns.length)
    (t2 j : Nat) :
    (m.setPattern t k q).pattern t2 j = if t2 = t ∧ j = k then q else m.pattern t2 j := by
  unfold Project.Sequencer.pattern Project.Sequencer.setPattern
  by_cases h2 : t2 = t
  · subst h2
    show ((m.tracks.set t2 _).getD t2 default).patterns.getD j default = _
    rw [list_getD_set, if_pos ⟨rfl, ht⟩]
    show (List.set _ k q).getD j default = _
    rw [list_getD_set]
    by_cases hj : j = k
    · rw [if_pos ⟨hj, hk⟩, if_pos ⟨rfl, hj⟩]
    · rw [if_neg (fun c => hj c.1), if_neg (fun c => hj c.2)]
  · show ((m.tracks.set t _).getD t2 default).patterns.getD j default = _
    rw [list_getD_set, if_neg (fun c => h2 c.1), if_neg (fun c => h2 c.1)]

/-- Writing a pattern of track `t` leaves the clock, the audio channels, the number of tracks,
the other tracks and the number of patterns of track `t` alone. -/
theorem setPattern_frame (m : Project.Sequencer) (t k : Nat) (q : Project.SequencerPattern) :
    (m.setPattern t k q).clock = m.clock ∧
    (m.setPattern t k q).audioChannels = m.audioChannels ∧
    (m.setPattern t k q).tracks.length = m.tracks.length ∧
    (∀ t2, t2 ≠ t → (m.setPattern t k q).tracks.getD t2 default = m.tracks.getD t2 default) ∧
    ((m.setPattern t k q).tracks.getD t default).patterns.length
      = (m.tracks.getD t default).patterns.length := by
  refine ⟨rfl, rfl, List.length_set _ _ _, fun t2 h2 => ?_, ?_⟩
  · unfold Project.Sequencer.setPattern
    simp only [list_getD_set]
    rw [if_neg (fun c => h2 c.1)]
  · unfold Project.Sequencer.setPattern
    simp only [list_getD_set]
    split_ifs
    · exact List.length_set _ _ _
    · rfl

/-- One pass of the loop over the pattern objects: it has an outcome only when the indices are
within the arrays, and writes the pattern that the assignments leave. -/
theorem loadPatterns_pass (t k : Nat) (d : PatternRecord) (x y : Project.Sequencer)
    (h : (if t < x.tracks.length ∧ k < (x.tracks.getD t default).patterns.length then
        (ProjectPersistence.loadPattern d (x.pattern t k)).map fun q => x.setPattern t k q
      else none) = some y) :
    t < x.tracks.length ∧ k < (x.tracks.getD t default).patterns.length ∧
    ∃ q, ProjectPersistence.loadPattern d (x.pattern t k) = some q ∧ y = x.setPattern t k q := by
  by_cases hk : t < x.tracks.length ∧ k < (x.tracks.getD t default).patterns.length
  · rw [if_pos hk, Option.map_eq_some'] at h
    obtain ⟨q, h1, h2⟩ := h
    exact ⟨hk.1, hk.2, q, h1, h2.symm⟩
  · rw [if_neg hk] at h
    cases h

theorem patternsFrame_refl (t : Nat) (x : Project.Sequencer) : patternsFrame t x x :=
  ⟨rfl, rfl, rfl, fun _ _ => rfl, rfl⟩

theorem patternsFrame_trans (t : Nat) (x y z : Project.Sequencer)
    (h1 : patternsFrame t x y) (h2 : patternsFrame t y z) : patternsFrame t x z :=
  ⟨h2.1.trans h1.1, h2.2.1.trans h1.2.1, h2.2.2.1.trans h1.2.2.1,
    fun t2 ht => (h2.2.2.2.1 t2 ht).trans (h1.2.2.2.1 t2 ht), h2.2.2.2.2.trans h1.2.2.2.2⟩

/-- The loop over the pattern objects of track `t` leaves the clock, the audio channels, the
other tracks and the sizes of the arrays alone. -/
theorem loadPatterns_frame (t : Nat) (ds : List PatternRecord) (m r : Project.Sequencer)
    (h : ProjectPersistence.loadPatterns t ds m = some r) : patternsFrame t m r :=
  forEachIdx_frame (patternsFrame t) (patternsFrame_refl t) (patternsFrame_trans t) _
    (fun k d x y hp => by
      obtain ⟨_, _, q, _, hy⟩ := loadPatterns_pass t k d x y hp
      rw [hy]
      exact setPattern_frame x t k q) ds 0 m r h

/-- The patterns of track `t` that the loop over the pattern objects leaves: the patterns from
index `ds.length` on as they were, pattern `j` below it written from object `j`. -/
theorem loadPatterns_cells (t : Nat) (ds : List PatternRecord) (m r : Project.Sequencer)
    (h : ProjectPersistence.loadPatterns t ds m = some r) :
    ∀ j, (ds.length ≤ j → r.pattern t j = m.pattern t j) ∧
      (∀ d, ds[j]? = some d →
        ProjectPersistence.loadPattern d (m.pattern t j) = some (r.pattern t j)) := by
  intro j
  have hc := forEachIdx_cells (fun (x : Project.Sequencer) j => x.pattern t j)
    (fun d a b => ProjectPersistence.loadPattern d a = some b) _
    (fun k d x y hp => by
      obtain ⟨ht, hk, q, hq, hy⟩ := loadPatterns_pass t k d x y hp
      subst hy
      refine ⟨?_, fun j hj => ?_⟩
      · show ProjectPersistence.loadPattern d (x.pattern t k)
          = some ((x.setPattern t k q).pattern t k)
        rw [pattern_setPattern x t k q ht hk, if_pos ⟨rfl, rfl⟩]
        exact hq
      · show (x.setPattern t k q).pattern t j = x.pattern t j
        rw [pattern_setPattern x t k q ht hk, if_neg (fun c => hj c.2)]) ds 0 m r h j
  refine ⟨fun hj => hc.1 (Or.inr (by omega)), fun d hd => hc.2 d (Nat.zero_le j) ?_⟩
  rw [Nat.sub_zero]
  exact hd

/-- The loop over the pattern objects of track `t` has an outcome when track `t` is one of the
tracks, has a pattern for every object, and every such pattern has a step for every step object
of its object. -/
theorem loadPatterns_isSome (t : Nat) (ds : List PatternRecord) (m : Project.Sequencer)
    (ht : t < m.tracks.length) (hp : ds.length ≤ (m.tracks.getD t default).patterns.length)
    (hs : ∀ k d, ds[k]? = some d → d.steps.length ≤ (m.pattern t k).steps.length) :
    ∃ r, ProjectPersistence.loadPatterns t ds m = some r := by
  refine forEachIdx_isSome
    (fun k (d : PatternRecord) (x : Project.Sequencer) =>
      t < x.tracks.length ∧ k < (x.tracks.getD t default).patterns.length ∧
      d.steps.length ≤ (x.pattern t k).steps.length) _
    (fun k d x hk => ?_) (fun k d x y hpass k2 d2 hlt hk2 => ?_) ds 0 m ?_
  · obtain ⟨q, hq⟩ := loadPattern_isSome d (x.pattern t k) hk.2.2
    exact ⟨x.setPattern t k q, by rw [if_pos ⟨hk.1, hk.2.1⟩, hq]; rfl⟩
  · obtain ⟨h1, h2, q, _, hy⟩ := loadPatterns_pass t k d x y hpass
    subst hy
    obtain ⟨_, _, f3, _, f5⟩ := setPattern_frame x t k q
    refine ⟨by rw [f3]; exact hk2.1, by rw [f5]; exact hk2.2.1, ?_⟩
    rw [pattern_setPattern x t k q h1 h2, if_neg (fun c => by omega)]
    exact hk2.2.2
  · intro k d hd
    have := (List.getElem?_eq_some.1 hd).1
    rw [Nat.zero_add]
    exact ⟨ht, by omega, hs k d hd⟩

/-! ### The track blocks -/

/-- One pass of the `do` loop of `load` on the track object `d` at index `k`: the index is one
of the audio channels; the clock and the sizes of the arrays are what they were; the gains of
channel `k` are those of the object or 0.5; the other channels and tracks are what they were;
of track `k` the patterns from index `d.patterns.length` on are what they were, and pattern `p`
below it is written from pattern object `p`. -/
theorem loadTrack_effect (k : Nat) (d : TrackRecord) (x y : Project.Sequencer)
    (h : ProjectPersistence.loadTrack k d x = some y) :
    k < x.audioChannels.length ∧ y.clock = x.clock ∧ y.tracks.length = x.tracks.length ∧
    y.audioChannels.length = x.audioChannels.length ∧
    y.audioChannels.getD k default = d.channel ∧
    (∀ j, j ≠ k → y.audioChannels.getD j default = x.audioChannels.getD j default ∧
      y.tracks.getD j default = x.tracks.getD j default) ∧
    (y.tracks.getD k default).patterns.length = (x.tracks.getD k default).patterns.length ∧
    ∀ p, (d.patterns.length ≤ p → y.pattern k p = x.pattern k p) ∧
      (∀ dp, d.patterns[p]? = some dp →
        ProjectPersistence.loadPattern dp (x.pattern k p) = some (y.pattern k p)) := by
  unfold ProjectPersistence.loadTrack at h
  rw [Option.bind_eq_some] at h
  obtain ⟨xg, h1, h2⟩ := h
  have hk : k < x.audioChannels.length := by
    by_contra hc
    simp only [Project.Sequencer.setChannelGain, if_neg hc] at h1
    cases h1
  have hxg : xg = { x with audioChannels := x.audioChannels.set k d.channel } := by
    simp only [Project.Sequencer.setChannelGain, if_pos hk] at h1
    exact (Option.some.inj h1).symm
  subst hxg
  obtain ⟨f1, f2, f3, f4, f5⟩ := loadPatterns_frame k d.patterns _ y h2
  have hc := loadPatterns_cells k d.patterns _ y h2
  refine ⟨hk, f1, f3, ?_, ?_, fun j hj => ⟨?_, f4 j hj⟩, f5, hc⟩
  · rw [f2]
    exact List.length_set _ _ _
  · rw [f2]
    show (x.audioChannels.set k d.channel).getD k default = _
    rw [list_getD_set, if_pos ⟨rfl, hk⟩]
  · rw [f2]
    show (x.audioChannels.set k d.channel).getD j default = _
    rw [list_getD_set, if_neg (fun c => hj c.1)]

/-- One pass of the `do` loop of `load` has an outcome when index `k` is one of the audio
channels and of the tracks, track `k` has a pattern for every pattern object, and every such
pattern has a step for every step object of its object. -/
theorem loadTrack_isSome (k : Nat) (d : TrackRecord) (x : Project.Sequencer)
    (hc : k < x.audioChannels.length) (ht : k < x.tracks.length)
    (hp : d.patterns.length ≤ (x.tracks.getD k default).patterns.length)
    (hs : ∀ p dp, d.patterns[p]? = some dp → dp.steps.length ≤ (x.pattern k p).steps.length) :
    ∃ y, ProjectPersistence.loadTrack k d x = some y := by
  obtain ⟨y, hy⟩ := loadPatterns_isSome k d.patterns
    { x with audioChannels := x.audioChannels.set k d.channel } ht hp hs
  refine ⟨y, ?_⟩
  unfold ProjectPersistence.loadTrack
  simp only [Project.Sequencer.setChannelGain, if_pos hc]
  exact hy

/-- The passes of the `do` loop of `load` leave the clock and the sizes of the arrays of tracks
and of audio channels alone. -/
theorem loadBlocks_frame (ds : List TrackRecord) (i : Nat) (m r : Project.Sequencer)
    (h : forEachIdx ds i ProjectPersistence.loadTrack m = some r) : tracksFrame m r :=
  forEachIdx_frame tracksFrame (fun _ => ⟨rfl, rfl, rfl⟩)
    (fun x y z h1 h2 => ⟨h2.1.trans h1.1, h2.2.1.trans h1.2.1, h2.2.2.trans h1.2.2⟩) _
    (fun k d x y hp => by
      obtain ⟨_, f1, f2, f3, _⟩ := loadTrack_effect k d x y hp
      exact ⟨f1, f2, f3⟩) ds i m r h

/-- The tracks and audio channels that the passes of the `do` loop of `load` on the objects
`ds` leave: those from index `ds.length` on are what they were; below it, the gains of channel
`j` are those of object `j` or 0.5, and of track `j` the patterns beyond the pattern objects of
object `j` are what they were and pattern `p` is written from pattern object `p`. -/
theorem loadBlocks_cells (ds : List TrackRecord) (m r : Project.Sequencer)
    (h : forEachIdx ds 0 ProjectPersistence.loadTrack m = some r) :
    ∀ t, (ds.length ≤ t → r.tracks.getD t default = m.tracks.getD t default ∧
        r.audioChannels.getD t default = m.audioChannels.getD t default) ∧
      (∀ d, ds[t]? = some d →
        r.audioChannels.getD t default = d.channel ∧
        ∀ p, (d.patterns.length ≤ p → r.pattern t p = m.pattern t p) ∧
          (∀ dp, d.patterns[p]? = some dp →
            ProjectPersistence.loadPattern dp (m.pattern t p) = some (r.pattern t p))) := by
  intro t
  have hc := forEachIdx_cells
    (fun (x : Project.Sequencer) j => (x.audioChannels.getD j default, x.tracks.getD j default))
    (fun (d : TrackRecord) a b =>
      b.1 = d.channel ∧
      ∀ p, (d.patterns.length ≤ p → b.2.patterns.getD p default = a.2.patterns.getD p default) ∧
        (∀ dp, d.patterns[p]? = some dp →
          ProjectPersistence.loadPattern dp (a.2.patterns.getD p default)
            = some (b.2.patterns.getD p default)))
    ProjectPersistence.loadTrack
    (fun k d x y hp => by
      obtain ⟨_, _, _, _, f5, f6, _, f8⟩ := loadTrack_effect k d x y hp
      exact ⟨⟨f5, f8⟩, fun j hj => by
        show (_, _) = (_, _)
        rw [(f6 j hj).1, (f6 j hj).2]⟩) ds 0 m r h t
  refine ⟨fun ht => ?_, fun d hd => ?_⟩
  · have e := hc.1 (Or.inr (by omega))
    exact ⟨congrArg Prod.snd e, congrArg Prod.fst e⟩
  · exact hc.2 d (Nat.zero_le t) (by rw [Nat.sub_zero]; exact hd)

/-- The passes of the `do` loop of `load` on the objects `ds` have an outcome when there is an
audio channel and a track for every object, a pattern for every pattern object, and a step for
every step object. -/
theorem loadBlocks_isSome (ds : List TrackRecord) (m : Project.Sequencer)
    (hc : ds.length ≤ m.audioChannels.length) (ht : ds.length ≤ m.tracks.length)
    (hp : ∀ t d, ds[t]? = some d →
      d.patterns.length ≤ (m.tracks.getD t default).patterns.length ∧
      ∀ p dp, d.patterns[p]? = some dp → dp.steps.length ≤ (m.pattern t p).steps.length) :
    ∃ r, forEachIdx ds 0 ProjectPersistence.loadTrack m = some r := by
  refine forEachIdx_isSome
    (fun k (d : TrackRecord) (x : Project.Sequencer) =>
      k < x.audioChannels.length ∧ k < x.tracks.length ∧
      d.patterns.length ≤ (x.tracks.getD k default).patterns.length ∧
      ∀ p dp, d.patterns[p]? = some dp → dp.steps.length ≤ (x.pattern k p).steps.length)
    _ (fun k d x hk => loadTrack_isSome k d x hk.1 hk.2.1 hk.2.2.1 hk.2.2.2)
    (fun k d x y hpass k2 d2 hlt hk2 => ?_) ds 0 m ?_
  · obtain ⟨_, _, f2, f3, _, f6, _, _⟩ := loadTrack_effect k d x y hpass
    have e : y.tracks.getD k2 default = x.tracks.getD k2 default := (f6 k2 (by omega)).2
    refine ⟨by rw [f3]; exact hk2.1, by rw [f2]; exact hk2.2.1, by rw [e]; exact hk2.2.2.1, ?_⟩
    intro p dp hdp
    have e2 : y.pattern k2 p = x.pattern k2 p := by
      unfold Project.Sequencer.pattern
      rw [e]
    rw [e2]
    exact hk2.2.2.2 p dp hdp
  · intro k d hd
    have := (List.getElem?_eq_some.1 hd).1
    rw [Nat.zero_add]
    exact ⟨by omega, by omega, hp k d hd⟩

/-- The `do` loop of `load` on a file whose first `ds.length` track blocks parse and whose next
block does not: the parsed blocks are applied in order and the loop returns on the error. -/
theorem loadTracks_error (ds : List TrackRecord) (rest : List (Option TrackRecord)) :
    ∀ (t : Nat) (m : Project.Sequencer),
      ProjectPersistence.loadTracks t (ds.map some ++ none :: rest) m
        = (forEachIdx ds t ProjectPersistence.loadTrack m).map fun r => (r, false) := by
  induction ds with
  | nil => intro t m; rfl
  | cons d ds ih =>
    intro t m
    rw [forEachIdx_cons]
    cases hl : ProjectPersistence.loadTrack t d m with
    | none =>
      cases ds <;> simp [ProjectPersistence.loadTracks, hl]
    | some y =>
      have h := ih (t + 1) y
      rw [Option.some_bind, ← h]
      cases ds <;> simp [ProjectPersistence.loadTracks, hl]

/-- The `do` loop of `load` on a file all of whose track blocks parse. -/
theorem loadTracks_complete (d : TrackRecord) (ds : List TrackRecord) :
    ∀ (t : Nat) (m : Project.Sequencer),
      ProjectPersistence.loadTracks t ((d :: ds).map some) m
        = (forEachIdx (d :: ds) t ProjectPersistence.loadTrack m).map fun r => (r, true) := by
  induction ds generalizing d with
  | nil =>
    intro t m
    rw [forEachIdx_cons]
    cases hl : ProjectPersistence.loadTrack t d m <;>
      simp [ProjectPersistence.loadTracks, hl, forEachIdx_nil]
  | cons d2 ds ih =>
    intro t m
    rw [forEachIdx_cons]
    cases hl : ProjectPersistence.loadTrack t d m with
    | none => simp [ProjectPersistence.loadTracks, hl]
    | some y =>
      have h := ih d2 (t + 1) y
      rw [Option.some_bind, ← h]
      simp [ProjectPersistence.loadTracks, hl]

/-- The global block of `load` leaves the tracks and the audio channels alone. -/
theorem loadGlobalBlock_frame (g : Option (Option GlobalRecord)) (m : Project.Sequencer) :
    (ProjectPersistence.loadGlobalBlock g m).tracks = m.tracks ∧
    (ProjectPersistence.loadGlobalBlock g m).audioChannels = m.audioChannels := by
  rcases g with _ | _ | c <;> exact ⟨rfl, rfl⟩

/-- The blocks of a file split into the blocks that parse before the first error (or the end)
and what follows them. -/
theorem blocks_split {α : Type} (l : List (Option α)) :
    ∃ (ds : List α) (rest : List (Option α)),
      l = ds.map some ++ rest ∧ ∀ d, rest.head? ≠ some (some d) := by
  induction l with
  | nil => exact ⟨[], [], rfl, fun d h => by simp at h⟩
  | cons a l ih =>
    cases a with
    | none => exact ⟨[], none :: l, rfl, fun d h => by simp at h⟩
    | some d =>
      obtain ⟨ds, rest, h1, h2⟩ := ih
      exact ⟨d :: ds, rest, by rw [h1]; rfl, h2⟩

/-- The `do` loop of `load` on a file whose parsed blocks `ds` are followed by `rest`, which
does not begin with a parsed block: when the loop returns on an error, it has applied exactly
the blocks `ds`. -/
theorem loadTracks_split (ds : List TrackRecord) (rest : List (Option TrackRecord))
    (hr : ∀ d, rest.head? ≠ some (some d)) (m x : Project.Sequencer)
    (h : ProjectPersistence.loadTracks 0 (ds.map some ++ rest) m = some (x, false)) :
    forEachIdx ds 0 ProjectPersistence.loadTrack m = some x := by
  cases rest with
  | nil =>
    cases ds with
    | nil =>
      have e : (m, false) = (x, false) := Option.some.inj h
      rw [forEachIdx_nil, (Prod.mk.inj e).1]
    | cons d ds =>
      rw [List.append_nil, loadTracks_complete, Option.map_eq_some'] at h
      obtain ⟨y, _, hy⟩ := h
      exact Bool.noConfusion (Prod.mk.inj hy).2
  | cons a rest =>
    cases a with
    | none =>
      rw [loadTracks_error, Option.map_eq_some'] at h
      obtain ⟨y, h1, hy⟩ := h
      rw [h1, (Prod.mk.inj hy).1]
    | some d => exact absurd rfl (hr d)

/-- C22, amended: a call of `load` that stays within the arrays and does not run to its end
leaves `activeProject` and the other members of the persistence object as they were. If the
file cannot be opened or the global block does not parse, the sequencer is what it was too. If
a track block does not parse, the global block (when there is one) and the track blocks `ds`
before the failing one have been applied: the step length and the swing are those of the global
block; the tracks and the audio channels from index `ds.length` on are what they were; below
it, the gains of channel `t` are those of block `t` or 0.5, and pattern `p` of track `t` is
written from pattern object `p` of the block when there is one and is what it was
otherwise. -/
theorem load_failure_effects (pp : ProjectPersistence) (sd : SdCard) (projectNum : Nat)
    (m : Project.Sequencer)
    (h : ProjectPersistence.loadCompletes sd projectNum m = some false) :
    ∃ r, ProjectPersistence.load pp sd projectNum m = some r ∧ r.1 = pp ∧
      (sd.openRead projectNum = none → r.2 = m) ∧
      ∀ file, sd.openRead projectNum = some file →
        (file.global = some none → r.2 = m) ∧
        (file.global ≠ some none →
          ∃ (ds : List TrackRecord) (rest : List (Option TrackRecord)),
            file.tracks = ds.map some ++ rest ∧ (∀ d, rest.head? ≠ some (some d)) ∧
            (file.global = none → r.2.clock = m.clock) ∧
            (∀ c, file.global = some (some c) →
              r.2.clock.stepLength = c.stepLength.getD 0 ∧
              r.2.clock.swing = c.swing.getD 0) ∧
            ∀ t,
              (ds.length ≤ t →
                r.2.tracks.getD t default = m.tracks.getD t default ∧
                r.2.audioChannels.getD t default = m.audioChannels.getD t default) ∧
              (∀ d, ds[t]? = some d →
                r.2.audioChannels.getD t default
                  = { output1Gain := d.output1Gain.getD Gain.half
                      output2Gain := d.output2Gain.getD Gain.half } ∧
                ∀ p, (d.patterns.length ≤ p → r.2.pattern t p = m.pattern t p) ∧
                  (∀ dp, d.patterns[p]? = some dp →
                    ProjectPersistence.loadPattern dp (m.pattern t p)
                      = some (r.2.pattern t p)))) := by
  cases ho : sd.openRead projectNum with
  | none =>
    refine ⟨(pp, m), ?_, rfl, fun _ => rfl, fun file hf => by simp at hf⟩
    simp only [ProjectPersistence.load, ho]
  | some file0 =>
    by_cases hg : file0.global = some none
    · refine ⟨(pp, m), ?_, rfl, fun hn => by simp at hn, fun file hf => ?_⟩
      · simp only [ProjectPersistence.load, ho, if_pos hg]
      · have e : file0 = file := Option.some.inj hf
        subst e
        exact ⟨fun _ => rfl, fun hne => absurd hg hne⟩
    · simp only [ProjectPersistence.loadCompletes, ho, if_neg hg, Option.map_eq_some'] at h
      obtain ⟨⟨x, b⟩, hx, hb⟩ := h
      have hb2 : b = false := hb
      subst hb2
      obtain ⟨ds, rest, h1, h2⟩ := blocks_split file0.tracks
      have hl := loadTracks_split ds rest h2 _ x (by rw [← h1]; exact hx)
      refine ⟨(pp, x), ?_, rfl, fun hn => by simp at hn, fun file hf => ?_⟩
      · simp only [ProjectPersistence.load, ho, if_neg hg, hx]
        rfl
      have e : file0 = file := Option.some.inj hf
      subst e
      refine ⟨fun hs => absurd hs hg, fun _ => ⟨ds, rest, h1, h2, ?_, ?_, ?_⟩⟩
      · intro hn
        rw [hn] at hl
        exact (loadBlocks_frame ds 0 _ x hl).1
      · intro c hc
        rw [hc] at hl
        have e := (loadBlocks_frame ds 0 _ x hl).1
        exact ⟨congrArg Project.Clock.stepLength e, congrArg Project.Clock.swing e⟩
      · intro t
        have hc := loadBlocks_cells ds _ x hl t
        have e1 : ∀ p, (ProjectPersistence.loadGlobalBlock file0.global m).pattern t p
            = m.pattern t p := by
          intro p
          unfold Project.Sequencer.pattern
          rw [(loadGlobalBlock_frame _ m).1]
        rw [(loadGlobalBlock_frame _ m).1, (loadGlobalBlock_frame _ m).2] at hc
        refine ⟨hc.1, fun d hd => ⟨(hc.2 d hd).1, fun p => ?_⟩⟩
        have h3 := (hc.2 d hd).2 p
        rw [e1 p] at h3
        exact h3

/-- C22, witness: the card `brokenTrackCard`, whose first track block does not parse. -/
theorem load_failure_effects_witness :
    ProjectPersistence.loadCompletes brokenTrackCard 0 {} = some false ∧
    ∃ r, ProjectPersistence.load {} brokenTrackCard 0 {} = some r ∧ r.1 = {} :=
  ⟨by decide, (load_failure_effects {} brokenTrackCard 0 {} (by decide)).imp
    fun _ hr => ⟨hr.1, hr.2.1⟩⟩

/-- C22, counterexample: the file of project 0 opens, its global block parses (step length
200, swing 3) and its first track block does not. `load` does not run to its end and leaves
`activeProject` alone, but the step length and the swing of the sequencer have changed from 125
and 0 to 200 and 3. -/
theorem load_failure_changes_clock :
    ProjectPersistence.loadCompletes brokenTrackCard 0 {} = some false ∧
    ({} : Project.Sequencer).clock.stepLength = 125 ∧
    ({} : Project.Sequencer).clock.swing = 0 ∧
    (ProjectPersistence.load {} brokenTrackCard 0 {}).map
        (fun r => (r.1.activeProject, r.2.clock.stepLength, r.2.clock.swing))
      = some (0, 200, 3) := by
  decide

/-- The items of an array of `n` items `f 0, ..., f (n - 1)`. -/
theorem list_map_range_getElem {α : Type} (f : Nat → α) (n k : Nat) (d : α)
    (h : ((List.range n).map f)[k]? = some d) : k < n ∧ d = f k := by
  have h1 := (List.getElem?_eq_some.1 h)
  obtain ⟨hk, hd⟩ := h1
  simp only [List.length_map, List.length_range] at hk
  refine ⟨hk, ?_⟩
  rw [← hd]
  simp

theorem list_map_range_getElem_lt {α : Type} (f : Nat → α) (n k : Nat) (h : k < n) :
    ((List.range n).map f)[k]? = some (f k) := by
  simp [h]

/-- A step that is loaded from its own record is the saved step. -/
theorem loadStep_saveStep (x y : Project.SequencerStep) :
    ProjectPersistence.loadStep (ProjectPersistence.saveStep x) y = x := rfl

/-- The `do` loop of `load` on a file all of whose track blocks parse, of which there is at
least one. -/
theorem loadTracks_parsed (ds : List TrackRecord) (hne : ds ≠ []) (t : Nat)
    (m : Project.Sequencer) :
    ProjectPersistence.loadTracks t (ds.map some) m
      = (forEachIdx ds t ProjectPersistence.loadTrack m).map fun r => (r, true) := by
  cases ds with
  | nil => exact absurd rfl hne
  | cons d ds => exact loadTracks_complete d ds t m

/-- The file that `load` opens after `save` on a card that is reached. -/
theorem openRead_save (pp : ProjectPersistence) (sd : SdCard) (projectNum : Nat)
    (a : Project.Sequencer) (hsd : sd.available = true) :
    (ProjectPersistence.save pp sd projectNum a).2.openRead projectNum
      = some (ProjectPersistence.saveDocument a) := by
  simp [ProjectPersistence.save, SdCard.openRead, hsd]

/-- The outcome of `load` after `save` on a card that is reached: the load runs to its end when
it stays within the arrays, and the sequencer is the one in memory with the global block and
the six track blocks of the saved sequencer applied. -/
theorem load_save (pp ppS : ProjectPersistence) (sd : SdCard) (projectNum : Nat)
    (a b : Project.Sequencer) (hsd : sd.available = true) :
    ProjectPersistence.load pp (ProjectPersistence.save ppS sd projectNum a).2 projectNum b
      = (forEachIdx ((List.range 6).map (ProjectPersistence.saveTrack a)) 0
           ProjectPersistence.loadTrack
           (ProjectPersistence.loadGlobal
             { stepLength := some a.clock.stepLength, swing := some a.clock.swing } b)).map
          fun r => ({ pp with activeProject := 0 ||| (1 <<< projectNum) }, r) := by
  have hg : (ProjectPersistence.saveDocument a).global ≠ some none := by
    simp [ProjectPersistence.saveDocument]
  have ht : (ProjectPersistence.saveDocument a).tracks
      = ((List.range 6).map (ProjectPersistence.saveTrack a)).map some := by
    simp [ProjectPersistence.saveDocument, NUMBER_OF_INSTRUMENTTRACKS]
  have hl := loadTracks_parsed ((List.range 6).map (ProjectPersistence.saveTrack a))
    (by simp) 0
    (ProjectPersistence.loadGlobalBlock (ProjectPersistence.saveDocument a).global b)
  simp only [ProjectPersistence.load, openRead_save ppS sd projectNum a hsd, if_neg hg, ht, hl,
    Option.map_map]
  rfl

/-- C21: the sequencer `a` is saved as project `projectNum` on a card that is reached, and the
file is loaded into a sequencer `b` whose arrays have the sizes of the document. The load stays
within the arrays, runs to its end and sets `activeProject` to the bit of the project. The step
length and the swing are those of `a`; for each of the six tracks and each of the eight
patterns, `trackLength`, `offset`, `autoMutate`, `triggerState` and `pLockArmState` are those
of `a`; for each of the sixteen steps the trigger mask, the trigger bit, the plock bit and the
six parameters are those of `a`. -/
theorem save_load_round_trip (pp ppS : ProjectPersistence) (sd : SdCard) (projectNum : Nat)
    (a b : Project.Sequencer) (hsd : sd.available = true) (hb : b.WellSized) :
    ∃ r, ProjectPersistence.load pp (ProjectPersistence.save ppS sd projectNum a).2
        projectNum b = some r ∧
      r.1.activeProject = 1 <<< projectNum ∧
      r.2.clock.stepLength = a.clock.stepLength ∧
      r.2.clock.swing = a.clock.swing ∧
      ∀ t, t < 6 → ∀ p, p < 8 →
        (r.2.pattern t p).trackLength = (a.pattern t p).trackLength ∧
        (r.2.pattern t p).offset = (a.pattern t p).offset ∧
        (r.2.pattern t p).autoMutate = (a.pattern t p).autoMutate ∧
        (r.2.pattern t p).triggerState = (a.pattern t p).triggerState ∧
        (r.2.pattern t p).pLockArmState = (a.pattern t p).pLockArmState ∧
        ∀ s, s < 16 →
          ((r.2.pattern t p).steps.getD s default).triggerMask
            = ((a.pattern t p).steps.getD s default).triggerMask ∧
          (r.2.pattern t p).isTriggerOn s = (a.pattern t p).isTriggerOn s ∧
          (r.2.pattern t p).isParameterLockOn s = (a.pattern t p).isParameterLockOn s ∧
          ((r.2.pattern t p).steps.getD s default).params
            = ((a.pattern t p).steps.getD s default).params := by
  obtain ⟨hb1, hb2, hb3⟩ := hb
  obtain ⟨x, hx⟩ := loadBlocks_isSome ((List.range 6).map (ProjectPersistence.saveTrack a))
    (ProjectPersistence.loadGlobal
      { stepLength := some a.clock.stepLength, swing := some a.clock.swing } b)
    (by simp only [List.length_map, List.length_range]; exact hb2)
    (by simp only [List.length_map, List.length_range]; exact hb1)
    (by
      intro t d hd
      obtain ⟨ht, e⟩ := list_map_range_getElem _ 6 t d hd
      subst e
      refine ⟨?_, fun p dp hdp => ?_⟩
      · simp only [ProjectPersistence.saveTrack, List.length_map, List.length_range]
        exact (hb3 t ht).1
      · obtain ⟨hp, e⟩ := list_map_range_getElem _ 8 p dp hdp
        subst e
        simp only [ProjectPersistence.savePattern, List.length_map, List.length_range]
        exact (hb3 t ht).2 p hp)
  refine ⟨({ pp with activeProject := 0 ||| (1 <<< projectNum) }, x), ?_, Nat.zero_or _, ?_, ?_,
    fun t ht p hp => ?_⟩
  · rw [load_save pp ppS sd projectNum a b hsd, hx]
    rfl
  · exact congrArg Project.Clock.stepLength (loadBlocks_frame _ 0 _ x hx).1
  · exact congrArg Project.Clock.swing (loadBlocks_frame _ 0 _ x hx).1
  · have hc := ((loadBlocks_cells _ _ x hx t).2 (ProjectPersistence.saveTrack a t)
      (list_map_range_getElem_lt _ 6 t ht)).2 p
    have hq := hc.2 (ProjectPersistence.savePattern (a.pattern t p))
      (list_map_range_getElem_lt _ 8 p hp)
    obtain ⟨f1, f2, f3, f4, f5, f6⟩ := loadPattern_fields _ _ _ hq
    have hsteps : ∀ s, s < 16 →
        (x.pattern t p).steps.getD s default = (a.pattern t p).steps.getD s default := by
      intro s hs
      exact ((loadSteps_cells _ _ _ f6).2 s).2
        (ProjectPersistence.saveStep ((a.pattern t p).steps.getD s default))
        (list_map_range_getElem_lt _ 16 s hs)
    refine ⟨f4, f3, f5, f1, f2, fun s hs => ?_⟩
    show ((x.pattern t p).steps.getD s default).triggerMask = _ ∧
      (x.pattern t p).isTriggerOn s = _ ∧ (x.pattern t p).isParameterLockOn s = _ ∧
      ((x.pattern t p).steps.getD s default).params = _
    unfold Project.SequencerPattern.isTriggerOn Project.SequencerPattern.isParameterLockOn
    rw [hsteps s hs, f1, f2]
    exact ⟨rfl, rfl, rfl, rfl⟩

/-- C21, witness: `savedSequencer` saved as project 0 on an empty card and loaded into the
power-on sequencer. -/
theorem save_load_round_trip_witness :
    ({} : SdCard).available = true ∧ ({} : Project.Sequencer).WellSized ∧
    ∃ r, ProjectPersistence.load {} (ProjectPersistence.save {} {} 0 savedSequencer).2 0 {}
        = some r ∧
      r.2.clock.stepLength = savedSequencer.clock.stepLength ∧
      (r.2.pattern 0 0).isTriggerOn 0 = (savedSequencer.pattern 0 0).isTriggerOn 0 :=
  ⟨rfl, by decide,
    (save_load_round_trip {} {} {} 0 savedSequencer {} rfl (by decide)).imp
      fun _ hr => ⟨hr.1, hr.2.2.1, ((hr.2.2.2.2 0 (by decide) 0 (by decide)).2.2.2.2.2 0
        (by decide)).2.1⟩⟩


/-! ## The LED frame -/

/-- C25, counterexample: the power-on state and the same state with the LED of TOGGLE_MUTE lit
differ only in the contents of the LED array. One tick without any button (mode DEFAULT_MODE)
leaves the cell lit in the one run and dark in the other: the tick does not assign it. -/
theorem mute_led_not_assigned :
    muteLedLit = ({} : Sequencer).withLeds muteLedLit.functionLeds muteLedLit.trackLeds
      muteLedLit.stepLeds ∧
    muteLedLit.calculateFunctionMode = FunctionMode.DEFAULT_MODE ∧
    (muteLedLit.updateState 0 0 0).functionLeds.BUTTON_TOGGLE_MUTE = CRGB.CornflowerBlue ∧
    (({} : Sequencer).updateState 0 0 0).functionLeds.BUTTON_TOGGLE_MUTE = CRGB.Black := by
  set_option maxRecDepth 100000 in decide

section LedFrame

attribute [local irreducible] forLoop

theorem sameCells_refl (n : Nat) (l : List CRGB) : sameCells n l l :=
  ⟨rfl, fun _ _ => rfl⟩

theorem sameCells_mono {n m : Nat} {l l2 : List CRGB} (h : sameCells n l l2) (hm : m ≤ n) :
    sameCells m l l2 :=
  ⟨h.1, fun k hk => h.2 k (Nat.lt_of_lt_of_le hk hm)⟩

/-- The same assignment to the same cell of two rows keeps the cells that agree. -/
theorem sameCells_set {n : Nat} {l l2 : List CRGB} (h : sameCells n l l2) (i : Nat) (c : CRGB) :
    sameCells n (l.set i c) (l2.set i c) := by
  refine ⟨by rw [List.length_set, List.length_set]; exact h.1, fun k hk => ?_⟩
  rw [list_getD_set, list_getD_set, h.1, h.2 k hk]

/-- The same assignment to cell `n` of two rows that agree in the cells before it. -/
theorem sameCells_set_succ {n : Nat} {l l2 : List CRGB} (h : sameCells n l l2) (c : CRGB) :
    sameCells (n + 1) (l.set n c) (l2.set n c) := by
  refine ⟨by rw [List.length_set, List.length_set]; exact h.1, fun k hk => ?_⟩
  rw [list_getD_set, list_getD_set, h.1]
  by_cases hkn : k = n
  · by_cases hl : n < l2.length
    · rw [if_pos ⟨hkn, hl⟩, if_pos ⟨hkn, hl⟩]
    · rw [if_neg (fun c => hl c.2), if_neg (fun c => hl c.2), List.getD_eq_default,
        List.getD_eq_default]
      · have := h.1; omega
      · have := h.1; omega
  · rw [if_neg (fun c => hkn c.1), if_neg (fun c => hkn c.1)]
    exact h.2 k (by omega)

/-- A cell that was just assigned reads the same in two rows of the same length. -/
theorem sameCells_read {n : Nat} {l l2 : List CRGB} (h : sameCells n l l2) (i : Nat) (c : CRGB) :
    (l.set i c).getD i default = (l2.set i c).getD i default := by
  rw [list_getD_set, list_getD_set, h.1]
  by_cases hl : i < l2.length
  · rw [if_pos ⟨rfl, hl⟩, if_pos ⟨rfl, hl⟩]
  · rw [if_neg (fun c => hl c.2), if_neg (fun c => hl c.2), List.getD_eq_default,
      List.getD_eq_default]
    · have := h.1; omega
    · have := h.1; omega

theorem differInLeds_iff (a b : Nat) (s s2 : Sequencer) :
    s.differInLeds a b s2 ↔
      ∃ f t st, s2 = s.withLeds f t st ∧ sameCells a s.trackLeds t ∧ sameCells b s.stepLeds st := by
  constructor
  · rintro ⟨h1, h2, h3⟩
    exact ⟨_, _, _, h1, h2, h3⟩
  · rintro ⟨f, t, st, rfl, h2, h3⟩
    exact ⟨rfl, h2, h3⟩

/-- A loop on two states that are related before it: when each pass carries the relation of its
index to that of the next, the relation of the bound holds after the loop. -/
theorem forLoop_rel {σ : Type} (R : Nat → σ → σ → Prop) (body : Nat → σ → σ) (n : Nat)
    (x y : σ) (h : ∀ i u v, i < n → R i u v → R (i + 1) (body i u) (body i v))
    (hx : R 0 x y) : R n (forLoop n body x) (forLoop n body y) := by
  induction n with
  | zero => rw [forLoop_zero, forLoop_zero]; exact hx
  | succ k ih =>
    rw [forLoop_succ, forLoop_succ]
    exact h k _ _ (Nat.lt_succ_self k) (ih fun i u v hi => h i u v (Nat.lt_succ_of_lt hi))

/-- A loop whose passes commute with a map `w` commutes with it. -/
theorem forLoop_commute {σ : Type} (w : σ → σ) (body : Nat → σ → σ) (n : Nat) (x : σ)
    (h : ∀ i y, body i (w y) = w (body i y)) : forLoop n body (w x) = w (forLoop n body x) := by
  induction n with
  | zero => rw [forLoop_zero, forLoop_zero]
  | succ k ih => rw [forLoop_succ, forLoop_succ, ih, h]

theorem withLeds_self (s : Sequencer) :
    s.withLeds s.functionLeds s.trackLeds s.stepLeds = s := rfl

/-- A function that commutes with the replacement of the LED cells neither reads nor writes
them: it carries states that differ in the LEDs to states that differ in the LEDs in the same
way. -/
theorem differInLeds_of_commute (g : Sequencer → Sequencer)
    (hg : ∀ s f t st, g (s.withLeds f t st) = (g s).withLeds f t st) (a b : Nat)
    (s s2 : Sequencer) (h : s.differInLeds a b s2) : (g s).differInLeds a b (g s2) := by
  obtain ⟨f, t, st, rfl, h2, h3⟩ := (differInLeds_iff a b s _).1 h
  have e := hg s s.functionLeds s.trackLeds s.stepLeds
  rw [withLeds_self] at e
  rw [hg]
  refine ⟨rfl, ?_, ?_⟩
  · rw [e]; exact h2
  · rw [e]; exact h3

theorem doTriggerSoundsTrack_withLeds (i : Nat) (s : Sequencer) (f : FunctionLeds)
    (t st : List CRGB) :
    Sequencer.doTriggerSoundsTrack i (s.withLeds f t st)
      = (Sequencer.doTriggerSoundsTrack i s).withLeds f t st := by
  simp only [Sequencer.doTriggerSoundsTrack, Sequencer.withLeds, Sequencer.track,
    Sequencer.setTrack, Sequencer.recordPLock]
  split_ifs <;> rfl

theorem doStepTrack_withLeds (i : Nat) (s : Sequencer) (f : FunctionLeds) (t st : List CRGB) :
    Sequencer.doStepTrack i (s.withLeds f t st)
      = (Sequencer.doStepTrack i s).withLeds f t st := rfl

theorem onStopTrack_withLeds (i : Nat) (s : Sequencer) (f : FunctionLeds) (t st : List CRGB) :
    Sequencer.onStopTrack i (s.withLeds f t st)
      = (Sequencer.onStopTrack i s).withLeds f t st := rfl

theorem doUpdateMutesTrack_withLeds (i : Nat) (s : Sequencer) (f : FunctionLeds)
    (t st : List CRGB) :
    Sequencer.doUpdateMutesTrack i (s.withLeds f t st)
      = (Sequencer.doUpdateMutesTrack i s).withLeds f t st := rfl

theorem doTurnOffPlockModeTrack_withLeds (i : Nat) (s : Sequencer) (f : FunctionLeds)
    (t st : List CRGB) :
    Sequencer.doTurnOffPlockModeTrack i (s.withLeds f t st)
      = (Sequencer.doTurnOffPlockModeTrack i s).withLeds f t st := rfl

theorem doSetTrackPLockTrack_withLeds (i : Nat) (s : Sequencer) (f : FunctionLeds)
    (t st : List CRGB) :
    Sequencer.doSetTrackPLockTrack i (s.withLeds f t st)
      = (Sequencer.doSetTrackPLockTrack i s).withLeds f t st := by
  simp only [Sequencer.doSetTrackPLockTrack, Sequencer.withLeds, Sequencer.track,
    Sequencer.setTrack, Sequencer.trackButton]
  split_ifs <;> rfl

theorem doToggleTrackMuteArmTrack_withLeds (i : Nat) (s : Sequencer) (f : FunctionLeds)
    (t st : List CRGB) :
    Sequencer.doToggleTrackMuteArmTrack i (s.withLeds f t st)
      = (Sequencer.doToggleTrackMuteArmTrack i s).withLeds f t st := by
  simp only [Sequencer.doToggleTrackMuteArmTrack, Sequencer.withLeds, Sequencer.track,
    Sequencer.setTrack, Sequencer.trackButton]
  split_ifs <;> rfl

theorem doLeavePatternOpsTrack_withLeds (i : Nat) (s : Sequencer) (f : FunctionLeds)
    (t st : List CRGB) :
    Sequencer.doLeavePatternOpsTrack i (s.withLeds f t st)
      = (Sequencer.doLeavePatternOpsTrack i s).withLeds f t st := by
  simp only [Sequencer.doLeavePatternOpsTrack, Sequencer.withLeds, Sequencer.track,
    Sequencer.setTrack, Sequencer.anyPatternOpsArmed]
  split_ifs <;> rfl

theorem withLeds_functionButtons (s : Sequencer) (f : FunctionLeds) (t st : List CRGB) :
    (s.withLeds f t st).functionButtons = s.functionButtons := rfl

theorem withLeds_trackButtons (s : Sequencer) (f : FunctionLeds) (t st : List CRGB) :
    (s.withLeds f t st).trackButtons = s.trackButtons := rfl

theorem withLeds_stepButtons (s : Sequencer) (f : FunctionLeds) (t st : List CRGB) :
    (s.withLeds f t st).stepButtons = s.stepButtons := rfl

theorem withLeds_tracks (s : Sequencer) (f : FunctionLeds) (t st : List CRGB) :
    (s.withLeds f t st).tracks = s.tracks := rfl

theorem withLeds_input1 (s : Sequencer) (f : FunctionLeds) (t st : List CRGB) :
    (s.withLeds f t st).input1 = s.input1 := rfl

theorem withLeds_input2 (s : Sequencer) (f : FunctionLeds) (t st : List CRGB) :
    (s.withLeds f t st).input2 = s.input2 := rfl

theorem withLeds_pLockParamSet (s : Sequencer) (f : FunctionLeds) (t st : List CRGB) :
    (s.withLeds f t st).pLockParamSet = s.pLockParamSet := rfl

theorem withLeds_selectedTrack (s : Sequencer) (f : FunctionLeds) (t st : List CRGB) :
    (s.withLeds f t st).selectedTrack = s.selectedTrack := rfl

theorem withLeds_stepLength (s : Sequencer) (f : FunctionLeds) (t st : List CRGB) :
    (s.withLeds f t st).stepLength = s.stepLength := rfl

theorem withLeds_nextStepTime (s : Sequencer) (f : FunctionLeds) (t st : List CRGB) :
    (s.withLeds f t st).nextStepTime = s.nextStepTime := rfl

theorem withLeds_lastStepTime (s : Sequencer) (f : FunctionLeds) (t st : List CRGB) :
    (s.withLeds f t st).lastStepTime = s.lastStepTime := rfl

theorem withLeds_pulseCount (s : Sequencer) (f : FunctionLeds) (t st : List CRGB) :
    (s.withLeds f t st).pulseCount = s.pulseCount := rfl

theorem withLeds_stepCount (s : Sequencer) (f : FunctionLeds) (t st : List CRGB) :
    (s.withLeds f t st).stepCount = s.stepCount := rfl

theorem withLeds_sourceStepIndex (s : Sequencer) (f : FunctionLeds) (t st : List CRGB) :
    (s.withLeds f t st).sourceStepIndex = s.sourceStepIndex := rfl

theorem withLeds_stepCopy (s : Sequencer) (f : FunctionLeds) (t st : List CRGB) :
    (s.withLeds f t st).stepCopy = s.stepCopy := rfl

theorem withLeds_sourcePatternIndex (s : Sequencer) (f : FunctionLeds) (t st : List CRGB) :
    (s.withLeds f t st).sourcePatternIndex = s.sourcePatternIndex := rfl

theorem withLeds_patternCopy (s : Sequencer) (f : FunctionLeds) (t st : List CRGB) :
    (s.withLeds f t st).patternCopy = s.patternCopy := rfl

theorem withLeds_nextPatternIndex (s : Sequencer) (f : FunctionLeds) (t st : List CRGB) :
    (s.withLeds f t st).nextPatternIndex = s.nextPatternIndex := rfl

theorem withLeds_trackOrStepButtonPressed (s : Sequencer) (f : FunctionLeds) (t st : List CRGB) :
    (s.withLeds f t st).trackOrStepButtonPressed = s.trackOrStepButtonPressed := rfl

theorem withLeds_running (s : Sequencer) (f : FunctionLeds) (t st : List CRGB) :
    (s.withLeds f t st).running = s.running := rfl

theorem withLeds_triggerSounds (s : Sequencer) (f : FunctionLeds) (t st : List CRGB) :
    (s.withLeds f t st).triggerSounds = s.triggerSounds := rfl

theorem withLeds_isSyncingToMidiClock (s : Sequencer) (f : FunctionLeds) (t st : List CRGB) :
    (s.withLeds f t st).isSyncingToMidiClock = s.isSyncingToMidiClock := rfl

theorem withLeds_midiClockReceived (s : Sequencer) (f : FunctionLeds) (t st : List CRGB) :
    (s.withLeds f t st).midiClockReceived = s.midiClockReceived := rfl

theorem withLeds_hasActivePLockReceivers (s : Sequencer) (f : FunctionLeds) (t st : List CRGB) :
    (s.withLeds f t st).hasActivePLockReceivers = s.hasActivePLockReceivers := rfl

theorem withLeds_ledFader (s : Sequencer) (f : FunctionLeds) (t st : List CRGB) :
    (s.withLeds f t st).ledFader = s.ledFader := rfl

theorem withLeds_log (s : Sequencer) (f : FunctionLeds) (t st : List CRGB) :
    (s.withLeds f t st).log = s.log := rfl

theorem withLeds_functionLeds (s : Sequencer) (f : FunctionLeds) (t st : List CRGB) :
    (s.withLeds f t st).functionLeds = f := rfl

theorem withLeds_trackLeds (s : Sequencer) (f : FunctionLeds) (t st : List CRGB) :
    (s.withLeds f t st).trackLeds = t := rfl

theorem withLeds_stepLeds (s : Sequencer) (f : FunctionLeds) (t st : List CRGB) :
    (s.withLeds f t st).stepLeds = st := rfl

theorem withLeds_track (s : Sequencer) (f : FunctionLeds) (t st : List CRGB) (i : Nat) :
    (s.withLeds f t st).track i = s.track i := rfl

theorem withLeds_stepButton (s : Sequencer) (f : FunctionLeds) (t st : List CRGB) (i : Nat) :
    (s.withLeds f t st).stepButton i = s.stepButton i := rfl

theorem withLeds_trackButton (s : Sequencer) (f : FunctionLeds) (t st : List CRGB) (i : Nat) :
    (s.withLeds f t st).trackButton i = s.trackButton i := rfl

theorem withLeds_selectedStep (s : Sequencer) (f : FunctionLeds) (t st : List CRGB) (i : Nat) :
    (s.withLeds f t st).selectedStep i = s.selectedStep i := rfl

theorem withLeds_anyPatternOpsArmed (s : Sequencer) (f : FunctionLeds) (t st : List CRGB) :
    (s.withLeds f t st).anyPatternOpsArmed = s.anyPatternOpsArmed := rfl

theorem withLeds_calculateFunctionMode (s : Sequencer) (f : FunctionLeds) (t st : List CRGB) :
    (s.withLeds f t st).calculateFunctionMode = s.calculateFunctionMode := rfl

theorem withLeds_setTrack (s : Sequencer) (f : FunctionLeds) (t st : List CRGB) (i : Nat)
    (x : SequencerTrack) :
    (s.withLeds f t st).setTrack i x = (s.setTrack i x).withLeds f t st := rfl

theorem withLeds_setSelectedStep (s : Sequencer) (f : FunctionLeds) (t st : List CRGB) (i : Nat)
    (x : SequencerStep) :
    (s.withLeds f t st).setSelectedStep i x = (s.setSelectedStep i x).withLeds f t st := rfl

theorem withLeds_deactivateSensors (s : Sequencer) (f : FunctionLeds) (t st : List CRGB) :
    (s.withLeds f t st).deactivateSensors = s.deactivateSensors.withLeds f t st := rfl

theorem withLeds_deactivateAllPatternOpsArms (s : Sequencer) (f : FunctionLeds)
    (t st : List CRGB) :
    (s.withLeds f t st).deactivateAllPatternOpsArms
      = s.deactivateAllPatternOpsArms.withLeds f t st := rfl

theorem withLeds_recordPLock (s : Sequencer) (f : FunctionLeds) (t st : List CRGB)
    (x : SequencerStep) : (s.withLeds f t st).recordPLock x = s.recordPLock x := rfl

theorem withLeds_setTrackLED (s : Sequencer) (f : FunctionLeds) (t st : List CRGB) (i : Nat)
    (c : CRGB) :
    (s.withLeds f t st).setTrackLED i c = (s.setTrackLED i c).withLeds f (t.set i c) st := rfl

theorem withLeds_trackLED (s : Sequencer) (f : FunctionLeds) (t st : List CRGB) (i : Nat) :
    (s.withLeds f t st).trackLED i = t.getD i default := rfl

theorem withLeds_setStepLED (s : Sequencer) (f : FunctionLeds) (t st : List CRGB) (i : Int)
    (c : CRGB) :
    (s.withLeds f t st).setStepLED i c
      = (s.setStepLED i c).withLeds f t (if 0 ≤ i then st.set i.toNat c else st) := by
  unfold Sequencer.setStepLED
  split_ifs <;> rfl

theorem withLeds_stepLED (s : Sequencer) (f : FunctionLeds) (t st : List CRGB) (i : Int) :
    (s.withLeds f t st).stepLED i = if 0 ≤ i then st.getD i.toNat default else default := rfl

theorem withLeds_advanceLedFader (s : Sequencer) (f : FunctionLeds) (t st : List CRGB) :
    (s.withLeds f t st).advanceLedFader = s.advanceLedFader.withLeds f t st := by
  simp only [Sequencer.advanceLedFader, withLeds_ledFader]
  split_ifs <;> rfl

theorem withLeds_selectParamSet (s : Sequencer) (f : FunctionLeds) (t st : List CRGB) :
    (s.withLeds f t st).selectParamSet = s.selectParamSet.withLeds f t st := by
  simp only [Sequencer.selectParamSet, withLeds_functionButtons]
  split_ifs <;> rfl

theorem withLeds_shouldStep (s : Sequencer) (f : FunctionLeds) (t st : List CRGB)
    (millis : Nat) :
    ((s.withLeds f t st).shouldStep millis).1 = (s.shouldStep millis).1 ∧
    ((s.withLeds f t st).shouldStep millis).2 = (s.shouldStep millis).2.withLeds f t st := by
  simp only [Sequencer.shouldStep, Sequencer.shouldStepMidiClock,
    Sequencer.shouldStepInternalClock, withLeds_isSyncingToMidiClock,
    withLeds_midiClockReceived, withLeds_nextStepTime, withLeds_pulseCount]
  split_ifs <;> exact ⟨rfl, rfl⟩

theorem withLeds_doStep (s : Sequencer) (f : FunctionLeds) (t st : List CRGB) :
    (s.withLeds f t st).doStep = s.doStep.withLeds f t st :=
  congrArg
    (fun x : Sequencer =>
      ({ x with triggerSounds := true, stepCount := x.stepCount + 1 } : Sequencer))
    (forLoop_commute (fun x : Sequencer => x.withLeds f t st) Sequencer.doStepTrack
      NUMBER_OF_INSTRUMENTTRACKS { s with log := s.log ++ [Call.doStep] }
      (fun i y => doStepTrack_withLeds i y f t st))

end LedFrame


section LedFrame2

attribute [local irreducible] forLoop

theorem withLeds_doTriggerSounds (s : Sequencer) (f : FunctionLeds) (t st : List CRGB)
    (poti1 poti2 : Nat) :
    (s.withLeds f t st).doTriggerSounds poti1 poti2
      = (s.doTriggerSounds poti1 poti2).withLeds f t st :=
  congrArg (fun x : Sequencer => ({ x with triggerSounds := false } : Sequencer))
    (forLoop_commute (fun x : Sequencer => x.withLeds f t st) Sequencer.doTriggerSoundsTrack
      NUMBER_OF_INSTRUMENTTRACKS
      { s with
        log := s.log ++ [Call.doTriggerSounds]
        input1 := s.input1.update (poti1 % 65536)
        input2 := s.input2.update (poti2 % 65536) }
      (fun i y => doTriggerSoundsTrack_withLeds i y f t st))

theorem withLeds_doStartStop (s : Sequencer) (f : FunctionLeds) (t st : List CRGB)
    (millis : Nat) :
    (s.withLeds f t st).doStartStop millis = (s.doStartStop millis).withLeds f t st := by
  have e := forLoop_commute (fun x : Sequencer => x.withLeds f t st) Sequencer.onStopTrack
    NUMBER_OF_INSTRUMENTTRACKS { s with running := !s.running }
    (fun i y => onStopTrack_withLeds i y f t st)
  unfold Sequencer.doStartStop
  simp only [withLeds_running]
  split_ifs
  · exact congrArg
      (fun x : Sequencer => ({ x with pulseCount := 0, stepCount := 0 } : Sequencer)) e
  · rfl

theorem withLeds_doUpdateMutes (s : Sequencer) (f : FunctionLeds) (t st : List CRGB) :
    (s.withLeds f t st).doUpdateMutes = s.doUpdateMutes.withLeds f t st :=
  forLoop_commute (fun x : Sequencer => x.withLeds f t st) Sequencer.doUpdateMutesTrack
    NUMBER_OF_INSTRUMENTTRACKS s (fun i y => doUpdateMutesTrack_withLeds i y f t st)

theorem withLeds_doTurnOffPlockMode (s : Sequencer) (f : FunctionLeds) (t st : List CRGB) :
    (s.withLeds f t st).doTurnOffPlockMode = s.doTurnOffPlockMode.withLeds f t st :=
  congrArg Sequencer.deactivateSensors
    (forLoop_commute (fun x : Sequencer => x.withLeds f t st)
      Sequencer.doTurnOffPlockModeTrack NUMBER_OF_INSTRUMENTTRACKS s
      (fun i y => doTurnOffPlockModeTrack_withLeds i y f t st))

theorem withLeds_doLeavePatternOps (s : Sequencer) (f : FunctionLeds) (t st : List CRGB) :
    (s.withLeds f t st).doLeavePatternOps = s.doLeavePatternOps.withLeds f t st :=
  congrArg
    (fun x : Sequencer =>
      ({ x.deactivateAllPatternOpsArms with nextPatternIndex := -1 } : Sequencer))
    (forLoop_commute (fun x : Sequencer => x.withLeds f t st)
      Sequencer.doLeavePatternOpsTrack NUMBER_OF_INSTRUMENTTRACKS s
      (fun i y => doLeavePatternOpsTrack_withLeds i y f t st))

theorem withLeds_stepIfDue (s : Sequencer) (f : FunctionLeds) (t st : List CRGB)
    (millis : Nat) :
    (s.withLeds f t st).stepIfDue millis = (s.stepIfDue millis).withLeds f t st := by
  unfold Sequencer.stepIfDue
  simp only [(withLeds_shouldStep s f t st millis).1, (withLeds_shouldStep s f t st millis).2,
    withLeds_doStep]
  split_ifs <;> rfl

theorem withLeds_triggerIfPending (s : Sequencer) (f : FunctionLeds) (t st : List CRGB)
    (poti1 poti2 : Nat) :
    (s.withLeds f t st).triggerIfPending poti1 poti2
      = (s.triggerIfPending poti1 poti2).withLeds f t st := by
  unfold Sequencer.triggerIfPending
  simp only [withLeds_triggerSounds, withLeds_doTriggerSounds]
  split_ifs <;> rfl

end LedFrame2


section LedFrame3

attribute [local irreducible] forLoop

theorem setStepLED_natCast (s : Sequencer) (i : Nat) (c : CRGB) :
    s.setStepLED (i : Int) c = { s with stepLeds := s.stepLeds.set i c } := by
  unfold Sequencer.setStepLED
  rw [if_pos (Int.ofNat_nonneg i)]
  rfl

/-- The same assignment to a step LED in two states that differ in the LEDs. -/
theorem differInLeds_setStepLED {a b : Nat} {s s2 : Sequencer} (h : s.differInLeds a b s2)
    (i : Int) (c : CRGB) : (s.setStepLED i c).differInLeds a b (s2.setStepLED i c) := by
  obtain ⟨f, t, st, rfl, hT, hST⟩ := (differInLeds_iff a b s _).1 h
  unfold Sequencer.setStepLED
  split_ifs
  · exact ⟨rfl, hT, sameCells_set hST _ _⟩
  · exact ⟨rfl, hT, hST⟩

/-- `setDefaultTrackLight` assigns the LED of its track: two states that differ in the LEDs
and agree in the track cells before `n` agree in the cells up to `n` after it. -/
theorem differInLeds_setDefaultTrackLight {n b : Nat} {s s2 : Sequencer}
    (h : s.differInLeds n b s2) :
    (s.setDefaultTrackLight n).differInLeds (n + 1) b (s2.setDefaultTrackLight n) := by
  obtain ⟨f, t, st, rfl, hT, hST⟩ := (differInLeds_iff n b s _).1 h
  simp only [Sequencer.setDefaultTrackLight, Sequencer.setTrackLED, Sequencer.trackLED,
    Sequencer.track, Sequencer.withLeds, apply_ite Sequencer.tracks, ite_self,
    apply_ite Sequencer.trackLeds]
  split_ifs
  all_goals first
    | exact ⟨rfl, sameCells_set_succ hT _, hST⟩
    | (refine ⟨rfl, ?_, hST⟩
       simp only [sameCells_read hT]
       exact sameCells_set_succ (sameCells_set hT _ _) _)

/-- A value that is computed without the LEDs is the same in two states that differ in the
LEDs. -/
theorem differInLeds_obs {β : Type} (c : Sequencer → β)
    (hc : ∀ s f t st, c (s.withLeds f t st) = c s) {a b : Nat} {s s2 : Sequencer}
    (h : s.differInLeds a b s2) : c s = c s2 := by
  obtain ⟨f, t, st, rfl, _, _⟩ := (differInLeds_iff a b s _).1 h
  exact (hc s f t st).symm

/-- The assignment `stepLED(i) = colorForStepState(step.state)` for the step `i` of the
selected track, in two states that differ in the LEDs and agree in the step cells before
`i`. -/
theorem differInLeds_stepLight {a i : Nat} {x x2 : Sequencer} (h : x.differInLeds a i x2) :
    (x.setStepLED (i : Int) (Sequencer.colorForStepState (x.selectedStep i).state)).differInLeds
      a (i + 1)
      (x2.setStepLED (i : Int) (Sequencer.colorForStepState (x2.selectedStep i).state)) := by
  obtain ⟨f, t, st, rfl, hT, hST⟩ := (differInLeds_iff a i x _).1 h
  rw [setStepLED_natCast, setStepLED_natCast]
  exact ⟨rfl, hT, sameCells_set_succ hST _⟩

/-- Two results of a computation that neither reads nor writes the LEDs, on a state and on
the same state with other LED contents. -/
theorem differInLeds_mk {a b : Nat} {s x y : Sequencer} {f : FunctionLeds} {t st : List CRGB}
    (hT : sameCells a s.trackLeds t) (hST : sameCells b s.stepLeds st)
    (e : y = x.withLeds f t st) (e1 : x.trackLeds = s.trackLeds)
    (e2 : x.stepLeds = s.stepLeds) : x.differInLeds a b y := by
  subst e
  refine ⟨rfl, ?_, ?_⟩
  · rw [e1]; exact hT
  · rw [e2]; exact hST

theorem differInLeds_doSetTriggersStep {a i : Nat} {s s2 : Sequencer} (p : Bool)
    (h : s.differInLeds a i s2) :
    (Sequencer.doSetTriggersStep i (s, p)).1.differInLeds a (i + 1)
      (Sequencer.doSetTriggersStep i (s2, p)).1 ∧
    (Sequencer.doSetTriggersStep i (s, p)).2 = (Sequencer.doSetTriggersStep i (s2, p)).2 := by
  obtain ⟨f, t, st, rfl, hT, hST⟩ := (differInLeds_iff a i s _).1 h
  simp only [Sequencer.doSetTriggersStep]
  constructor
  · apply differInLeds_stepLight
    refine @differInLeds_mk a i s _ _ f t st hT hST ?_ ?_ ?_
    · simp only [Sequencer.stepButton, Sequencer.withLeds, apply_ite Prod.fst,
        apply_ite Prod.snd, apply_ite Sequencer.stepButtons, apply_ite Sequencer.stepCopy,
        apply_ite Sequencer.sourceStepIndex, Sequencer.setSelectedStep, Sequencer.setTrack,
        Sequencer.selectedStep, Sequencer.track, apply_ite Sequencer.tracks,
        apply_ite Sequencer.selectedTrack, ite_self]
      split_ifs <;> rfl
    · split_ifs <;> rfl
    · split_ifs <;> rfl
  · simp only [withLeds_stepButton, withLeds_sourceStepIndex, apply_ite Prod.snd]

/-- The same assignment to track LED `i` in two states that agree in the track cells before
`i`. -/
theorem differInLeds_setTrackLED_succ {i b : Nat} {x x2 : Sequencer}
    (h : x.differInLeds i b x2) (c : CRGB) :
    (x.setTrackLED i c).differInLeds (i + 1) b (x2.setTrackLED i c) := by
  obtain ⟨f, t, st, rfl, hT, hST⟩ := (differInLeds_iff i b x _).1 h
  exact ⟨rfl, sameCells_set_succ hT _, hST⟩

/-- The same contents written to the function cells of two states that differ in the LEDs. -/
theorem differInLeds_functionLeds {a b : Nat} {x x2 : Sequencer} (h : x.differInLeds a b x2)
    (F F2 : FunctionLeds) :
    Sequencer.differInLeds a b { x with functionLeds := F } { x2 with functionLeds := F2 } := by
  obtain ⟨f, t, st, rfl, hT, hST⟩ := (differInLeds_iff a b x _).1 h
  exact ⟨rfl, hT, hST⟩

theorem differInLeds_doSetTrackLengthStep {a i : Nat} {s s2 : Sequencer}
    (h : s.differInLeds a i s2) :
    (Sequencer.doSetTrackLengthStep i s).differInLeds a (i + 1)
      (Sequencer.doSetTrackLengthStep i s2) := by
  obtain ⟨f, t, st, rfl, hT, hST⟩ := (differInLeds_iff a i s _).1 h
  simp only [Sequencer.doSetTrackLengthStep]
  apply differInLeds_stepLight
  refine @differInLeds_mk a i s _ _ f t st hT hST ?_ ?_ ?_
  · simp only [withLeds_stepButton, withLeds_selectedTrack, withLeds_track, withLeds_setTrack]
    split_ifs <;> rfl
  · split_ifs <;> rfl
  · split_ifs <;> rfl

theorem differInLeds_doSetTrackPLockStep {a i : Nat} {s s2 : Sequencer}
    (h : s.differInLeds a i s2) :
    (Sequencer.doSetTrackPLockStep i s).differInLeds a (i + 1)
      (Sequencer.doSetTrackPLockStep i s2) := by
  obtain ⟨f, t, st, rfl, hT, hST⟩ := (differInLeds_iff a i s _).1 h
  simp only [Sequencer.doSetTrackPLockStep]
  apply differInLeds_stepLight
  refine @differInLeds_mk a i s _ _ f t st hT hST ?_ ?_ ?_
  · simp only [withLeds_stepButton, withLeds_selectedStep, withLeds_setSelectedStep]
    split_ifs <;> rfl
  · split_ifs <;> rfl
  · split_ifs <;> rfl

theorem differInLeds_doSetTrackSelectionTrack {i b : Nat} {s s2 : Sequencer}
    (h : s.differInLeds i b s2) :
    (Sequencer.doSetTrackSelectionTrack i s).differInLeds (i + 1) b
      (Sequencer.doSetTrackSelectionTrack i s2) := by
  obtain ⟨f, t, st, rfl, hT, hST⟩ := (differInLeds_iff i b s _).1 h
  simp only [Sequencer.doSetTrackSelectionTrack]
  apply differInLeds_setDefaultTrackLight
  refine @differInLeds_mk i b s _ _ f t st hT hST ?_ ?_ ?_
  · simp only [Sequencer.trackButton, Sequencer.withLeds, Sequencer.deactivateSensors,
      apply_ite Sequencer.trackButtons, apply_ite Sequencer.input1, apply_ite Sequencer.input2,
      apply_ite Sequencer.log, ite_self]
    split_ifs <;> rfl
  · split_ifs <;> rfl
  · split_ifs <;> rfl

theorem differInLeds_doToggleTrackMuteArmLight {i b : Nat} {s s2 : Sequencer}
    (h : s.differInLeds i b s2) :
    (Sequencer.doToggleTrackMuteArmLight i s).differInLeds (i + 1) b
      (Sequencer.doToggleTrackMuteArmLight i s2) := by
  have hc := differInLeds_obs (fun x : Sequencer => (x.track i, x.ledFader))
    (fun _ _ _ _ => rfl) h
  simp only [Prod.mk.injEq] at hc
  simp only [Sequencer.doToggleTrackMuteArmLight, ← hc.1, ← hc.2]
  split_ifs
  · exact differInLeds_setTrackLED_succ h _
  · exact differInLeds_setTrackLED_succ h _
  · exact differInLeds_setDefaultTrackLight h

/-- The light of track `i` in `doPatternOps`, in two states that differ in the LEDs and agree
in the track cells before `i`. -/
theorem differInLeds_patternOpsLight {i b : Nat} {x x2 : Sequencer}
    (h : x.differInLeds i b x2) :
    Sequencer.differInLeds (i + 1) b
      (if (x.track i).isPatternOpsArmed then
        x.setTrackLED i (CRGB.nscale8 CRGB.CornflowerBlue (255 - x.ledFader))
      else x.setDefaultTrackLight i)
      (if (x2.track i).isPatternOpsArmed then
        x2.setTrackLED i (CRGB.nscale8 CRGB.CornflowerBlue (255 - x2.ledFader))
      else x2.setDefaultTrackLight i) := by
  have hc := differInLeds_obs (fun x : Sequencer => (x.track i, x.ledFader))
    (fun _ _ _ _ => rfl) h
  simp only [Prod.mk.injEq] at hc
  simp only [← hc.1, ← hc.2]
  split_ifs
  · exact differInLeds_setTrackLED_succ h _
  · exact differInLeds_setDefaultTrackLight h

theorem differInLeds_doPatternOpsTrack {i b : Nat} {s s2 : Sequencer}
    (h : s.differInLeds i b s2) :
    (Sequencer.doPatternOpsTrack i s).differInLeds (i + 1) b
      (Sequencer.doPatternOpsTrack i s2) := by
  obtain ⟨f, t, st, rfl, hT, hST⟩ := (differInLeds_iff i b s _).1 h
  simp only [Sequencer.doPatternOpsTrack]
  apply differInLeds_patternOpsLight
  refine @differInLeds_mk i b s _ _ f t st hT hST ?_ ?_ ?_
  · simp only [withLeds_trackButton, withLeds_track, withLeds_setTrack]
    split_ifs <;> rfl
  · split_ifs <;> rfl
  · split_ifs <;> rfl

theorem differInLeds_doPatternOpsCopy {a b : Nat} (i k : Nat) {s s2 : Sequencer}
    (h : s.differInLeds a b s2) :
    (Sequencer.doPatternOpsCopy i k s).differInLeds a b (Sequencer.doPatternOpsCopy i k s2) := by
  obtain ⟨f, t, st, rfl, hT, hST⟩ := (differInLeds_iff a b s _).1 h
  simp only [Sequencer.doPatternOpsCopy, withLeds_anyPatternOpsArmed, withLeds_track,
    withLeds_sourcePatternIndex, withLeds_setTrack]
  split_ifs
  · apply differInLeds_setStepLED
    exact ⟨rfl, hT, hST⟩
  · exact ⟨rfl, hT, hST⟩

end LedFrame3


section LedFrame4

attribute [local irreducible] forLoop

theorem differInLeds_mono {a b a2 b2 : Nat} {s s2 : Sequencer} (h : s.differInLeds a b s2)
    (ha : a2 ≤ a) (hb : b2 ≤ b) : s.differInLeds a2 b2 s2 :=
  ⟨h.1, sameCells_mono h.2.1 ha, sameCells_mono h.2.2 hb⟩

/-- The step LED of pattern slot `i` in `doPatternOps`, after the note of the next pattern, in
two states that differ in the LEDs and agree in the step cells before `i`. -/
theorem differInLeds_patternStepLight {a i : Nat} (c : Nat) {x x2 : Sequencer}
    (h : x.differInLeds a i x2) :
    Sequencer.differInLeds a (i + 1)
      ((if (x.stepButton i).fell && !x.patternCopy then
          { x with nextPatternIndex := (i : Int) }
        else x).setStepLED i (if i = c then CRGB.Red else CRGB.Black))
      ((if (x2.stepButton i).fell && !x2.patternCopy then
          { x2 with nextPatternIndex := (i : Int) }
        else x2).setStepLED i (if i = c then CRGB.Red else CRGB.Black)) := by
  obtain ⟨f, t, st, rfl, hT, hST⟩ := (differInLeds_iff a i x _).1 h
  rw [setStepLED_natCast, setStepLED_natCast]
  simp only [withLeds_stepButton, withLeds_patternCopy]
  split_ifs <;> exact ⟨rfl, hT, sameCells_set_succ hST _⟩

theorem differInLeds_doPatternOpsStep {a i : Nat} (c : Nat) {s s2 : Sequencer} (p : Bool)
    (h : s.differInLeds a i s2) :
    (Sequencer.doPatternOpsStep c i (s, p)).1.differInLeds a (i + 1)
      (Sequencer.doPatternOpsStep c i (s2, p)).1 ∧
    (Sequencer.doPatternOpsStep c i (s, p)).2 = (Sequencer.doPatternOpsStep c i (s2, p)).2 := by
  have hl := forLoop_rel (fun _ => Sequencer.differInLeds a i) (Sequencer.doPatternOpsCopy i)
    NUMBER_OF_INSTRUMENTTRACKS s s2 (fun k _ _ _ hk => differInLeds_doPatternOpsCopy i k hk) h
  have hc := differInLeds_obs (fun x : Sequencer => (x.stepButton i, x.sourcePatternIndex))
    (fun _ _ _ _ => rfl) h
  simp only [Prod.mk.injEq] at hc
  simp only [Sequencer.doPatternOpsStep, ← hc.1, ← hc.2]
  constructor
  · apply differInLeds_patternStepLight
    simp only [apply_ite Prod.fst]
    split_ifs
    · exact differInLeds_of_commute
        (fun x : Sequencer => ({ x with sourcePatternIndex := (i : Int) } : Sequencer))
        (fun _ _ _ _ => rfl) a i s s2 h
    · exact differInLeds_of_commute
        (fun x : Sequencer => ({ x with patternCopy := true } : Sequencer))
        (fun _ _ _ _ => rfl) a i _ _ hl
    · exact h
    · exact h
  · simp only [apply_ite Prod.snd, ite_self]

end LedFrame4


section LedFrame5

attribute [local irreducible] forLoop

/-- The loop over the step buttons of `doSetTriggers` on two states that differ in the LEDs: it
assigns every step cell. -/
theorem differInLeds_doSetTriggers_loop {a b : Nat} {s s2 : Sequencer}
    (h : s.differInLeds a b s2) (n : Nat) :
    (forLoop n Sequencer.doSetTriggersStep (s, false)).1.differInLeds a n
      (forLoop n Sequencer.doSetTriggersStep (s2, false)).1 ∧
    (forLoop n Sequencer.doSetTriggersStep (s, false)).2
      = (forLoop n Sequencer.doSetTriggersStep (s2, false)).2 :=
  forLoop_rel (fun i (u v : Sequencer × Bool) => u.1.differInLeds a i v.1 ∧ u.2 = v.2)
    Sequencer.doSetTriggersStep n (s, false) (s2, false)
    (fun i u v _ huv => by
      obtain ⟨x, p⟩ := u
      obtain ⟨x2, p2⟩ := v
      obtain ⟨h1, h2⟩ := huv
      have h3 : p = p2 := h2
      subst h3
      exact differInLeds_doSetTriggersStep p h1)
    ⟨differInLeds_mono h (Nat.le_refl a) (Nat.zero_le b), rfl⟩

theorem differInLeds_doSetTriggers {a b : Nat} {s s2 : Sequencer} (h : s.differInLeds a b s2) :
    s.doSetTriggers.differInLeds a 16 s2.doSetTriggers := by
  have hl := differInLeds_doSetTriggers_loop h NUMBER_OF_STEPBUTTONS
  unfold Sequencer.doSetTriggers
  simp only [← hl.2]
  split_ifs
  · exact differInLeds_of_commute
      (fun x : Sequencer => ({ x with sourceStepIndex := -1, stepCopy := false } : Sequencer))
      (fun _ _ _ _ => rfl) a 16 _ _ hl.1
  · exact hl.1

theorem differInLeds_doSetTrackSelection {a b : Nat} {s s2 : Sequencer}
    (h : s.differInLeds a b s2) :
    s.doSetTrackSelection.differInLeds 6 b s2.doSetTrackSelection :=
  forLoop_rel (fun i => Sequencer.differInLeds i b) Sequencer.doSetTrackSelectionTrack
    NUMBER_OF_INSTRUMENTTRACKS s s2 (fun _ _ _ _ huv => differInLeds_doSetTrackSelectionTrack huv)
    (differInLeds_mono h (Nat.zero_le a) (Nat.le_refl b))

/-- The red cell at the track length in `doSetTrackLength`, on two states that differ in the
LEDs. -/
theorem differInLeds_lengthLight {a b : Nat} {x x2 : Sequencer} (h : x.differInLeds a b x2) :
    Sequencer.differInLeds a b
      (x.setStepLED ((x.track x.selectedTrack).getCurrentPattern.trackLength - 1 : Int)
        CRGB.Red)
      (x2.setStepLED ((x2.track x2.selectedTrack).getCurrentPattern.trackLength - 1 : Int)
        CRGB.Red) := by
  have hc := differInLeds_obs
    (fun x : Sequencer => ((x.track x.selectedTrack).getCurrentPattern.trackLength - 1 : Int))
    (fun _ _ _ _ => rfl) h
  simp only at hc
  rw [← hc]
  exact differInLeds_setStepLED h _ _

/-- The step length from the first controller in `doSetTrackLength`, on two states that differ
in the LEDs. -/
theorem differInLeds_stepLengthEdit {a b : Nat} {x x2 : Sequencer} (h : x.differInLeds a b x2) :
    Sequencer.differInLeds a b
      (if x.input1.isActive then
        { x with
          stepLength := (Sequencer.map x.input1.getValue 0 1024 512 32).toNat
          nextStepTime :=
            x.lastStepTime + (Sequencer.map x.input1.getValue 0 1024 512 32).toNat }
      else x)
      (if x2.input1.isActive then
        { x2 with
          stepLength := (Sequencer.map x2.input1.getValue 0 1024 512 32).toNat
          nextStepTime :=
            x2.lastStepTime + (Sequencer.map x2.input1.getValue 0 1024 512 32).toNat }
      else x2) := by
  obtain ⟨f, t, st, rfl, hT, hST⟩ := (differInLeds_iff a b x _).1 h
  simp only [withLeds_input1, withLeds_lastStepTime]
  split_ifs <;> exact ⟨rfl, hT, hST⟩

/-- The offset from the second controller in `doSetTrackLength`, on two states that differ in
the LEDs. -/
theorem differInLeds_offsetEdit {a b : Nat} {x x2 : Sequencer} (h : x.differInLeds a b x2) :
    Sequencer.differInLeds a b
      (if x.input2.isActive then
        x.setTrack x.selectedTrack
          ((x.track x.selectedTrack).setCurrentPattern
            { (x.track x.selectedTrack).getCurrentPattern with
              offset := 16 - x.input2.getValue / 64 })
      else x)
      (if x2.input2.isActive then
        x2.setTrack x2.selectedTrack
          ((x2.track x2.selectedTrack).setCurrentPattern
            { (x2.track x2.selectedTrack).getCurrentPattern with
              offset := 16 - x2.input2.getValue / 64 })
      else x2) := by
  obtain ⟨f, t, st, rfl, hT, hST⟩ := (differInLeds_iff a b x _).1 h
  simp only [withLeds_input2, withLeds_selectedTrack, withLeds_track]
  split_ifs <;> exact ⟨rfl, hT, hST⟩

theorem differInLeds_doSetTrackLength {a b : Nat} {s s2 : Sequencer}
    (h : s.differInLeds a b s2) :
    s.doSetTrackLength.differInLeds a 16 s2.doSetTrackLength :=
  differInLeds_offsetEdit (differInLeds_stepLengthEdit (differInLeds_lengthLight
    (forLoop_rel (fun i => Sequencer.differInLeds a i) Sequencer.doSetTrackLengthStep
      NUMBER_OF_STEPBUTTONS _ _ (fun _ _ _ _ huv => differInLeds_doSetTrackLengthStep huv)
      (differInLeds_functionLeds (differInLeds_mono h (Nat.le_refl a) (Nat.zero_le b))
        { s.functionLeds with BUTTON_SET_TRACKLENGTH := CRGB.CornflowerBlue }
        { s2.functionLeds with BUTTON_SET_TRACKLENGTH := CRGB.CornflowerBlue }))))

end LedFrame5


section LedFrame6

attribute [local irreducible] forLoop

/-- The last statement of `doSetTrackPLock`, on two states that differ in the LEDs. -/
theorem differInLeds_plockTail {a b : Nat} {x x2 : Sequencer} (h : x.differInLeds a b x2) :
    Sequencer.differInLeds a b
      (if x.functionButtons.BUTTON_TOGGLE_PLOCK.rose then
        { x with trackOrStepButtonPressed := false }
      else x)
      (if x2.functionButtons.BUTTON_TOGGLE_PLOCK.rose then
        { x2 with trackOrStepButtonPressed := false }
      else x2) := by
  obtain ⟨f, t, st, rfl, hT, hST⟩ := (differInLeds_iff a b x _).1 h
  simp only [withLeds_functionButtons]
  split_ifs <;> exact ⟨rfl, hT, hST⟩

theorem differInLeds_doSetTrackPLock {a b : Nat} {s s2 : Sequencer}
    (h : s.differInLeds a b s2) :
    s.doSetTrackPLock.differInLeds a 16 s2.doSetTrackPLock := by
  have h0 := differInLeds_functionLeds (differInLeds_mono h (Nat.le_refl a) (Nat.zero_le b))
    { s.functionLeds with BUTTON_TOGGLE_PLOCK := CRGB.DarkOrange }
    { s2.functionLeds with BUTTON_TOGGLE_PLOCK := CRGB.DarkOrange }
  have h1 := differInLeds_of_commute
    (fun x : Sequencer => forLoop NUMBER_OF_INSTRUMENTTRACKS Sequencer.doSetTrackPLockTrack x)
    (fun x f t st => forLoop_commute (fun y : Sequencer => y.withLeds f t st)
      Sequencer.doSetTrackPLockTrack NUMBER_OF_INSTRUMENTTRACKS x
      (fun i y => doSetTrackPLockTrack_withLeds i y f t st)) a 0 _ _ h0
  have h2 := forLoop_rel (fun i => Sequencer.differInLeds a i) Sequencer.doSetTrackPLockStep
    NUMBER_OF_STEPBUTTONS _ _ (fun _ _ _ _ huv => differInLeds_doSetTrackPLockStep huv) h1
  exact differInLeds_plockTail h2

theorem differInLeds_doToggleTrackMuteArm {a b : Nat} {s s2 : Sequencer}
    (h : s.differInLeds a b s2) :
    s.doToggleTrackMuteArm.differInLeds 6 b s2.doToggleTrackMuteArm := by
  have h0 := differInLeds_functionLeds (differInLeds_mono h (Nat.zero_le a) (Nat.le_refl b))
    { s.functionLeds with BUTTON_TOGGLE_MUTE := CRGB.CornflowerBlue }
    { s2.functionLeds with BUTTON_TOGGLE_MUTE := CRGB.CornflowerBlue }
  have h1 := differInLeds_of_commute
    (fun x : Sequencer =>
      (forLoop NUMBER_OF_INSTRUMENTTRACKS Sequencer.doToggleTrackMuteArmTrack x).advanceLedFader)
    (fun x f t st => by
      simp only [forLoop_commute (fun y : Sequencer => y.withLeds f t st)
        Sequencer.doToggleTrackMuteArmTrack NUMBER_OF_INSTRUMENTTRACKS x
        (fun i y => doToggleTrackMuteArmTrack_withLeds i y f t st), withLeds_advanceLedFader])
    0 b _ _ h0
  exact forLoop_rel (fun i => Sequencer.differInLeds i b) Sequencer.doToggleTrackMuteArmLight
    NUMBER_OF_INSTRUMENTTRACKS _ _ (fun _ _ _ _ huv => differInLeds_doToggleTrackMuteArmLight huv)
    h1

/-- The loop over the step buttons of `doPatternOps` on two states that differ in the LEDs: it
assigns every step cell. -/
theorem differInLeds_doPatternOps_loop {a b : Nat} {s s2 : Sequencer}
    (h : s.differInLeds a b s2) (c c2 : Nat) (hc : c = c2) (n : Nat) :
    (forLoop n (Sequencer.doPatternOpsStep c) (s, false)).1.differInLeds a n
      (forLoop n (Sequencer.doPatternOpsStep c2) (s2, false)).1 ∧
    (forLoop n (Sequencer.doPatternOpsStep c) (s, false)).2
      = (forLoop n (Sequencer.doPatternOpsStep c2) (s2, false)).2 := by
  subst hc
  exact forLoop_rel (fun i (u v : Sequencer × Bool) => u.1.differInLeds a i v.1 ∧ u.2 = v.2)
    (Sequencer.doPatternOpsStep c) n (s, false) (s2, false)
    (fun i u v _ huv => by
      obtain ⟨x, p⟩ := u
      obtain ⟨x2, p2⟩ := v
      obtain ⟨h1, h2⟩ := huv
      have h3 : p = p2 := h2
      subst h3
      exact differInLeds_doPatternOpsStep c p h1)
    ⟨differInLeds_mono h (Nat.le_refl a) (Nat.zero_le b), rfl⟩

/-- The blinking cell of the next pattern in `doPatternOps`, on two states that differ in the
LEDs: the cell is read right after it was assigned. -/
theorem differInLeds_nextPatternLight {a b : Nat} {x x2 : Sequencer}
    (h : x.differInLeds a b x2) :
    Sequencer.differInLeds a b
      (if x.nextPatternIndex ≥ 0 then
        (x.setStepLED x.nextPatternIndex CRGB.Red).setStepLED
          (x.setStepLED x.nextPatternIndex CRGB.Red).nextPatternIndex
          (CRGB.nscale8
            ((x.setStepLED x.nextPatternIndex CRGB.Red).stepLED
              (x.setStepLED x.nextPatternIndex CRGB.Red).nextPatternIndex)
            (255 - (x.setStepLED x.nextPatternIndex CRGB.Red).ledFader))
      else x)
      (if x2.nextPatternIndex ≥ 0 then
        (x2.setStepLED x2.nextPatternIndex CRGB.Red).setStepLED
          (x2.setStepLED x2.nextPatternIndex CRGB.Red).nextPatternIndex
          (CRGB.nscale8
            ((x2.setStepLED x2.nextPatternIndex CRGB.Red).stepLED
              (x2.setStepLED x2.nextPatternIndex CRGB.Red).nextPatternIndex)
            (255 - (x2.setStepLED x2.nextPatternIndex CRGB.Red).ledFader))
      else x2) := by
  obtain ⟨f, t, st, rfl, hT, hST⟩ := (differInLeds_iff a b x _).1 h
  simp only [withLeds_nextPatternIndex, withLeds_ledFader]
  by_cases h0 : x.nextPatternIndex ≥ 0
  · have h1 : (0 : Int) ≤ x.nextPatternIndex := h0
    simp only [if_pos h0, Sequencer.setStepLED, Sequencer.stepLED, if_pos h1,
      Sequencer.withLeds]
    refine ⟨rfl, hT, ?_⟩
    simp only [sameCells_read hST]
    exact sameCells_set (sameCells_set hST _ _) _ _
  · simp only [if_neg h0]
    exact ⟨rfl, hT, hST⟩

/-- The reset of the copy source in `doPatternOps` when no step button is held, on two states
that differ in the LEDs. -/
theorem differInLeds_patternCopyReset {a b : Nat} {r r2 : Sequencer × Bool}
    (h : r.1.differInLeds a b r2.1 ∧ r.2 = r2.2) :
    Sequencer.differInLeds a b
      (if !r.2 then { r.1 with sourcePatternIndex := -1, patternCopy := false } else r.1)
      (if !r2.2 then { r2.1 with sourcePatternIndex := -1, patternCopy := false } else r2.1) := by
  obtain ⟨f, t, st, e, hT, hST⟩ := (differInLeds_iff a b r.1 _).1 h.1
  rw [← h.2, e]
  split_ifs <;> exact ⟨rfl, hT, hST⟩

theorem differInLeds_doPatternOps {a b : Nat} {s s2 : Sequencer}
    (h : s.differInLeds a b s2) :
    s.doPatternOps.differInLeds 6 16 s2.doPatternOps := by
  have h0 := differInLeds_functionLeds (differInLeds_mono h (Nat.zero_le a) (Nat.le_refl b))
    { s.functionLeds with BUTTON_SET_PATTERN := CRGB.CornflowerBlue }
    { s2.functionLeds with BUTTON_SET_PATTERN := CRGB.CornflowerBlue }
  have h1 := differInLeds_of_commute Sequencer.advanceLedFader withLeds_advanceLedFader
    0 b _ _ h0
  have h2 := forLoop_rel (fun i => Sequencer.differInLeds i b) Sequencer.doPatternOpsTrack
    NUMBER_OF_INSTRUMENTTRACKS _ _ (fun _ _ _ _ huv => differInLeds_doPatternOpsTrack huv) h1
  have hc := differInLeds_obs
    (fun x : Sequencer => (x.track x.selectedTrack).getCurrentPatternIndex)
    (fun _ _ _ _ => rfl) h2
  exact differInLeds_nextPatternLight (differInLeds_patternCopyReset
    (differInLeds_doPatternOps_loop h2 _ _ hc NUMBER_OF_STEPBUTTONS))

end LedFrame6


section LedFrame7

attribute [local irreducible] forLoop

/-- What `runHandlers` runs in each of the nine modes. -/
theorem runHandlers_modes (x : Sequencer) (m : Nat) :
    x.runHandlers FunctionMode.START_STOP m
      = (x.doStartStop m).doSetTrackSelection.doSetTriggers ∧
    x.runHandlers FunctionMode.LEAVE_TOGGLE_PLOCKS m
      = x.doTurnOffPlockMode.doSetTrackSelection.doSetTriggers ∧
    x.runHandlers FunctionMode.LEAVE_TOGGLE_MUTES m
      = x.doUpdateMutes.doSetTrackSelection.doSetTriggers ∧
    x.runHandlers FunctionMode.LEAVE_PATTERN_OPS m
      = x.doLeavePatternOps.doSetTrackSelection.doSetTriggers ∧
    x.runHandlers FunctionMode.DEFAULT_MODE m = x.doSetTrackSelection.doSetTriggers ∧
    x.runHandlers FunctionMode.TOGGLE_MUTES m = x.doToggleTrackMuteArm.doSetTriggers ∧
    x.runHandlers FunctionMode.PATTERN_OPS m = x.doPatternOps ∧
    x.runHandlers FunctionMode.SET_TRACK_LENGTH m = x.doSetTrackLength.doSetTrackSelection ∧
    x.runHandlers FunctionMode.TOGGLE_PLOCKS m = x.doSetTrackPLock.doSetTrackSelection :=
  ⟨rfl, rfl, rfl, rfl, rfl, rfl, rfl, rfl, rfl⟩

/-- The handlers of a tick assign every track cell and every step cell, in every mode: two
states that differ in the LEDs agree in the six track cells and the sixteen step cells after
them. -/
theorem differInLeds_runHandlers {a b : Nat} {s s2 : Sequencer} (h : s.differInLeds a b s2)
    (mode mode2 : FunctionMode) (hm : mode = mode2) (m : Nat) :
    (s.runHandlers mode m).differInLeds 6 16 (s2.runHandlers mode2 m) := by
  subst hm
  cases mode
  · rw [(runHandlers_modes s m).1, (runHandlers_modes s2 m).1]
    exact differInLeds_doSetTriggers (differInLeds_doSetTrackSelection
      (differInLeds_of_commute (fun x => x.doStartStop m)
        (fun x f t st => withLeds_doStartStop x f t st m) a b s s2 h))
  · rw [(runHandlers_modes s m).2.2.2.2.2.2.2.1, (runHandlers_modes s2 m).2.2.2.2.2.2.2.1]
    exact differInLeds_doSetTrackSelection (differInLeds_doSetTrackLength h)
  · rw [(runHandlers_modes s m).2.2.2.2.2.2.2.2, (runHandlers_modes s2 m).2.2.2.2.2.2.2.2]
    exact differInLeds_doSetTrackSelection (differInLeds_doSetTrackPLock h)
  · rw [(runHandlers_modes s m).2.1, (runHandlers_modes s2 m).2.1]
    exact differInLeds_doSetTriggers (differInLeds_doSetTrackSelection
      (differInLeds_of_commute Sequencer.doTurnOffPlockMode withLeds_doTurnOffPlockMode
        a b s s2 h))
  · rw [(runHandlers_modes s m).2.2.2.2.2.1, (runHandlers_modes s2 m).2.2.2.2.2.1]
    exact differInLeds_doSetTriggers (differInLeds_doToggleTrackMuteArm h)
  · rw [(runHandlers_modes s m).2.2.1, (runHandlers_modes s2 m).2.2.1]
    exact differInLeds_doSetTriggers (differInLeds_doSetTrackSelection
      (differInLeds_of_commute Sequencer.doUpdateMutes withLeds_doUpdateMutes a b s s2 h))
  · rw [(runHandlers_modes s m).2.2.2.2.2.2.1, (runHandlers_modes s2 m).2.2.2.2.2.2.1]
    exact differInLeds_doPatternOps h
  · rw [(runHandlers_modes s m).2.2.2.1, (runHandlers_modes s2 m).2.2.2.1]
    exact differInLeds_doSetTriggers (differInLeds_doSetTrackSelection
      (differInLeds_of_commute Sequencer.doLeavePatternOps withLeds_doLeavePatternOps
        a b s s2 h))
  · rw [(runHandlers_modes s m).2.2.2.2.1, (runHandlers_modes s2 m).2.2.2.2.1]
    exact differInLeds_doSetTriggers (differInLeds_doSetTrackSelection h)

theorem differInLeds_setFunctionButtonLights {a b : Nat} {s s2 : Sequencer}
    (h : s.differInLeds a b s2) :
    s.setFunctionButtonLights.differInLeds a b s2.setFunctionButtonLights := by
  obtain ⟨f, t, st, rfl, hT, hST⟩ := (differInLeds_iff a b s _).1 h
  simp only [Sequencer.setFunctionButtonLights, Sequencer.withLeds]
  split_ifs <;> exact ⟨rfl, hT, hST⟩

/-- The red cell at the cursor in `updateState`, on two states that differ in the LEDs. -/
theorem differInLeds_cursorLight {a b : Nat} {x x2 : Sequencer} (h : x.differInLeds a b x2) :
    Sequencer.differInLeds a b
      (if x.running then
        x.setStepLED (x.track x.selectedTrack).getCurrentPattern.currentStep CRGB.Red
      else x)
      (if x2.running then
        x2.setStepLED (x2.track x2.selectedTrack).getCurrentPattern.currentStep CRGB.Red
      else x2) := by
  have hc := differInLeds_obs
    (fun x : Sequencer => (x.running, (x.track x.selectedTrack).getCurrentPattern.currentStep))
    (fun _ _ _ _ => rfl) h
  simp only [Prod.mk.injEq] at hc
  rw [← hc.1, ← hc.2]
  split_ifs
  · exact differInLeds_setStepLED h _ _
  · exact h

theorem differInLeds_runClock {a b : Nat} {s s2 : Sequencer} (h : s.differInLeds a b s2)
    (millis poti1 poti2 : Nat) :
    (s.runClock millis poti1 poti2).differInLeds a b (s2.runClock millis poti1 poti2) :=
  differInLeds_cursorLight (differInLeds_of_commute
    (fun x : Sequencer =>
      if x.running then (x.stepIfDue millis).triggerIfPending poti1 poti2 else x)
    (fun x f t st => by
      simp only [withLeds_running, withLeds_stepIfDue, withLeds_triggerIfPending]
      split_ifs <;> rfl)
    a b s s2 h)

/-- The state before the handlers of a tick, on two states that differ in the LEDs. -/
theorem differInLeds_tickStart {a b : Nat} {s s2 : Sequencer} (h : s.differInLeds a b s2) :
    Sequencer.differInLeds a b
      ({ s with hasActivePLockReceivers := false } : Sequencer).selectParamSet
      ({ s2 with hasActivePLockReceivers := false } : Sequencer).selectParamSet :=
  differInLeds_of_commute
    (fun x : Sequencer => ({ x with hasActivePLockReceivers := false } : Sequencer).selectParamSet)
    (fun x f t st => withLeds_selectParamSet { x with hasActivePLockReceivers := false } f t st)
    a b s s2 h

/-- The handlers of a tick before the function-button lights, on two states that differ in the
LEDs: the mode of the two runs is the same, and every track and step cell is assigned. -/
theorem differInLeds_tickHandlers {a b : Nat} {s s2 : Sequencer} (h : s.differInLeds a b s2)
    (millis : Nat) :
    Sequencer.differInLeds 6 16
      (({ s with hasActivePLockReceivers := false } : Sequencer).selectParamSet.runHandlers
        ({ s with hasActivePLockReceivers := false } :
          Sequencer).selectParamSet.calculateFunctionMode millis)
      (({ s2 with hasActivePLockReceivers := false } : Sequencer).selectParamSet.runHandlers
        ({ s2 with hasActivePLockReceivers := false } :
          Sequencer).selectParamSet.calculateFunctionMode millis) :=
  differInLeds_runHandlers (differInLeds_tickStart h) _ _
    (differInLeds_obs Sequencer.calculateFunctionMode withLeds_calculateFunctionMode
      (differInLeds_tickStart h)) millis

theorem differInLeds_updateStateHandlers {a b : Nat} {s s2 : Sequencer}
    (h : s.differInLeds a b s2) (millis : Nat) :
    (s.updateStateHandlers millis).differInLeds 6 16 (s2.updateStateHandlers millis) :=
  differInLeds_setFunctionButtonLights (differInLeds_tickHandlers h millis)

theorem differInLeds_updateState {a b : Nat} {s s2 : Sequencer} (h : s.differInLeds a b s2)
    (millis poti1 poti2 : Nat) :
    (s.updateState millis poti1 poti2).differInLeds 6 16
      (s2.updateState millis poti1 poti2) :=
  differInLeds_runClock (differInLeds_updateStateHandlers h millis) millis poti1 poti2

end LedFrame7


section LedFrame8

attribute [local irreducible] forLoop

/-- A function that commutes with the replacement of the LED cells leaves the function cells
as they are. -/
theorem functionLeds_of_commute (g : Sequencer → Sequencer)
    (hg : ∀ s f t st, g (s.withLeds f t st) = (g s).withLeds f t st) (s : Sequencer) :
    (g s).functionLeds = s.functionLeds := by
  have e := hg s s.functionLeds s.trackLeds s.stepLeds
  rw [withLeds_self] at e
  rw [e]
  rfl

theorem functionLeds_setStepLED (s : Sequencer) (i : Int) (c : CRGB) :
    (s.setStepLED i c).functionLeds = s.functionLeds := by
  unfold Sequencer.setStepLED
  split <;> rfl

theorem functionLeds_doSetTrackSelection (s : Sequencer) :
    s.doSetTrackSelection.functionLeds = s.functionLeds :=
  forLoop_keeps Sequencer.functionLeds Sequencer.doSetTrackSelectionTrack _ s (fun i y => by
    simp only [Sequencer.doSetTrackSelectionTrack, Sequencer.setDefaultTrackLight,
      Sequencer.setTrackLED, Sequencer.deactivateSensors, apply_ite Sequencer.functionLeds,
      ite_self])

theorem functionLeds_doSetTriggers (s : Sequencer) :
    s.doSetTriggers.functionLeds = s.functionLeds := by
  have h := forLoop_keeps (fun acc : Sequencer × Bool => acc.1.functionLeds)
    Sequencer.doSetTriggersStep NUMBER_OF_STEPBUTTONS (s, false) (fun i acc => by
      simp only [Sequencer.doSetTriggersStep, Sequencer.setSelectedStep, Sequencer.setTrack,
        Sequencer.setStepLED, apply_ite Sequencer.functionLeds,
        apply_ite (Prod.fst : Sequencer × Bool → Sequencer), ite_self])
  unfold Sequencer.doSetTriggers
  simp only
  split_ifs
  · exact h
  · exact h

theorem functionLeds_doSetTrackLength (s : Sequencer) :
    s.doSetTrackLength.functionLeds = modeLeds FunctionMode.SET_TRACK_LENGTH s.functionLeds := by
  have h : ∀ x : Sequencer,
      (forLoop NUMBER_OF_STEPBUTTONS Sequencer.doSetTrackLengthStep x).functionLeds
        = x.functionLeds := fun x =>
    forLoop_keeps Sequencer.functionLeds _ _ x (fun i y => by
      simp only [Sequencer.doSetTrackLengthStep, Sequencer.setTrack, Sequencer.setStepLED,
        apply_ite Sequencer.functionLeds, ite_self])
  simp only [Sequencer.doSetTrackLength, Sequencer.setTrack, functionLeds_setStepLED,
    apply_ite Sequencer.functionLeds, ite_self, h]
  rfl

theorem functionLeds_doSetTrackPLock (s : Sequencer) :
    s.doSetTrackPLock.functionLeds = modeLeds FunctionMode.TOGGLE_PLOCKS s.functionLeds := by
  have h1 : ∀ x : Sequencer,
      (forLoop NUMBER_OF_INSTRUMENTTRACKS Sequencer.doSetTrackPLockTrack x).functionLeds
        = x.functionLeds := fun x =>
    forLoop_keeps Sequencer.functionLeds _ _ x (fun i y => by
      simp only [Sequencer.doSetTrackPLockTrack, Sequencer.setTrack,
        apply_ite Sequencer.functionLeds, ite_self])
  have h2 : ∀ x : Sequencer,
      (forLoop NUMBER_OF_STEPBUTTONS Sequencer.doSetTrackPLockStep x).functionLeds
        = x.functionLeds := fun x =>
    forLoop_keeps Sequencer.functionLeds _ _ x (fun i y => by
      simp only [Sequencer.doSetTrackPLockStep, Sequencer.setSelectedStep, Sequencer.setTrack,
        Sequencer.setStepLED, apply_ite Sequencer.functionLeds, ite_self])
  simp only [Sequencer.doSetTrackPLock, apply_ite Sequencer.functionLeds, ite_self, h2, h1]
  rfl

theorem functionLeds_advanceLedFader (s : Sequencer) :
    s.advanceLedFader.functionLeds = s.functionLeds :=
  functionLeds_of_commute Sequencer.advanceLedFader withLeds_advanceLedFader s

theorem functionLeds_doToggleTrackMuteArm (s : Sequencer) :
    s.doToggleTrackMuteArm.functionLeds = modeLeds FunctionMode.TOGGLE_MUTES s.functionLeds := by
  have h1 : ∀ x : Sequencer,
      (forLoop NUMBER_OF_INSTRUMENTTRACKS Sequencer.doToggleTrackMuteArmTrack x).functionLeds
        = x.functionLeds := fun x =>
    forLoop_keeps Sequencer.functionLeds _ _ x (fun i y => by
      simp only [Sequencer.doToggleTrackMuteArmTrack, Sequencer.setTrack,
        apply_ite Sequencer.functionLeds, ite_self])
  have h2 : ∀ x : Sequencer,
      (forLoop NUMBER_OF_INSTRUMENTTRACKS Sequencer.doToggleTrackMuteArmLight x).functionLeds
        = x.functionLeds := fun x =>
    forLoop_keeps Sequencer.functionLeds _ _ x (fun i y => by
      simp only [Sequencer.doToggleTrackMuteArmLight, Sequencer.setDefaultTrackLight,
        Sequencer.setTrackLED, apply_ite Sequencer.functionLeds, ite_self])
  simp only [Sequencer.doToggleTrackMuteArm, h2, functionLeds_advanceLedFader, h1]
  rfl

theorem functionLeds_doPatternOps (s : Sequencer) :
    s.doPatternOps.functionLeds = modeLeds FunctionMode.PATTERN_OPS s.functionLeds := by
  have h1 : ∀ x : Sequencer,
      (forLoop NUMBER_OF_INSTRUMENTTRACKS Sequencer.doPatternOpsTrack x).functionLeds
        = x.functionLeds := fun x =>
    forLoop_keeps Sequencer.functionLeds _ _ x (fun i y => by
      simp only [Sequencer.doPatternOpsTrack, Sequencer.setDefaultTrackLight,
        Sequencer.setTrackLED, Sequencer.setTrack, apply_ite Sequencer.functionLeds, ite_self])
  have h2 : ∀ (i : Nat) (x : Sequencer),
      (forLoop NUMBER_OF_INSTRUMENTTRACKS (Sequencer.doPatternOpsCopy i) x).functionLeds
        = x.functionLeds := fun i x =>
    forLoop_keeps Sequencer.functionLeds _ _ x (fun k y => by
      simp only [Sequencer.doPatternOpsCopy, Sequencer.setTrack, Sequencer.setStepLED,
        apply_ite Sequencer.functionLeds, ite_self])
  have h3 : ∀ (c : Nat) (x : Sequencer × Bool),
      (forLoop NUMBER_OF_STEPBUTTONS (Sequencer.doPatternOpsStep c) x).1.functionLeds
        = x.1.functionLeds := fun c x =>
    forLoop_keeps (fun acc : Sequencer × Bool => acc.1.functionLeds) _ _ x (fun i acc => by
      simp only [Sequencer.doPatternOpsStep, Sequencer.setStepLED,
        apply_ite Sequencer.functionLeds,
        apply_ite (Prod.fst : Sequencer × Bool → Sequencer), h2, ite_self])
  simp only [Sequencer.doPatternOps, functionLeds_setStepLED,
    apply_ite Sequencer.functionLeds, ite_self, h3, h1, functionLeds_advanceLedFader]
  rfl

end LedFrame8


section LedFrame9

attribute [local irreducible] forLoop

/-- The function cells after the handlers of a mode: the cell of the mode is assigned, the
others are as before. -/
theorem functionLeds_runHandlers (x : Sequencer) (mode : FunctionMode) (m : Nat) :
    (x.runHandlers mode m).functionLeds = modeLeds mode x.functionLeds := by
  cases mode
  · rw [(runHandlers_modes x m).1, functionLeds_doSetTriggers, functionLeds_doSetTrackSelection]
    exact functionLeds_of_commute (fun y => y.doStartStop m)
      (fun y f t st => withLeds_doStartStop y f t st m) x
  · rw [(runHandlers_modes x m).2.2.2.2.2.2.2.1, functionLeds_doSetTrackSelection,
      functionLeds_doSetTrackLength]
  · rw [(runHandlers_modes x m).2.2.2.2.2.2.2.2, functionLeds_doSetTrackSelection,
      functionLeds_doSetTrackPLock]
  · rw [(runHandlers_modes x m).2.1, functionLeds_doSetTriggers,
      functionLeds_doSetTrackSelection]
    exact functionLeds_of_commute Sequencer.doTurnOffPlockMode withLeds_doTurnOffPlockMode x
  · rw [(runHandlers_modes x m).2.2.2.2.2.1, functionLeds_doSetTriggers,
      functionLeds_doToggleTrackMuteArm]
  · rw [(runHandlers_modes x m).2.2.1, functionLeds_doSetTriggers,
      functionLeds_doSetTrackSelection]
    exact functionLeds_of_commute Sequencer.doUpdateMutes withLeds_doUpdateMutes x
  · rw [(runHandlers_modes x m).2.2.2.2.2.2.1, functionLeds_doPatternOps]
  · rw [(runHandlers_modes x m).2.2.2.1, functionLeds_doSetTriggers,
      functionLeds_doSetTrackSelection]
    exact functionLeds_of_commute Sequencer.doLeavePatternOps withLeds_doLeavePatternOps x
  · rw [(runHandlers_modes x m).2.2.2.2.1, functionLeds_doSetTriggers,
      functionLeds_doSetTrackSelection]
    rfl

/-- The function cells that the handlers of a tick hand to `setFunctionButtonLights`. -/
theorem functionLeds_afterHandlers (s : Sequencer) (millis : Nat) :
    (s.afterHandlers millis).functionLeds = modeLeds s.calculateFunctionMode s.functionLeds := by
  have e0 : ({ s with hasActivePLockReceivers := false } :
      Sequencer).selectParamSet.latchView = s.latchView := latchView_selectParamSet _
  have hm0 := calculateFunctionMode_latchView e0
  have hf : ({ s with hasActivePLockReceivers := false } :
      Sequencer).selectParamSet.functionLeds = s.functionLeds :=
    functionLeds_of_commute Sequencer.selectParamSet withLeds_selectParamSet _
  unfold Sequencer.afterHandlers
  rw [functionLeds_runHandlers, hm0, hf]

/-- The function cells after `setFunctionButtonLights`. -/
theorem functionLeds_setFunctionButtonLights (y : Sequencer) :
    y.setFunctionButtonLights.functionLeds
      = { y.functionLeds with
          BUTTON_STARTSTOP := if y.running then CRGB.Green else CRGB.Black
          BUTTON_TOGGLE_PLOCK :=
            if y.plockLightDue then CRGB.DarkOrange else y.functionLeds.BUTTON_TOGGLE_PLOCK
          BUTTON_SET_PARAMSET_1 :=
            if y.pLockParamSet = PLockParamSet.SET1 then CRGB.Green else CRGB.CornflowerBlue
          BUTTON_SET_PARAMSET_2 :=
            if y.pLockParamSet = PLockParamSet.SET2 then CRGB.Green else CRGB.CornflowerBlue
          BUTTON_SET_PARAMSET_3 :=
            if y.pLockParamSet = PLockParamSet.SET3 then CRGB.Green else CRGB.CornflowerBlue }
      := by
  unfold Sequencer.setFunctionButtonLights Sequencer.plockLightDue
  simp only
  split_ifs <;> rfl

/-- The function cells at the end of a tick. -/
theorem functionLeds_updateState (s : Sequencer) (millis poti1 poti2 : Nat) :
    (s.updateState millis poti1 poti2).functionLeds
      = { modeLeds s.calculateFunctionMode s.functionLeds with
          BUTTON_STARTSTOP := if (s.afterHandlers millis).running then CRGB.Green else CRGB.Black
          BUTTON_TOGGLE_PLOCK :=
            if (s.afterHandlers millis).plockLightDue then CRGB.DarkOrange
            else (modeLeds s.calculateFunctionMode s.functionLeds).BUTTON_TOGGLE_PLOCK
          BUTTON_SET_PARAMSET_1 :=
            if (s.afterHandlers millis).pLockParamSet = PLockParamSet.SET1 then CRGB.Green
            else CRGB.CornflowerBlue
          BUTTON_SET_PARAMSET_2 :=
            if (s.afterHandlers millis).pLockParamSet = PLockParamSet.SET2 then CRGB.Green
            else CRGB.CornflowerBlue
          BUTTON_SET_PARAMSET_3 :=
            if (s.afterHandlers millis).pLockParamSet = PLockParamSet.SET3 then CRGB.Green
            else CRGB.CornflowerBlue } := by
  have eu : s.updateState millis poti1 poti2
      = ((s.afterHandlers millis).setFunctionButtonLights).runClock millis poti1 poti2 := rfl
  rw [eu, functionLeds_runClock, functionLeds_setFunctionButtonLights,
    functionLeds_afterHandlers]

/-- The state that the handlers hand to `setFunctionButtonLights`, on a state and on the same
state with other LED contents. -/
theorem differInLeds_afterHandlers (s : Sequencer) (f : FunctionLeds) (t st : List CRGB)
    (millis : Nat) (ht : t.length = s.trackLeds.length) (hst : st.length = s.stepLeds.length) :
    (s.afterHandlers millis).differInLeds 6 16 ((s.withLeds f t st).afterHandlers millis) :=
  differInLeds_tickHandlers
    (⟨rfl, ⟨ht.symm, fun _ hk => absurd hk (Nat.not_lt_zero _)⟩,
      ⟨hst.symm, fun _ hk => absurd hk (Nat.not_lt_zero _)⟩⟩ :
      s.differInLeds 0 0 (s.withLeds f t st)) millis

end LedFrame9


section LedFrame10

attribute [local irreducible] forLoop

/-- C25, amended: two runs of `updateState` from states that differ only in the contents of
the LED array (a state `s`, and `s` with its function, track and step cells replaced by `f`,
`t`, `st` of the same lengths), with the same inputs. The two results again differ only in the
LED array, and there they have the same colour in each of the six track cells, in each of the
sixteen step cells, and in the function cells STARTSTOP and SET_PARAMSET_1..3: these cells are
assigned in every tick and every mode. The other four function cells are not: TOGGLE_MUTE,
SET_TRACKLENGTH and SET_PATTERN are assigned only by the handler of their own mode and keep
their former colour otherwise; TOGGLE_PLOCK is assigned DarkOrange when the condition of
`setFunctionButtonLights` holds (the same in both runs) or the mode is TOGGLE_PLOCKS, and keeps
its former colour otherwise. -/
theorem led_frame_assigned (s : Sequencer) (f : FunctionLeds) (t st : List CRGB)
    (millis poti1 poti2 : Nat) (ht : t.length = s.trackLeds.length)
    (hst : st.length = s.stepLeds.length) :
    ∀ r r2, r = s.updateState millis poti1 poti2 →
      r2 = (s.withLeds f t st).updateState millis poti1 poti2 →
      r2 = r.withLeds r2.functionLeds r2.trackLeds r2.stepLeds ∧
      r2.trackLeds.length = r.trackLeds.length ∧
      (∀ k, k < 6 → r2.trackLeds.getD k default = r.trackLeds.getD k default) ∧
      r2.stepLeds.length = r.stepLeds.length ∧
      (∀ k, k < 16 → r2.stepLeds.getD k default = r.stepLeds.getD k default) ∧
      r2.functionLeds.BUTTON_STARTSTOP = r.functionLeds.BUTTON_STARTSTOP ∧
      r2.functionLeds.BUTTON_SET_PARAMSET_1 = r.functionLeds.BUTTON_SET_PARAMSET_1 ∧
      r2.functionLeds.BUTTON_SET_PARAMSET_2 = r.functionLeds.BUTTON_SET_PARAMSET_2 ∧
      r2.functionLeds.BUTTON_SET_PARAMSET_3 = r.functionLeds.BUTTON_SET_PARAMSET_3 ∧
      r.functionLeds.BUTTON_TOGGLE_MUTE
        = (modeLeds s.calculateFunctionMode s.functionLeds).BUTTON_TOGGLE_MUTE ∧
      r2.functionLeds.BUTTON_TOGGLE_MUTE
        = (modeLeds s.calculateFunctionMode f).BUTTON_TOGGLE_MUTE ∧
      r.functionLeds.BUTTON_SET_TRACKLENGTH
        = (modeLeds s.calculateFunctionMode s.functionLeds).BUTTON_SET_TRACKLENGTH ∧
      r2.functionLeds.BUTTON_SET_TRACKLENGTH
        = (modeLeds s.calculateFunctionMode f).BUTTON_SET_TRACKLENGTH ∧
      r.functionLeds.BUTTON_SET_PATTERN
        = (modeLeds s.calculateFunctionMode s.functionLeds).BUTTON_SET_PATTERN ∧
      r2.functionLeds.BUTTON_SET_PATTERN
        = (modeLeds s.calculateFunctionMode f).BUTTON_SET_PATTERN ∧
      r.functionLeds.BUTTON_TOGGLE_PLOCK
        = (if (s.afterHandlers millis).plockLightDue then CRGB.DarkOrange
           else (modeLeds s.calculateFunctionMode s.functionLeds).BUTTON_TOGGLE_PLOCK) ∧
      r2.functionLeds.BUTTON_TOGGLE_PLOCK
        = (if (s.afterHandlers millis).plockLightDue then CRGB.DarkOrange
           else (modeLeds s.calculateFunctionMode f).BUTTON_TOGGLE_PLOCK) := by
  intro r r2 hr hr2
  have h0 : s.differInLeds 0 0 (s.withLeds f t st) :=
    ⟨rfl, ⟨ht.symm, fun _ hk => absurd hk (Nat.not_lt_zero _)⟩,
      ⟨hst.symm, fun _ hk => absurd hk (Nat.not_lt_zero _)⟩⟩
  have hu := differInLeds_updateState h0 millis poti1 poti2
  have ha := differInLeds_afterHandlers s f t st millis ht hst
  have hobs := differInLeds_obs
    (fun x : Sequencer => (x.running, x.plockLightDue, x.pLockParamSet))
    (fun _ _ _ _ => rfl) ha
  simp only [Prod.mk.injEq] at hobs
  obtain ⟨o1, o2, o3⟩ := hobs
  have e1 := functionLeds_updateState s millis poti1 poti2
  have e2 := functionLeds_updateState (s.withLeds f t st) millis poti1 poti2
  rw [withLeds_calculateFunctionMode, withLeds_functionLeds, ← o1, ← o2, ← o3] at e2
  rw [← hr] at hu e1
  rw [← hr2] at hu e2
  obtain ⟨u1, u2, u3⟩ := hu
  refine ⟨u1, u2.1.symm, fun k hk => (u2.2 k hk).symm, u3.1.symm,
    fun k hk => (u3.2 k hk).symm, ?_, ?_, ?_, ?_, ?_, ?_, ?_, ?_, ?_, ?_, ?_, ?_⟩
  all_goals first
    | rw [e2, e1]
    | rw [e1]
    | rw [e2]

/-- C25, witness: the power-on state and the same state with the LED of TOGGLE_MUTE lit. -/
theorem led_frame_assigned_witness :
    (List.replicate 6 CRGB.Black).length = ({} : Sequencer).trackLeds.length ∧
    (List.replicate 16 CRGB.Black).length = ({} : Sequencer).stepLeds.length ∧
    ∀ k, k < 16 →
      (muteLedLit.updateState 0 0 0).stepLeds.getD k default
        = (({} : Sequencer).updateState 0 0 0).stepLeds.getD k default :=
  ⟨rfl, rfl,
    (led_frame_assigned {} { BUTTON_TOGGLE_MUTE := CRGB.CornflowerBlue }
      (List.replicate 6 CRGB.Black) (List.replicate 16 CRGB.Black) 0 0 0 rfl rfl
      _ _ rfl rfl).2.2.2.2.1⟩

end LedFrame10

/-! ## The mute gesture, tick by tick -/

theorem sameMute_refl (l : List SequencerTrack) : sameMute l l := ⟨rfl, sameTracks_refl _ l⟩

theorem sameMute_trans {a b c : List SequencerTrack} (h1 : sameMute a b) (h2 : sameMute b c) :
    sameMute a c := ⟨h1.1.trans h2.1, sameTracks_trans h1.2 h2.2⟩

theorem sameMute_of_eq {a b : List SequencerTrack} (h : a = b) : sameMute a b :=
  h ▸ sameMute_refl a

theorem sameMute_set (l : List SequencerTrack) (j : Nat) (u : SequencerTrack)
    (h : u.muteView = (l.getD j default).muteView) : sameMute (l.set j u) l :=
  ⟨List.length_set _ _ _, sameTracks_set _ l j u h⟩

/-- What `sameMute` says of track `i`. -/
theorem sameMute_track {x y : Sequencer} (h : sameMute x.tracks y.tracks) (i : Nat) :
    (x.track i).muted = (y.track i).muted ∧ (x.track i).muteArmed = (y.track i).muteArmed :=
  ⟨congrArg Prod.fst (h.2 i), congrArg Prod.snd (h.2 i)⟩

section MuteTicks

attribute [local irreducible] forLoop

theorem forLoop_sameMute (body : Nat → Sequencer → Sequencer) (n : Nat)
    (hb : ∀ i y, sameMute (body i y).tracks y.tracks) (x : Sequencer) :
    sameMute (forLoop n body x).tracks x.tracks :=
  forLoop_inv (fun y => sameMute y.tracks x.tracks) body n x
    (fun i y _ hy => sameMute_trans (hb i y) hy) (sameMute_refl _)

theorem sameMute_setSelectedStep (s : Sequencer) (i : Nat) (st : SequencerStep) :
    sameMute (s.setSelectedStep i st).tracks s.tracks :=
  sameMute_set _ _ _ rfl

theorem sameMute_setStepLED (s : Sequencer) (i : Int) (c : CRGB) :
    sameMute (s.setStepLED i c).tracks s.tracks :=
  sameMute_of_eq (tracks_setStepLED s i c)

/-- One pass of the loop of `doSetTriggers` leaves the muted flags and the mute arms alone. -/
theorem sameMute_doSetTriggersStep (i : Nat) (acc : Sequencer × Bool) :
    sameMute (Sequencer.doSetTriggersStep i acc).1.tracks acc.1.tracks := by
  unfold Sequencer.doSetTriggersStep
  simp only
  refine sameMute_trans (sameMute_setStepLED _ _ _) ?_
  split_ifs <;>
    first
    | exact sameMute_refl _
    | exact sameMute_setSelectedStep _ _ _
    | exact sameMute_trans (sameMute_setSelectedStep _ _ _) (sameMute_setSelectedStep _ _ _)

/-- `doSetTriggers` leaves the muted flags and the mute arms alone. -/
theorem sameMute_doSetTriggers (s : Sequencer) : sameMute s.doSetTriggers.tracks s.tracks := by
  have h := forLoop_inv (fun (acc : Sequencer × Bool) => sameMute acc.1.tracks s.tracks)
    Sequencer.doSetTriggersStep NUMBER_OF_STEPBUTTONS (s, false)
    (fun i y _ hy => sameMute_trans (sameMute_doSetTriggersStep i y) hy) (sameMute_refl _)
  unfold Sequencer.doSetTriggers
  simp only
  split_ifs
  · exact h
  · exact h

/-- `doTriggerSounds` leaves the muted flags and the mute arms alone. -/
theorem sameMute_doTriggerSounds (s : Sequencer) (poti1 poti2 : Nat) :
    sameMute (s.doTriggerSounds poti1 poti2).tracks s.tracks := by
  unfold Sequencer.doTriggerSounds
  exact forLoop_sameMute Sequencer.doTriggerSoundsTrack NUMBER_OF_INSTRUMENTTRACKS
    (fun i y => by
      unfold Sequencer.doTriggerSoundsTrack
      simp only
      split_ifs <;>
        first
        | exact sameMute_refl _
        | exact sameMute_set _ _ _ rfl) _

/-- The muted flag and the mute arm of a track across its `doStep`: the arm is applied at a
wrap, so the flag and the arm change together or not at all, and a track that is not armed
keeps both. -/
theorem track_doStep_mute (t : SequencerTrack) :
    (t.doStep.muted != t.doStep.muteArmed) = (t.muted != t.muteArmed) ∧
    (t.muteArmed = false → t.doStep.muteView = t.muteView) := by
  unfold SequencerTrack.doStep SequencerTrack.activateMuteArms SequencerTrack.setCurrentPattern
    SequencerTrack.muteView
  simp only
  split_ifs <;> simp_all

/-- The muted flag and the mute arm of a track across `activateMuteArms`. -/
theorem track_activateMuteArms_mute (t : SequencerTrack) :
    (t.activateMuteArms.muted != t.activateMuteArms.muteArmed) = (t.muted != t.muteArmed) ∧
    t.activateMuteArms.muteArmed = false := by
  unfold SequencerTrack.activateMuteArms
  split_ifs with h
  · simp [h]
  · simp at h
    simp [h]

/-- The muted flags and the mute arms across `Sequencer::doStep`. -/
theorem doStep_mute (s : Sequencer) :
    s.doStep.tracks.length = s.tracks.length ∧
    ∀ i, ((s.doStep.track i).muted != (s.doStep.track i).muteArmed)
        = ((s.track i).muted != (s.track i).muteArmed) ∧
      ((s.track i).muteArmed = false → (s.doStep.track i).muteView = (s.track i).muteView) := by
  obtain ⟨-, -, h3, -⟩ := forLoop_setTrack Sequencer.doStepTrack
    (fun _ t => t.doStep) (fun _ => True) (fun _ _ _ => trivial)
    (fun _ _ _ => rfl) 6 { s with log := s.log ++ [Call.doStep] } trivial
  refine ⟨h3, fun i => ?_⟩
  rw [doStep_track]
  split_ifs
  · exact track_doStep_mute _
  · exact ⟨rfl, fun _ => rfl⟩

/-- The muted flags and the mute arms across the clock phase of a tick: the flag and the arm of
a track change together or not at all, and a track that is not armed keeps both. -/
theorem runClock_mute (s : Sequencer) (millis poti1 poti2 : Nat) :
    (s.runClock millis poti1 poti2).tracks.length = s.tracks.length ∧
    ∀ i, (((s.runClock millis poti1 poti2).track i).muted
          != ((s.runClock millis poti1 poti2).track i).muteArmed)
        = ((s.track i).muted != (s.track i).muteArmed) ∧
      ((s.track i).muteArmed = false →
        ((s.runClock millis poti1 poti2).track i).muteView = (s.track i).muteView) := by
  have hdue : (s.stepIfDue millis).tracks.length = s.tracks.length ∧
      ∀ i, (((s.stepIfDue millis).track i).muted != ((s.stepIfDue millis).track i).muteArmed)
          = ((s.track i).muted != (s.track i).muteArmed) ∧
        ((s.track i).muteArmed = false →
          ((s.stepIfDue millis).track i).muteView = (s.track i).muteView) := by
    have e : ∀ i, (s.shouldStep millis).2.track i = s.track i :=
      fun i => track_congr (shouldStep_tracks s millis) i
    unfold Sequencer.stepIfDue
    simp only
    split_ifs
    · obtain ⟨a, b⟩ := doStep_mute (s.shouldStep millis).2
      rw [shouldStep_tracks] at a
      refine ⟨a, fun i => ?_⟩
      have := b i
      rw [e i] at this
      exact this
    · rw [shouldStep_tracks]
      exact ⟨rfl, fun i => by rw [e i]; exact ⟨rfl, fun _ => rfl⟩⟩
  have hsound : sameMute ((s.stepIfDue millis).triggerIfPending poti1 poti2).tracks
      (s.stepIfDue millis).tracks := by
    unfold Sequencer.triggerIfPending
    split_ifs
    · exact sameMute_doTriggerSounds _ _ _
    · exact sameMute_refl _
  have hall : sameMute (s.runClock millis poti1 poti2).tracks s.tracks ∨
      sameMute (s.runClock millis poti1 poti2).tracks (s.stepIfDue millis).tracks := by
    unfold Sequencer.runClock
    simp only
    by_cases hr : s.running = true
    · rw [if_pos hr]
      right
      split_ifs
      · exact sameMute_trans (sameMute_setStepLED _ _ _) hsound
      · exact hsound
    · rw [if_neg hr, if_neg hr]
      exact Or.inl (sameMute_refl _)
  rcases hall with h | h
  · refine ⟨h.1, fun i => ?_⟩
    obtain ⟨a, b⟩ := sameMute_track h i
    exact ⟨by rw [a, b], fun _ => h.2 i⟩
  · refine ⟨h.1.trans hdue.1, fun i => ?_⟩
    obtain ⟨a, b⟩ := sameMute_track h i
    exact ⟨by rw [a, b]; exact (hdue.2 i).1, fun hu => (h.2 i).trans ((hdue.2 i).2 hu)⟩

theorem calculateFunctionMode_muteHeld (s : Sequencer)
    (h1 : s.functionButtons.BUTTON_STARTSTOP.rose = false)
    (h2 : s.functionButtons.BUTTON_TOGGLE_PLOCK.read = false)
    (h3 : s.functionButtons.BUTTON_TOGGLE_PLOCK.fell = false)
    (h4 : s.functionButtons.BUTTON_TOGGLE_MUTE.read = true) :
    s.calculateFunctionMode = FunctionMode.TOGGLE_MUTES := by
  unfold Sequencer.calculateFunctionMode
  rw [h1, h2, h3, h4]
  rfl

theorem calculateFunctionMode_muteReleased (s : Sequencer)
    (h1 : s.functionButtons.BUTTON_STARTSTOP.rose = false)
    (h2 : s.functionButtons.BUTTON_TOGGLE_PLOCK.read = false)
    (h3 : s.functionButtons.BUTTON_TOGGLE_PLOCK.fell = false)
    (h4 : s.functionButtons.BUTTON_TOGGLE_MUTE.read = false)
    (h5 : s.functionButtons.BUTTON_TOGGLE_MUTE.fell = true) :
    s.calculateFunctionMode = FunctionMode.LEAVE_TOGGLE_MUTES := by
  unfold Sequencer.calculateFunctionMode
  rw [h1, h2, h3, h4, h5]
  rfl

/-- The handlers of a tick in which TOGGLE_MUTE is held: the mode is TOGGLE_MUTES, the mute arm
of each of the six tracks is toggled when its button fell, and the muted flags stay. -/
theorem muteHeld_handlers (s : Sequencer) (scan : Scan) (h : scan.muteHeld)
    (hlen : s.tracks.length = 6) :
    (s.refreshButtons scan).calculateFunctionMode = FunctionMode.TOGGLE_MUTES ∧
    ((s.refreshButtons scan).updateStateHandlers scan.millis).tracks.length = 6 ∧
    ((s.refreshButtons scan).updateStateHandlers scan.millis).running = s.running ∧
    ∀ i, i < 6 →
      (((s.refreshButtons scan).updateStateHandlers scan.millis).track i).muted
        = (s.track i).muted ∧
      (((s.refreshButtons scan).updateStateHandlers scan.millis).track i).muteArmed
        = ((s.track i).muteArmed != (scan.trackButtons.getD i default).fell) := by
  obtain ⟨hread, hstart, hpr, hpf⟩ := h
  have hm0 : (s.refreshButtons scan).calculateFunctionMode = FunctionMode.TOGGLE_MUTES :=
    calculateFunctionMode_muteHeld _ hstart hpr hpf hread
  have hrun : ((s.refreshButtons scan).updateStateHandlers scan.millis).running = s.running :=
    congrArg (fun v => v.1.1) (clockView_updateStateHandlers (s.refreshButtons scan) scan.millis
      hstart)
  have e0 : ({ s.refreshButtons scan with hasActivePLockReceivers := false } :
      Sequencer).selectParamSet.latchView = (s.refreshButtons scan).latchView :=
    latchView_selectParamSet _
  have t0 : ({ s.refreshButtons scan with hasActivePLockReceivers := false } :
      Sequencer).selectParamSet.tracks = s.tracks := selectParamSet_tracks _
  generalize hx : ({ s.refreshButtons scan with hasActivePLockReceivers := false } :
      Sequencer).selectParamSet = x at e0 t0
  have hm : x.calculateFunctionMode = FunctionMode.TOGGLE_MUTES :=
    (calculateFunctionMode_latchView e0).trans hm0
  have e1 : (s.refreshButtons scan).updateStateHandlers scan.millis
      = (x.runHandlers x.calculateFunctionMode scan.millis).setFunctionButtonLights := by
    rw [← hx]
    rfl
  have e2 : x.runHandlers FunctionMode.TOGGLE_MUTES scan.millis
      = x.doToggleTrackMuteArm.doSetTriggers := rfl
  have htb : x.trackButtons = scan.trackButtons := by
    simp only [Sequencer.latchView, Prod.mk.injEq] at e0
    exact e0.2.1
  obtain ⟨a1, a2⟩ := doToggleTrackMuteArm_track x
  have hs := sameMute_trans
    (sameMute_of_eq (setFunctionButtonLights_rest x.doToggleTrackMuteArm.doSetTriggers).1)
    (sameMute_doSetTriggers x.doToggleTrackMuteArm)
  rw [e1, hm, e2] at hrun ⊢
  refine ⟨hm0, by rw [hs.1, a1, t0, hlen], hrun, fun i hi => ?_⟩
  obtain ⟨b1, b2⟩ := sameMute_track hs i
  have e3 : x.track i = s.track i := track_congr t0 i
  have e4 : x.trackButton i = scan.trackButtons.getD i default := by
    unfold Sequencer.trackButton
    rw [htb]
  rw [b1, b2, a2 i, if_pos ⟨hi, by rw [t0, hlen]; exact hi⟩, e3, e4]
  cases (scan.trackButtons.getD i default).fell
  · simp
  · simp [SequencerTrack.toggleMuteArm]

/-- The handlers of the tick in which TOGGLE_MUTE is released: the mode is LEAVE_TOGGLE_MUTES,
and each of the six tracks goes through `activateMuteArms` as far as its muted flag and its
mute arm are concerned. -/
theorem muteReleased_handlers (s : Sequencer) (scan : Scan) (h : scan.muteReleased)
    (hlen : s.tracks.length = 6) :
    (s.refreshButtons scan).calculateFunctionMode = FunctionMode.LEAVE_TOGGLE_MUTES ∧
    ((s.refreshButtons scan).updateStateHandlers scan.millis).tracks.length = 6 ∧
    ∀ i, i < 6 →
      (((s.refreshButtons scan).updateStateHandlers scan.millis).track i).muteView
        = (s.track i).activateMuteArms.muteView := by
  obtain ⟨hfell, hread, hstart, hpr, hpf⟩ := h
  have hm0 : (s.refreshButtons scan).calculateFunctionMode = FunctionMode.LEAVE_TOGGLE_MUTES :=
    calculateFunctionMode_muteReleased _ hstart hpr hpf hread hfell
  have e0 : ({ s.refreshButtons scan with hasActivePLockReceivers := false } :
      Sequencer).selectParamSet.latchView = (s.refreshButtons scan).latchView :=
    latchView_selectParamSet _
  have t0 : ({ s.refreshButtons scan with hasActivePLockReceivers := false } :
      Sequencer).selectParamSet.tracks = s.tracks := selectParamSet_tracks _
  generalize hx : ({ s.refreshButtons scan with hasActivePLockReceivers := false } :
      Sequencer).selectParamSet = x at e0 t0
  have hm : x.calculateFunctionMode = FunctionMode.LEAVE_TOGGLE_MUTES :=
    (calculateFunctionMode_latchView e0).trans hm0
  have e1 : (s.refreshButtons scan).updateStateHandlers scan.millis
      = (x.runHandlers x.calculateFunctionMode scan.millis).setFunctionButtonLights := by
    rw [← hx]
    rfl
  have e2 : x.runHandlers FunctionMode.LEAVE_TOGGLE_MUTES scan.millis
      = x.doUpdateMutes.doSetTrackSelection.doSetTriggers := rfl
  obtain ⟨a1, a2⟩ := doUpdateMutes_track x
  have hs := sameMute_trans
    (sameMute_of_eq
      (setFunctionButtonLights_rest x.doUpdateMutes.doSetTrackSelection.doSetTriggers).1)
    (sameMute_trans (sameMute_doSetTriggers x.doUpdateMutes.doSetTrackSelection)
      (sameMute_of_eq (doSetTrackSelection_tracks x.doUpdateMutes).1))
  rw [e1, hm, e2]
  refine ⟨hm0, by rw [hs.1, a1, t0, hlen], fun i hi => ?_⟩
  have e3 : x.track i = s.track i := track_congr t0 i
  show (_ : SequencerTrack).muteView = _
  exact (hs.2 i).trans (by
    show (x.doUpdateMutes.track i).muteView = _
    rw [a2 i, if_pos ⟨hi, by rw [t0, hlen]; exact hi⟩, e3])

/-- One tick with TOGGLE_MUTE held: a tap toggles the arm of its track, the clock phase applies
a pending arm at a wrap, and so the combination "muted differs from armed" of a track changes
exactly when its button fell; with the sequencer stopped the muted flag stays. -/
theorem muteHeld_tick (s : Sequencer) (scan : Scan) (h : scan.muteHeld)
    (hlen : s.tracks.length = 6) :
    (s.handle (Event.tick scan)).tracks.length = 6 ∧
    (s.running = false → (s.handle (Event.tick scan)).running = false) ∧
    ∀ i, i < 6 →
      (((s.handle (Event.tick scan)).track i).muted
          != ((s.handle (Event.tick scan)).track i).muteArmed)
        = (((s.track i).muted != (s.track i).muteArmed)
            != (scan.trackButtons.getD i default).fell) ∧
      (s.running = false → ((s.handle (Event.tick scan)).track i).muted = (s.track i).muted) := by
  obtain ⟨-, h1, h2, h3⟩ := muteHeld_handlers s scan h hlen
  have e : s.handle (Event.tick scan)
      = ((s.refreshButtons scan).updateStateHandlers scan.millis).runClock scan.millis
          scan.poti1 scan.poti2 := rfl
  obtain ⟨c1, c2⟩ := runClock_mute ((s.refreshButtons scan).updateStateHandlers scan.millis)
    scan.millis scan.poti1 scan.poti2
  rw [e]
  refine ⟨c1.trans h1, fun hr => ?_, fun i hi => ⟨?_, fun hr => ?_⟩⟩
  · rw [runClock_stopped _ _ _ _ (h2.trans hr)]
    exact h2.trans hr
  · rw [(c2 i).1, (h3 i hi).1, (h3 i hi).2]
    cases (s.track i).muted <;> cases (s.track i).muteArmed <;>
      cases (scan.trackButtons.getD i default).fell <;> rfl
  · rw [runClock_stopped _ _ _ _ (h2.trans hr)]
    exact (h3 i hi).1

/-- The ticks of a hold of TOGGLE_MUTE: the combination "muted differs from armed" of a track
has changed exactly when the track was tapped an odd number of times; with the sequencer stopped
the muted flags stay. -/
theorem muteHeld_run (holds : List Scan) :
    ∀ (s : Sequencer), (∀ scan, scan ∈ holds → scan.muteHeld) → s.tracks.length = 6 →
      (s.run (holds.map Event.tick)).tracks.length = 6 ∧
      (s.running = false → (s.run (holds.map Event.tick)).running = false) ∧
      ∀ i, i < 6 →
        (((s.run (holds.map Event.tick)).track i).muted
            != ((s.run (holds.map Event.tick)).track i).muteArmed)
          = (((s.track i).muted != (s.track i).muteArmed)
              != decide (tapCount (holds.map Scan.trackButtons) i % 2 = 1)) ∧
        (s.running = false →
          ((s.run (holds.map Event.tick)).track i).muted = (s.track i).muted) := by
  induction holds with
  | nil =>
    intro s _ hlen
    refine ⟨hlen, fun hr => hr, fun i _ => ⟨?_, fun _ => rfl⟩⟩
    show ((s.track i).muted != (s.track i).muteArmed) = _
    simp [tapCount]
  | cons scan rest ih =>
    intro s hh hlen
    obtain ⟨a1, a2, a3⟩ := muteHeld_tick s scan (hh scan (List.mem_cons_self _ _)) hlen
    obtain ⟨b1, b2, b3⟩ := ih (s.handle (Event.tick scan))
      (fun x hx => hh x (List.mem_cons_of_mem _ hx)) a1
    have e : s.run ((scan :: rest).map Event.tick)
        = (s.handle (Event.tick scan)).run (rest.map Event.tick) := rfl
    rw [e]
    refine ⟨b1, fun hr => b2 (a2 hr), fun i hi => ⟨?_, fun hr => ?_⟩⟩
    · rw [(b3 i hi).1, (a3 i hi).1, List.map_cons, tapCount_cons]
      cases hf : (scan.trackButtons.getD i default).fell
      · simp
      · rcases Nat.mod_two_eq_zero_or_one (tapCount (rest.map Scan.trackButtons) i) with h0 | h1
        · have : (tapCount (rest.map Scan.trackButtons) i + 1) % 2 = 1 := by omega
          simp [h0, this]
        · have : (tapCount (rest.map Scan.trackButtons) i + 1) % 2 = 0 := by omega
          simp [h1, this]
    · rw [(b3 i hi).2 (a2 hr), (a3 i hi).2 hr]

end MuteTicks

/-- C18, amended: the mute gesture, tick by tick. No track is armed; TOGGLE_MUTE is held through
the scans `holds` and released in the scan `release`, START/STOP does not rise and TOGGLE_PLOCK
is not touched. After every tick of the hold, the muted flag of each of the six tracks differs
from the arm of that track exactly when the flag before the hold differs from "tapped an odd
number of times so far": a flag changes during the hold only together with its arm, which is
when the clock phase applies the arm at a wrap of the pattern. With the sequencer stopped no
muted flag changes during the hold. After the release tick the muted flag of a track is flipped
if and only if the track was tapped an odd number of times during the hold, and no track is
armed. -/
theorem mute_hold_and_release (s : Sequencer) (holds : List Scan) (release : Scan)
    (hlen : s.tracks.length = 6) (harm : ∀ i, (s.track i).isArmed = false)
    (hholds : ∀ scan, scan ∈ holds → scan.muteHeld) (hrel : release.muteReleased) :
    (∀ n i, i < 6 →
      (((s.run ((holds.take n).map Event.tick)).track i).isMuted
          != ((s.run ((holds.take n).map Event.tick)).track i).isArmed)
        = ((s.track i).isMuted
            != decide (tapCount ((holds.take n).map Scan.trackButtons) i % 2 = 1))) ∧
    (s.running = false → ∀ n i, i < 6 →
      ((s.run ((holds.take n).map Event.tick)).track i).isMuted = (s.track i).isMuted) ∧
    (∀ i, i < 6 →
      ((s.run (holds.map Event.tick ++ [Event.tick release])).track i).isMuted
        = ((s.track i).isMuted
            != decide (tapCount (holds.map Scan.trackButtons) i % 2 = 1))) ∧
    (∀ i, i < 6 →
      ((s.run (holds.map Event.tick ++ [Event.tick release])).track i).isArmed = false) := by
  have harm2 : ∀ i, (s.track i).muteArmed = false := harm
  have hpre : ∀ n, ∀ scan, scan ∈ holds.take n → scan.muteHeld :=
    fun n scan hs => hholds scan (List.mem_of_mem_take hs)
  have hfinal : ∀ i, i < 6 →
      ((s.run (holds.map Event.tick ++ [Event.tick release])).track i).muted
        = ((s.track i).muted
            != decide (tapCount (holds.map Scan.trackButtons) i % 2 = 1)) ∧
      ((s.run (holds.map Event.tick ++ [Event.tick release])).track i).muteArmed = false := by
    intro i hi
    obtain ⟨a1, -, a3⟩ := muteHeld_run holds s hholds hlen
    obtain ⟨-, b1, b2⟩ := muteReleased_handlers (s.run (holds.map Event.tick)) release hrel a1
    obtain ⟨-, c2⟩ := runClock_mute
      (((s.run (holds.map Event.tick)).refreshButtons release).updateStateHandlers
        release.millis) release.millis release.poti1 release.poti2
    have e : s.run (holds.map Event.tick ++ [Event.tick release])
        = ((((s.run (holds.map Event.tick)).refreshButtons release).updateStateHandlers
            release.millis).runClock release.millis release.poti1 release.poti2) := by
      rw [run_append]
      rfl
    obtain ⟨d1, d2⟩ := track_activateMuteArms_mute ((s.run (holds.map Event.tick)).track i)
    have hv := b2 i hi
    have hm : ((((s.run (holds.map Event.tick)).refreshButtons release).updateStateHandlers
        release.millis).track i).muted
        = ((s.run (holds.map Event.tick)).track i).activateMuteArms.muted :=
      congrArg Prod.fst hv
    have ha : ((((s.run (holds.map Event.tick)).refreshButtons release).updateStateHandlers
        release.millis).track i).muteArmed = false :=
      (congrArg Prod.snd hv).trans d2
    have hv2 := (c2 i).2 ha
    have hm2 : (((((s.run (holds.map Event.tick)).refreshButtons release).updateStateHandlers
        release.millis).runClock release.millis release.poti1 release.poti2).track i).muted
        = ((((s.run (holds.map Event.tick)).refreshButtons release).updateStateHandlers
            release.millis).track i).muted := congrArg Prod.fst hv2
    rw [e]
    refine ⟨?_, (congrArg Prod.snd hv2).trans ha⟩
    rw [hm2, hm]
    rw [d2] at d1
    have h3 := (a3 i hi).1
    rw [harm2 i] at h3
    rw [← d1] at h3
    simpa using h3
  refine ⟨fun n i hi => ?_, fun hr n i hi => ?_, fun i hi => (hfinal i hi).1,
    fun i hi => (hfinal i hi).2⟩
  · have h3 := ((muteHeld_run (holds.take n) s (hpre n) hlen).2.2 i hi).1
    rw [harm2 i] at h3
    simpa using h3
  · exact ((muteHeld_run (holds.take n) s (hpre n) hlen).2.2 i hi).2 hr

set_option maxRecDepth 100000 in
/-- C18, witness: scenario 5 of the specification on the power-on sequencer. TOGGLE_MUTE is
held while track buttons 1 and 3 are tapped, and is then released: the muted flags of exactly
tracks 1 and 3 are flipped. -/
theorem mute_hold_and_release_witness :
    ({} : Sequencer).tracks.length = 6 ∧
    (∀ scan, scan ∈ muteHoldScans → scan.muteHeld) ∧ muteReleaseScan.muteReleased ∧
    ∀ i, i < 6 →
      ((({} : Sequencer).run (muteHoldScans.map Event.tick
        ++ [Event.tick muteReleaseScan])).track i).isMuted = decide (i = 1 ∨ i = 3) :=
  ⟨rfl, by decide, by decide, fun i hi =>
    ((mute_hold_and_release {} muteHoldScans muteReleaseScan rfl
      (fun i => by rw [default_track]; rfl) (by decide) (by decide)).2.2.1 i hi).trans
      (by interval_cases i <;> decide)⟩

set_option maxRecDepth 100000 in
/-- C18, counterexample: the sequencer runs and on track 0 the cursor stands on the last step
of the loop; no track is muted or armed. TOGGLE_MUTE is held; at 10 ms track button 0 is
released, which arms track 0. At 30 ms, with the button still held, the step that is due at
25 ms is taken, the cursor of track 0 wraps and the arm is applied: track 0 is muted and no
longer armed although TOGGLE_MUTE has not been released. -/
theorem mute_commits_at_wrap :
    muteWrapScenario.tracks.length = 6 ∧
    (∀ i, i < 6 → (muteWrapScenario.track i).isArmed = false) ∧
    muteHoldTap.muteHeld ∧ muteHoldIdle.muteHeld ∧
    (muteWrapScenario.track 0).isMuted = false ∧
    ((muteWrapScenario.run [Event.tick muteHoldTap]).track 0).isMuted = false ∧
    ((muteWrapScenario.run [Event.tick muteHoldTap]).track 0).isArmed = true ∧
    ((muteWrapScenario.run [Event.tick muteHoldTap, Event.tick muteHoldIdle]).track 0).isMuted
      = true ∧
    ((muteWrapScenario.run [Event.tick muteHoldTap, Event.tick muteHoldIdle]).track 0).isArmed
      = false := by
  decide

end Polaron
